import Mathlib

/-!
# Mars Game Simulator: the call script of `main`

`src/HelloWorld/MainGameLoop.cpp` is one function, `main`, that drives the Irrlicht
engine: it creates the device, builds the scene, runs the render loop and releases
the device.  The engine itself is not part of the repository, so it is an oracle
here (`Engine`): it answers whether a creation or load call yields an object, what
position a node reports, and what `run()` and `isWindowActive()` answer.  `main` is
embedded as a function from that oracle to the sequence of engine calls it makes
(`Call`) and the way it ends (`Outcome`).

Conventions of the embedding
* a pointer is `Option Obj`; `none` is the null pointer; an object is named after the
  source variable that first holds it (loop indices added inside loops);
* a member call through a null pointer ends the run with `Outcome.undefined`;
* arguments are recorded by the value written in the source, before any implicit
  conversion: an integral literal (`40`, `250.0f`) as an integer, any other literal
  as a decimal (`16.4f` is `dec 164 1`); floating-point rounding is not modelled;
* `s32`/`int` values stay far below 2^31, they are `Int`;
* a `while` loop takes fuel; a `for` loop over a constant range is a counted loop.
-/

namespace MarsGame

/-! ## Data model -/

/-- Source variable (or call site) that first holds an engine object. -/
inductive Var where
  | device | driver | smgr | guienv
  | mesh | node | skinTexture
  | light1 | light2 | bill | billTexture | animl
  | waterMesh | waterMesh0 | waterNode | lavaTexture | waterTexture | light3
  | terrain | terrainTexture | detailTexture | skydomeTexture | skydome
  | camnode | cursorControl | selector | anim
  | sphereNode | lunarTexture | sphereAnim
  | sciFiGateArray | sciFiGateArrayNode | lightGate | sciFiGateArraySelector | gateAnim
  | motherShip | motherShipNode | motherShipSelector | motherShipAnim
  | ufo | ufoNode | ufoAnim
  | ps | em | paf | fireballTexture
  | ufo2 | ufo2Node | ufo2Anim
  | ufo3 | ufo3Node | ufo3Anim | light4 | bill2 | bill2Texture | anim2
  | rock | rockNode | rockTexture
  | cubeNode | cubeTexture | normalMap | meshManipulator | cubeMesh | tangentMesh
  | tangentNode | cubeSelector | cubeAnim | animCube
  deriving DecidableEq, Repr

/-- Symbolic name of an engine object: the variable holding it and, inside the gate
loop and the cube loops, the loop indices (`level` is `leveupCounter`; both are 0
outside the loops). -/
structure Obj where
  var : Var
  level : Int
  i : Int
  deriving DecidableEq, Repr

/-- The object held by a variable outside the loops. -/
def Obj.of (v : Var) : Obj := ⟨v, 0, 0⟩

/-- Pointer to an engine object; `none` is the null pointer. -/
abbrev Ptr := Option Obj

/-- Numeric literal: an integer, or a decimal `mant * 10^(-exp)`. -/
inductive Num where
  | int (n : Int)
  | dec (mant : Int) (exp : Nat)
  deriving DecidableEq, Repr

instance : OfNat Num n := ⟨Num.int n⟩

/-- Adds an integer to a number (`v.Y += 1000`). -/
def Num.addInt : Num → Int → Num
  | .int n, k => .int (n + k)
  | .dec m e, k => .dec (m + k * 10 ^ e) e

/-- Multiplies a number by an integer (`yaxisSpeed *= 4`). -/
def Num.mulInt : Num → Int → Num
  | .int n, k => .int (n * k)
  | .dec m e, k => .dec (m * k) e

/-- The engine's `vector3df`. -/
structure Vec3 where
  X : Num
  Y : Num
  Z : Num
  deriving DecidableEq, Repr

/-- One entry of the `SKeyMap keyMap[10]` array; a field is `none` until assigned. -/
structure SKeyMap where
  Action : Option String
  KeyCode : Option String
  deriving DecidableEq, Repr

/-- Argument or result of an engine call. -/
inductive Val where
  | void
  | bool (b : Bool)
  | int (n : Int)
  | dec (mant : Int) (exp : Nat)
  | str (s : String)
  | enum (name : String)
  | ptr (p : Ptr)
  | vec (v : Vec3)
  | obj (type : String) (fields : List Num)
  | keys (table : List SKeyMap)
  deriving DecidableEq, Repr

/-- Engine entry points used by `main`.  `write` is a store through a reference the
engine handed out (`getLightData()`, `getMaterial(0)`); `getMesh` is the scene
manager's file load, `getMesh0` is `IAnimatedMesh::getMesh(0)` and `getNodeMesh` is
`IMeshSceneNode::getMesh()`. -/
inductive Method where
  | createDevice | setWindowCaption | getVideoDriver | getSceneManager
  | getGUIEnvironment | setFog | addStaticText | getMesh | drop
  | addAnimatedMeshSceneNode | setMaterialFlag | setAnimationSpeed | setScale
  | setFrameLoop | setPosition | setRotation | getTexture | setMaterialTexture
  | addLightSceneNode | getLightData | write | addBillboardSceneNode
  | setMaterialType | createFlyCircleAnimator | addAnimator | addHillPlaneMesh
  | getMesh0 | addWaterSurfaceSceneNode | getPosition | addTerrainSceneNode
  | scaleTexture | setTextureCreationFlag | addSkyDomeSceneNode | setVisible
  | addCameraSceneNodeFPS | setFarValue | getCursorControl
  | createTerrainTriangleSelector | setTriangleSelector
  | createCollisionResponseAnimator | addSphereSceneNode | getMaterial
  | getTextureMatrix | setTextureScale | createRotationAnimator
  | createTriangleSelector | addShadowVolumeSceneNode
  | addParticleSystemSceneNode | createBoxEmitter | setEmitter
  | createFadeOutParticleAffector | addAffector | setShadowColor
  | addCubeSceneNode | getMeshManipulator | getNodeMesh | createMeshWithTangents
  | addMeshSceneNode | createTriangleSelectorFromBoundingBox
  | run | isWindowActive | beginScene | drawAll | endScene | yield
  deriving DecidableEq, Repr

/-- One engine call: receiver (`none` for the free function `createDevice`), entry
point, arguments, and the value the program receives and keeps. -/
structure Call where
  recv : Ptr
  method : Method
  args : List Val
  ret : Val
  deriving DecidableEq, Repr

/-- The engine as `main` sees it. -/
structure Engine where
  /-- whether the creation or load call that yields this object succeeds -/
  nonNull : Obj → Bool
  /-- answer of `getPosition()` on a node -/
  getPosition : Obj → Vec3
  /-- answer of the k-th `device->run()` call (k from 0) -/
  run : Nat → Bool
  /-- answer of `device->isWindowActive()` in the k-th iteration (k from 0) -/
  isWindowActive : Nat → Bool

/-- The pointer a creation call for `o` hands back. -/
def Engine.make (e : Engine) (o : Obj) : Ptr :=
  if e.nonNull o then some o else none

/-- How a run ends: `main` returns, a null pointer is dereferenced, or the model ran
out of loop fuel. -/
inductive Outcome where
  | returned (code : Int)
  | undefined
  | outOfFuel
  deriving DecidableEq, Repr

/-- Result of a piece of code: it falls through with a value, or the run ends. -/
inductive Res (α : Type) where
  | ok (a : α)
  | halt (o : Outcome)
  deriving DecidableEq

/-- A piece of code run against the engine: the calls it made and its result. -/
structure Exec (α : Type) where
  trace : List Call
  result : Res α

/-- Sequencing: the second part runs only when the first falls through. -/
def Exec.bind {α β : Type} (x : Exec α) (f : α → Exec β) : Exec β :=
  match x.result with
  | .ok a => ⟨x.trace ++ (f a).trace, (f a).result⟩
  | .halt o => ⟨x.trace, .halt o⟩

instance : Monad Exec where
  pure a := ⟨[], .ok a⟩
  bind := Exec.bind

/-- Ends the run. -/
def halt {α : Type} (o : Outcome) : Exec α := ⟨[], .halt o⟩

/-- The statement `return code;` of `main`. -/
def ret {α : Type} (code : Int) : Exec α := halt (.returned code)

/-- The call `p->m(args)` whose result is void or discarded. -/
def invoke (p : Ptr) (m : Method) (args : List Val) : Exec Unit :=
  match p with
  | none => halt .undefined
  | some o => ⟨[⟨some o, m, args, .void⟩], .ok ()⟩

/-- The call `p->m(args)` that creates or loads the object `o` (null when it fails). -/
def create (e : Engine) (p : Ptr) (m : Method) (args : List Val) (o : Obj) : Exec Ptr :=
  match p with
  | none => halt .undefined
  | some r => ⟨[⟨some r, m, args, .ptr (e.make o)⟩], .ok (e.make o)⟩

/-- The accessor call `p->m(args)` that hands out the sub-object `o`. -/
def getter (p : Ptr) (m : Method) (args : List Val) (o : Obj) : Exec Ptr :=
  match p with
  | none => halt .undefined
  | some r => ⟨[⟨some r, m, args, .ptr (some o)⟩], .ok (some o)⟩

/-- The call `p->getPosition()`. -/
def getPosition (e : Engine) (p : Ptr) : Exec Vec3 :=
  match p with
  | none => halt .undefined
  | some o => ⟨[⟨some o, .getPosition, [], .vec (e.getPosition o)⟩], .ok (e.getPosition o)⟩

/-- A call `p->m()` answering the boolean `b`. -/
def ask (p : Ptr) (m : Method) (b : Bool) : Exec Bool :=
  match p with
  | none => halt .undefined
  | some o => ⟨[⟨some o, m, [], .bool b⟩], .ok b⟩

/-- The loop `while (cond) body` over the loop-carried state `s`. -/
def whileLoop {σ : Type} (cond : σ → Exec Bool) (body : σ → Exec σ) : Nat → σ → Exec σ
  | 0, _ => halt .outOfFuel
  | fuel + 1, s => do
    if (← cond s) then
      let s ← body s
      whileLoop cond body fuel s
    else
      pure s

/-- The loop `for (i = first; i < first + count; ++i) body` over the state `s`. -/
def forLoop {σ : Type} (body : Int → σ → Exec σ) : Nat → Int → σ → Exec σ
  | 0, _, s => pure s
  | count + 1, i, s => do
    let s ← body i s
    forLoop body count (i + 1) s

/-- The statement `if (c) { block }` without an else branch. -/
def ifThen (c : Bool) (block : Exec Unit) : Exec Unit :=
  if c then block else pure ()

/-- A finished run of `main`. -/
structure Run where
  trace : List Call
  outcome : Outcome
  deriving DecidableEq, Repr

/-- Integral vector literal. -/
def vec (x y z : Int) : Val := .vec ⟨.int x, .int y, .int z⟩

/-! ## `main`, section by section -/

/-- Lines 133-135: `createDevice(EDT_DIRECT3D9, dimension2d<u32>(1366, 768), 32, true, true, true, 0)`. -/
def createDevice (e : Engine) : Exec Ptr :=
  ⟨[⟨none, .createDevice,
      [.enum "EDT_DIRECT3D9", .obj "dimension2d" [1366, 768], .int 32,
       .bool true, .bool true, .bool true, .int 0],
      .ptr (e.make (.of .device))⟩],
   .ok (e.make (.of .device))⟩

/-- Lines 183-222: the character mesh and its node. -/
def characterSection (e : Engine) (device driver smgr : Ptr) : Exec Unit := do
  let mesh ← create e smgr .getMesh [.str "Objects/Zuleyka.x"] (.of .mesh)
  ifThen mesh.isNone do
    invoke device .drop []
    ret 1
  let node ← create e smgr .addAnimatedMeshSceneNode [.ptr mesh] (.of .node)
  ifThen node.isSome do
    invoke node .setMaterialFlag [.enum "EMF_LIGHTING", .bool false]
    invoke node .setMaterialFlag [.enum "EMF_GOURAUD_SHADING", .bool true]
    invoke node .setMaterialFlag [.enum "EMF_FOG_ENABLE", .bool true]
    invoke node .setAnimationSpeed [.int 14]
    invoke node .setScale [vec 40 40 40]
    invoke node .setFrameLoop [.int 0, .int 79]
    invoke node .setPosition [vec 300 (-265) 400]
    let skin ← create e driver .getTexture [.str "Objects/Zuleyka_Skin.PNG"]
      (.of .skinTexture)
    invoke node .setMaterialTexture [.int 0, .ptr skin]

/-- Writes the four fields of a light's `SLight` record (`getLightData()` and the
assignments to `Type`, `Radius`, `DiffuseColor`, `CastShadows`). -/
def lightData (light : Ptr) (radius : Int) (colour : List Num) : Exec Unit := do
  invoke light .getLightData []
  invoke light .write [.str "Type", .enum "ELT_POINT"]
  invoke light .write [.str "Radius", .int radius]
  invoke light .write [.str "DiffuseColor", .obj "SColorf" colour]
  invoke light .write [.str "CastShadows", .bool true]

/-- Lines 224-261: two point lights, the billboard on the second and its animator. -/
def lightsSection (e : Engine) (driver smgr : Ptr) : Exec Unit := do
  let light1 ← create e smgr .addLightSceneNode [] (.of .light1)
  lightData light1 19000 [10, 5, 50, 1]
  invoke light1 .setPosition [vec (-1300) 7000 (-1400)]
  let light2 ← create e smgr .addLightSceneNode [] (.of .light2)
  lightData light2 8000 [150, 10, 5, .dec 1 1]
  invoke light2 .setPosition [vec 300 865 (-1900)]
  let bill ← create e smgr .addBillboardSceneNode
    [.ptr light2, .obj "dimension2d" [50, 50]] (.of .bill)
  invoke bill .setMaterialFlag [.enum "EMF_LIGHTING", .bool false]
  invoke bill .setMaterialType [.enum "EMT_TRANSPARENT_ADD_COLOR"]
  let tex ← create e driver .getTexture [.str "../../../media/particlewhite.bmp"]
    (.of .billTexture)
  invoke bill .setMaterialTexture [.int 0, .ptr tex]
  let animl ← create e smgr .createFlyCircleAnimator
    [vec 0 150 0, .int 250] (.of .animl)
  invoke light2 .addAnimator [.ptr animl]
  invoke animl .drop []

/-- Lines 268-294: the water surface and its light; hands back `waterNode`. -/
def waterSection (e : Engine) (driver smgr : Ptr) : Exec Ptr := do
  let mesh ← create e smgr .addHillPlaneMesh
    [.str "WaterSurface", .obj "dimension2d" [20, 20], .obj "dimension2d" [60, 60],
     .int 0, .int 0, .obj "dimension2d" [0, 0], .obj "dimension2d" [10, 10]]
    (.of .waterMesh)
  let mesh0 ← getter mesh .getMesh0 [.int 0] (.of .waterMesh0)
  let waterNode ← create e smgr .addWaterSurfaceSceneNode
    [.ptr mesh0, .int 4, .int 600, .dec 1 2] (.of .waterNode)
  invoke waterNode .setPosition [vec 11000 200 5000]
  invoke waterNode .setScale [vec 7 7 7]
  let lava ← create e driver .getTexture [.str "../../../media/lava.jpg"] (.of .lavaTexture)
  invoke waterNode .setMaterialTexture [.int 0, .ptr lava]
  let water ← create e driver .getTexture [.str "../../../media/water.jpg"] (.of .waterTexture)
  invoke waterNode .setMaterialTexture [.int 1, .ptr water]
  invoke waterNode .setMaterialType [.enum "EMT_REFLECTION_2_LAYER"]
  invoke waterNode .setMaterialFlag [.enum "EMF_BACK_FACE_CULLING", .bool false]
  let light3 ← create e smgr .addLightSceneNode [] (.of .light3)
  lightData light3 8000 [150, 150, 5, .dec 1 1]
  let waterPos ← getPosition e waterNode
  let waterPos := { waterPos with Y := waterPos.Y.addInt 1000 }
  invoke light3 .setPosition [.vec waterPos]
  pure waterNode

/-- The array `SKeyMap keyMap[10]` before any assignment. -/
def keyMapInit : List SKeyMap := List.replicate 10 ⟨none, none⟩

/-- The assignment `keyMap[k].Action = a`. -/
def setAction (keyMap : List SKeyMap) (k : Nat) (a : String) : List SKeyMap :=
  keyMap.modify (fun entry => { entry with Action := some a }) k

/-- The assignment `keyMap[k].KeyCode = c`. -/
def setKeyCode (keyMap : List SKeyMap) (k : Nat) (c : String) : List SKeyMap :=
  keyMap.modify (fun entry => { entry with KeyCode := some c }) k

/-- Lines 310-333: the twenty assignments that fill `keyMap`. -/
def keyMap : List SKeyMap :=
  let keyMap := keyMapInit
  let keyMap := setAction keyMap 0 "EKA_MOVE_FORWARD"
  let keyMap := setKeyCode keyMap 0 "KEY_UP"
  let keyMap := setAction keyMap 1 "EKA_MOVE_FORWARD"
  let keyMap := setKeyCode keyMap 1 "KEY_KEY_W"
  let keyMap := setAction keyMap 2 "EKA_MOVE_BACKWARD"
  let keyMap := setKeyCode keyMap 2 "KEY_DOWN"
  let keyMap := setAction keyMap 3 "EKA_MOVE_BACKWARD"
  let keyMap := setKeyCode keyMap 3 "KEY_KEY_S"
  let keyMap := setAction keyMap 4 "EKA_STRAFE_LEFT"
  let keyMap := setKeyCode keyMap 4 "KEY_LEFT"
  let keyMap := setAction keyMap 5 "EKA_STRAFE_LEFT"
  let keyMap := setKeyCode keyMap 5 "KEY_KEY_A"
  let keyMap := setAction keyMap 6 "EKA_STRAFE_RIGHT"
  let keyMap := setKeyCode keyMap 6 "KEY_RIGHT"
  let keyMap := setAction keyMap 7 "EKA_STRAFE_RIGHT"
  let keyMap := setKeyCode keyMap 7 "KEY_KEY_D"
  let keyMap := setAction keyMap 8 "EKA_JUMP_UP"
  let keyMap := setKeyCode keyMap 8 "KEY_SPACE"
  let keyMap := setAction keyMap 9 "EKA_CROUCH"
  let keyMap := setKeyCode keyMap 9 "KEY_KEY_C"
  keyMap

/-- Lines 346-373: the terrain node; hands back `terrain`. -/
def terrainSection (e : Engine) (driver smgr : Ptr) : Exec Ptr := do
  let terrain ← create e smgr .addTerrainSceneNode
    [.str "Objects/hm.png", .int 0, .int (-1), vec (-1400) (-600) (-1800), vec 0 0 0,
     .vec ⟨80, .dec 164 1, 80⟩, .obj "SColor" [255, 255, 255, 255], .int 5,
     .enum "ETPS_17", .int 4]
    (.of .terrain)
  invoke terrain .setMaterialFlag [.enum "EMF_LIGHTING", .bool true]
  invoke terrain .setMaterialFlag [.enum "EMF_GOURAUD_SHADING", .bool true]
  invoke terrain .setMaterialFlag [.enum "EMF_BACK_FACE_CULLING", .bool false]
  invoke terrain .setMaterialFlag [.enum "EMF_FOG_ENABLE", .bool true]
  let main ← create e driver .getTexture [.str "Objects/terrmain.jpg"] (.of .terrainTexture)
  invoke terrain .setMaterialTexture [.int 0, .ptr main]
  let detail ← create e driver .getTexture [.str "Objects/terrdetail.jpg"] (.of .detailTexture)
  invoke terrain .setMaterialTexture [.int 1, .ptr detail]
  invoke terrain .setMaterialType [.enum "EMT_DETAIL_MAP"]
  invoke terrain .scaleTexture [.int 1, .int 40]
  pure terrain

/-- Lines 384-397: the sky dome. -/
def skySection (e : Engine) (driver smgr : Ptr) : Exec Unit := do
  invoke driver .setTextureCreationFlag [.enum "ETCF_CREATE_MIP_MAPS", .bool false]
  let tex ← create e driver .getTexture [.str "Objects/scifidome3.jpg"] (.of .skydomeTexture)
  let skydome ← create e smgr .addSkyDomeSceneNode
    [.ptr tex, .int 16, .int 8, .dec 95 2, .int 2] (.of .skydome)
  invoke driver .setTextureCreationFlag [.enum "ETCF_CREATE_MIP_MAPS", .bool true]
  invoke skydome .setVisible [.bool true]

/-- Lines 404-408: the first-person camera; hands back `camnode`. -/
def cameraSection (e : Engine) (device smgr : Ptr) (keyMap : List SKeyMap) : Exec Ptr := do
  let camnode ← create e smgr .addCameraSceneNodeFPS
    [.int 0, .int 50, .int 1, .int (-1), .keys keyMap, .int 10, .bool false, .int 50,
     .bool false, .bool true]
    (.of .camnode)
  invoke camnode .setFarValue [.int 42000]
  invoke camnode .setPosition [vec 200 270 (-80)]
  let cursor ← getter device .getCursorControl [] (.of .cursorControl)
  invoke cursor .setVisible [.bool false]
  pure camnode

/-- Lines 413-425: collision of the camera against the terrain. -/
def terrainCollision (e : Engine) (smgr terrain camnode : Ptr) : Exec Unit := do
  let selector ← create e smgr .createTerrainTriangleSelector
    [.ptr terrain, .int 0] (.of .selector)
  invoke terrain .setTriangleSelector [.ptr selector]
  let anim ← create e smgr .createCollisionResponseAnimator
    [.ptr selector, .ptr camnode, vec 60 100 60, .vec ⟨0, .dec (-98) 1, 0⟩, vec 0 50 0]
    (.of .anim)
  invoke selector .drop []
  invoke camnode .addAnimator [.ptr anim]
  invoke anim .drop []

/-- Lines 432-458: the sphere and its rotation animator. -/
def sphereSection (e : Engine) (driver smgr : Ptr) : Exec Unit := do
  let sphereNode ← create e smgr .addSphereSceneNode [] (.of .sphereNode)
  ifThen sphereNode.isSome do
    let tex ← create e driver .getTexture [.str "Objects/lunar.jpg"] (.of .lunarTexture)
    invoke sphereNode .setMaterialTexture [.int 0, .ptr tex]
    invoke sphereNode .setMaterialFlag [.enum "EMF_LIGHTING", .bool true]
    invoke sphereNode .getMaterial [.int 0]
    invoke sphereNode .write [.str "Shininess", .int 20]
    invoke sphereNode .getMaterial [.int 0]
    invoke sphereNode .write [.str "EmissiveColor", .obj "SColor" [.dec 1 1, 100, 10, 10]]
    invoke sphereNode .getMaterial [.int 0]
    invoke sphereNode .write [.str "GouraudShading", .bool true]
    invoke sphereNode .getMaterial [.int 0]
    invoke sphereNode .write [.str "SpecularColor", .obj "SColor" [.dec 5 1, 250, 0, 0]]
    invoke sphereNode .setScale [vec 760 760 760]
    invoke sphereNode .setPosition [vec (-7740) 5500 (-1000)]
    invoke sphereNode .getMaterial [.int 0]
    invoke sphereNode .getTextureMatrix [.int 0]
    invoke sphereNode .setTextureScale [.int 8, .int 8]
    let anim ← create e smgr .createRotationAnimator
      [.vec ⟨.dec 1 2, 0, .dec 3 2⟩] (.of .sphereAnim)
    ifThen anim.isSome do
      invoke sphereNode .addAnimator [.ptr anim]
      invoke anim .drop []

/-- Lines 464-511: one iteration of the gate loop. -/
def gateBody (e : Engine) (smgr camnode : Ptr) (i : Int) : Exec Unit := do
  let sciFiGateArray ← create e smgr .getMesh [.str "MayaObjects/SciFIGateArray2.obj"]
    ⟨.sciFiGateArray, 0, i⟩
  let sciFiGateArrayNode ← create e smgr .addAnimatedMeshSceneNode [.ptr sciFiGateArray]
    ⟨.sciFiGateArrayNode, 0, i⟩
  ifThen sciFiGateArrayNode.isSome do
    invoke sciFiGateArrayNode .setMaterialFlag [.enum "EMF_LIGHTING", .bool false]
    invoke sciFiGateArrayNode .getMaterial [.int 0]
    invoke sciFiGateArrayNode .write [.str "GouraudShading", .bool true]
    invoke sciFiGateArrayNode .setScale [vec 20 20 20]
    invoke sciFiGateArrayNode .setPosition [vec (9800 + i * 2500) 550 (-2000)]
    let lightGate ← create e smgr .addLightSceneNode [] ⟨.lightGate, 0, i⟩
    lightData lightGate 18000 [150, 150, 5, .dec 1 1]
    let GateArrayPos ← getPosition e sciFiGateArrayNode
    let GateArrayPos := { GateArrayPos with Y := GateArrayPos.Y.addInt (-200) }
    let GateArrayPos := { GateArrayPos with X := GateArrayPos.X.addInt 1000 }
    let GateArrayPos := { GateArrayPos with Z := .int (-4000) }
    invoke lightGate .setPosition [.vec GateArrayPos]
    let sciFiGateArraySelector ← create e smgr .createTriangleSelector
      [.ptr sciFiGateArrayNode] ⟨.sciFiGateArraySelector, 0, i⟩
    invoke sciFiGateArrayNode .setTriangleSelector [.ptr sciFiGateArraySelector]
    let anim ← create e smgr .createCollisionResponseAnimator
      [.ptr sciFiGateArraySelector, .ptr camnode, vec 60 100 60, vec 0 0 0, vec 0 50 0,
       .dec 5 4]
      ⟨.gateAnim, 0, i⟩
    invoke sciFiGateArraySelector .drop []
    invoke camnode .addAnimator [.ptr anim]
    invoke anim .drop []

/-- Lines 462-514: `for (s32 i=0;i<4;++i)` over the gate arrays. -/
def gateSection (e : Engine) (smgr camnode : Ptr) : Exec Unit :=
  forLoop (fun i _ => gateBody e smgr camnode i) 4 0 ()

/-- Lines 518-575: the mother ship and its collision animator. -/
def motherShipSection (e : Engine) (device smgr camnode : Ptr) : Exec Unit := do
  let motherShip ← create e smgr .getMesh [.str "MayaObjects/MotherShip.obj"] (.of .motherShip)
  ifThen motherShip.isNone do
    invoke device .drop []
    ret 1
  let motherShipNode ← create e smgr .addAnimatedMeshSceneNode [.ptr motherShip]
    (.of .motherShipNode)
  ifThen motherShipNode.isSome do
    invoke motherShipNode .setMaterialFlag [.enum "EMF_LIGHTING", .bool false]
    invoke motherShipNode .setMaterialFlag [.enum "EMF_BACK_FACE_CULLING", .bool true]
    invoke motherShipNode .setScale [vec 40 40 40]
    invoke motherShipNode .setPosition [vec 0 (-1000) (-15500)]
    invoke motherShipNode .setRotation [vec 0 (-45) 0]
    let motherShipSelector ← create e smgr .createTriangleSelector [.ptr motherShipNode]
      (.of .motherShipSelector)
    invoke motherShipNode .setTriangleSelector [.ptr motherShipSelector]
    let anim ← create e smgr .createCollisionResponseAnimator
      [.ptr motherShipSelector, .ptr camnode, vec 60 100 60, vec 0 0 0, vec 0 50 0]
      (.of .motherShipAnim)
    invoke motherShipSelector .drop []
    invoke camnode .addAnimator [.ptr anim]
    invoke anim .drop []

/-- Lines 579-616: the first UFO; the guard of the block is `if (ufo)`, the mesh. -/
def ufoSection (e : Engine) (device smgr : Ptr) : Exec Unit := do
  let ufo ← create e smgr .getMesh [.str "MayaObjects/UFO.obj"] (.of .ufo)
  ifThen ufo.isNone do
    invoke device .drop []
    ret 1
  let ufoNode ← create e smgr .addAnimatedMeshSceneNode [.ptr ufo] (.of .ufoNode)
  ifThen ufo.isSome do
    invoke ufoNode .setMaterialFlag [.enum "EMF_LIGHTING", .bool false]
    invoke ufoNode .setMaterialFlag [.enum "EMF_BACK_FACE_CULLING", .bool false]
    invoke ufoNode .setMaterialFlag [.enum "EMF_NORMALIZE_NORMALS", .bool true]
    invoke ufoNode .setScale [vec 10 10 10]
    invoke ufoNode .setPosition [vec 740 (-2000) (-1400)]
    let anim ← create e smgr .createFlyCircleAnimator
      [vec (-740) 4500 (-4400), .int 20000, .dec 1 3] (.of .ufoAnim)
    ifThen anim.isSome do
      invoke ufoNode .addAnimator [.ptr anim]
      invoke anim .drop []
    invoke ufoNode .addShadowVolumeSceneNode []
    invoke ufoNode .setMaterialFlag [.enum "EMF_NORMALIZE_NORMALS", .bool true]

/-- Lines 621-650: the particle system above the water. -/
def particleSection (e : Engine) (driver smgr waterNode : Ptr) : Exec Unit := do
  let ps ← create e smgr .addParticleSystemSceneNode [.bool false] (.of .ps)
  let em ← create e ps .createBoxEmitter
    [.obj "aabbox3d" [.int (-70), 0, .int (-70), 70, 450, 470], .vec ⟨0, .dec 6 2, 0⟩,
     .int 1800, .int 2000, .obj "SColor" [0, 255, 255, 255], .obj "SColor" [0, 100, 255, 100],
     .int 15800, .int 17000, .int 0, .obj "dimension2d" [100, 100],
     .obj "dimension2d" [400, 400]]
    (.of .em)
  invoke ps .setEmitter [.ptr em]
  invoke em .drop []
  let paf ← create e ps .createFadeOutParticleAffector [] (.of .paf)
  invoke ps .addAffector [.ptr paf]
  invoke paf .drop []
  let wpos ← getPosition e waterNode
  let wpos := { wpos with Y := wpos.Y.addInt (-400) }
  let wpos := { wpos with X := wpos.X.addInt 700 }
  let wpos := { wpos with Z := wpos.Z.addInt (-400) }
  invoke ps .setPosition [.vec wpos]
  invoke ps .setScale [vec 30 30 30]
  invoke ps .setMaterialFlag [.enum "EMF_LIGHTING", .bool true]
  invoke ps .setMaterialFlag [.enum "EMF_ZWRITE_ENABLE", .bool false]
  let tex ← create e driver .getTexture [.str "../../../media/fireball.bmp"]
    (.of .fireballTexture)
  invoke ps .setMaterialTexture [.int 0, .ptr tex]
  invoke ps .setMaterialType [.enum "EMT_TRANSPARENT_ADD_COLOR"]

/-- Lines 654-689: the second UFO; the guard of the block is `if (ufo2)`, the mesh. -/
def ufo2Section (e : Engine) (device smgr : Ptr) : Exec Unit := do
  let ufo2 ← create e smgr .getMesh [.str "MayaObjects/ufo.obj"] (.of .ufo2)
  ifThen ufo2.isNone do
    invoke device .drop []
    ret 1
  let ufo2Node ← create e smgr .addAnimatedMeshSceneNode [.ptr ufo2] (.of .ufo2Node)
  ifThen ufo2.isSome do
    invoke ufo2Node .setMaterialFlag [.enum "EMF_LIGHTING", .bool false]
    invoke ufo2Node .setMaterialFlag [.enum "EMF_BACK_FACE_CULLING", .bool false]
    invoke ufo2Node .setScale [vec 20 20 20]
    invoke ufo2Node .setPosition [vec 740 (-2000) (-1400)]
    let anim ← create e smgr .createFlyCircleAnimator
      [vec 740 6500 (-2400), .int 40000, .dec 5 4] (.of .ufo2Anim)
    ifThen anim.isSome do
      invoke ufo2Node .addAnimator [.ptr anim]
      invoke anim .drop []
    invoke ufo2Node .addShadowVolumeSceneNode []
    invoke ufo2Node .setMaterialFlag [.enum "EMF_NORMALIZE_NORMALS", .bool true]

/-- Lines 693-762: the third UFO, its light, billboard and animators; the guard of
the block is `if (ufo3)`, the mesh. -/
def ufo3Section (e : Engine) (device driver smgr : Ptr) : Exec Unit := do
  let ufo3 ← create e smgr .getMesh [.str "MayaObjects/ufo.obj"] (.of .ufo3)
  ifThen ufo3.isNone do
    invoke device .drop []
    ret 1
  let ufo3Node ← create e smgr .addAnimatedMeshSceneNode [.ptr ufo3] (.of .ufo3Node)
  ifThen ufo3.isSome do
    invoke ufo3Node .setMaterialFlag [.enum "EMF_LIGHTING", .bool true]
    invoke ufo3Node .setMaterialFlag [.enum "EMF_BACK_FACE_CULLING", .bool false]
    invoke ufo3Node .setScale [vec 20 20 20]
    invoke ufo3Node .setPosition [vec 740 2000 (-2400)]
    invoke ufo3Node .setRotation [vec (-30) 0 0]
    let anim ← create e smgr .createRotationAnimator [.vec ⟨0, .dec 1 1, 0⟩] (.of .ufo3Anim)
    ifThen anim.isSome do
      invoke ufo3Node .addAnimator [.ptr anim]
      invoke anim .drop []
    let light4 ← create e smgr .addLightSceneNode [] (.of .light4)
    lightData light4 4000 [150, 150, 5, .dec 1 1]
    let ufo3NodePos ← getPosition e ufo3Node
    let ufo3NodePos := { ufo3NodePos with Y := ufo3NodePos.Y.addInt 800 }
    invoke light4 .setPosition [.vec ufo3NodePos]
    let bill2 ← create e smgr .addBillboardSceneNode
      [.ptr light4, .obj "dimension2d" [150, 150]] (.of .bill2)
    invoke bill2 .setMaterialFlag [.enum "EMF_LIGHTING", .bool false]
    invoke bill2 .setMaterialType [.enum "EMT_TRANSPARENT_ADD_COLOR"]
    let tex ← create e driver .getTexture [.str "../../../media/particlewhite.bmp"]
      (.of .bill2Texture)
    invoke bill2 .setMaterialTexture [.int 0, .ptr tex]
    let anim2 ← create e smgr .createFlyCircleAnimator
      [.vec ufo3NodePos, .int 1000, .dec 5 4] (.of .anim2)
    ifThen anim2.isSome do
      invoke light4 .addAnimator [.ptr anim2]
      invoke anim2 .drop []
    invoke ufo3Node .addShadowVolumeSceneNode []
    invoke ufo3Node .setMaterialFlag [.enum "EMF_NORMALIZE_NORMALS", .bool true]

/-- Lines 766-806: the rocks; the guard of the block is `if (rock)`, the mesh. -/
def rockSection (e : Engine) (device driver smgr : Ptr) : Exec Unit := do
  let rock ← create e smgr .getMesh [.str "MayaObjects/RockPack.obj"] (.of .rock)
  ifThen rock.isNone do
    invoke device .drop []
    ret 1
  let rockNode ← create e smgr .addAnimatedMeshSceneNode [.ptr rock] (.of .rockNode)
  ifThen rock.isSome do
    let tex ← create e driver .getTexture [.str "MayaObjects/rockmat.jpg"] (.of .rockTexture)
    invoke rockNode .setMaterialTexture [.int 0, .ptr tex]
    invoke rockNode .setMaterialFlag [.enum "EMF_LIGHTING", .bool true]
    invoke rockNode .setMaterialFlag [.enum "EMF_BACK_FACE_CULLING", .bool false]
    invoke rockNode .setPosition [vec 1250 840 (-200)]
    invoke rockNode .setRotation [vec (-30) 0 0]

/-- Variables carried around the inner cube loop. -/
structure Stack where
  basePos : Vec3
  modBoost : Int
  deriving DecidableEq, Repr

/-- Variables carried around the outer cube loop. -/
structure Levels where
  leveupCounter : Int
  boxOffset : Int
  modBoost : Int
  deriving DecidableEq, Repr

/-- Lines 831-846: where the cube is put, and how `basePos` and `modBoost` move on. -/
def placeCube (cubeNode : Ptr) (modVal i : Int) (s : Stack) : Exec Stack :=
  if i.tmod modVal = 0 then do
    let modBoost := if s.modBoost > 4 then 1 else s.modBoost
    let basePos := { s.basePos with X := s.basePos.X.addInt (130 * modBoost) }
    let modBoost := modBoost + 1
    let basePos := { basePos with Z := basePos.Z.addInt (-130) }
    invoke cubeNode .setPosition [.vec basePos]
    let basePos := { basePos with Z := basePos.Z.addInt 130 }
    let basePos := { basePos with X := basePos.X.addInt (-(130 * modBoost)) }
    let modBoost := modBoost - 1
    pure ⟨basePos, modBoost⟩
  else do
    invoke cubeNode .setPosition [.vec s.basePos]
    pure ⟨{ s.basePos with Z := s.basePos.Z.addInt 130 }, s.modBoost⟩

/-- Lines 856-879: the normal-map block; hands back the node `cubeNode` points to
afterwards. -/
def normalMapBlock (e : Engine) (driver smgr cubeNode : Ptr) (level i : Int) : Exec Ptr := do
  let normalMap ← create e driver .getTexture [.str "Objects/normal.tga"] ⟨.normalMap, level, i⟩
  if normalMap.isSome then
    invoke driver .setTextureCreationFlag [.enum "ETCF_ALWAYS_32_BIT", .bool true]
    let manipulator ← getter smgr .getMeshManipulator [] (.of .meshManipulator)
    let cubeMesh ← getter cubeNode .getNodeMesh [] ⟨.cubeMesh, level, i⟩
    let tangentMesh ← create e manipulator .createMeshWithTangents [.ptr cubeMesh]
      ⟨.tangentMesh, level, i⟩
    let cubeNode ← create e smgr .addMeshSceneNode [.ptr tangentMesh] ⟨.tangentNode, level, i⟩
    invoke cubeNode .setMaterialTexture [.int 1, .ptr normalMap]
    invoke cubeNode .getMaterial [.int 0]
    invoke cubeNode .write [.str "SpecularColor", .obj "SColor" [0, 0, 0, 0]]
    invoke cubeNode .getMaterial [.int 0]
    invoke cubeNode .write [.str "Shininess", .int 0]
    invoke cubeNode .setMaterialType [.enum "EMT_PARALLAX_MAP_SOLID"]
    invoke cubeNode .getMaterial [.int 0]
    invoke cubeNode .write [.str "MaterialTypeParam", .dec 15625 6]
    invoke tangentMesh .drop []
    pure cubeNode
  else
    pure cubeNode

/-- Lines 822-923: one iteration of the inner cube loop. -/
def cubeBody (e : Engine) (driver smgr camnode : Ptr) (leveupCounter modVal i : Int)
    (s : Stack) : Exec Stack := do
  let cubeNode ← create e smgr .addCubeSceneNode [] ⟨.cubeNode, leveupCounter, i⟩
  let tex ← create e driver .getTexture [.str "Objects/texture1.tga"]
    ⟨.cubeTexture, leveupCounter, i⟩
  invoke cubeNode .setMaterialTexture [.int 0, .ptr tex]
  invoke cubeNode .getMaterial [.int 0]
  invoke cubeNode .write [.str "Shininess", .int 20]
  invoke cubeNode .getMaterial [.int 0]
  invoke cubeNode .write [.str "EmissiveColor", .obj "SColor" [.dec 1 1, 0, 200, 0]]
  invoke cubeNode .getMaterial [.int 0]
  invoke cubeNode .write [.str "GouraudShading", .bool false]
  invoke cubeNode .getMaterial [.int 0]
  invoke cubeNode .write [.str "SpecularColor", .obj "SColor" [1, 250, 0, 0]]
  invoke cubeNode .setScale [vec 12 12 12]
  let s ← placeCube cubeNode modVal i s
  invoke cubeNode .addShadowVolumeSceneNode []
  invoke cubeNode .setMaterialFlag [.enum "EMF_NORMALIZE_NORMALS", .bool true]
  let cubeNode ← normalMapBlock e driver smgr cubeNode leveupCounter i
  let selector ← create e smgr .createTriangleSelectorFromBoundingBox [.ptr cubeNode]
    ⟨.cubeSelector, leveupCounter, i⟩
  invoke cubeNode .setTriangleSelector [.ptr selector]
  let anim ← create e smgr .createCollisionResponseAnimator
    [.ptr selector, .ptr camnode, vec 60 100 60, vec 0 0 0, vec 0 50 0]
    ⟨.cubeAnim, leveupCounter, i⟩
  invoke selector .drop []
  invoke camnode .addAnimator [.ptr anim]
  invoke anim .drop []
  let yaxisSpeed : Num := .dec 3 1
  let yaxisSpeed := if leveupCounter.tmod 2 = 0 then yaxisSpeed.mulInt 4 else yaxisSpeed
  let animCube ← create e smgr .createRotationAnimator [.vec ⟨0, yaxisSpeed, 0⟩]
    ⟨.animCube, leveupCounter, i⟩
  ifThen animCube.isSome do
    invoke cubeNode .addAnimator [.ptr animCube]
    invoke animCube .drop []
  pure s

/-- Lines 817-927: one iteration of `while(leveupCounter <=12)`. -/
def cubeLevel (e : Engine) (driver smgr camnode : Ptr) (modVal : Int) (s : Levels) :
    Exec Levels := do
  let basePos : Vec3 := ⟨0, .int (-400), 0⟩
  let basePos := { basePos with Y := basePos.Y.addInt (s.leveupCounter * 130) }
  let inner ← forLoop (cubeBody e driver smgr camnode s.leveupCounter modVal) 16 1
    ⟨basePos, s.modBoost⟩
  pure ⟨s.leveupCounter + 1, s.boxOffset + 60, inner.modBoost⟩

/-- Lines 810-930: the stack of cubes. -/
def cubeSection (fuel : Nat) (e : Engine) (driver smgr camnode : Ptr) : Exec Unit := do
  invoke smgr .setShadowColor [.obj "SColor" [150, 0, 0, 0]]
  let leveupCounter : Int := 1
  let boxOffset : Int := 0
  let modVal : Int := 4
  let modBoost : Int := 1
  let _ ← whileLoop (fun s => pure (decide (s.leveupCounter ≤ 12)))
    (cubeLevel e driver smgr camnode modVal) fuel ⟨leveupCounter, boxOffset, modBoost⟩

/-- The engine handles `main` keeps for the render loop. -/
structure Handles where
  driver : Ptr
  smgr : Ptr
  guienv : Ptr
  deriving DecidableEq, Repr

/-- Lines 145-930: everything between the device check and the render loop. -/
def setup (fuel : Nat) (e : Engine) (device : Ptr) : Exec Handles := do
  invoke device .setWindowCaption [.str "Game By Touraj Ebrahimi"]
  let driver ← getter device .getVideoDriver [] (.of .driver)
  let smgr ← getter device .getSceneManager [] (.of .smgr)
  let guienv ← getter device .getGUIEnvironment [] (.of .guienv)
  invoke driver .setFog
    [.obj "SColor" [100, 30, 30, 30], .enum "EFT_FOG_EXP", .int 50, .int 4000, .dec 9 4,
     .bool false, .bool false]
  invoke guienv .addStaticText
    [.str "Game By Touraj Ebrahimi", .obj "rect" [10, 10, 260, 22], .bool true, .int 0,
     .int 0, .int 0, .bool true]
  characterSection e device driver smgr
  lightsSection e driver smgr
  let waterNode ← waterSection e driver smgr
  let terrain ← terrainSection e driver smgr
  skySection e driver smgr
  let camnode ← cameraSection e device smgr keyMap
  terrainCollision e smgr terrain camnode
  sphereSection e driver smgr
  gateSection e smgr camnode
  motherShipSection e device smgr camnode
  ufoSection e device smgr
  particleSection e driver smgr waterNode
  ufo2Section e device smgr
  ufo3Section e device driver smgr
  rockSection e device driver smgr
  cubeSection fuel e driver smgr camnode
  pure ⟨driver, smgr, guienv⟩

/-- Lines 954-965: the body of the render loop, in iteration `k`. -/
def frame (e : Engine) (device driver smgr guienv : Ptr) (k : Nat) : Exec Unit := do
  if (← ask device .isWindowActive (e.isWindowActive k)) then
    invoke driver .beginScene [.bool true, .bool true, .obj "SColor" [0, 0, 0, 0]]
    invoke smgr .drawAll []
    invoke guienv .drawAll []
    invoke driver .endScene []
  else
    invoke device .yield []

/-- Lines 945-966: `while(device->run())`; the state counts the finished iterations. -/
def renderLoop (fuel : Nat) (e : Engine) (device driver smgr guienv : Ptr) : Exec Nat :=
  whileLoop (fun k => ask device .run (e.run k))
    (fun k => do
      frame e device driver smgr guienv k
      pure (k + 1))
    fuel 0

/-- Lines 96-979: `int main()`. -/
def mainBody (fuel : Nat) (e : Engine) : Exec Unit := do
  let device ← createDevice e
  ifThen device.isNone do
    ret 1
  let h ← setup fuel e device
  let _ ← renderLoop fuel e device h.driver h.smgr h.guienv
  invoke device .drop []
  ret 0

/-- A run of `main` against the engine `e`, with `fuel` for each `while` loop. -/
def main (fuel : Nat) (e : Engine) : Run :=
  let x := mainBody fuel e
  ⟨x.trace, match x.result with
    | .halt o => o
    | .ok _ => .returned 0⟩

/-! ## Engines used as examples -/

/-- An engine on which every call succeeds; `run()` answers true twice, then false;
the window is active in the first iteration only. -/
def engineAll : Engine :=
  ⟨fun _ => true, fun _ => ⟨0, 0, 0⟩, fun k => decide (k < 2), fun k => decide (k = 0)⟩

/-- An engine on which every call succeeds, whose window is closed from the start
and never active. -/
def engineIdle : Engine :=
  ⟨fun _ => true, fun _ => ⟨0, 0, 0⟩, fun _ => false, fun _ => false⟩

/-- An engine that cannot create the device. -/
def engineNoDevice : Engine :=
  ⟨fun _ => false, fun _ => ⟨0, 0, 0⟩, fun _ => false, fun _ => true⟩

/-- An engine on which only the load of the variable `v` fails; `run()` answers
false at once. -/
def engineWithout (v : Var) : Engine :=
  ⟨fun o => decide (o.var ≠ v), fun _ => ⟨0, 0, 0⟩, fun _ => false, fun _ => true⟩

/-- An engine that finds no gate-array mesh and, having none, makes no node for it;
everything else succeeds and `run()` answers false at once. -/
def engineNoGate : Engine :=
  ⟨fun o => decide (o.var ≠ .sciFiGateArray ∧ o.var ≠ .sciFiGateArrayNode),
   fun _ => ⟨0, 0, 0⟩, fun _ => false, fun _ => true⟩

/-! ## Vocabulary of the properties -/

/-- The call `createDevice(...)` of line 133, answering `r`. -/
def createDeviceCall (r : Ptr) : Call :=
  ⟨none, .createDevice,
    [.enum "EDT_DIRECT3D9", .obj "dimension2d" [1366, 768], .int 32,
     .bool true, .bool true, .bool true, .int 0],
    .ptr r⟩

/-- The release of the device, `device->drop()`. -/
def dropDevice : Call := ⟨some (.of .device), .drop, [], .void⟩

/-- The call `device->run()` answering `b`. -/
def runCall (b : Bool) : Call := ⟨some (.of .device), .run, [], .bool b⟩

/-- The variables that hold a mesh whose load `main` checks for null. -/
def checkedMeshes : List Var := [.mesh, .motherShip, .ufo, .ufo2, .ufo3, .rock]

/-- The file a checked mesh variable is loaded from. -/
def meshFile : Var → String
  | .mesh => "Objects/Zuleyka.x"
  | .motherShip => "MayaObjects/MotherShip.obj"
  | .ufo => "MayaObjects/UFO.obj"
  | .ufo2 => "MayaObjects/ufo.obj"
  | .ufo3 => "MayaObjects/ufo.obj"
  | .rock => "MayaObjects/RockPack.obj"
  | _ => ""

/-- The call `smgr->getMesh(file)` for the mesh variable `v`, answering `r`. -/
def loadCall (v : Var) (r : Ptr) : Call :=
  ⟨some (.of .smgr), .getMesh, [.str (meshFile v)], .ptr r⟩

/-- Entry points that add a node to the scene manager. -/
def addsSceneNode : Method → Bool
  | .addAnimatedMeshSceneNode | .addLightSceneNode | .addBillboardSceneNode
  | .addWaterSurfaceSceneNode | .addTerrainSceneNode | .addSkyDomeSceneNode
  | .addCameraSceneNodeFPS | .addSphereSceneNode | .addShadowVolumeSceneNode
  | .addParticleSystemSceneNode | .addCubeSceneNode | .addMeshSceneNode => true
  | _ => false

/-- Entry points called by the render loop. -/
def isFrameMethod : Method → Bool
  | .run | .isWindowActive | .beginScene | .drawAll | .endScene | .yield => true
  | _ => false

/-- The call is `device->drop()`. -/
def isDeviceDrop (c : Call) : Bool :=
  c.method == .drop && c.recv == some (.of .device)

/-- A null answer to the load of one of the five mesh files whose load is checked. -/
def isFailedLoad (c : Call) : Bool :=
  c.method == .getMesh &&
    (c.args == [.str "Objects/Zuleyka.x"] || c.args == [.str "MayaObjects/MotherShip.obj"]
      || c.args == [.str "MayaObjects/UFO.obj"] || c.args == [.str "MayaObjects/ufo.obj"]
      || c.args == [.str "MayaObjects/RockPack.obj"])
    && c.ret == .ptr none

/-- An ordinary call of scene setup: not `createDevice`, not the release of the
device, not a call of the render loop, not a failed load of a checked mesh. -/
def quiet (c : Call) : Bool :=
  !(c.method == .createDevice) && !(isDeviceDrop c) && !(isFrameMethod c.method)
    && !(isFailedLoad c)

/-- The first `false` answer of `device->run()` is answer number `n` (from 0). -/
def firstFalse (e : Engine) (n : Nat) : Prop :=
  (∀ k, k < n → e.run k = true) ∧ e.run n = false

/-- The calls of a render-loop iteration in which the window is active. -/
def drawnFrame : List Call :=
  [⟨some (.of .device), .isWindowActive, [], .bool true⟩,
   ⟨some (.of .driver), .beginScene, [.bool true, .bool true, .obj "SColor" [0, 0, 0, 0]], .void⟩,
   ⟨some (.of .smgr), .drawAll, [], .void⟩,
   ⟨some (.of .guienv), .drawAll, [], .void⟩,
   ⟨some (.of .driver), .endScene, [], .void⟩]

/-- The calls of a render-loop iteration in which the window is not active. -/
def idleFrame : List Call :=
  [⟨some (.of .device), .isWindowActive, [], .bool false⟩,
   ⟨some (.of .device), .yield, [], .void⟩]

/-- The calls of `count` render-loop iterations starting with iteration `k`: each is
the `run()` call answering true followed by the calls of the body. -/
def loopCalls (e : Engine) : Nat → Nat → List Call
  | 0, _ => []
  | count + 1, k =>
    runCall true :: (if e.isWindowActive k then drawnFrame else idleFrame)
      ++ loopCalls e count (k + 1)

/-- Shape of a piece of code that runs between device creation and the final
release: when it returns, it returns 1 right after the failed load of a checked mesh
and the release of the device, and the calls before those two satisfy `Q`; it runs
out of fuel only when `oof` holds; otherwise all its calls satisfy `Q`. -/
structure Inv {α : Type} (e : Engine) (Q : Call → Prop) (oof : Prop) (x : Exec α) : Prop where
  returnsOne : ∀ code, x.result = .halt (.returned code) → code = 1 ∧ ∃ pre v,
    v ∈ checkedMeshes ∧ e.nonNull (.of v) = false ∧
    x.trace = pre ++ [loadCall v none, dropDevice] ∧ ∀ c ∈ pre, Q c
  fuel : x.result = .halt .outOfFuel → oof
  calls : (∀ code, x.result ≠ .halt (.returned code)) → ∀ c ∈ x.trace, Q c

/-! ## Lifecycle of factory products -/

/-- Entry points that are `create…` factory calls of the engine (the device apart). -/
def isFactory : Method → Bool
  | .createFlyCircleAnimator | .createRotationAnimator | .createCollisionResponseAnimator
  | .createTerrainTriangleSelector | .createTriangleSelector
  | .createTriangleSelectorFromBoundingBox | .createBoxEmitter
  | .createFadeOutParticleAffector | .createMeshWithTangents => true
  | _ => false

/-- Variables that hold the result of a factory call. -/
def Var.isProduct : Var → Bool
  | .animl | .selector | .anim | .sphereAnim | .sciFiGateArraySelector | .gateAnim
  | .motherShipSelector | .motherShipAnim | .ufoAnim | .em | .paf | .ufo2Anim | .ufo3Anim
  | .anim2 | .tangentMesh | .cubeSelector | .cubeAnim | .animCube => true
  | _ => false

/-- The object is the result of a factory call. -/
def Obj.isProduct (o : Obj) : Bool := o.var.isProduct

/-- The call involves the object `o`: as receiver, as pointer argument or as result. -/
def mentions (o : Obj) (c : Call) : Bool :=
  c.recv == some o || c.args.contains (.ptr (some o)) || c.ret == .ptr (some o)

/-- Entry points that hand an object to a parent or consumer. -/
def isAttachMethod : Method → Bool
  | .addAnimator | .setTriangleSelector | .createCollisionResponseAnimator | .setEmitter
  | .addAffector | .addMeshSceneNode => true
  | _ => false

/-- The call hands `o` to a parent or consumer: `o` is an argument of `addAnimator`,
`setTriangleSelector`, `createCollisionResponseAnimator`, `setEmitter`, `addAffector`
or `addMeshSceneNode`, and is neither the receiver nor the result. -/
def isAttach (o : Obj) (c : Call) : Bool :=
  isAttachMethod c.method && c.args.contains (.ptr (some o)) && !(c.recv == some o)
    && !(c.ret == .ptr (some o))

/-- The call `o->drop()`. -/
def dropOf (o : Obj) : Call := ⟨some o, .drop, [], .void⟩

/-- The calls that involve `o` are its creation by a factory call, then one or more
calls that attach it, then its `drop()`, and no other. -/
def Complete (o : Obj) (l : List Call) : Prop :=
  ∃ c attaches, isFactory c.method = true ∧ c.ret = .ptr (some o) ∧ attaches ≠ [] ∧
    (∀ a ∈ attaches, isAttach o a = true) ∧ l = c :: attaches ++ [dropOf o]

/-- Position in program order of the block of statements that creates, attaches and
drops a factory product. -/
def Obj.rank (o : Obj) : Int :=
  match o.var with
  | .animl => 1
  | .selector | .anim => 2
  | .sphereAnim => 3
  | .sciFiGateArraySelector | .gateAnim => 10 + o.i
  | .motherShipSelector | .motherShipAnim => 20
  | .ufoAnim => 21
  | .em => 22
  | .paf => 23
  | .ufo2Anim => 24
  | .ufo3Anim => 25
  | .anim2 => 26
  | .tangentMesh => 100 + 3 * (16 * o.level + o.i)
  | .cubeSelector | .cubeAnim => 100 + 3 * (16 * o.level + o.i) + 1
  | .animCube => 100 + 3 * (16 * o.level + o.i) + 2
  | _ => 0

/-- The call involves no factory product and is not a factory call. -/
def CallClean (c : Call) : Prop :=
  isFactory c.method = false ∧ ∀ o, o.isProduct = true → mentions o c = false

/-- A stretch of calls in which every factory product that occurs has its whole life
(creation, attachment, drop), all of them from blocks `lo ≤ rank < hi`. -/
structure Closed (lo hi : Int) (t : List Call) : Prop where
  window : ∀ c ∈ t, ∀ o, o.isProduct = true → mentions o c = true → lo ≤ o.rank ∧ o.rank < hi
  products : ∀ c ∈ t, isFactory c.method = true → ∀ o, c.ret = .ptr (some o) →
    o.isProduct = true
  lives : ∀ o, o.isProduct = true →
    t.filter (mentions o) = [] ∨ Complete o (t.filter (mentions o))

/-- A piece of code whose calls are closed whenever it falls through or returns. -/
structure Life {α : Type} (lo hi : Int) (x : Exec α) : Prop where
  ok : ∀ a, x.result = .ok a → Closed lo hi x.trace
  returned : ∀ code, x.result = .halt (.returned code) → Closed lo hi x.trace

/-- The pointer is not to a factory product. -/
def PtrClean (p : Ptr) : Prop := ∀ o, p = some o → o.isProduct = false

/-- No pointer argument is to a factory product. -/
def ArgsClean : List Val → Prop
  | [] => True
  | .ptr p :: rest => PtrClean p ∧ ArgsClean rest
  | .void :: rest => ArgsClean rest
  | .bool _ :: rest => ArgsClean rest
  | .int _ :: rest => ArgsClean rest
  | .dec _ _ :: rest => ArgsClean rest
  | .str _ :: rest => ArgsClean rest
  | .enum _ :: rest => ArgsClean rest
  | .vec _ :: rest => ArgsClean rest
  | .obj _ _ :: rest => ArgsClean rest
  | .keys _ :: rest => ArgsClean rest

/-! ## Projections of a run -/

/-- Every call made by the piece of code satisfies `Q`. -/
def Every {α : Type} (Q : Call → Prop) (x : Exec α) : Prop := ∀ c ∈ x.trace, Q c

/-- When the piece of code falls through, its calls that satisfy `P` are the list `l`,
in that order, and its value satisfies `post`. -/
def Proj {α : Type} (P : Call → Bool) (l : List Call) (post : α → Prop) (x : Exec α) : Prop :=
  ∀ a, x.result = .ok a → x.trace.filter P = l ∧ post a

/-! ## The stack of cubes -/

/-- The call is `addCubeSceneNode` or `setPosition`. -/
def isCubePlacement (c : Call) : Bool :=
  c.method == .addCubeSceneNode || c.method == .setPosition

/-- The position the cube with index `i` of level `L` is said to receive: with
`q = floor((i-1)/4)`, it is `(-130*q, -400+130*L, 130*(i-1-q))` when `i mod 4 ≠ 0` and
`(130-130*q, -400+130*L, 130*(i-2-q))` when `i mod 4 = 0`. -/
def claimedCubePos (L i : Int) : Vec3 :=
  let q := (i - 1) / 4
  if i % 4 ≠ 0 then ⟨.int (-130 * q), .int (-400 + 130 * L), .int (130 * (i - 1 - q))⟩
  else ⟨.int (130 - 130 * q), .int (-400 + 130 * L), .int (130 * (i - 2 - q))⟩

/-- The creation of the cube with index `i` of level `L` and the `setPosition` call
that puts it at `claimedCubePos L i`. -/
def cubeCalls (smgr : Obj) (L i : Int) : List Call :=
  [⟨some smgr, .addCubeSceneNode, [], .ptr (some ⟨.cubeNode, L, i⟩)⟩,
   ⟨some ⟨.cubeNode, L, i⟩, .setPosition, [.vec (claimedCubePos L i)], .void⟩]

/-- The pairs (level, index) of the cube stack: levels 1..12, indices 1..16, level by
level. -/
def cubeIndices : List (Int × Int) :=
  (List.range 12).flatMap
    (fun l : Nat => (List.range 16).map (fun k : Nat => (1 + (l : Int), 1 + (k : Int))))

/-- The variables `basePos` and `modBoost` at the start of iteration `i` of the inner
loop of level `L`. -/
def stackAt (L i : Int) : Stack :=
  ⟨⟨.int (-130 * ((i - 1) / 4)), .int (-400 + L * 130), .int (130 * (i - 1 - (i - 1) / 4))⟩, 1⟩

/-- The function `cubeLevel` with the check `if (modBoost != 1) return -1;` inserted at the
start of the body of the inner loop. -/
def cubeLevelChecked (e : Engine) (driver smgr camnode : Ptr) (modVal : Int) (s : Levels) :
    Exec Levels := do
  let basePos : Vec3 := ⟨0, .int (-400), 0⟩
  let basePos := { basePos with Y := basePos.Y.addInt (s.leveupCounter * 130) }
  let inner ← forLoop (fun i st => do
      ifThen (st.modBoost != 1) (ret (-1))
      cubeBody e driver smgr camnode s.leveupCounter modVal i st) 16 1
    ⟨basePos, s.modBoost⟩
  pure ⟨s.leveupCounter + 1, s.boxOffset + 60, inner.modBoost⟩

/-- The function `cubeSection` with that check inserted in the inner loop. -/
def cubeSectionChecked (fuel : Nat) (e : Engine) (driver smgr camnode : Ptr) : Exec Unit := do
  invoke smgr .setShadowColor [.obj "SColor" [150, 0, 0, 0]]
  let leveupCounter : Int := 1
  let boxOffset : Int := 0
  let modVal : Int := 4
  let modBoost : Int := 1
  let _ ← whileLoop (fun s => pure (decide (s.leveupCounter ≤ 12)))
    (cubeLevelChecked e driver smgr camnode modVal) fuel ⟨leveupCounter, boxOffset, modBoost⟩

/-- Calls that place a node, scale it, give it a shadow volume, make a node from a
mesh, build a bounding-box selector, set a selector or add an animator. -/
def isNodeUse (c : Call) : Bool :=
  c.method == .setScale || c.method == .setPosition || c.method == .addShadowVolumeSceneNode
    || c.method == .addMeshSceneNode || c.method == .createTriangleSelectorFromBoundingBox
    || c.method == .setTriangleSelector || c.method == .addAnimator

/-! ## Setup calls and loop calls -/

/-- Entry points that set the transform of a scene node. -/
def isTransform : Method → Bool
  | .setPosition | .setScale | .setRotation => true
  | _ => false

/-- A call of setup: neither `createDevice` nor a call of the render loop. -/
def isSetupCall (c : Call) : Bool :=
  !(c.method == .createDevice) && !(isFrameMethod c.method)

/-- A call made after setup: a call of the render loop or the release of the device. -/
def isLoopCall (c : Call) : Bool :=
  isFrameMethod c.method || c == dropDevice

/-! ## The key map and its consumer -/

/-- The call is `addCameraSceneNodeFPS`, or takes a key map as argument. -/
def usesKeyMap (c : Call) : Bool :=
  c.method == .addCameraSceneNodeFPS ||
    c.args.any (fun v => match v with
      | .keys _ => true
      | _ => false)

/-- The calls of the piece of code that satisfy `P` are none or the single call `c`,
and they are `c` when the code falls through. -/
def Once {α : Type} (P : Call → Bool) (c : Call) (x : Exec α) : Prop :=
  (x.trace.filter P = [] ∨ x.trace.filter P = [c]) ∧
    ∀ a, x.result = .ok a → x.trace.filter P = [c]

/-- The call `smgr->addCameraSceneNodeFPS(0, 50, 1, -1, keyMap, 10, false, 50, false, true)`
of line 404, answering `r`; the count is the size of the array. -/
def cameraCall (r : Ptr) : Call :=
  ⟨some (.of .smgr), .addCameraSceneNodeFPS,
    [.int 0, .int 50, .int 1, .int (-1), .keys keyMap, .int keyMap.length, .bool false,
      .int 50, .bool false, .bool true],
    .ptr r⟩

/-! ## Null animators -/

/-- The three factories of triangle selectors. -/
def isSelectorFactory : Method → Bool
  | .createTerrainTriangleSelector | .createTriangleSelector
  | .createTriangleSelectorFromBoundingBox => true
  | _ => false

/-- The calls of the collision set-up: a selector is created, a selector is set on a
node, a collision response animator is created, an animator is added to the camera. -/
def isCollisionCall (c : Call) : Bool :=
  isSelectorFactory c.method || c.method == .setTriangleSelector ||
    c.method == .createCollisionResponseAnimator ||
    (c.method == .addAnimator && c.recv == some (.of .camnode))

/-- A place of the scene that gets a triangle selector: the terrain, the gate array
of iteration `i`, the mother ship, or the cube `i` of a level. -/
inductive Site where
  | terrain
  | gate (i : Int)
  | motherShip
  | cube (level i : Int)
  deriving DecidableEq, Repr

/-- The selector created at the site. -/
def Site.selector : Site → Obj
  | .terrain => .of .selector
  | .gate i => ⟨.sciFiGateArraySelector, 0, i⟩
  | .motherShip => .of .motherShipSelector
  | .cube L i => ⟨.cubeSelector, L, i⟩

/-- The collision response animator created at the site. -/
def Site.anim : Site → Obj
  | .terrain => .of .anim
  | .gate i => ⟨.gateAnim, 0, i⟩
  | .motherShip => .of .motherShipAnim
  | .cube L i => ⟨.cubeAnim, L, i⟩

/-- The node the selector is made for and set on; for a cube it is the node with
tangents when the normal map was loaded, and the cube node otherwise. -/
def Site.node (e : Engine) : Site → Obj
  | .terrain => .of .terrain
  | .gate i => ⟨.sciFiGateArrayNode, 0, i⟩
  | .motherShip => .of .motherShipNode
  | .cube L i => if e.nonNull ⟨.normalMap, L, i⟩ then ⟨.tangentNode, L, i⟩ else ⟨.cubeNode, L, i⟩

/-- The factory that makes the selector of the site. -/
def Site.factory : Site → Method
  | .terrain => .createTerrainTriangleSelector
  | .gate _ => .createTriangleSelector
  | .motherShip => .createTriangleSelector
  | .cube _ _ => .createTriangleSelectorFromBoundingBox

/-- The arguments of the factory call after the node. -/
def Site.factoryArgs : Site → List Val
  | .terrain => [.int 0]
  | _ => []

/-- The arguments of `createCollisionResponseAnimator` after the selector and the
camera: ellipsoid radius, gravity, ellipsoid translation and, for the gates, the sliding
value. -/
def Site.animArgs : Site → List Val
  | .terrain => [vec 60 100 60, .vec ⟨0, .dec (-98) 1, 0⟩, vec 0 50 0]
  | .gate _ => [vec 60 100 60, vec 0 0 0, vec 0 50 0, .dec 5 4]
  | .motherShip => [vec 60 100 60, vec 0 0 0, vec 0 50 0]
  | .cube _ _ => [vec 60 100 60, vec 0 0 0, vec 0 50 0]

/-- The call that creates the selector of the site. -/
def Site.createSelector (e : Engine) (s : Site) : Call :=
  ⟨some (.of .smgr), s.factory, .ptr (some (s.node e)) :: s.factoryArgs,
    .ptr (some s.selector)⟩

/-- The call that sets the selector on the node of the site. -/
def Site.setSelector (e : Engine) (s : Site) : Call :=
  ⟨some (s.node e), .setTriangleSelector, [.ptr (some s.selector)], .void⟩

/-- The call that creates the collision response animator of the site. -/
def Site.createAnimator (s : Site) : Call :=
  ⟨some (.of .smgr), .createCollisionResponseAnimator,
    .ptr (some s.selector) :: .ptr (some (.of .camnode)) :: s.animArgs, .ptr (some s.anim)⟩

/-- The call that adds the animator of the site to the camera. -/
def Site.addToCamera (s : Site) : Call :=
  ⟨some (.of .camnode), .addAnimator, [.ptr (some s.anim)], .void⟩

/-- The four collision calls of a site, in program order. -/
def Site.calls (e : Engine) (s : Site) : List Call :=
  [s.createSelector e, s.setSelector e, s.createAnimator, s.addToCamera]

/-- The sites in program order: the terrain, the four gates, the mother ship, the
192 cubes. -/
def sites : List Site :=
  .terrain :: ((List.range 4).map (fun k : Nat => Site.gate (k : Int)) ++
    .motherShip :: cubeIndices.map (fun p => Site.cube p.1 p.2))

/-! ## Results used without a null test -/

/-- The variables whose object `main` dereferences without a null test of its own:
lights, billboards, the water, terrain, sky dome and camera nodes, the nodes of the
UFOs and of the rocks (their blocks are guarded by the mesh, not by the node), the
particle system with its emitter and affector, the cube nodes, every triangle selector
and collision animator, the animator of the second light, and, inside their guarded
blocks, the gate light and the mesh and node with tangents. -/
def usedUnchecked : Var → Bool
  | .light1 | .light2 | .bill | .animl | .waterMesh | .waterNode | .light3 | .terrain
  | .skydome | .camnode | .selector | .anim | .lightGate | .sciFiGateArraySelector
  | .gateAnim | .motherShipSelector | .motherShipAnim | .ufoNode | .ps | .em | .paf
  | .ufo2Node | .ufo3Node | .light4 | .bill2 | .rockNode | .cubeNode | .tangentMesh
  | .tangentNode | .cubeSelector | .cubeAnim => true
  | _ => false

/-- The piece of code does not end in a null dereference. -/
def Defined {α : Type} (x : Exec α) : Prop := x.result ≠ .halt .undefined

/-! ## What setup branches on -/

/-- The variables whose result `main` tests for null with an `if`: the device, the
five checked meshes (`ufo2` and `ufo3` load the same file), the nodes of the character,
the sphere, the gate arrays and the mother ship, the rotation and fly-circle animators
other than `animl`, and the normal-map texture. -/
def isTested : Var → Bool
  | .device | .mesh | .node | .sphereNode | .sphereAnim | .sciFiGateArrayNode | .motherShip
  | .motherShipNode | .ufo | .ufoAnim | .ufo2 | .ufo2Anim | .ufo3 | .ufo3Anim | .anim2
  | .rock | .normalMap | .animCube => true
  | _ => false

/-- The variables whose result `main` neither tests nor dereferences, but only hands to
other calls: the textures other than the normal map, and the mesh of the gate array. -/
def passedOn : Var → Bool
  | .skinTexture | .billTexture | .lavaTexture | .waterTexture | .terrainTexture
  | .detailTexture | .skydomeTexture | .lunarTexture | .sciFiGateArray | .fireballTexture
  | .bill2Texture | .rockTexture | .cubeTexture => true
  | _ => false

/-- Forgets whether a pointer to an object that is only passed on is null. -/
def Val.erase : Val → Val
  | .ptr (some o) => if passedOn o.var then .ptr none else .ptr (some o)
  | v => v

/-- The call with the pointers to objects that are only passed on forgotten, in its
arguments and in its result. -/
def Call.erase (c : Call) : Call :=
  ⟨c.recv, c.method, c.args.map Val.erase, c.ret.erase⟩

/-- Two pieces of code make the same calls, up to the pointers to objects that are
only passed on, and end in the same way. -/
def Sim {α : Type} (x y : Exec α) : Prop :=
  x.trace.map Call.erase = y.trace.map Call.erase ∧ x.result = y.result

set_option linter.unusedTactic false
set_option linter.unreachableTactic false
set_option linter.unusedVariables false
set_option maxRecDepth 100000

/-! ## Sequencing lemmas -/

@[simp] theorem bind_eq {α β : Type} (x : Exec α) (f : α → Exec β) : x >>= f = x.bind f := rfl

@[simp] theorem pure_eq {α : Type} (a : α) : (pure a : Exec α) = ⟨[], .ok a⟩ := rfl

theorem bind_ok {α β : Type} {x : Exec α} {f : α → Exec β} {a : α} (h : x.result = .ok a) :
    x.bind f = ⟨x.trace ++ (f a).trace, (f a).result⟩ := by
  simp [Exec.bind, h]

theorem bind_halt {α β : Type} {x : Exec α} {f : α → Exec β} {o : Outcome}
    (h : x.result = .halt o) : x.bind f = ⟨x.trace, .halt o⟩ := by
  simp [Exec.bind, h]

theorem make_some {e : Engine} {o r : Obj} (h : e.make o = some r) : r = o := by
  unfold Engine.make at h
  split at h
  · exact (Option.some.inj h).symm
  · cases h

theorem inv_pure {α : Type} {e : Engine} {Q : Call → Prop} {oof : Prop} (a : α) :
    Inv e Q oof (pure a : Exec α) := by
  constructor <;> simp

theorem inv_undefined {α : Type} {e : Engine} {Q : Call → Prop} {oof : Prop} :
    Inv e Q oof (halt .undefined : Exec α) := by
  constructor <;> simp [halt]

theorem inv_mono {α : Type} {e : Engine} {Q : Call → Prop} {oof oof' : Prop} {x : Exec α}
    (h : oof → oof') (hx : Inv e Q oof x) : Inv e Q oof' x :=
  ⟨hx.returnsOne, fun hr => h (hx.fuel hr), hx.calls⟩

theorem inv_bind {α β : Type} {e : Engine} {Q : Call → Prop} {oof : Prop} {x : Exec α}
    {f : α → Exec β} (hx : Inv e Q oof x) (hf : ∀ a, x.result = .ok a → Inv e Q oof (f a)) :
    Inv e Q oof (x >>= f) := by
  rcases hr : x.result with a | o
  · have hfa := hf a hr
    have hxc : ∀ c ∈ x.trace, Q c := hx.calls (by simp [hr])
    rw [bind_eq, bind_ok hr]
    refine ⟨?_, hfa.fuel, ?_⟩
    · intro code hc
      obtain ⟨h1, pre, v, hv, hn, ht, hq⟩ := hfa.returnsOne code hc
      refine ⟨h1, x.trace ++ pre, v, hv, hn, by simp [ht], ?_⟩
      intro c hc
      rcases List.mem_append.1 hc with hc | hc
      · exact hxc c hc
      · exact hq c hc
    · intro hne c hc
      rcases List.mem_append.1 hc with hc | hc
      · exact hxc c hc
      · exact hfa.calls hne c hc
  · rw [bind_eq, bind_halt hr]
    refine ⟨?_, ?_, ?_⟩
    · intro code hc
      exact hx.returnsOne code (by simpa [hr] using hc)
    · intro hc
      exact hx.fuel (by simpa [hr] using hc)
    · intro hne
      exact hx.calls (by simpa [hr] using hne)

theorem inv_call {α : Type} {e : Engine} {Q : Call → Prop} {oof : Prop} (c : Call) (a : α)
    (h : Q c) : Inv e Q oof (⟨[c], .ok a⟩ : Exec α) := by
  constructor <;> simp [h]

theorem inv_invoke {e : Engine} {Q : Call → Prop} {oof : Prop} {p : Ptr} {m : Method}
    {args : List Val} (h : ∀ r, p = some r → Q ⟨some r, m, args, .void⟩) :
    Inv e Q oof (invoke p m args) := by
  cases p with
  | none => exact inv_undefined
  | some r => exact inv_call _ _ (h r rfl)

theorem inv_create {e e' : Engine} {Q : Call → Prop} {oof : Prop} {p : Ptr} {m : Method}
    {args : List Val} {o : Obj} (h : ∀ r, p = some r → Q ⟨some r, m, args, .ptr (e'.make o)⟩) :
    Inv e Q oof (create e' p m args o) := by
  cases p with
  | none => exact inv_undefined
  | some r => exact inv_call _ _ (h r rfl)

theorem inv_getter {e : Engine} {Q : Call → Prop} {oof : Prop} {p : Ptr} {m : Method}
    {args : List Val} {o : Obj} (h : ∀ r, p = some r → Q ⟨some r, m, args, .ptr (some o)⟩) :
    Inv e Q oof (getter p m args o) := by
  cases p with
  | none => exact inv_undefined
  | some r => exact inv_call _ _ (h r rfl)

theorem inv_getPosition {e e' : Engine} {Q : Call → Prop} {oof : Prop} {p : Ptr}
    (h : ∀ r, p = some r → Q ⟨some r, .getPosition, [], .vec (e'.getPosition r)⟩) :
    Inv e Q oof (getPosition e' p) := by
  cases p with
  | none => exact inv_undefined
  | some r => exact inv_call _ _ (h r rfl)

theorem inv_ask {e : Engine} {Q : Call → Prop} {oof : Prop} {p : Ptr} {m : Method} {b : Bool}
    (h : ∀ r, p = some r → Q ⟨some r, m, [], .bool b⟩) : Inv e Q oof (ask p m b) := by
  cases p with
  | none => exact inv_undefined
  | some r => exact inv_call _ _ (h r rfl)

theorem create_ok {e : Engine} {p : Ptr} {m : Method} {args : List Val} {o : Obj} {a : Ptr}
    (h : (create e p m args o).result = .ok a) : a = e.make o := by
  cases p with
  | none => simp [create, halt] at h
  | some r => simpa [create, eq_comm] using h

theorem getter_ok {p : Ptr} {m : Method} {args : List Val} {o : Obj} {a : Ptr}
    (h : (getter p m args o).result = .ok a) : a = some o := by
  cases p with
  | none => simp [getter, halt] at h
  | some r => simpa [getter, eq_comm] using h

theorem inv_invoke_bind {α : Type} {e : Engine} {Q : Call → Prop} {oof : Prop} {p : Ptr}
    {m : Method} {args : List Val} {f : Unit → Exec α}
    (h : ∀ r, p = some r → Q ⟨some r, m, args, .void⟩) (hf : Inv e Q oof (f ())) :
    Inv e Q oof (invoke p m args >>= f) :=
  inv_bind (inv_invoke h) (fun _ _ => hf)

theorem inv_create_bind {α : Type} {e e' : Engine} {Q : Call → Prop} {oof : Prop} {p : Ptr}
    {m : Method} {args : List Val} {o : Obj} {f : Ptr → Exec α}
    (h : ∀ r, p = some r → Q ⟨some r, m, args, .ptr (e'.make o)⟩)
    (hf : Inv e Q oof (f (e'.make o))) :
    Inv e Q oof (create e' p m args o >>= f) :=
  inv_bind (inv_create h) (fun a ha => by rw [create_ok ha]; exact hf)

theorem inv_getter_bind {α : Type} {e : Engine} {Q : Call → Prop} {oof : Prop} {p : Ptr}
    {m : Method} {args : List Val} {o : Obj} {f : Ptr → Exec α}
    (h : ∀ r, p = some r → Q ⟨some r, m, args, .ptr (some o)⟩)
    (hf : Inv e Q oof (f (some o))) :
    Inv e Q oof (getter p m args o >>= f) :=
  inv_bind (inv_getter h) (fun a ha => by rw [getter_ok ha]; exact hf)

theorem inv_getPosition_bind {α : Type} {e e' : Engine} {Q : Call → Prop} {oof : Prop}
    {p : Ptr} {f : Vec3 → Exec α}
    (h : ∀ r, p = some r → Q ⟨some r, .getPosition, [], .vec (e'.getPosition r)⟩)
    (hf : ∀ v, Inv e Q oof (f v)) :
    Inv e Q oof (getPosition e' p >>= f) :=
  inv_bind (inv_getPosition h) (fun a _ => hf a)

theorem inv_ifThen {e : Engine} {Q : Call → Prop} {oof : Prop} {c : Bool} {x : Exec Unit}
    (h : c = true → Inv e Q oof x) : Inv e Q oof (ifThen c x) := by
  cases c with
  | false => exact inv_pure _
  | true => exact h rfl

theorem inv_ite {α : Type} {e : Engine} {Q : Call → Prop} {oof : Prop} {c : Prop}
    [Decidable c] {x y : Exec α} (hx : c → Inv e Q oof x) (hy : ¬c → Inv e Q oof y) :
    Inv e Q oof (if c then x else y) := by
  by_cases h : c
  · simpa [h] using hx h
  · simpa [h] using hy h

theorem inv_forLoop {σ : Type} {e : Engine} {Q : Call → Prop} {oof : Prop}
    {body : Int → σ → Exec σ} (h : ∀ i s, Inv e Q oof (body i s)) (count : Nat) (i : Int)
    (s : σ) : Inv e Q oof (forLoop body count i s) := by
  induction count generalizing i s with
  | zero => exact inv_pure _
  | succ n ih =>
    unfold forLoop
    exact inv_bind (h i s) (fun a _ => ih (i + 1) a)

/-- The load of a checked mesh followed by its null check (`drop` and `return 1`). -/
theorem inv_checkedLoad {α : Type} {e : Engine} {Q : Call → Prop} {oof : Prop} (v : Var)
    {f : Ptr → Exec α} (hv : v ∈ checkedMeshes) (hq : Q (loadCall v (some (.of v))))
    (hf : Inv e Q oof (f (some (.of v)))) :
    Inv e Q oof
      (create e (some (.of .smgr)) .getMesh [.str (meshFile v)] (.of v) >>= fun mesh =>
        ifThen mesh.isNone (invoke (some (.of .device)) .drop [] >>= fun _ => ret 1)
          >>= fun _ => f mesh) := by
  by_cases hn : e.nonNull (.of v) = true
  · have h1 : Inv e Q oof (⟨[loadCall v (some (.of v))], .ok (some (.of v))⟩ : Exec Ptr) :=
      inv_call _ _ hq
    have h2 := inv_bind h1 (f := fun mesh =>
      ifThen mesh.isNone (invoke (some (.of .device)) .drop [] >>= fun _ => ret 1)
        >>= fun _ => f mesh) (fun a ha => by
          cases ha
          simpa [ifThen, Exec.bind] using hf)
    simpa [create, Engine.make, hn, loadCall] using h2
  · have hn' : e.nonNull (.of v) = false := by simpa using hn
    refine ⟨?_, ?_, ?_⟩
    · intro code hc
      simp [create, Engine.make, hn', ifThen, Exec.bind, invoke, ret, halt] at hc
      refine ⟨hc.symm, [], v, hv, hn', ?_, by simp⟩
      simp [create, Engine.make, hn', ifThen, Exec.bind, invoke, ret, halt, loadCall,
        dropDevice]
    · intro hc
      simp [create, Engine.make, hn', ifThen, Exec.bind, invoke, ret, halt] at hc
    · intro hne
      exact absurd (by simp [create, Engine.make, hn', ifThen, Exec.bind, invoke, ret, halt])
        (hne 1)

/-! ## Every section makes only ordinary calls, or returns 1 after a failed load -/

theorem quiet_lightData {e : Engine} {oof : Prop} (light : Ptr) (radius : Int)
    (colour : List Num) :
    Inv e (fun c => quiet c = true) oof (lightData light radius colour) := by
  unfold lightData
  repeat' first
    | apply inv_invoke_bind
    | apply inv_invoke
    | (intro r hr; rfl)

theorem quiet_characterSection {e : Engine} {oof : Prop} (driver : Ptr) :
    Inv e (fun c => quiet c = true) oof
      (characterSection e (some (.of .device)) driver (some (.of .smgr))) := by
  unfold characterSection
  apply inv_checkedLoad .mesh (by decide) (by rfl)
  repeat' first
    | with_reducible exact inv_pure _
    | with_reducible exact quiet_lightData _ _ _
    | apply inv_invoke_bind
    | apply inv_create_bind
    | apply inv_getter_bind
    | apply inv_getPosition_bind
    | apply inv_invoke
    | apply inv_create
    | apply inv_ifThen
    | apply inv_ite
    | apply inv_bind
    | (intro r hr; first | rfl | (cases make_some hr; rfl))
    | intro _ _
    | intro _

theorem quiet_lightsSection {e : Engine} {oof : Prop} (driver smgr : Ptr) :
    Inv e (fun c => quiet c = true) oof
      (lightsSection e driver smgr) := by
  unfold lightsSection
  repeat' first
    | with_reducible exact inv_pure _
    | with_reducible exact quiet_lightData _ _ _
    | apply inv_invoke_bind
    | apply inv_create_bind
    | apply inv_getter_bind
    | apply inv_getPosition_bind
    | apply inv_invoke
    | apply inv_create
    | apply inv_ifThen
    | apply inv_ite
    | apply inv_bind
    | (intro r hr; first | rfl | (cases make_some hr; rfl))
    | intro _ _
    | intro _

theorem quiet_waterSection {e : Engine} {oof : Prop} (driver smgr : Ptr) :
    Inv e (fun c => quiet c = true) oof
      (waterSection e driver smgr) := by
  unfold waterSection
  repeat' first
    | with_reducible exact inv_pure _
    | with_reducible exact quiet_lightData _ _ _
    | apply inv_invoke_bind
    | apply inv_create_bind
    | apply inv_getter_bind
    | apply inv_getPosition_bind
    | apply inv_invoke
    | apply inv_create
    | apply inv_ifThen
    | apply inv_ite
    | apply inv_bind
    | (intro r hr; first | rfl | (cases make_some hr; rfl))
    | intro _ _
    | intro _

theorem quiet_terrainSection {e : Engine} {oof : Prop} (driver smgr : Ptr) :
    Inv e (fun c => quiet c = true) oof
      (terrainSection e driver smgr) := by
  unfold terrainSection
  repeat' first
    | with_reducible exact inv_pure _
    | with_reducible exact quiet_lightData _ _ _
    | apply inv_invoke_bind
    | apply inv_create_bind
    | apply inv_getter_bind
    | apply inv_getPosition_bind
    | apply inv_invoke
    | apply inv_create
    | apply inv_ifThen
    | apply inv_ite
    | apply inv_bind
    | (intro r hr; first | rfl | (cases make_some hr; rfl))
    | intro _ _
    | intro _

theorem quiet_skySection {e : Engine} {oof : Prop} (driver smgr : Ptr) :
    Inv e (fun c => quiet c = true) oof
      (skySection e driver smgr) := by
  unfold skySection
  repeat' first
    | with_reducible exact inv_pure _
    | with_reducible exact quiet_lightData _ _ _
    | apply inv_invoke_bind
    | apply inv_create_bind
    | apply inv_getter_bind
    | apply inv_getPosition_bind
    | apply inv_invoke
    | apply inv_create
    | apply inv_ifThen
    | apply inv_ite
    | apply inv_bind
    | (intro r hr; first | rfl | (cases make_some hr; rfl))
    | intro _ _
    | intro _

theorem quiet_cameraSection {e : Engine} {oof : Prop} (device smgr : Ptr) (keys : List SKeyMap) :
    Inv e (fun c => quiet c = true) oof
      (cameraSection e device smgr keys) := by
  unfold cameraSection
  repeat' first
    | with_reducible exact inv_pure _
    | with_reducible exact quiet_lightData _ _ _
    | apply inv_invoke_bind
    | apply inv_create_bind
    | apply inv_getter_bind
    | apply inv_getPosition_bind
    | apply inv_invoke
    | apply inv_create
    | apply inv_ifThen
    | apply inv_ite
    | apply inv_bind
    | (intro r hr; first | rfl | (cases make_some hr; rfl))
    | intro _ _
    | intro _

theorem quiet_terrainCollision {e : Engine} {oof : Prop} (smgr terrain camnode : Ptr) :
    Inv e (fun c => quiet c = true) oof
      (terrainCollision e smgr terrain camnode) := by
  unfold terrainCollision
  repeat' first
    | with_reducible exact inv_pure _
    | with_reducible exact quiet_lightData _ _ _
    | apply inv_invoke_bind
    | apply inv_create_bind
    | apply inv_getter_bind
    | apply inv_getPosition_bind
    | apply inv_invoke
    | apply inv_create
    | apply inv_ifThen
    | apply inv_ite
    | apply inv_bind
    | (intro r hr; first | rfl | (cases make_some hr; rfl))
    | intro _ _
    | intro _

theorem quiet_sphereSection {e : Engine} {oof : Prop} (driver smgr : Ptr) :
    Inv e (fun c => quiet c = true) oof
      (sphereSection e driver smgr) := by
  unfold sphereSection
  repeat' first
    | with_reducible exact inv_pure _
    | with_reducible exact quiet_lightData _ _ _
    | apply inv_invoke_bind
    | apply inv_create_bind
    | apply inv_getter_bind
    | apply inv_getPosition_bind
    | apply inv_invoke
    | apply inv_create
    | apply inv_ifThen
    | apply inv_ite
    | apply inv_bind
    | (intro r hr; first | rfl | (cases make_some hr; rfl))
    | intro _ _
    | intro _

theorem quiet_gateBody {e : Engine} {oof : Prop} (smgr camnode : Ptr) (i : Int) :
    Inv e (fun c => quiet c = true) oof
      (gateBody e smgr camnode i) := by
  unfold gateBody
  repeat' first
    | with_reducible exact inv_pure _
    | with_reducible exact quiet_lightData _ _ _
    | apply inv_invoke_bind
    | apply inv_create_bind
    | apply inv_getter_bind
    | apply inv_getPosition_bind
    | apply inv_invoke
    | apply inv_create
    | apply inv_ifThen
    | apply inv_ite
    | apply inv_bind
    | (intro r hr; first | rfl | (cases make_some hr; rfl))
    | intro _ _
    | intro _

theorem quiet_motherShipSection {e : Engine} {oof : Prop} (camnode : Ptr) :
    Inv e (fun c => quiet c = true) oof
      (motherShipSection e (some (.of .device)) (some (.of .smgr)) camnode) := by
  unfold motherShipSection
  apply inv_checkedLoad .motherShip (by decide) (by rfl)
  repeat' first
    | with_reducible exact inv_pure _
    | with_reducible exact quiet_lightData _ _ _
    | apply inv_invoke_bind
    | apply inv_create_bind
    | apply inv_getter_bind
    | apply inv_getPosition_bind
    | apply inv_invoke
    | apply inv_create
    | apply inv_ifThen
    | apply inv_ite
    | apply inv_bind
    | (intro r hr; first | rfl | (cases make_some hr; rfl))
    | intro _ _
    | intro _

theorem quiet_ufoSection {e : Engine} {oof : Prop} :
    Inv e (fun c => quiet c = true) oof
      (ufoSection e (some (.of .device)) (some (.of .smgr))) := by
  unfold ufoSection
  apply inv_checkedLoad .ufo (by decide) (by rfl)
  repeat' first
    | with_reducible exact inv_pure _
    | with_reducible exact quiet_lightData _ _ _
    | apply inv_invoke_bind
    | apply inv_create_bind
    | apply inv_getter_bind
    | apply inv_getPosition_bind
    | apply inv_invoke
    | apply inv_create
    | apply inv_ifThen
    | apply inv_ite
    | apply inv_bind
    | (intro r hr; first | rfl | (cases make_some hr; rfl))
    | intro _ _
    | intro _

theorem quiet_particleSection {e : Engine} {oof : Prop} (driver smgr waterNode : Ptr) :
    Inv e (fun c => quiet c = true) oof
      (particleSection e driver smgr waterNode) := by
  unfold particleSection
  repeat' first
    | with_reducible exact inv_pure _
    | with_reducible exact quiet_lightData _ _ _
    | apply inv_invoke_bind
    | apply inv_create_bind
    | apply inv_getter_bind
    | apply inv_getPosition_bind
    | apply inv_invoke
    | apply inv_create
    | apply inv_ifThen
    | apply inv_ite
    | apply inv_bind
    | (intro r hr; first | rfl | (cases make_some hr; rfl))
    | intro _ _
    | intro _

theorem quiet_ufo2Section {e : Engine} {oof : Prop} :
    Inv e (fun c => quiet c = true) oof
      (ufo2Section e (some (.of .device)) (some (.of .smgr))) := by
  unfold ufo2Section
  apply inv_checkedLoad .ufo2 (by decide) (by rfl)
  repeat' first
    | with_reducible exact inv_pure _
    | with_reducible exact quiet_lightData _ _ _
    | apply inv_invoke_bind
    | apply inv_create_bind
    | apply inv_getter_bind
    | apply inv_getPosition_bind
    | apply inv_invoke
    | apply inv_create
    | apply inv_ifThen
    | apply inv_ite
    | apply inv_bind
    | (intro r hr; first | rfl | (cases make_some hr; rfl))
    | intro _ _
    | intro _

theorem quiet_ufo3Section {e : Engine} {oof : Prop} (driver : Ptr) :
    Inv e (fun c => quiet c = true) oof
      (ufo3Section e (some (.of .device)) driver (some (.of .smgr))) := by
  unfold ufo3Section
  apply inv_checkedLoad .ufo3 (by decide) (by rfl)
  repeat' first
    | with_reducible exact inv_pure _
    | with_reducible exact quiet_lightData _ _ _
    | apply inv_invoke_bind
    | apply inv_create_bind
    | apply inv_getter_bind
    | apply inv_getPosition_bind
    | apply inv_invoke
    | apply inv_create
    | apply inv_ifThen
    | apply inv_ite
    | apply inv_bind
    | (intro r hr; first | rfl | (cases make_some hr; rfl))
    | intro _ _
    | intro _

theorem quiet_rockSection {e : Engine} {oof : Prop} (driver : Ptr) :
    Inv e (fun c => quiet c = true) oof
      (rockSection e (some (.of .device)) driver (some (.of .smgr))) := by
  unfold rockSection
  apply inv_checkedLoad .rock (by decide) (by rfl)
  repeat' first
    | with_reducible exact inv_pure _
    | with_reducible exact quiet_lightData _ _ _
    | apply inv_invoke_bind
    | apply inv_create_bind
    | apply inv_getter_bind
    | apply inv_getPosition_bind
    | apply inv_invoke
    | apply inv_create
    | apply inv_ifThen
    | apply inv_ite
    | apply inv_bind
    | (intro r hr; first | rfl | (cases make_some hr; rfl))
    | intro _ _
    | intro _

theorem quiet_cubeBody {e : Engine} {oof : Prop} (driver smgr camnode : Ptr) (level modVal i : Int) (s : Stack) :
    Inv e (fun c => quiet c = true) oof
      (cubeBody e driver smgr camnode level modVal i s) := by
  unfold cubeBody normalMapBlock placeCube
  repeat' first
    | with_reducible exact inv_pure _
    | with_reducible exact quiet_lightData _ _ _
    | apply inv_invoke_bind
    | apply inv_create_bind
    | apply inv_getter_bind
    | apply inv_getPosition_bind
    | apply inv_invoke
    | apply inv_create
    | apply inv_ifThen
    | apply inv_ite
    | apply inv_bind
    | (intro r hr; first | rfl | (cases make_some hr; rfl))
    | intro _ _
    | intro _

theorem quiet_gateSection {e : Engine} {oof : Prop} (smgr camnode : Ptr) :
    Inv e (fun c => quiet c = true) oof (gateSection e smgr camnode) :=
  inv_forLoop (fun i _ => quiet_gateBody smgr camnode i) 4 0 ()

theorem quiet_cubeLevel {e : Engine} {oof : Prop} (driver smgr camnode : Ptr) (modVal : Int)
    (s : Levels) :
    Inv e (fun c => quiet c = true) oof (cubeLevel e driver smgr camnode modVal s) := by
  unfold cubeLevel
  exact inv_bind (inv_forLoop (fun i s => quiet_cubeBody driver smgr camnode _ modVal i s) _ _ _)
    (fun _ _ => inv_pure _)

theorem cubeLevel_ok {e : Engine} {driver smgr camnode : Ptr} {modVal : Int} {s s' : Levels}
    (h : (cubeLevel e driver smgr camnode modVal s).result = .ok s') :
    s'.leveupCounter = s.leveupCounter + 1 := by
  unfold cubeLevel at h
  simp only [bind_eq, pure_eq] at h
  rcases hr : (forLoop (cubeBody e driver smgr camnode s.leveupCounter modVal) 16 1
    ⟨{ X := 0, Y := (Num.int (-400)).addInt (s.leveupCounter * 130), Z := 0 },
      s.modBoost⟩).result with a | o
  · rw [bind_ok hr] at h
    simp only [Res.ok.injEq] at h
    rw [← h]
  · rw [bind_halt hr] at h
    cases h

theorem quiet_cubeLoop {e : Engine} (driver smgr camnode : Ptr) (fuel : Nat) (s : Levels) :
    Inv e (fun c => quiet c = true) (fuel = 0 ∨ (fuel : Int) + s.leveupCounter ≤ 13)
      (whileLoop (fun s : Levels => pure (decide (s.leveupCounter ≤ 12)))
        (cubeLevel e driver smgr camnode 4) fuel s) := by
  induction fuel generalizing s with
  | zero =>
    unfold whileLoop
    constructor <;> simp [halt]
  | succ n ih =>
    unfold whileLoop
    by_cases h : s.leveupCounter ≤ 12
    · have hb : (do
          if (← (pure (decide (s.leveupCounter ≤ 12)) : Exec Bool)) then
            let s ← cubeLevel e driver smgr camnode 4 s
            whileLoop (fun s : Levels => pure (decide (s.leveupCounter ≤ 12)))
              (cubeLevel e driver smgr camnode 4) n s
          else
            pure s) =
          (cubeLevel e driver smgr camnode 4 s >>=
            whileLoop (fun s : Levels => pure (decide (s.leveupCounter ≤ 12)))
              (cubeLevel e driver smgr camnode 4) n) := by
        simp [Exec.bind, h]
      rw [hb]
      refine inv_bind (quiet_cubeLevel driver smgr camnode 4 s) (fun s' hs' => ?_)
      refine inv_mono ?_ (ih s')
      rw [cubeLevel_ok hs']
      intro hh
      right
      rcases hh with hh | hh
      · subst hh
        push_cast
        omega
      · push_cast
        omega
    · have hb : (do
          if (← (pure (decide (s.leveupCounter ≤ 12)) : Exec Bool)) then
            let s ← cubeLevel e driver smgr camnode 4 s
            whileLoop (fun s : Levels => pure (decide (s.leveupCounter ≤ 12)))
              (cubeLevel e driver smgr camnode 4) n s
          else
            pure s) = pure s := by
        simp [Exec.bind, h]
      rw [hb]
      exact inv_pure _

theorem quiet_cubeSection {e : Engine} (fuel : Nat) (driver smgr camnode : Ptr) :
    Inv e (fun c => quiet c = true) (fuel ≤ 12) (cubeSection fuel e driver smgr camnode) := by
  unfold cubeSection
  apply inv_invoke_bind
  · intro r _
    rfl
  · refine inv_bind (inv_mono ?_ (quiet_cubeLoop driver smgr camnode fuel ⟨1, 0, 1⟩))
      (fun _ _ => inv_pure _)
    intro h
    rcases h with h | h
    · omega
    · simp only at h
      omega

theorem quiet_setup {e : Engine} (fuel : Nat) :
    Inv e (fun c => quiet c = true) (fuel ≤ 12) (setup fuel e (some (.of .device))) := by
  unfold setup
  apply inv_invoke_bind (fun _ _ => by rfl)
  apply inv_getter_bind (fun _ _ => by rfl)
  apply inv_getter_bind (fun _ _ => by rfl)
  apply inv_getter_bind (fun _ _ => by rfl)
  apply inv_invoke_bind (fun _ _ => by rfl)
  apply inv_invoke_bind (fun _ _ => by rfl)
  refine inv_bind (quiet_characterSection _) (fun _ _ => ?_)
  refine inv_bind (quiet_lightsSection _ _) (fun _ _ => ?_)
  refine inv_bind (quiet_waterSection _ _) (fun waterNode _ => ?_)
  refine inv_bind (quiet_terrainSection _ _) (fun terrain _ => ?_)
  refine inv_bind (quiet_skySection _ _) (fun _ _ => ?_)
  refine inv_bind (quiet_cameraSection _ _ _) (fun camnode _ => ?_)
  refine inv_bind (quiet_terrainCollision _ _ _) (fun _ _ => ?_)
  refine inv_bind (quiet_sphereSection _ _) (fun _ _ => ?_)
  refine inv_bind (quiet_gateSection _ _) (fun _ _ => ?_)
  refine inv_bind (quiet_motherShipSection _) (fun _ _ => ?_)
  refine inv_bind quiet_ufoSection (fun _ _ => ?_)
  refine inv_bind (quiet_particleSection _ _ _) (fun _ _ => ?_)
  refine inv_bind quiet_ufo2Section (fun _ _ => ?_)
  refine inv_bind (quiet_ufo3Section _) (fun _ _ => ?_)
  refine inv_bind (quiet_rockSection _) (fun _ _ => ?_)
  refine inv_bind (quiet_cubeSection fuel _ _ _) (fun _ _ => ?_)
  exact inv_pure _

/-! ## The render loop -/

theorem bind_ok_iff {α β : Type} {x : Exec α} {f : α → Exec β} {b : β} :
    (x.bind f).result = .ok b ↔ ∃ a, x.result = .ok a ∧ (f a).result = .ok b := by
  rcases hr : x.result with a | o
  · rw [bind_ok hr]
    simp
  · rw [bind_halt hr]
    simp

theorem whileLoop_succ {σ : Type} (cond : σ → Exec Bool) (body : σ → Exec σ) (fuel : Nat)
    (s : σ) :
    whileLoop cond body (fuel + 1) s =
      (cond s >>= fun b => if b = true then body s >>= whileLoop cond body fuel else pure s) := by
  rfl

theorem frame_eq (e : Engine) (k : Nat) :
    frame e (some (.of .device)) (some (.of .driver)) (some (.of .smgr)) (some (.of .guienv)) k
      = ⟨if e.isWindowActive k then drawnFrame else idleFrame, .ok ()⟩ := by
  cases h : e.isWindowActive k <;>
    simp [frame, h, ask, invoke, Exec.bind, drawnFrame, idleFrame]

theorem loop_run (e : Engine) (c : Nat → Exec Bool) (b : Nat → Exec Nat)
    (hc : ∀ k, c k = ⟨[runCall (e.run k)], .ok (e.run k)⟩)
    (hb : ∀ k, b k = ⟨if e.isWindowActive k then drawnFrame else idleFrame, .ok (k + 1)⟩)
    (n : Nat) :
    ∀ fuel k, (∀ j, j < n → e.run (k + j) = true) → e.run (k + n) = false → n < fuel →
      whileLoop c b fuel k = ⟨loopCalls e n k ++ [runCall false], .ok (k + n)⟩ := by
  induction n with
  | zero =>
    intro fuel k _ hf hlt
    obtain ⟨f, rfl⟩ : ∃ f, fuel = f + 1 := ⟨fuel - 1, by omega⟩
    rw [whileLoop_succ, hc]
    simp at hf
    simp [Exec.bind, hf, loopCalls]
  | succ n ih =>
    intro fuel k ht hf hlt
    obtain ⟨f, rfl⟩ : ∃ f, fuel = f + 1 := ⟨fuel - 1, by omega⟩
    have h0 : e.run k = true := by simpa using ht 0 (by omega)
    have ih' := ih f (k + 1) (fun j hj => by
      have := ht (j + 1) (by omega)
      rwa [show k + 1 + j = k + (j + 1) by omega]) (by
      rwa [show k + 1 + n = k + (n + 1) by omega]) (by omega)
    rw [whileLoop_succ, hc]
    simp [Exec.bind, h0, hb, ih', loopCalls, show k + 1 + n = k + (n + 1) by omega]

theorem loop_calls (e : Engine) (c : Nat → Exec Bool) (b : Nat → Exec Nat)
    (hc : ∀ k, c k = ⟨[runCall (e.run k)], .ok (e.run k)⟩)
    (hb : ∀ k, b k = ⟨if e.isWindowActive k then drawnFrame else idleFrame, .ok (k + 1)⟩)
    (fuel : Nat) :
    ∀ k, ∀ d ∈ (whileLoop c b fuel k).trace, isFrameMethod d.method = true := by
  induction fuel with
  | zero =>
    intro k d hd
    simp [whileLoop, halt] at hd
  | succ f ih =>
    intro k d hd
    rw [whileLoop_succ, hc] at hd
    cases h0 : e.run k
    · simp [Exec.bind, h0] at hd
      subst hd
      rfl
    · have hsplit : d = runCall true ∨
          d ∈ (if e.isWindowActive k then drawnFrame else idleFrame) ∨
          d ∈ (whileLoop c b f (k + 1)).trace := by
        rcases hr : (whileLoop c b f (k + 1)).result with a | o
        all_goals
          simp only [bind_eq, Exec.bind, pure_eq, hr, h0, hb, if_true] at hd
          simpa [or_assoc] using hd
      rcases hsplit with h | h | h
      · subst h
        rfl
      · cases ha : e.isWindowActive k
        · simp [ha, idleFrame] at h
          rcases h with h | h <;> subst h <;> rfl
        · simp [ha, drawnFrame] at h
          rcases h with h | h | h | h | h <;> subst h <;> rfl
      · exact ih (k + 1) d h

theorem loop_result (e : Engine) (c : Nat → Exec Bool) (b : Nat → Exec Nat)
    (hc : ∀ k, c k = ⟨[runCall (e.run k)], .ok (e.run k)⟩)
    (hb : ∀ k, b k = ⟨if e.isWindowActive k then drawnFrame else idleFrame, .ok (k + 1)⟩)
    (fuel : Nat) :
    ∀ k, (∀ o, (whileLoop c b fuel k).result = .halt o → o = .outOfFuel) ∧
      (∀ m, (whileLoop c b fuel k).result = .ok m →
        k ≤ m ∧ m - k < fuel ∧ (∀ j, k ≤ j → j < m → e.run j = true) ∧ e.run m = false) := by
  induction fuel with
  | zero =>
    intro k
    simp [whileLoop, halt]
  | succ f ih =>
    intro k
    rw [whileLoop_succ, hc]
    cases h0 : e.run k
    · simp only [bind_eq, Exec.bind, pure_eq, Bool.false_eq_true, if_false]
      refine ⟨by simp, ?_⟩
      intro m hm
      simp only [Res.ok.injEq] at hm
      subst hm
      refine ⟨le_refl _, by omega, ?_, h0⟩
      intro j h1 h2
      omega
    · obtain ⟨ih1, ih2⟩ := ih (k + 1)
      rcases hr : (whileLoop c b f (k + 1)).result with a | o
      · simp only [bind_eq, Exec.bind, pure_eq, hr, hb, if_true]
        refine ⟨by simp, ?_⟩
        intro m hm
        simp only [Res.ok.injEq] at hm
        subst hm
        obtain ⟨h1, h2, h3, h4⟩ := ih2 a hr
        refine ⟨by omega, by omega, ?_, h4⟩
        intro j hj1 hj2
        by_cases hjk : j = k
        · subst hjk
          exact h0
        · exact h3 j (by omega) hj2
      · simp only [bind_eq, Exec.bind, pure_eq, hr, hb, if_true]
        refine ⟨?_, by simp⟩
        intro o' ho'
        simp only [Res.halt.injEq] at ho'
        subst ho'
        exact ih1 o hr

theorem renderLoop_cond (e : Engine) (k : Nat) :
    ask (some (.of .device)) .run (e.run k) = ⟨[runCall (e.run k)], .ok (e.run k)⟩ := rfl

theorem renderLoop_body (e : Engine) (k : Nat) :
    (do
      frame e (some (.of .device)) (some (.of .driver)) (some (.of .smgr))
        (some (.of .guienv)) k
      pure (k + 1) : Exec Nat)
      = ⟨if e.isWindowActive k then drawnFrame else idleFrame, .ok (k + 1)⟩ := by
  simp [frame_eq, Exec.bind]

/-! ## The runs of `main` -/

theorem setup_handles {fuel : Nat} {e : Engine} {h : Handles}
    (hs : (setup fuel e (some (.of .device))).result = .ok h) :
    h = ⟨some (.of .driver), some (.of .smgr), some (.of .guienv)⟩ := by
  unfold setup at hs
  simp only [bind_eq, bind_ok_iff, pure_eq] at hs
  obtain ⟨_, _, dr, hdr, s, hs', g, hg, rest⟩ := hs
  cases getter_ok hdr
  cases getter_ok hs'
  cases getter_ok hg
  obtain ⟨_, _, _, _, _, _, _, _, _, _, _, _, _, _, _, _, _, _, _, _, _, _, _, _, _, _, _, _, _, _, _, _, _, _, _, _, hfin⟩ := rest
  simp only [Res.ok.injEq] at hfin
  exact hfin.symm

theorem main_device_null {fuel : Nat} {e : Engine} (hd : e.nonNull (.of .device) = false) :
    main fuel e = ⟨[createDeviceCall none], .returned 1⟩ := by
  simp [main, mainBody, createDevice, Engine.make, hd, ifThen, Exec.bind, ret, halt,
    createDeviceCall]

theorem main_setup_halt {fuel : Nat} {e : Engine} {o : Outcome}
    (hd : e.nonNull (.of .device) = true)
    (hs : (setup fuel e (some (.of .device))).result = .halt o) :
    main fuel e =
      ⟨createDeviceCall (some (.of .device)) :: (setup fuel e (some (.of .device))).trace, o⟩ := by
  simp [main, mainBody, createDevice, Engine.make, hd, ifThen, Exec.bind, hs, createDeviceCall]

theorem main_loop_ok {fuel : Nat} {e : Engine} {h : Handles} {m : Nat}
    (hd : e.nonNull (.of .device) = true)
    (hs : (setup fuel e (some (.of .device))).result = .ok h)
    (hl : (renderLoop fuel e (some (.of .device)) (some (.of .driver)) (some (.of .smgr))
      (some (.of .guienv))).result = .ok m) :
    main fuel e =
      ⟨createDeviceCall (some (.of .device)) :: (setup fuel e (some (.of .device))).trace ++
        (renderLoop fuel e (some (.of .device)) (some (.of .driver)) (some (.of .smgr))
          (some (.of .guienv))).trace ++ [dropDevice], .returned 0⟩ := by
  cases setup_handles hs
  simp [main, mainBody, createDevice, Engine.make, hd, ifThen, Exec.bind, hs, hl,
    createDeviceCall, invoke, ret, halt, dropDevice]

theorem main_loop_halt {fuel : Nat} {e : Engine} {h : Handles} {o : Outcome}
    (hd : e.nonNull (.of .device) = true)
    (hs : (setup fuel e (some (.of .device))).result = .ok h)
    (hl : (renderLoop fuel e (some (.of .device)) (some (.of .driver)) (some (.of .smgr))
      (some (.of .guienv))).result = .halt o) :
    main fuel e =
      ⟨createDeviceCall (some (.of .device)) :: (setup fuel e (some (.of .device))).trace ++
        (renderLoop fuel e (some (.of .device)) (some (.of .driver)) (some (.of .smgr))
          (some (.of .guienv))).trace, o⟩ := by
  cases setup_handles hs
  simp [main, mainBody, createDevice, Engine.make, hd, ifThen, Exec.bind, hs, hl,
    createDeviceCall]

/-- The five ways a run of `main` can go. -/
theorem main_shape (fuel : Nat) (e : Engine) :
    (e.nonNull (.of .device) = false ∧ main fuel e = ⟨[createDeviceCall none], .returned 1⟩) ∨
    (e.nonNull (.of .device) = true ∧ ∃ pre v, v ∈ checkedMeshes ∧
      e.nonNull (.of v) = false ∧ (∀ d ∈ pre, quiet d = true) ∧
      main fuel e = ⟨createDeviceCall (some (.of .device)) :: pre ++
        [loadCall v none, dropDevice], .returned 1⟩) ∨
    (e.nonNull (.of .device) = true ∧ ∃ o, (o = .undefined ∨ (o = .outOfFuel ∧ fuel ≤ 12)) ∧
      (∀ d ∈ (setup fuel e (some (.of .device))).trace, quiet d = true) ∧
      main fuel e = ⟨createDeviceCall (some (.of .device)) ::
        (setup fuel e (some (.of .device))).trace, o⟩) ∨
    (e.nonNull (.of .device) = true ∧ ∃ h, (setup fuel e (some (.of .device))).result = .ok h ∧
      (∀ k, k < fuel → e.run k = true) ∧
      (∀ d ∈ (setup fuel e (some (.of .device))).trace, quiet d = true) ∧
      ∃ loop, (∀ d ∈ loop, isFrameMethod d.method = true) ∧
      main fuel e = ⟨createDeviceCall (some (.of .device)) ::
        (setup fuel e (some (.of .device))).trace ++ loop, .outOfFuel⟩) ∨
    (e.nonNull (.of .device) = true ∧ ∃ h n, (setup fuel e (some (.of .device))).result = .ok h ∧
      firstFalse e n ∧ n < fuel ∧
      (∀ d ∈ (setup fuel e (some (.of .device))).trace, quiet d = true) ∧
      main fuel e = ⟨createDeviceCall (some (.of .device)) ::
        (setup fuel e (some (.of .device))).trace ++ loopCalls e n 0 ++
        [runCall false, dropDevice], .returned 0⟩) := by
  cases hd : e.nonNull (.of .device)
  · exact Or.inl ⟨rfl, main_device_null hd⟩
  · right
    have hinv := quiet_setup (e := e) fuel
    rcases hs : (setup fuel e (some (.of .device))).result with h | o
    · right; right
      have hq := hinv.calls (by simp [hs])
      have hres := loop_result e _ _ (renderLoop_cond e) (renderLoop_body e) fuel 0
      rcases hl : (renderLoop fuel e (some (.of .device)) (some (.of .driver))
        (some (.of .smgr)) (some (.of .guienv))).result with m | o
      · right
        obtain ⟨-, h2, h3, h4⟩ := hres.2 m hl
        have hff : firstFalse e m := ⟨fun k hk => h3 k (Nat.zero_le _) hk, h4⟩
        have hrun := loop_run e _ _ (renderLoop_cond e) (renderLoop_body e) m fuel 0
          (fun j hj => by simpa using hff.1 j hj) (by simpa using hff.2) (by omega)
        refine ⟨rfl, h, m, rfl, hff, by omega, hq, ?_⟩
        rw [main_loop_ok hd hs hl]
        have ht : (renderLoop fuel e (some (.of .device)) (some (.of .driver))
            (some (.of .smgr)) (some (.of .guienv))).trace = loopCalls e m 0 ++ [runCall false] := by
          unfold renderLoop
          rw [hrun]
        rw [ht]
        simp
      · left
        have ho := hres.1 o hl
        subst ho
        refine ⟨rfl, h, rfl, ?_, hq, _, loop_calls e _ _ (renderLoop_cond e) (renderLoop_body e) fuel 0, ?_⟩
        · intro k hk
          by_contra hne
          have hne' : e.run k = false := by simpa using hne
          -- the least false answer below `fuel` would end the loop
          obtain ⟨n, hn1, hn2⟩ : ∃ n, n ≤ k ∧ firstFalse e n := by
            have hex : ∃ n, e.run n = false := ⟨k, hne'⟩
            refine ⟨Nat.find hex, Nat.find_min' hex hne', ?_, Nat.find_spec hex⟩
            intro j hj
            have := Nat.find_min hex hj
            simpa using this
          have hrun := loop_run e _ _ (renderLoop_cond e) (renderLoop_body e) n fuel 0
            (fun j hj => by simpa using hn2.1 j hj) (by simpa using hn2.2) (by omega)
          unfold renderLoop at hl
          rw [hrun] at hl
          cases hl
        · rw [main_loop_halt hd hs hl]
          simp [renderLoop]
    · have hmain := main_setup_halt hd hs
      cases o with
      | returned code =>
        left
        obtain ⟨h1, pre, v, hv, hn, ht, hq⟩ := hinv.returnsOne code hs
        subst h1
        refine ⟨rfl, pre, v, hv, hn, hq, ?_⟩
        rw [hmain, ht]
        simp
      | undefined =>
        right; left
        exact ⟨rfl, _, Or.inl rfl, hinv.calls (by simp [hs]), hmain⟩
      | outOfFuel =>
        right; left
        exact ⟨rfl, _, Or.inr ⟨rfl, hinv.fuel hs⟩, hinv.calls (by simp [hs]), hmain⟩

theorem characterSection_ok {e : Engine} {driver : Ptr} {a : Unit}
    (h : (characterSection e (some (.of .device)) driver (some (.of .smgr))).result = .ok a) :
    e.nonNull (.of .mesh) = true := by
  by_contra hn
  have hn' : e.nonNull (.of .mesh) = false := by simpa using hn
  simp [characterSection, create, Engine.make, hn', ifThen, Exec.bind, invoke, ret, halt] at h

theorem motherShipSection_ok {e : Engine} {camnode : Ptr} {a : Unit}
    (h : (motherShipSection e (some (.of .device)) (some (.of .smgr)) camnode).result = .ok a) :
    e.nonNull (.of .motherShip) = true := by
  by_contra hn
  have hn' : e.nonNull (.of .motherShip) = false := by simpa using hn
  simp [motherShipSection, create, Engine.make, hn', ifThen, Exec.bind, invoke, ret, halt] at h

theorem ufoSection_ok {e : Engine} {a : Unit}
    (h : (ufoSection e (some (.of .device)) (some (.of .smgr))).result = .ok a) :
    e.nonNull (.of .ufo) = true := by
  by_contra hn
  have hn' : e.nonNull (.of .ufo) = false := by simpa using hn
  simp [ufoSection, create, Engine.make, hn', ifThen, Exec.bind, invoke, ret, halt] at h

theorem ufo2Section_ok {e : Engine} {a : Unit}
    (h : (ufo2Section e (some (.of .device)) (some (.of .smgr))).result = .ok a) :
    e.nonNull (.of .ufo2) = true := by
  by_contra hn
  have hn' : e.nonNull (.of .ufo2) = false := by simpa using hn
  simp [ufo2Section, create, Engine.make, hn', ifThen, Exec.bind, invoke, ret, halt] at h

theorem ufo3Section_ok {e : Engine} {driver : Ptr} {a : Unit}
    (h : (ufo3Section e (some (.of .device)) driver (some (.of .smgr))).result = .ok a) :
    e.nonNull (.of .ufo3) = true := by
  by_contra hn
  have hn' : e.nonNull (.of .ufo3) = false := by simpa using hn
  simp [ufo3Section, create, Engine.make, hn', ifThen, Exec.bind, invoke, ret, halt] at h

theorem rockSection_ok {e : Engine} {driver : Ptr} {a : Unit}
    (h : (rockSection e (some (.of .device)) driver (some (.of .smgr))).result = .ok a) :
    e.nonNull (.of .rock) = true := by
  by_contra hn
  have hn' : e.nonNull (.of .rock) = false := by simpa using hn
  simp [rockSection, create, Engine.make, hn', ifThen, Exec.bind, invoke, ret, halt] at h

theorem setup_ok_meshes {fuel : Nat} {e : Engine} {h : Handles}
    (hs : (setup fuel e (some (.of .device))).result = .ok h) :
    ∀ v ∈ checkedMeshes, e.nonNull (.of v) = true := by
  unfold setup at hs
  simp only [bind_eq, bind_ok_iff, pure_eq] at hs
  obtain ⟨_, _, dr, hdr, s, hs', g, hg, _, _, _, _, _, h1, _, _, _, _, _, _, _, _, _, _, _, _,
    _, _, _, _, _, h2, _, h3, _, _, _, h4, _, h5, _, h6, _⟩ := hs
  cases getter_ok hdr
  cases getter_ok hs'
  cases getter_ok hg
  intro v hv
  simp only [checkedMeshes, List.mem_cons, List.mem_singleton, List.not_mem_nil, or_false] at hv
  rcases hv with rfl | rfl | rfl | rfl | rfl | rfl
  · exact characterSection_ok h1
  · exact motherShipSection_ok h2
  · exact ufoSection_ok h3
  · exact ufo2Section_ok h4
  · exact ufo3Section_ok h5
  · exact rockSection_ok h6

theorem quiet_not_drop {d : Call} (h : quiet d = true) : isDeviceDrop d = false := by
  simp only [quiet, Bool.and_eq_true, Bool.not_eq_true'] at h
  exact h.1.1.2

theorem quiet_not_frame {d : Call} (h : quiet d = true) : isFrameMethod d.method = false := by
  simp only [quiet, Bool.and_eq_true, Bool.not_eq_true'] at h
  exact h.1.2

theorem quiet_not_failed {d : Call} (h : quiet d = true) : isFailedLoad d = false := by
  simp only [quiet, Bool.and_eq_true, Bool.not_eq_true'] at h
  exact h.2

theorem frame_not_drop {d : Call} (h : isFrameMethod d.method = true) :
    isDeviceDrop d = false := by
  unfold isDeviceDrop
  cases hm : d.method <;> simp_all [isFrameMethod]

theorem frame_not_failed {d : Call} (h : isFrameMethod d.method = true) :
    isFailedLoad d = false := by
  unfold isFailedLoad
  cases hm : d.method <;> simp_all [isFrameMethod]

theorem loopCalls_frame (e : Engine) (n : Nat) :
    ∀ k, ∀ d ∈ loopCalls e n k, isFrameMethod d.method = true := by
  induction n with
  | zero =>
    intro k d hd
    simp [loopCalls] at hd
  | succ n ih =>
    intro k d hd
    simp only [loopCalls, List.cons_append, List.mem_cons, List.mem_append] at hd
    rcases hd with h | h | h
    · subst h
      rfl
    · cases ha : e.isWindowActive k
      · simp [ha, idleFrame] at h
        rcases h with h | h <;> subst h <;> rfl
      · simp [ha, drawnFrame] at h
        rcases h with h | h | h | h | h <;> subst h <;> rfl
    · exact ih (k + 1) d h

/-- C1: when `createDevice` answers null, `main` returns 1 at once; the
`createDevice` call itself is the only engine call of the run (no caption, no mesh
load, no render-loop call, no release of a device). -/
theorem main_returns_one_without_device (fuel : Nat) (e : Engine)
    (h : e.nonNull (.of .device) = false) :
    main fuel e = ⟨[createDeviceCall none], .returned 1⟩ :=
  main_device_null h

theorem main_returns_one_without_device_witness :
    engineNoDevice.nonNull (.of .device) = false ∧
      main 0 engineNoDevice = ⟨[createDeviceCall none], .returned 1⟩ :=
  ⟨rfl, main_returns_one_without_device 0 engineNoDevice rfl⟩

theorem main_character_null {fuel : Nat} {e : Engine} (hd : e.nonNull (.of .device) = true)
    (hm : e.nonNull (.of .mesh) = false) :
    main fuel e =
      ⟨[createDeviceCall (some (.of .device)),
        ⟨some (.of .device), .setWindowCaption, [.str "Game By Touraj Ebrahimi"], .void⟩,
        ⟨some (.of .device), .getVideoDriver, [], .ptr (some (.of .driver))⟩,
        ⟨some (.of .device), .getSceneManager, [], .ptr (some (.of .smgr))⟩,
        ⟨some (.of .device), .getGUIEnvironment, [], .ptr (some (.of .guienv))⟩,
        ⟨some (.of .driver), .setFog,
          [.obj "SColor" [100, 30, 30, 30], .enum "EFT_FOG_EXP", .int 50, .int 4000, .dec 9 4,
           .bool false, .bool false], .void⟩,
        ⟨some (.of .guienv), .addStaticText,
          [.str "Game By Touraj Ebrahimi", .obj "rect" [10, 10, 260, 22], .bool true, .int 0,
           .int 0, .int 0, .bool true], .void⟩,
        loadCall .mesh none,
        dropDevice], .returned 1⟩ := by
  simp [main, mainBody, createDevice, Engine.make, hd, hm, ifThen, Exec.bind, ret, halt, setup,
    characterSection, invoke, getter, create, createDeviceCall, loadCall, dropDevice, meshFile]

/-- C2: when the device is created and the load of `Objects/Zuleyka.x` answers null,
`main` returns 1 whatever the engine would answer to any later call, and no call of
the run adds a scene node. -/
theorem main_returns_one_without_character (fuel : Nat) (e : Engine)
    (hd : e.nonNull (.of .device) = true) (hm : e.nonNull (.of .mesh) = false) :
    (main fuel e).outcome = .returned 1 ∧
      loadCall .mesh none ∈ (main fuel e).trace ∧
      ∀ c ∈ (main fuel e).trace, addsSceneNode c.method = false := by
  rw [main_character_null hd hm]
  refine ⟨rfl, by simp, ?_⟩
  intro c hc
  simp only [List.mem_cons, List.mem_singleton, List.not_mem_nil, or_false] at hc
  rcases hc with h | h | h | h | h | h | h | h | h <;> subst h <;> rfl

theorem main_returns_one_without_character_witness :
    (engineWithout .mesh).nonNull (.of .device) = true ∧
      (engineWithout .mesh).nonNull (.of .mesh) = false ∧
      (main 0 (engineWithout .mesh)).outcome = .returned 1 ∧
      loadCall .mesh none ∈ (main 0 (engineWithout .mesh)).trace ∧
      ∀ c ∈ (main 0 (engineWithout .mesh)).trace, addsSceneNode c.method = false :=
  ⟨rfl, rfl, main_returns_one_without_character 0 (engineWithout .mesh) rfl rfl⟩

/-- C3, the claim fails for the gate array: on `engineNoGate` the device is created,
the load of `MayaObjects/SciFIGateArray2.obj` answers null, and `main` goes on and
returns 0. -/
theorem gate_mesh_failure_not_fatal :
    engineNoGate.nonNull (.of .device) = true ∧
      (⟨some (.of .smgr), .getMesh, [.str "MayaObjects/SciFIGateArray2.obj"], .ptr none⟩ : Call)
        ∈ (main 13 engineNoGate).trace ∧
      (main 13 engineNoGate).outcome = .returned 0 := by
  decide

/-- C3, amended: whenever a load of one of the five checked mesh files
(`Objects/Zuleyka.x`, `MayaObjects/MotherShip.obj`, `MayaObjects/UFO.obj`,
`MayaObjects/ufo.obj`, `MayaObjects/RockPack.obj`) answers null, setup stops there:
the only call after the failed load is the release of the device, and `main` returns
1. -/
theorem checked_load_failure_is_fatal (fuel : Nat) (e : Engine) (c : Call)
    (hc : c ∈ (main fuel e).trace) (hf : isFailedLoad c = true) :
    (main fuel e).outcome = .returned 1 ∧
      ∃ pre, (main fuel e).trace = pre ++ [c, dropDevice] := by
  rcases main_shape fuel e with ⟨_, hm⟩ | ⟨_, pre, v, hv, hn, hq, hm⟩ | ⟨_, o, _, hq, hm⟩ |
    ⟨_, h, _, _, hq, loop, hl, hm⟩ | ⟨_, h, n, _, _, _, hq, hm⟩
  · rw [hm] at hc
    simp only [List.mem_singleton] at hc
    subst hc
    simp [isFailedLoad, createDeviceCall] at hf
  · rw [hm] at hc ⊢
    refine ⟨rfl, createDeviceCall (some (.of .device)) :: pre, ?_⟩
    simp only [List.cons_append, List.mem_cons, List.mem_append, List.mem_singleton,
      List.not_mem_nil, or_false] at hc
    rcases hc with h | h | h | h
    · subst h
      simp [isFailedLoad, createDeviceCall] at hf
    · rw [quiet_not_failed (hq c h)] at hf
      cases hf
    · subst h
      simp
    · subst h
      simp [isFailedLoad, dropDevice] at hf
  · rw [hm] at hc
    simp only [List.mem_cons] at hc
    rcases hc with h | h
    · subst h
      simp [isFailedLoad, createDeviceCall] at hf
    · rw [quiet_not_failed (hq c h)] at hf
      cases hf
  · rw [hm] at hc
    simp only [List.cons_append, List.mem_cons, List.mem_append] at hc
    rcases hc with h | h | h
    · subst h
      simp [isFailedLoad, createDeviceCall] at hf
    · rw [quiet_not_failed (hq c h)] at hf
      cases hf
    · rw [frame_not_failed (hl c h)] at hf
      cases hf
  · rw [hm] at hc
    simp only [List.cons_append, List.mem_cons, List.mem_append, List.mem_singleton,
      List.not_mem_nil, or_false] at hc
    rcases hc with h | (h | h) | h | h
    · subst h
      simp [isFailedLoad, createDeviceCall] at hf
    · rw [quiet_not_failed (hq c h)] at hf
      cases hf
    · rw [frame_not_failed (loopCalls_frame e n 0 c h)] at hf
      cases hf
    · subst h
      simp [isFailedLoad, runCall] at hf
    · subst h
      simp [isFailedLoad, dropDevice] at hf

theorem checked_load_failure_is_fatal_witness :
    loadCall .ufo3 none ∈ (main 0 (engineWithout .ufo3)).trace ∧
      isFailedLoad (loadCall .ufo3 none) = true ∧
      (main 0 (engineWithout .ufo3)).outcome = .returned 1 ∧
      ∃ pre, (main 0 (engineWithout .ufo3)).trace = pre ++ [loadCall .ufo3 none, dropDevice] :=
  ⟨by decide, by decide,
    checked_load_failure_is_fatal 0 (engineWithout .ufo3) (loadCall .ufo3 none) (by decide)
      (by decide)⟩

theorem firstFalse_unique {e : Engine} {n m : Nat} (hn : firstFalse e n) (hm : firstFalse e m) :
    n = m := by
  rcases Nat.lt_trichotomy n m with h | h | h
  · have := hm.1 n h
    rw [hn.2] at this
    cases this
  · exact h
  · have := hn.1 m h
    rw [hm.2] at this
    cases this

theorem countP_drop_quiet {l : List Call} (h : ∀ d ∈ l, quiet d = true) :
    l.countP isDeviceDrop = 0 :=
  List.countP_eq_zero.2 (fun d hd => by simp [quiet_not_drop (h d hd)])

theorem countP_drop_frame {l : List Call} (h : ∀ d ∈ l, isFrameMethod d.method = true) :
    l.countP isDeviceDrop = 0 :=
  List.countP_eq_zero.2 (fun d hd => by simp [frame_not_drop (h d hd)])

/-- C5: in every run in which `main` returns, if `createDevice` gave a device then
`device->drop()` is called exactly once and is the last engine call of the run (after
a failed mesh load as well as after the render loop); if `createDevice` gave null,
`device->drop()` is never called. -/
theorem device_released_once (fuel : Nat) (e : Engine) (code : Int)
    (h : (main fuel e).outcome = .returned code) :
    (e.nonNull (.of .device) = true →
      (main fuel e).trace.countP isDeviceDrop = 1 ∧
      (main fuel e).trace.getLast? = some dropDevice) ∧
    (e.nonNull (.of .device) = false → (main fuel e).trace.countP isDeviceDrop = 0) := by
  rcases main_shape fuel e with ⟨hd, hm⟩ | ⟨hd, pre, v, _, _, hq, hm⟩ | ⟨_, o, ho, _, hm⟩ |
    ⟨_, h', _, _, _, loop, _, hm⟩ | ⟨hd, h', n, _, _, _, hq, hm⟩
  · refine ⟨fun hd' => ?_, fun _ => ?_⟩
    · rw [hd] at hd'
      cases hd'
    · rw [hm]
      rfl
  · refine ⟨fun _ => ?_, fun hd' => ?_⟩
    · rw [hm]
      constructor
      · have h1 : isDeviceDrop (createDeviceCall (some (.of .device))) = false := rfl
        have h2 : isDeviceDrop (loadCall v none) = false := rfl
        have h3 : isDeviceDrop dropDevice = true := rfl
        simp [List.countP_cons, List.countP_append, countP_drop_quiet hq, h1, h2, h3]
      · have : createDeviceCall (some (.of .device)) :: pre ++ [loadCall v none, dropDevice]
            = (createDeviceCall (some (.of .device)) :: pre ++ [loadCall v none])
              ++ [dropDevice] := by simp
        rw [this, List.getLast?_append, List.getLast?_singleton]
        rfl
    · rw [hd] at hd'
      cases hd'
  · rw [hm] at h
    rcases ho with rfl | ⟨rfl, _⟩ <;> cases h
  · rw [hm] at h
    cases h
  · refine ⟨fun _ => ?_, fun hd' => ?_⟩
    · rw [hm]
      constructor
      · have h1 : isDeviceDrop (createDeviceCall (some (.of .device))) = false := rfl
        have h2 : isDeviceDrop (runCall false) = false := rfl
        have h3 : isDeviceDrop dropDevice = true := rfl
        simp [List.countP_cons, List.countP_append, countP_drop_quiet hq,
          countP_drop_frame (loopCalls_frame e n 0), h1, h2, h3]
      · have : createDeviceCall (some (.of .device)) ::
            (setup fuel e (some (.of .device))).trace ++ loopCalls e n 0 ++
              [runCall false, dropDevice]
            = (createDeviceCall (some (.of .device)) ::
              (setup fuel e (some (.of .device))).trace ++ loopCalls e n 0 ++ [runCall false])
              ++ [dropDevice] := by simp
        rw [this, List.getLast?_append, List.getLast?_singleton]
        rfl
    · rw [hd] at hd'
      cases hd'

theorem device_released_once_witness :
    (main 0 (engineWithout .rock)).outcome = .returned 1 ∧
      (main 0 (engineWithout .rock)).trace.countP isDeviceDrop = 1 ∧
      (main 0 (engineWithout .rock)).trace.getLast? = some dropDevice :=
  ⟨by decide, (device_released_once 0 (engineWithout .rock) 1 (by decide)).1 rfl⟩

/-- C6: whenever `main` returns 1, no call of the run is a render-loop call (`run`,
`isWindowActive`, `beginScene`, `drawAll`, `endScene`, `yield`), and the run is either
the single failed `createDevice` call, or it ends with the failed load of a checked
mesh followed by the release of the device and by nothing else, and that failed load
occurs nowhere earlier in the run (it is attempted once). -/
theorem return_one_without_retry_or_frame (fuel : Nat) (e : Engine)
    (h : (main fuel e).outcome = .returned 1) :
    (∀ d ∈ (main fuel e).trace, isFrameMethod d.method = false) ∧
    ((main fuel e).trace = [createDeviceCall none] ∨
      ∃ pre c, isFailedLoad c = true ∧ (main fuel e).trace = pre ++ [c, dropDevice] ∧
        (∀ d ∈ pre, isFailedLoad d = false) ∧ (main fuel e).trace.count c = 1) := by
  rcases main_shape fuel e with ⟨hd, hm⟩ | ⟨hd, pre, v, hv, _, hq, hm⟩ | ⟨_, o, ho, _, hm⟩ |
    ⟨_, h', _, _, _, loop, _, hm⟩ | ⟨hd, h', n, _, _, _, hq, hm⟩
  · rw [hm]
    refine ⟨?_, Or.inl rfl⟩
    intro d hd
    simp only [List.mem_singleton] at hd
    subst hd
    rfl
  · have hfl : isFailedLoad (loadCall v none) = true := by
      simp only [checkedMeshes, List.mem_cons, List.mem_singleton, List.not_mem_nil,
        or_false] at hv
      rcases hv with rfl | rfl | rfl | rfl | rfl | rfl <;> rfl
    have hpre : ∀ d ∈ createDeviceCall (some (.of .device)) :: pre, isFailedLoad d = false := by
      intro d hd
      simp only [List.mem_cons] at hd
      rcases hd with rfl | hd
      · rfl
      · exact quiet_not_failed (hq d hd)
    rw [hm]
    constructor
    · intro d hd
      simp only [List.cons_append, List.mem_cons, List.mem_append, List.mem_singleton,
        List.not_mem_nil, or_false] at hd
      rcases hd with rfl | hd | rfl | rfl
      · rfl
      · exact quiet_not_frame (hq d hd)
      · rfl
      · rfl
    · refine Or.inr ⟨createDeviceCall (some (.of .device)) :: pre, loadCall v none, hfl, rfl,
        hpre, ?_⟩
      have hne : loadCall v none ≠ dropDevice := by
        intro heq
        rw [heq] at hfl
        cases hfl
      have hnot : (createDeviceCall (some (.of .device)) :: pre).count (loadCall v none) = 0 :=
        List.count_eq_zero.2 (fun hmem => by
          have := hpre _ hmem
          rw [hfl] at this
          cases this)
      rw [show createDeviceCall (some (.of .device)) :: pre ++ [loadCall v none, dropDevice]
        = (createDeviceCall (some (.of .device)) :: pre) ++ [loadCall v none, dropDevice] by simp,
        List.count_append, hnot]
      simp [List.count_cons, hne.symm]
  · rw [hm] at h
    rcases ho with rfl | ⟨rfl, _⟩ <;> cases h
  · rw [hm] at h
    cases h
  · rw [hm] at h
    cases h

theorem return_one_without_retry_or_frame_witness :
    (main 0 (engineWithout .motherShip)).outcome = .returned 1 ∧
    (∀ d ∈ (main 0 (engineWithout .motherShip)).trace, isFrameMethod d.method = false) ∧
    ((main 0 (engineWithout .motherShip)).trace = [createDeviceCall none] ∨
      ∃ pre c, isFailedLoad c = true ∧
        (main 0 (engineWithout .motherShip)).trace = pre ++ [c, dropDevice] ∧
        (∀ d ∈ pre, isFailedLoad d = false) ∧
        (main 0 (engineWithout .motherShip)).trace.count c = 1) :=
  ⟨by decide, return_one_without_retry_or_frame 0 (engineWithout .motherShip) (by decide)⟩

theorem main_run_loop {fuel : Nat} {e : Engine} {h : Handles} {n : Nat}
    (hd : e.nonNull (.of .device) = true)
    (hs : (setup fuel e (some (.of .device))).result = .ok h) (hff : firstFalse e n)
    (hn : n < fuel) :
    main fuel e = ⟨createDeviceCall (some (.of .device)) ::
      (setup fuel e (some (.of .device))).trace ++ loopCalls e n 0 ++
      [runCall false, dropDevice], .returned 0⟩ := by
  have hl := loop_run e _ _ (renderLoop_cond e) (renderLoop_body e) n fuel 0
    (fun j hj => by simpa using hff.1 j hj) (by simpa using hff.2) hn
  have hl' : renderLoop fuel e (some (.of .device)) (some (.of .driver))
      (some (.of .smgr)) (some (.of .guienv)) =
      ⟨loopCalls e n 0 ++ [runCall false], .ok (0 + n)⟩ := by
    unfold renderLoop
    rw [hl]
  rw [main_loop_ok hd hs (m := 0 + n) (by rw [hl']), hl']
  simp

theorem loopCalls_active (e : Engine) (n : Nat) :
    ∀ k, (loopCalls e n k).countP (fun d => d.method == .isWindowActive) = n := by
  induction n with
  | zero =>
    intro k
    rfl
  | succ n ih =>
    intro k
    cases ha : e.isWindowActive k <;>
      simp [loopCalls, ha, List.countP_cons, List.countP_append, ih, runCall, drawnFrame,
        idleFrame]

theorem loopCalls_runs (e : Engine) (n : Nat) :
    ∀ k, (loopCalls e n k).count (runCall true) = n := by
  induction n with
  | zero =>
    intro k
    rfl
  | succ n ih =>
    intro k
    have h1 := ih (k + 1)
    simp only [runCall] at h1
    cases ha : e.isWindowActive k <;>
      simp [loopCalls, ha, List.count_cons, List.count_append, h1, runCall, drawnFrame,
        idleFrame]

theorem loopCalls_no_false (e : Engine) (n : Nat) :
    ∀ k, runCall false ∉ loopCalls e n k := by
  induction n with
  | zero =>
    intro k
    simp [loopCalls]
  | succ n ih =>
    intro k
    have h1 := ih (k + 1)
    simp only [runCall] at h1
    cases ha : e.isWindowActive k <;>
      simp [loopCalls, ha, h1, runCall, drawnFrame, idleFrame]

/-- C7: a render-loop iteration makes, after the `isWindowActive()` query, exactly
the calls `beginScene`, scene-manager `drawAll`, GUI `drawAll`, `endScene` in that
order (and no `yield`) when the window is active, and exactly one `yield` (and no
drawing call) when it is not; and in a run that reaches the loop with the first false
answer of `run()` at `n`, the calls between setup and the closing `run()` are those
`n` iterations, each started by a `run()` answering true. -/
theorem frame_draws_or_yields (fuel : Nat) (e : Engine) :
    (∀ k, frame e (some (.of .device)) (some (.of .driver)) (some (.of .smgr))
        (some (.of .guienv)) k =
      ⟨if e.isWindowActive k then
          [⟨some (.of .device), .isWindowActive, [], .bool true⟩,
           ⟨some (.of .driver), .beginScene,
             [.bool true, .bool true, .obj "SColor" [0, 0, 0, 0]], .void⟩,
           ⟨some (.of .smgr), .drawAll, [], .void⟩,
           ⟨some (.of .guienv), .drawAll, [], .void⟩,
           ⟨some (.of .driver), .endScene, [], .void⟩]
        else
          [⟨some (.of .device), .isWindowActive, [], .bool false⟩,
           ⟨some (.of .device), .yield, [], .void⟩],
        .ok ()⟩) ∧
    (∀ n h, (setup fuel e (some (.of .device))).result = .ok h →
      e.nonNull (.of .device) = true → firstFalse e n → n < fuel →
      (main fuel e).trace = createDeviceCall (some (.of .device)) ::
        (setup fuel e (some (.of .device))).trace ++ loopCalls e n 0 ++
        [runCall false, dropDevice]) := by
  constructor
  · intro k
    exact frame_eq e k
  · intro n h hs hd hff hn
    rw [main_run_loop hd hs hff hn]

theorem frame_draws_or_yields_witness :
    (setup 13 engineAll (some (.of .device))).result =
        .ok ⟨some (.of .driver), some (.of .smgr), some (.of .guienv)⟩ ∧
      firstFalse engineAll 2 ∧
      (main 13 engineAll).trace = createDeviceCall (some (.of .device)) ::
        (setup 13 engineAll (some (.of .device))).trace ++ loopCalls engineAll 2 0 ++
        [runCall false, dropDevice] :=
  ⟨by decide, by unfold firstFalse; decide,
    (frame_draws_or_yields 13 engineAll).2 2
      ⟨some (.of .driver), some (.of .smgr), some (.of .guienv)⟩ (by decide) rfl (by unfold firstFalse; decide)
      (by decide)⟩

/-- C8: in a run that reaches the render loop, if the first false answer of `run()`
is answer number `n` (counted from 0, so the `n+1`-th answer), the loop body runs
exactly `n` times: the run is setup, then `n` iterations each started by a `run()`
answering true, then the `run()` answering false, then the release of the device and
nothing else; no render-loop call occurs in setup and `main` returns 0. -/
theorem render_loop_stops_at_first_false (fuel : Nat) (e : Engine) (n : Nat) (h : Handles)
    (hd : e.nonNull (.of .device) = true)
    (hs : (setup fuel e (some (.of .device))).result = .ok h) (hff : firstFalse e n)
    (hn : n < fuel) :
    (main fuel e).outcome = .returned 0 ∧
    ∃ pre loop, (main fuel e).trace = pre ++ loop ++ [runCall false, dropDevice] ∧
      (∀ d ∈ pre, isFrameMethod d.method = false) ∧
      (∀ d ∈ loop, isFrameMethod d.method = true) ∧
      loop.countP (fun d => d.method == .isWindowActive) = n ∧
      loop.count (runCall true) = n ∧
      runCall false ∉ loop := by
  rw [main_run_loop hd hs hff hn]
  refine ⟨rfl, createDeviceCall (some (.of .device)) :: (setup fuel e (some (.of .device))).trace,
    loopCalls e n 0, rfl, ?_, loopCalls_frame e n 0, ?_, ?_, ?_⟩
  · intro d hd'
    simp only [List.mem_cons] at hd'
    rcases hd' with rfl | hd'
    · rfl
    · exact quiet_not_frame ((quiet_setup (e := e) fuel).calls (by simp [hs]) d hd')
  · exact loopCalls_active e n 0
  · exact loopCalls_runs e n 0
  · exact loopCalls_no_false e n 0

theorem render_loop_stops_at_first_false_witness :
    firstFalse engineAll 2 ∧ (main 13 engineAll).outcome = .returned 0 ∧
    ∃ pre loop, (main 13 engineAll).trace = pre ++ loop ++ [runCall false, dropDevice] ∧
      (∀ d ∈ pre, isFrameMethod d.method = false) ∧
      (∀ d ∈ loop, isFrameMethod d.method = true) ∧
      loop.countP (fun d => d.method == .isWindowActive) = 2 ∧
      loop.count (runCall true) = 2 ∧
      runCall false ∉ loop :=
  ⟨by unfold firstFalse; decide,
    render_loop_stops_at_first_false 13 engineAll 2 _ rfl
      (show (setup 13 engineAll (some (.of .device))).result =
        .ok ⟨some (.of .driver), some (.of .smgr), some (.of .guienv)⟩ by decide)
      (by unfold firstFalse; decide) (by decide)⟩

/-- C10, the claim fails: `engineAll` and `engineWithout .normalMap` give the same
outcome to device creation and to every mesh load (they differ only on the normal-map
texture), yet setup makes different calls on them. -/
theorem setup_depends_on_normal_map :
    (∀ o : Obj, o.var ≠ .normalMap →
      engineAll.nonNull o = (engineWithout .normalMap).nonNull o) ∧
    (setup 13 engineAll (some (.of .device))).trace ≠
      (setup 13 (engineWithout .normalMap) (some (.of .device))).trace := by
  constructor
  · intro o h
    simp [engineAll, engineWithout, h]
  · decide

/-! ## Factory products: created, attached, dropped -/

theorem filter_clean {t : List Call} (h : ∀ c ∈ t, CallClean c) {o : Obj}
    (ho : o.isProduct = true) : t.filter (mentions o) = [] :=
  List.filter_eq_nil_iff.2 (fun c hc => by simp [(h c hc).2 o ho])

theorem closed_clean {lo hi : Int} {t : List Call} (h : ∀ c ∈ t, CallClean c) :
    Closed lo hi t := by
  refine ⟨?_, ?_, ?_⟩
  · intro c hc o ho hm
    rw [(h c hc).2 o ho] at hm
    cases hm
  · intro c hc hf
    rw [(h c hc).1] at hf
    cases hf
  · intro o ho
    exact Or.inl (filter_clean h ho)

theorem closed_mono {lo hi lo' hi' : Int} {t : List Call} (h1 : lo' ≤ lo) (h2 : hi ≤ hi')
    (h : Closed lo hi t) : Closed lo' hi' t := by
  refine ⟨?_, h.products, h.lives⟩
  intro c hc o ho hm
  have := h.window c hc o ho hm
  omega

theorem filter_outside {lo hi : Int} {t : List Call} (h : Closed lo hi t) {o : Obj}
    (ho : o.isProduct = true) (hr : o.rank < lo ∨ hi ≤ o.rank) :
    t.filter (mentions o) = [] := by
  refine List.filter_eq_nil_iff.2 (fun c hc hm => ?_)
  have := h.window c hc o ho hm
  omega

theorem closed_append {lo mid hi : Int} {t1 t2 : List Call} (h1 : Closed lo mid t1)
    (h2 : Closed mid hi t2) (hlo : lo ≤ mid) (hhi : mid ≤ hi) : Closed lo hi (t1 ++ t2) := by
  refine ⟨?_, ?_, ?_⟩
  · intro c hc o ho hm
    rcases List.mem_append.1 hc with hc | hc
    · have := h1.window c hc o ho hm
      omega
    · have := h2.window c hc o ho hm
      omega
  · intro c hc
    rcases List.mem_append.1 hc with hc | hc
    · exact h1.products c hc
    · exact h2.products c hc
  · intro o ho
    rw [List.filter_append]
    by_cases hr : o.rank < mid
    · rw [filter_outside h2 ho (Or.inl hr), List.append_nil]
      exact h1.lives o ho
    · rw [filter_outside h1 ho (Or.inr (by omega)), List.nil_append]
      exact h2.lives o ho

theorem closed_clean_append {lo hi : Int} {t1 t2 : List Call} (h1 : ∀ c ∈ t1, CallClean c)
    (h2 : Closed lo hi t2) : Closed lo hi (t1 ++ t2) := by
  refine ⟨?_, ?_, ?_⟩
  · intro c hc o ho hm
    rcases List.mem_append.1 hc with hc | hc
    · rw [(h1 c hc).2 o ho] at hm
      cases hm
    · exact h2.window c hc o ho hm
  · intro c hc hf
    rcases List.mem_append.1 hc with hc | hc
    · rw [(h1 c hc).1] at hf
      cases hf
    · exact h2.products c hc hf
  · intro o ho
    rw [List.filter_append, filter_clean h1 ho, List.nil_append]
    exact h2.lives o ho

theorem closed_append_clean {lo hi : Int} {t1 t2 : List Call} (h1 : Closed lo hi t1)
    (h2 : ∀ c ∈ t2, CallClean c) : Closed lo hi (t1 ++ t2) := by
  refine ⟨?_, ?_, ?_⟩
  · intro c hc o ho hm
    rcases List.mem_append.1 hc with hc | hc
    · exact h1.window c hc o ho hm
    · rw [(h2 c hc).2 o ho] at hm
      cases hm
  · intro c hc hf
    rcases List.mem_append.1 hc with hc | hc
    · exact h1.products c hc hf
    · rw [(h2 c hc).1] at hf
      cases hf
  · intro o ho
    rw [List.filter_append, filter_clean h2 ho, List.append_nil]
    exact h1.lives o ho

theorem ptrClean_none : PtrClean none := by
  intro o h
  cases h

theorem ptrClean_some {o : Obj} (h : o.isProduct = false) : PtrClean (some o) := by
  intro o' h'
  cases h'
  exact h

theorem ptrClean_make {e : Engine} {o : Obj} (h : o.isProduct = false) :
    PtrClean (e.make o) := by
  intro o' h'
  cases make_some h'
  exact h

theorem argsClean_not_mem {args : List Val} (h : ArgsClean args) {o : Obj}
    (ho : o.isProduct = true) : Val.ptr (some o) ∉ args := by
  induction args with
  | nil => simp
  | cons a rest ih =>
    cases a with
    | ptr p =>
      simp only [ArgsClean] at h
      intro hmem
      rcases List.mem_cons.1 hmem with heq | hmem
      · have hp : p = some o := by
          injection heq with h1
          exact h1.symm
        rw [h.1 o hp] at ho
        cases ho
      · exact ih h.2 hmem
    | _ =>
      simp only [ArgsClean] at h
      intro hmem
      rcases List.mem_cons.1 hmem with heq | hmem
      · cases heq
      · exact ih h hmem

theorem callClean_void {r : Obj} {m : Method} {args : List Val} (hm : isFactory m = false)
    (hr : r.isProduct = false) (ha : ArgsClean args) :
    CallClean ⟨some r, m, args, .void⟩ := by
  refine ⟨hm, fun o ho => ?_⟩
  have hne : r ≠ o := by
    intro h
    rw [h, ho] at hr
    cases hr
  simp [mentions, argsClean_not_mem ha ho, hne]

theorem callClean_ptr {r : Obj} {m : Method} {args : List Val} {p : Ptr}
    (hm : isFactory m = false) (hr : r.isProduct = false) (ha : ArgsClean args)
    (hp : PtrClean p) : CallClean ⟨some r, m, args, .ptr p⟩ := by
  refine ⟨hm, fun o ho => ?_⟩
  have hne : r ≠ o := by
    intro h
    rw [h, ho] at hr
    cases hr
  have hne' : p ≠ some o := by
    intro h
    rw [hp o h] at ho
    cases ho
  simp [mentions, argsClean_not_mem ha ho, hne, hne']

theorem callClean_other {r : Obj} {m : Method} {args : List Val} {v : Val}
    (hm : isFactory m = false) (hr : r.isProduct = false) (ha : ArgsClean args)
    (hv : ∀ p, v ≠ .ptr p) : CallClean ⟨some r, m, args, v⟩ := by
  refine ⟨hm, fun o ho => ?_⟩
  have hne : r ≠ o := by
    intro h
    rw [h, ho] at hr
    cases hr
  simp [mentions, argsClean_not_mem ha ho, hne, hv]

theorem life_pure {α : Type} {lo hi : Int} (a : α) : Life lo hi (pure a : Exec α) := by
  constructor <;> intros <;> exact closed_clean (by simp)

theorem life_halt {α : Type} {lo hi : Int} (o : Outcome) : Life lo hi (halt o : Exec α) := by
  constructor <;> intros <;> exact closed_clean (by simp [halt])

theorem life_clean {α : Type} {lo hi : Int} {x : Exec α} (hx : ∀ c ∈ x.trace, CallClean c) :
    Life lo hi x :=
  ⟨fun _ _ => closed_clean hx, fun _ _ => closed_clean hx⟩

theorem life_clean_bind {α β : Type} {lo hi : Int} {x : Exec α} {f : α → Exec β}
    (hx : ∀ c ∈ x.trace, CallClean c) (hf : ∀ a, x.result = .ok a → Life lo hi (f a)) :
    Life lo hi (x >>= f) := by
  rcases hr : x.result with a | o
  · rw [bind_eq, bind_ok hr]
    exact ⟨fun b hb => closed_clean_append hx ((hf a hr).ok b hb),
      fun code hc => closed_clean_append hx ((hf a hr).returned code hc)⟩
  · rw [bind_eq, bind_halt hr]
    exact life_clean hx

theorem life_bind {α β : Type} {lo m hi : Int} {x : Exec α} {f : α → Exec β}
    (hlo : lo ≤ m) (hhi : m ≤ hi) (hx : Life lo m x)
    (hf : ∀ a, x.result = .ok a → Life m hi (f a)) : Life lo hi (x >>= f) := by
  rcases hr : x.result with a | o
  · rw [bind_eq, bind_ok hr]
    exact ⟨fun b hb => closed_append (hx.ok a hr) ((hf a hr).ok b hb) hlo hhi,
      fun code hc => closed_append (hx.ok a hr) ((hf a hr).returned code hc) hlo hhi⟩
  · rw [bind_eq, bind_halt hr]
    refine ⟨fun b hb => (by cases hb), fun code hc => ?_⟩
    simp only [Res.halt.injEq] at hc
    subst hc
    exact closed_mono (le_refl _) hhi (hx.returned code hr)

theorem life_mono {α : Type} {lo hi lo' hi' : Int} {x : Exec α} (h1 : lo' ≤ lo)
    (h2 : hi ≤ hi') (h : Life lo hi x) : Life lo' hi' x :=
  ⟨fun a ha => closed_mono h1 h2 (h.ok a ha),
    fun code hc => closed_mono h1 h2 (h.returned code hc)⟩

theorem clean_invoke {p : Ptr} {m : Method} {args : List Val} (hm : isFactory m = false)
    (hp : PtrClean p) (ha : ArgsClean args) : ∀ c ∈ (invoke p m args).trace, CallClean c := by
  cases p with
  | none => simp [invoke, halt]
  | some r =>
    intro c hc
    simp only [invoke, List.mem_singleton] at hc
    subst hc
    exact callClean_void hm (by
      cases hr : r.isProduct
      · rfl
      · have := hp r rfl
        rw [hr] at this
        cases this) ha

theorem ptrClean_recv {p : Ptr} {r : Obj} (hp : PtrClean p) (h : p = some r) :
    r.isProduct = false := hp r h

theorem clean_create {e : Engine} {p : Ptr} {m : Method} {args : List Val} {o : Obj}
    (hm : isFactory m = false) (hp : PtrClean p) (ha : ArgsClean args)
    (ho : o.isProduct = false) : ∀ c ∈ (create e p m args o).trace, CallClean c := by
  cases p with
  | none => simp [create, halt]
  | some r =>
    intro c hc
    simp only [create, List.mem_singleton] at hc
    subst hc
    exact callClean_ptr hm (hp r rfl) ha (ptrClean_make ho)

theorem clean_getter {p : Ptr} {m : Method} {args : List Val} {o : Obj}
    (hm : isFactory m = false) (hp : PtrClean p) (ha : ArgsClean args)
    (ho : o.isProduct = false) : ∀ c ∈ (getter p m args o).trace, CallClean c := by
  cases p with
  | none => simp [getter, halt]
  | some r =>
    intro c hc
    simp only [getter, List.mem_singleton] at hc
    subst hc
    exact callClean_ptr hm (hp r rfl) ha (ptrClean_some ho)

theorem clean_getPosition {e : Engine} {p : Ptr} (hp : PtrClean p) :
    ∀ c ∈ (getPosition e p).trace, CallClean c := by
  cases p with
  | none => simp [getPosition, halt]
  | some r =>
    intro c hc
    simp only [getPosition, List.mem_singleton] at hc
    subst hc
    exact callClean_other rfl (hp r rfl) trivial (fun p h => by cases h)

theorem life_invoke_bind {α : Type} {lo hi : Int} {p : Ptr} {m : Method} {args : List Val}
    {f : Unit → Exec α} (hm : isFactory m = false) (hp : PtrClean p) (ha : ArgsClean args)
    (hf : Life lo hi (f ())) : Life lo hi (invoke p m args >>= f) :=
  life_clean_bind (clean_invoke hm hp ha) (fun _ _ => hf)

theorem life_invoke {lo hi : Int} {p : Ptr} {m : Method} {args : List Val}
    (hm : isFactory m = false) (hp : PtrClean p) (ha : ArgsClean args) :
    Life lo hi (invoke p m args) :=
  life_clean (clean_invoke hm hp ha)

theorem life_create_bind {α : Type} {e : Engine} {lo hi : Int} {p : Ptr} {m : Method}
    {args : List Val} {o : Obj} {f : Ptr → Exec α} (hm : isFactory m = false)
    (ho : o.isProduct = false) (hp : PtrClean p) (ha : ArgsClean args)
    (hf : Life lo hi (f (e.make o))) : Life lo hi (create e p m args o >>= f) :=
  life_clean_bind (clean_create hm hp ha ho) (fun a h => by rw [create_ok h]; exact hf)

theorem life_getter_bind {α : Type} {lo hi : Int} {p : Ptr} {m : Method}
    {args : List Val} {o : Obj} {f : Ptr → Exec α} (hm : isFactory m = false)
    (ho : o.isProduct = false) (hp : PtrClean p) (ha : ArgsClean args)
    (hf : Life lo hi (f (some o))) : Life lo hi (getter p m args o >>= f) :=
  life_clean_bind (clean_getter hm hp ha ho) (fun a h => by rw [getter_ok h]; exact hf)

theorem life_getPosition_bind {α : Type} {e : Engine} {lo hi : Int} {p : Ptr}
    {f : Vec3 → Exec α} (hp : PtrClean p) (hf : ∀ v, Life lo hi (f v)) :
    Life lo hi (getPosition e p >>= f) :=
  life_clean_bind (clean_getPosition hp) (fun a _ => hf a)

theorem life_ifThen {lo hi : Int} {c : Bool} {x : Exec Unit} (h : c = true → Life lo hi x) :
    Life lo hi (ifThen c x) := by
  cases c with
  | false => exact life_pure _
  | true => exact h rfl

theorem life_ite {α : Type} {lo hi : Int} {c : Prop} [Decidable c] {x y : Exec α}
    (hx : c → Life lo hi x) (hy : ¬c → Life lo hi y) : Life lo hi (if c then x else y) := by
  by_cases h : c
  · simpa [h] using hx h
  · simpa [h] using hy h

theorem clean_lightData {light : Ptr} {radius : Int} {colour : List Num}
    (hp : PtrClean light) : ∀ c ∈ (lightData light radius colour).trace, CallClean c := by
  cases light with
  | none => simp [lightData, invoke, halt, Exec.bind]
  | some r =>
    have hr : r.isProduct = false := hp r rfl
    intro c hc
    simp only [lightData, invoke, bind_eq, Exec.bind, List.cons_append, List.nil_append,
      List.mem_cons, List.mem_singleton, List.not_mem_nil, or_false] at hc
    rcases hc with h | h | h | h | h <;> subst h <;> exact callClean_void rfl hr trivial

theorem life_lightData_bind {α : Type} {lo hi : Int} {light : Ptr} {radius : Int}
    {colour : List Num} {f : Unit → Exec α} (hp : PtrClean light) (hf : Life lo hi (f ())) :
    Life lo hi (lightData light radius colour >>= f) :=
  life_clean_bind (clean_lightData hp) (fun _ _ => hf)

theorem life_earlyReturn_bind {α : Type} {lo hi : Int} {c : Bool} {device : Ptr}
    {f : Unit → Exec α} (hp : PtrClean device) (hf : Life lo hi (f ())) :
    Life lo hi (ifThen c (invoke device .drop [] >>= fun _ => ret 1) >>= f) := by
  refine life_clean_bind ?_ (fun _ _ => hf)
  cases c with
  | false => simp [ifThen]
  | true =>
    cases device with
    | none => simp [ifThen, invoke, halt, Exec.bind]
    | some r =>
      intro d hd
      simp only [ifThen, invoke, ret, halt, bind_eq, Exec.bind, List.append_nil, if_true,
        List.mem_singleton] at hd
      subst hd
      exact callClean_void rfl (hp r rfl) trivial

theorem life_of_undefined {α : Type} {lo hi : Int} {x : Exec α}
    (h : x.result = .halt .undefined) : Life lo hi x := by
  constructor
  · intro a ha
    rw [h] at ha
    cases ha
  · intro code hc
    rw [h] at hc
    cases hc

theorem closed_block {lo hi : Int} {t : List Call} (objs : List Obj)
    (hwin : ∀ o ∈ objs, lo ≤ o.rank ∧ o.rank < hi)
    (hment : ∀ c ∈ t, ∀ o, o.isProduct = true → mentions o c = true → o ∈ objs)
    (hprod : ∀ c ∈ t, isFactory c.method = true → ∀ o, c.ret = .ptr (some o) → o ∈ objs)
    (hobjs : ∀ o ∈ objs, o.isProduct = true ∧ Complete o (t.filter (mentions o))) :
    Closed lo hi t := by
  refine ⟨?_, ?_, ?_⟩
  · intro c hc o ho hm
    exact hwin o (hment c hc o ho hm)
  · intro c hc hf o hr
    exact (hobjs o (hprod c hc hf o hr)).1
  · intro o ho
    by_cases hmem : o ∈ objs
    · exact Or.inr (hobjs o hmem).2
    · left
      refine List.filter_eq_nil_iff.2 (fun c hc hm => hmem (hment c hc o ho hm))

theorem ne_of_clean {r o : Obj} (hr : r.isProduct = false) (ho : o.isProduct = true) :
    r ≠ o := by
  intro h
  rw [h, ho] at hr
  cases hr

theorem mentions_iff (o : Obj) (c : Call) :
    mentions o c = true ↔
      (c.recv = some o ∨ Val.ptr (some o) ∈ c.args ∨ c.ret = .ptr (some o)) := by
  simp [mentions, or_assoc]

theorem mentions_false_iff (o : Obj) (c : Call) :
    mentions o c = false ↔
      (c.recv ≠ some o ∧ Val.ptr (some o) ∉ c.args ∧ c.ret ≠ .ptr (some o)) := by
  rw [← Bool.not_eq_true, mentions_iff]
  simp [not_or]

/-- A product created, handed to one consumer and dropped. -/
theorem closed_attachDrop {lo hi : Int} {s q : Obj} {m m2 : Method} {args : List Val}
    {ret : Val} {o : Obj} (hm : isFactory m = true)
    (hm2 : isAttach o ⟨some q, m2, [.ptr (some o)], ret⟩ = true)
    (hf2 : isFactory m2 = false)
    (hret : ∀ o', o'.isProduct = true → ret ≠ .ptr (some o'))
    (ho : o.isProduct = true) (h1 : lo ≤ o.rank) (h2 : o.rank < hi)
    (hs : s.isProduct = false) (hq : q.isProduct = false) (ha : ArgsClean args) :
    Closed lo hi [⟨some s, m, args, .ptr (some o)⟩, ⟨some q, m2, [.ptr (some o)], ret⟩,
      dropOf o] := by
  have hso : s ≠ o := ne_of_clean hs ho
  have hqo : q ≠ o := ne_of_clean hq ho
  refine closed_block [o] (by simpa using ⟨h1, h2⟩) ?_ ?_ ?_
  · intro c hc o' ho' hmen
    have hs' : s ≠ o' := ne_of_clean hs ho'
    have hq' : q ≠ o' := ne_of_clean hq ho'
    have ha' := argsClean_not_mem ha ho'
    have hr' := hret o' ho'
    rw [mentions_iff] at hmen
    simp only [List.mem_cons, List.mem_singleton, List.not_mem_nil, or_false] at hc ⊢
    rcases hc with rfl | rfl | rfl <;>
      simp only [dropOf, Option.some.injEq, List.mem_cons, List.mem_singleton,
        List.not_mem_nil, or_false, Val.ptr.injEq, false_or, or_false, hs', hq', ha', hr',
        reduceCtorEq] at hmen
    · exact hmen.symm
    · exact hmen
    · exact hmen.symm
  · intro c hc hf o' hr
    simp only [List.mem_cons, List.mem_singleton, List.not_mem_nil, or_false] at hc ⊢
    rcases hc with rfl | rfl | rfl
    · simp only [Val.ptr.injEq, Option.some.injEq] at hr
      exact hr.symm
    · rw [hf2] at hf
      cases hf
    · cases hr
  · intro o' ho'
    simp only [List.mem_singleton] at ho'
    subst ho'
    refine ⟨ho, ⟨some s, m, args, .ptr (some o')⟩, [⟨some q, m2, [.ptr (some o')], ret⟩],
      hm, rfl, by simp, ?_, ?_⟩
    · intro a ha'
      simp only [List.mem_singleton] at ha'
      subst ha'
      exact hm2
    · have e1 : mentions o' ⟨some s, m, args, .ptr (some o')⟩ = true := by
        rw [mentions_iff]; simp
      have e2 : mentions o' ⟨some q, m2, [.ptr (some o')], ret⟩ = true := by
        rw [mentions_iff]; simp
      have e3 : mentions o' (dropOf o') = true := by
        rw [mentions_iff]; simp [dropOf]
      simp only [List.filter_cons, e1, e2, e3, if_true, List.filter_nil, List.cons_append,
        List.nil_append]

theorem bind_pure_eq {α : Type} (x : Exec α) : x.bind (fun a => ⟨[], .ok a⟩) = x := by
  rcases x with ⟨t, r⟩
  cases r <;> simp [Exec.bind]

/-- A factory call that answers null. -/
theorem closed_nullFactory {lo hi : Int} {s : Obj} {m : Method} {args : List Val}
    (hs : s.isProduct = false) (ha : ArgsClean args) :
    Closed lo hi [⟨some s, m, args, .ptr none⟩] := by
  refine closed_block [] (by simp) ?_ ?_ (by simp)
  · intro c hc o' ho' hmen
    have hs' : s ≠ o' := ne_of_clean hs ho'
    have ha' := argsClean_not_mem ha ho'
    simp only [List.mem_singleton] at hc
    subst hc
    simp [mentions, hs', ha'] at hmen
  · intro c hc hf o' hr
    simp only [List.mem_singleton] at hc
    subst hc
    cases hr

/-- A triangle selector and the collision-response animator built on it. -/
theorem closed_collision {lo hi : Int} {s n cam : Obj} {m1 : Method} {args1 rest : List Val}
    {oSel oAnim : Obj} (hm1 : isFactory m1 = true) (hsel : oSel.isProduct = true)
    (hanim : oAnim.isProduct = true) (hne : oSel ≠ oAnim) (hrank : oAnim.rank = oSel.rank)
    (h1 : lo ≤ oSel.rank) (h2 : oSel.rank < hi) (hs : s.isProduct = false)
    (hn : n.isProduct = false) (hc : cam.isProduct = false) (ha1 : ArgsClean args1)
    (har : ArgsClean rest) :
    Closed lo hi
      [⟨some s, m1, args1, .ptr (some oSel)⟩,
       ⟨some n, .setTriangleSelector, [.ptr (some oSel)], .void⟩,
       ⟨some s, .createCollisionResponseAnimator,
         .ptr (some oSel) :: .ptr (some cam) :: rest, .ptr (some oAnim)⟩,
       dropOf oSel,
       ⟨some cam, .addAnimator, [.ptr (some oAnim)], .void⟩,
       dropOf oAnim] := by
  have hs1 : s ≠ oSel := ne_of_clean hs hsel
  have hs2 : s ≠ oAnim := ne_of_clean hs hanim
  have hn1 : n ≠ oSel := ne_of_clean hn hsel
  have hn2 : n ≠ oAnim := ne_of_clean hn hanim
  have hc1 : cam ≠ oSel := ne_of_clean hc hsel
  have hc2 : cam ≠ oAnim := ne_of_clean hc hanim
  have ha1s := argsClean_not_mem ha1 hsel
  have ha1a := argsClean_not_mem ha1 hanim
  have hars := argsClean_not_mem har hsel
  have hara := argsClean_not_mem har hanim
  refine closed_block [oSel, oAnim] ?_ ?_ ?_ ?_
  · intro o ho
    simp only [List.mem_cons, List.mem_singleton, List.not_mem_nil, or_false] at ho
    rcases ho with rfl | rfl
    · exact ⟨h1, h2⟩
    · rw [hrank]
      exact ⟨h1, h2⟩
  · intro c hcm o' ho' hmen
    have hs' : s ≠ o' := ne_of_clean hs ho'
    have hn' : n ≠ o' := ne_of_clean hn ho'
    have hc' : cam ≠ o' := ne_of_clean hc ho'
    have ha' := argsClean_not_mem ha1 ho'
    have hr' := argsClean_not_mem har ho'
    rw [mentions_iff] at hmen
    simp only [List.mem_cons, List.mem_singleton, List.not_mem_nil, or_false] at hcm ⊢
    rcases hcm with rfl | rfl | rfl | rfl | rfl | rfl <;>
      simp only [dropOf, Option.some.injEq, List.mem_cons, List.mem_singleton,
        List.not_mem_nil, or_false, Val.ptr.injEq, false_or, or_false, hs', hn', hc', ha', hr',
        reduceCtorEq] at hmen
    · exact Or.inl hmen.symm
    · exact Or.inl hmen
    · rcases hmen with (h | h) | h
      · exact Or.inl h
      · exact absurd h.symm hc'
      · exact Or.inr h.symm
    · exact Or.inl hmen.symm
    · exact Or.inr hmen
    · exact Or.inr hmen.symm
  · intro c hcm hf o' hr
    simp only [List.mem_cons, List.mem_singleton, List.not_mem_nil, or_false] at hcm ⊢
    rcases hcm with rfl | rfl | rfl | rfl | rfl | rfl <;>
      simp only [dropOf, Val.ptr.injEq, Option.some.injEq, reduceCtorEq] at hr
    · exact Or.inl hr.symm
    · exact Or.inr hr.symm
  · intro o' ho'
    simp only [List.mem_cons, List.mem_singleton, List.not_mem_nil, or_false] at ho'
    rcases ho' with rfl | rfl
    · refine ⟨hsel, ⟨some s, m1, args1, .ptr (some o')⟩,
        [⟨some n, .setTriangleSelector, [.ptr (some o')], .void⟩,
         ⟨some s, .createCollisionResponseAnimator,
           .ptr (some o') :: .ptr (some cam) :: rest, .ptr (some oAnim)⟩],
        hm1, rfl, by simp, ?_, ?_⟩
      · intro a ha'
        simp only [List.mem_cons, List.mem_singleton, List.not_mem_nil, or_false] at ha'
        rcases ha' with rfl | rfl <;> simp [isAttach, isAttachMethod, hn1, hs1, hne.symm]
      · have e1 : mentions o' ⟨some s, m1, args1, .ptr (some o')⟩ = true := by
          rw [mentions_iff]; simp
        have e2 : mentions o' ⟨some n, .setTriangleSelector, [.ptr (some o')], .void⟩ = true := by
          rw [mentions_iff]; simp
        have e3 : mentions o' ⟨some s, .createCollisionResponseAnimator,
            .ptr (some o') :: .ptr (some cam) :: rest, .ptr (some oAnim)⟩ = true := by
          rw [mentions_iff]; simp
        have e4 : mentions o' (dropOf o') = true := by
          rw [mentions_iff]; simp [dropOf]
        have e5 : mentions o' ⟨some cam, .addAnimator, [.ptr (some oAnim)], .void⟩ = false := by
          rw [mentions_false_iff]; simp [hc1, hne]
        have e6 : mentions o' (dropOf oAnim) = false := by
          rw [mentions_false_iff]; simp [dropOf, hne.symm]
        simp only [List.filter_cons, e1, e2, e3, e4, e5, e6, if_true, List.filter_nil,
          Bool.false_eq_true, if_false, List.cons_append, List.nil_append]
    · refine ⟨hanim, ⟨some s, .createCollisionResponseAnimator,
          .ptr (some oSel) :: .ptr (some cam) :: rest, .ptr (some o')⟩,
        [⟨some cam, .addAnimator, [.ptr (some o')], .void⟩], rfl, rfl, by simp, ?_, ?_⟩
      · intro a ha'
        simp only [List.mem_singleton] at ha'
        subst ha'
        simp [isAttach, isAttachMethod, hc2]
      · have e1 : mentions o' ⟨some s, m1, args1, .ptr (some oSel)⟩ = false := by
          rw [mentions_false_iff]; simp [hs2, ha1a, hne]
        have e2 : mentions o' ⟨some n, .setTriangleSelector, [.ptr (some oSel)], .void⟩
            = false := by
          rw [mentions_false_iff]; simp [hn2, hne.symm]
        have e3 : mentions o' ⟨some s, .createCollisionResponseAnimator,
            .ptr (some oSel) :: .ptr (some cam) :: rest, .ptr (some o')⟩ = true := by
          rw [mentions_iff]; simp
        have e4 : mentions o' (dropOf oSel) = false := by
          rw [mentions_false_iff]; simp [dropOf, hne]
        have e5 : mentions o' ⟨some cam, .addAnimator, [.ptr (some o')], .void⟩ = true := by
          rw [mentions_iff]; simp
        have e6 : mentions o' (dropOf o') = true := by
          rw [mentions_iff]; simp [dropOf]
        simp only [List.filter_cons, e1, e2, e3, e4, e5, e6, if_true, List.filter_nil,
          Bool.false_eq_true, if_false, List.cons_append, List.nil_append]

theorem life_block_bind {α : Type} {lo hi m : Int} {t : List Call} {f : Unit → Exec α}
    (ht : Closed lo m t) (hlo : lo ≤ m) (hhi : m ≤ hi) (hf : Life m hi (f ())) :
    Life lo hi ((⟨t, .ok ()⟩ : Exec Unit) >>= f) :=
  life_bind hlo hhi ⟨fun _ _ => ht, fun _ h => by cases h⟩ (fun _ _ => hf)

/-- The statements `a = p->create…(args); q->attach(a); a->drop();`. -/
theorem life_attachDrop_bind {α : Type} {e : Engine} {lo hi : Int} {p q : Ptr}
    {m m2 : Method} {args : List Val} {o : Obj} {f : Unit → Exec α}
    (hm : isFactory m = true)
    (hm2 : isAttachMethod m2 = true)
    (hf2 : isFactory m2 = false)
    (ho : o.isProduct = true) (h1 : lo ≤ o.rank) (h2 : o.rank < hi) (hp : PtrClean p)
    (hq : PtrClean q) (ha : ArgsClean args) (hf : Life (o.rank + 1) hi (f ())) :
    Life lo hi (create e p m args o >>= fun a =>
      invoke q m2 [.ptr a] >>= fun _ => invoke a .drop [] >>= f) := by
  cases p with
  | none => exact life_of_undefined (by simp [create, halt, Exec.bind])
  | some s =>
    cases hn : e.nonNull o
    · refine life_of_undefined ?_
      cases q <;> simp [create, invoke, Engine.make, hn, halt, Exec.bind]
    · cases q with
      | none =>
        exact life_of_undefined (by simp [create, invoke, Engine.make, hn, halt, Exec.bind])
      | some r =>
        have hro : r ≠ o := ne_of_clean (hq r rfl) ho
        have heq : (create e (some s) m args o >>= fun a =>
            invoke (some r) m2 [.ptr a] >>= fun _ => invoke a .drop [] >>= f) =
            ((⟨[⟨some s, m, args, .ptr (some o)⟩, ⟨some r, m2, [.ptr (some o)], .void⟩,
              dropOf o], .ok ()⟩ : Exec Unit) >>= f) := by
          rcases hr : (f ()).result with b | oc <;>
            simp [create, invoke, Engine.make, hn, Exec.bind, dropOf, hr]
        rw [heq]
        exact life_block_bind (m := o.rank + 1)
          (closed_attachDrop hm (by simp [isAttach, hm2, hro]) hf2 (fun _ _ h => by cases h) ho h1
            (by omega) (hp s rfl)
            (hq r rfl) ha) (by omega) (by omega) hf

theorem life_attachDrop {e : Engine} {lo hi : Int} {p q : Ptr}
    {m m2 : Method} {args : List Val} {o : Obj}
    (hm : isFactory m = true)
    (hm2 : isAttachMethod m2 = true)
    (hf2 : isFactory m2 = false)
    (ho : o.isProduct = true) (h1 : lo ≤ o.rank) (h2 : o.rank < hi) (hp : PtrClean p)
    (hq : PtrClean q) (ha : ArgsClean args) :
    Life lo hi (create e p m args o >>= fun a =>
      invoke q m2 [.ptr a] >>= fun _ => invoke a .drop []) := by
  have h := life_attachDrop_bind (e := e) (f := fun u => (pure u : Exec Unit)) hm hm2 hf2 ho h1
    h2 hp hq ha (life_pure _)
  simpa [bind_pure_eq] using h

/-- The statements `a = p->create…(args); if (a) { q->addAnimator(a); a->drop(); }`. -/
theorem life_checkedAnim_bind {α : Type} {e : Engine} {lo hi : Int} {p q : Ptr}
    {m : Method} {args : List Val} {o : Obj} {f : Unit → Exec α}
    (hm : isFactory m = true) (ho : o.isProduct = true) (h1 : lo ≤ o.rank)
    (h2 : o.rank < hi) (hp : PtrClean p) (hq : PtrClean q) (ha : ArgsClean args)
    (hf : Life (o.rank + 1) hi (f ())) :
    Life lo hi (create e p m args o >>= fun a =>
      ifThen a.isSome (invoke q .addAnimator [.ptr a] >>= fun _ => invoke a .drop [])
        >>= f) := by
  cases p with
  | none => exact life_of_undefined (by simp [create, halt, Exec.bind])
  | some s =>
    cases hn : e.nonNull o
    · have heq : (create e (some s) m args o >>= fun a =>
          ifThen a.isSome (invoke q .addAnimator [.ptr a] >>= fun _ => invoke a .drop [])
            >>= f) =
          ((⟨[⟨some s, m, args, .ptr none⟩], .ok ()⟩ : Exec Unit) >>= f) := by
        rcases hr : (f ()).result with b | oc <;>
          simp [create, ifThen, Engine.make, hn, Exec.bind, hr]
      rw [heq]
      exact life_block_bind (m := o.rank + 1) (closed_nullFactory (hp s rfl) ha) (by omega)
        (by omega) hf
    · cases q with
      | none =>
        exact life_of_undefined (by
          simp [create, invoke, ifThen, Engine.make, hn, halt, Exec.bind])
      | some r =>
        have hro : r ≠ o := ne_of_clean (hq r rfl) ho
        have heq : (create e (some s) m args o >>= fun a =>
            ifThen a.isSome (invoke (some r) .addAnimator [.ptr a] >>= fun _ =>
              invoke a .drop []) >>= f) =
            ((⟨[⟨some s, m, args, .ptr (some o)⟩,
              ⟨some r, .addAnimator, [.ptr (some o)], .void⟩,
              dropOf o], .ok ()⟩ : Exec Unit) >>= f) := by
          rcases hr : (f ()).result with b | oc <;>
            simp [create, invoke, ifThen, Engine.make, hn, Exec.bind, dropOf, hr]
        rw [heq]
        exact life_block_bind (m := o.rank + 1)
          (closed_attachDrop hm (by simp [isAttach, isAttachMethod, hro]) rfl (fun _ _ h => by cases h) ho h1
            (by omega) (hp s rfl)
            (hq r rfl) ha) (by omega) (by omega) hf

theorem life_checkedAnim {e : Engine} {lo hi : Int} {p q : Ptr}
    {m : Method} {args : List Val} {o : Obj}
    (hm : isFactory m = true) (ho : o.isProduct = true) (h1 : lo ≤ o.rank)
    (h2 : o.rank < hi) (hp : PtrClean p) (hq : PtrClean q) (ha : ArgsClean args) :
    Life lo hi (create e p m args o >>= fun a =>
      ifThen a.isSome (invoke q .addAnimator [.ptr a] >>= fun _ => invoke a .drop [])) := by
  have h := life_checkedAnim_bind (e := e) (f := fun u => (pure u : Exec Unit)) hm ho h1 h2 hp hq
    ha (life_pure _)
  simpa [bind_pure_eq] using h

/-- The statements that build a triangle selector, set it on its node, build the
collision-response animator of the camera on it, drop the selector, add the animator
to the camera and drop the animator. -/
theorem life_collision_bind {α : Type} {e : Engine} {lo hi : Int} {smgr node camnode : Ptr}
    {m1 : Method} {args1 rest : List Val} {oSel oAnim : Obj} {f : Unit → Exec α}
    (hm1 : isFactory m1 = true) (hsel : oSel.isProduct = true)
    (hanim : oAnim.isProduct = true) (hne : oSel ≠ oAnim) (hrank : oAnim.rank = oSel.rank)
    (h1 : lo ≤ oSel.rank) (h2 : oSel.rank < hi) (hs : PtrClean smgr) (hn : PtrClean node)
    (hc : PtrClean camnode) (ha1 : ArgsClean args1) (har : ArgsClean rest)
    (hf : Life (oSel.rank + 1) hi (f ())) :
    Life lo hi (create e smgr m1 args1 oSel >>= fun selector =>
      invoke node .setTriangleSelector [.ptr selector] >>= fun _ =>
      create e smgr .createCollisionResponseAnimator
        (.ptr selector :: .ptr camnode :: rest) oAnim >>= fun anim =>
      invoke selector .drop [] >>= fun _ =>
      invoke camnode .addAnimator [.ptr anim] >>= fun _ =>
      invoke anim .drop [] >>= f) := by
  cases smgr with
  | none => exact life_of_undefined (by simp [create, halt, Exec.bind])
  | some s =>
    cases node with
    | none => exact life_of_undefined (by simp [create, invoke, halt, Exec.bind])
    | some n =>
      cases hn1 : e.nonNull oSel
      · exact life_of_undefined (by
          simp [create, invoke, Engine.make, hn1, halt, Exec.bind])
      · cases camnode with
        | none =>
          exact life_of_undefined (by
            simp [create, invoke, Engine.make, hn1, halt, Exec.bind])
        | some cam =>
          cases hn2 : e.nonNull oAnim
          · exact life_of_undefined (by
              simp [create, invoke, Engine.make, hn1, hn2, halt, Exec.bind])
          · have heq : (create e (some s) m1 args1 oSel >>= fun selector =>
                invoke (some n) .setTriangleSelector [.ptr selector] >>= fun _ =>
                create e (some s) .createCollisionResponseAnimator
                  (.ptr selector :: .ptr (some cam) :: rest) oAnim >>= fun anim =>
                invoke selector .drop [] >>= fun _ =>
                invoke (some cam) .addAnimator [.ptr anim] >>= fun _ =>
                invoke anim .drop [] >>= f) =
                ((⟨[⟨some s, m1, args1, .ptr (some oSel)⟩,
                  ⟨some n, .setTriangleSelector, [.ptr (some oSel)], .void⟩,
                  ⟨some s, .createCollisionResponseAnimator,
                    .ptr (some oSel) :: .ptr (some cam) :: rest, .ptr (some oAnim)⟩,
                  dropOf oSel,
                  ⟨some cam, .addAnimator, [.ptr (some oAnim)], .void⟩,
                  dropOf oAnim], .ok ()⟩ : Exec Unit) >>= f) := by
              rcases hr : (f ()).result with b | oc <;>
                simp [create, invoke, Engine.make, hn1, hn2, Exec.bind, dropOf, hr]
            rw [heq]
            exact life_block_bind (m := oSel.rank + 1)
              (closed_collision hm1 hsel hanim hne hrank h1 (by omega) (hs s rfl) (hn n rfl)
                (hc cam rfl) ha1 har) (by omega) (by omega) hf

theorem life_collision {e : Engine} {lo hi : Int} {smgr node camnode : Ptr}
    {m1 : Method} {args1 rest : List Val} {oSel oAnim : Obj}
    (hm1 : isFactory m1 = true) (hsel : oSel.isProduct = true)
    (hanim : oAnim.isProduct = true) (hne : oSel ≠ oAnim) (hrank : oAnim.rank = oSel.rank)
    (h1 : lo ≤ oSel.rank) (h2 : oSel.rank < hi) (hs : PtrClean smgr) (hn : PtrClean node)
    (hc : PtrClean camnode) (ha1 : ArgsClean args1) (har : ArgsClean rest) :
    Life lo hi (create e smgr m1 args1 oSel >>= fun selector =>
      invoke node .setTriangleSelector [.ptr selector] >>= fun _ =>
      create e smgr .createCollisionResponseAnimator
        (.ptr selector :: .ptr camnode :: rest) oAnim >>= fun anim =>
      invoke selector .drop [] >>= fun _ =>
      invoke camnode .addAnimator [.ptr anim] >>= fun _ =>
      invoke anim .drop []) := by
  have h := life_collision_bind (e := e) (f := fun u => (pure u : Exec Unit)) hm1 hsel hanim hne
    hrank h1 h2 hs hn hc ha1 har (life_pure _)
  simpa [bind_pure_eq] using h

theorem life_characterSection {e : Engine} {lo hi : Int} (device driver smgr : Ptr) (hdevice : PtrClean device) (hdriver : PtrClean driver) (hsmgr : PtrClean smgr) :
    Life lo hi (characterSection e device driver smgr) := by
  unfold characterSection
  repeat' first
    | with_reducible exact life_pure _
    | with_reducible refine life_checkedAnim_bind ?_ ?_ ?_ ?_ ?_ ?_ ?_ ?_
    | with_reducible refine life_checkedAnim ?_ ?_ ?_ ?_ ?_ ?_ ?_
    | with_reducible refine life_collision_bind ?_ ?_ ?_ ?_ ?_ ?_ ?_ ?_ ?_ ?_ ?_ ?_ ?_
    | with_reducible refine life_collision ?_ ?_ ?_ ?_ ?_ ?_ ?_ ?_ ?_ ?_ ?_ ?_
    | with_reducible refine life_attachDrop_bind ?_ ?_ ?_ ?_ ?_ ?_ ?_ ?_ ?_ ?_
    | with_reducible refine life_attachDrop ?_ ?_ ?_ ?_ ?_ ?_ ?_ ?_ ?_
    | with_reducible refine life_invoke_bind ?_ ?_ ?_ ?_
    | with_reducible refine life_create_bind ?_ ?_ ?_ ?_ ?_
    | with_reducible refine life_getter_bind ?_ ?_ ?_ ?_ ?_
    | with_reducible refine life_getPosition_bind ?_ ?_
    | with_reducible refine life_lightData_bind ?_ ?_
    | with_reducible refine life_earlyReturn_bind ?_ ?_
    | with_reducible refine life_invoke ?_ ?_ ?_
    | with_reducible refine life_ifThen ?_
    | with_reducible refine life_ite ?_ ?_
    | rfl
    | exact ptrClean_make rfl
    | exact ptrClean_some rfl
    | exact ptrClean_none
    | assumption
    | (intro h; cases h)
    | apply And.intro
    | simp only [ArgsClean, vec, and_true, true_and]
    | (simp only [Obj.rank, Obj.of] at *; omega)
    | omega
    | intro _

theorem life_lightsSection {e : Engine} {lo hi : Int} (driver smgr : Ptr) (h1 : lo ≤ 1) (h2 : 1 < hi) (hdriver : PtrClean driver) (hsmgr : PtrClean smgr) :
    Life lo hi (lightsSection e driver smgr) := by
  unfold lightsSection
  repeat' first
    | with_reducible exact life_pure _
    | with_reducible refine life_checkedAnim_bind ?_ ?_ ?_ ?_ ?_ ?_ ?_ ?_
    | with_reducible refine life_checkedAnim ?_ ?_ ?_ ?_ ?_ ?_ ?_
    | with_reducible refine life_collision_bind ?_ ?_ ?_ ?_ ?_ ?_ ?_ ?_ ?_ ?_ ?_ ?_ ?_
    | with_reducible refine life_collision ?_ ?_ ?_ ?_ ?_ ?_ ?_ ?_ ?_ ?_ ?_ ?_
    | with_reducible refine life_attachDrop_bind ?_ ?_ ?_ ?_ ?_ ?_ ?_ ?_ ?_ ?_
    | with_reducible refine life_attachDrop ?_ ?_ ?_ ?_ ?_ ?_ ?_ ?_ ?_
    | with_reducible refine life_invoke_bind ?_ ?_ ?_ ?_
    | with_reducible refine life_create_bind ?_ ?_ ?_ ?_ ?_
    | with_reducible refine life_getter_bind ?_ ?_ ?_ ?_ ?_
    | with_reducible refine life_getPosition_bind ?_ ?_
    | with_reducible refine life_lightData_bind ?_ ?_
    | with_reducible refine life_earlyReturn_bind ?_ ?_
    | with_reducible refine life_invoke ?_ ?_ ?_
    | with_reducible refine life_ifThen ?_
    | with_reducible refine life_ite ?_ ?_
    | rfl
    | exact ptrClean_make rfl
    | exact ptrClean_some rfl
    | exact ptrClean_none
    | assumption
    | (intro h; cases h)
    | apply And.intro
    | simp only [ArgsClean, vec, and_true, true_and]
    | (simp only [Obj.rank, Obj.of] at *; omega)
    | omega
    | intro _

theorem life_waterSection {e : Engine} {lo hi : Int} (driver smgr : Ptr) (hdriver : PtrClean driver) (hsmgr : PtrClean smgr) :
    Life lo hi (waterSection e driver smgr) := by
  unfold waterSection
  repeat' first
    | with_reducible exact life_pure _
    | with_reducible refine life_checkedAnim_bind ?_ ?_ ?_ ?_ ?_ ?_ ?_ ?_
    | with_reducible refine life_checkedAnim ?_ ?_ ?_ ?_ ?_ ?_ ?_
    | with_reducible refine life_collision_bind ?_ ?_ ?_ ?_ ?_ ?_ ?_ ?_ ?_ ?_ ?_ ?_ ?_
    | with_reducible refine life_collision ?_ ?_ ?_ ?_ ?_ ?_ ?_ ?_ ?_ ?_ ?_ ?_
    | with_reducible refine life_attachDrop_bind ?_ ?_ ?_ ?_ ?_ ?_ ?_ ?_ ?_ ?_
    | with_reducible refine life_attachDrop ?_ ?_ ?_ ?_ ?_ ?_ ?_ ?_ ?_
    | with_reducible refine life_invoke_bind ?_ ?_ ?_ ?_
    | with_reducible refine life_create_bind ?_ ?_ ?_ ?_ ?_
    | with_reducible refine life_getter_bind ?_ ?_ ?_ ?_ ?_
    | with_reducible refine life_getPosition_bind ?_ ?_
    | with_reducible refine life_lightData_bind ?_ ?_
    | with_reducible refine life_earlyReturn_bind ?_ ?_
    | with_reducible refine life_invoke ?_ ?_ ?_
    | with_reducible refine life_ifThen ?_
    | with_reducible refine life_ite ?_ ?_
    | rfl
    | exact ptrClean_make rfl
    | exact ptrClean_some rfl
    | exact ptrClean_none
    | assumption
    | (intro h; cases h)
    | apply And.intro
    | simp only [ArgsClean, vec, and_true, true_and]
    | (simp only [Obj.rank, Obj.of] at *; omega)
    | omega
    | intro _

theorem life_terrainSection {e : Engine} {lo hi : Int} (driver smgr : Ptr) (hdriver : PtrClean driver) (hsmgr : PtrClean smgr) :
    Life lo hi (terrainSection e driver smgr) := by
  unfold terrainSection
  repeat' first
    | with_reducible exact life_pure _
    | with_reducible refine life_checkedAnim_bind ?_ ?_ ?_ ?_ ?_ ?_ ?_ ?_
    | with_reducible refine life_checkedAnim ?_ ?_ ?_ ?_ ?_ ?_ ?_
    | with_reducible refine life_collision_bind ?_ ?_ ?_ ?_ ?_ ?_ ?_ ?_ ?_ ?_ ?_ ?_ ?_
    | with_reducible refine life_collision ?_ ?_ ?_ ?_ ?_ ?_ ?_ ?_ ?_ ?_ ?_ ?_
    | with_reducible refine life_attachDrop_bind ?_ ?_ ?_ ?_ ?_ ?_ ?_ ?_ ?_ ?_
    | with_reducible refine life_attachDrop ?_ ?_ ?_ ?_ ?_ ?_ ?_ ?_ ?_
    | with_reducible refine life_invoke_bind ?_ ?_ ?_ ?_
    | with_reducible refine life_create_bind ?_ ?_ ?_ ?_ ?_
    | with_reducible refine life_getter_bind ?_ ?_ ?_ ?_ ?_
    | with_reducible refine life_getPosition_bind ?_ ?_
    | with_reducible refine life_lightData_bind ?_ ?_
    | with_reducible refine life_earlyReturn_bind ?_ ?_
    | with_reducible refine life_invoke ?_ ?_ ?_
    | with_reducible refine life_ifThen ?_
    | with_reducible refine life_ite ?_ ?_
    | rfl
    | exact ptrClean_make rfl
    | exact ptrClean_some rfl
    | exact ptrClean_none
    | assumption
    | (intro h; cases h)
    | apply And.intro
    | simp only [ArgsClean, vec, and_true, true_and]
    | (simp only [Obj.rank, Obj.of] at *; omega)
    | omega
    | intro _

theorem life_skySection {e : Engine} {lo hi : Int} (driver smgr : Ptr) (hdriver : PtrClean driver) (hsmgr : PtrClean smgr) :
    Life lo hi (skySection e driver smgr) := by
  unfold skySection
  repeat' first
    | with_reducible exact life_pure _
    | with_reducible refine life_checkedAnim_bind ?_ ?_ ?_ ?_ ?_ ?_ ?_ ?_
    | with_reducible refine life_checkedAnim ?_ ?_ ?_ ?_ ?_ ?_ ?_
    | with_reducible refine life_collision_bind ?_ ?_ ?_ ?_ ?_ ?_ ?_ ?_ ?_ ?_ ?_ ?_ ?_
    | with_reducible refine life_collision ?_ ?_ ?_ ?_ ?_ ?_ ?_ ?_ ?_ ?_ ?_ ?_
    | with_reducible refine life_attachDrop_bind ?_ ?_ ?_ ?_ ?_ ?_ ?_ ?_ ?_ ?_
    | with_reducible refine life_attachDrop ?_ ?_ ?_ ?_ ?_ ?_ ?_ ?_ ?_
    | with_reducible refine life_invoke_bind ?_ ?_ ?_ ?_
    | with_reducible refine life_create_bind ?_ ?_ ?_ ?_ ?_
    | with_reducible refine life_getter_bind ?_ ?_ ?_ ?_ ?_
    | with_reducible refine life_getPosition_bind ?_ ?_
    | with_reducible refine life_lightData_bind ?_ ?_
    | with_reducible refine life_earlyReturn_bind ?_ ?_
    | with_reducible refine life_invoke ?_ ?_ ?_
    | with_reducible refine life_ifThen ?_
    | with_reducible refine life_ite ?_ ?_
    | rfl
    | exact ptrClean_make rfl
    | exact ptrClean_some rfl
    | exact ptrClean_none
    | assumption
    | (intro h; cases h)
    | apply And.intro
    | simp only [ArgsClean, vec, and_true, true_and]
    | (simp only [Obj.rank, Obj.of] at *; omega)
    | omega
    | intro _

theorem life_cameraSection {e : Engine} {lo hi : Int} (device smgr : Ptr) (keys : List SKeyMap) (hdevice : PtrClean device) (hsmgr : PtrClean smgr) :
    Life lo hi (cameraSection e device smgr keys) := by
  unfold cameraSection
  repeat' first
    | with_reducible exact life_pure _
    | with_reducible refine life_checkedAnim_bind ?_ ?_ ?_ ?_ ?_ ?_ ?_ ?_
    | with_reducible refine life_checkedAnim ?_ ?_ ?_ ?_ ?_ ?_ ?_
    | with_reducible refine life_collision_bind ?_ ?_ ?_ ?_ ?_ ?_ ?_ ?_ ?_ ?_ ?_ ?_ ?_
    | with_reducible refine life_collision ?_ ?_ ?_ ?_ ?_ ?_ ?_ ?_ ?_ ?_ ?_ ?_
    | with_reducible refine life_attachDrop_bind ?_ ?_ ?_ ?_ ?_ ?_ ?_ ?_ ?_ ?_
    | with_reducible refine life_attachDrop ?_ ?_ ?_ ?_ ?_ ?_ ?_ ?_ ?_
    | with_reducible refine life_invoke_bind ?_ ?_ ?_ ?_
    | with_reducible refine life_create_bind ?_ ?_ ?_ ?_ ?_
    | with_reducible refine life_getter_bind ?_ ?_ ?_ ?_ ?_
    | with_reducible refine life_getPosition_bind ?_ ?_
    | with_reducible refine life_lightData_bind ?_ ?_
    | with_reducible refine life_earlyReturn_bind ?_ ?_
    | with_reducible refine life_invoke ?_ ?_ ?_
    | with_reducible refine life_ifThen ?_
    | with_reducible refine life_ite ?_ ?_
    | rfl
    | exact ptrClean_make rfl
    | exact ptrClean_some rfl
    | exact ptrClean_none
    | assumption
    | (intro h; cases h)
    | apply And.intro
    | simp only [ArgsClean, vec, and_true, true_and]
    | (simp only [Obj.rank, Obj.of] at *; omega)
    | omega
    | intro _

theorem life_terrainCollision {e : Engine} {lo hi : Int} (smgr terrain camnode : Ptr) (h1 : lo ≤ 2) (h2 : 2 < hi) (hsmgr : PtrClean smgr) (hterrain : PtrClean terrain) (hcamnode : PtrClean camnode) :
    Life lo hi (terrainCollision e smgr terrain camnode) := by
  unfold terrainCollision
  repeat' first
    | with_reducible exact life_pure _
    | with_reducible refine life_checkedAnim_bind ?_ ?_ ?_ ?_ ?_ ?_ ?_ ?_
    | with_reducible refine life_checkedAnim ?_ ?_ ?_ ?_ ?_ ?_ ?_
    | with_reducible refine life_collision_bind ?_ ?_ ?_ ?_ ?_ ?_ ?_ ?_ ?_ ?_ ?_ ?_ ?_
    | with_reducible refine life_collision ?_ ?_ ?_ ?_ ?_ ?_ ?_ ?_ ?_ ?_ ?_ ?_
    | with_reducible refine life_attachDrop_bind ?_ ?_ ?_ ?_ ?_ ?_ ?_ ?_ ?_ ?_
    | with_reducible refine life_attachDrop ?_ ?_ ?_ ?_ ?_ ?_ ?_ ?_ ?_
    | with_reducible refine life_invoke_bind ?_ ?_ ?_ ?_
    | with_reducible refine life_create_bind ?_ ?_ ?_ ?_ ?_
    | with_reducible refine life_getter_bind ?_ ?_ ?_ ?_ ?_
    | with_reducible refine life_getPosition_bind ?_ ?_
    | with_reducible refine life_lightData_bind ?_ ?_
    | with_reducible refine life_earlyReturn_bind ?_ ?_
    | with_reducible refine life_invoke ?_ ?_ ?_
    | with_reducible refine life_ifThen ?_
    | with_reducible refine life_ite ?_ ?_
    | rfl
    | exact ptrClean_make rfl
    | exact ptrClean_some rfl
    | exact ptrClean_none
    | assumption
    | (intro h; cases h)
    | apply And.intro
    | simp only [ArgsClean, vec, and_true, true_and]
    | (simp only [Obj.rank, Obj.of] at *; omega)
    | omega
    | intro _

theorem life_sphereSection {e : Engine} {lo hi : Int} (driver smgr : Ptr) (h1 : lo ≤ 3) (h2 : 3 < hi) (hdriver : PtrClean driver) (hsmgr : PtrClean smgr) :
    Life lo hi (sphereSection e driver smgr) := by
  unfold sphereSection
  repeat' first
    | with_reducible exact life_pure _
    | with_reducible refine life_checkedAnim_bind ?_ ?_ ?_ ?_ ?_ ?_ ?_ ?_
    | with_reducible refine life_checkedAnim ?_ ?_ ?_ ?_ ?_ ?_ ?_
    | with_reducible refine life_collision_bind ?_ ?_ ?_ ?_ ?_ ?_ ?_ ?_ ?_ ?_ ?_ ?_ ?_
    | with_reducible refine life_collision ?_ ?_ ?_ ?_ ?_ ?_ ?_ ?_ ?_ ?_ ?_ ?_
    | with_reducible refine life_attachDrop_bind ?_ ?_ ?_ ?_ ?_ ?_ ?_ ?_ ?_ ?_
    | with_reducible refine life_attachDrop ?_ ?_ ?_ ?_ ?_ ?_ ?_ ?_ ?_
    | with_reducible refine life_invoke_bind ?_ ?_ ?_ ?_
    | with_reducible refine life_create_bind ?_ ?_ ?_ ?_ ?_
    | with_reducible refine life_getter_bind ?_ ?_ ?_ ?_ ?_
    | with_reducible refine life_getPosition_bind ?_ ?_
    | with_reducible refine life_lightData_bind ?_ ?_
    | with_reducible refine life_earlyReturn_bind ?_ ?_
    | with_reducible refine life_invoke ?_ ?_ ?_
    | with_reducible refine life_ifThen ?_
    | with_reducible refine life_ite ?_ ?_
    | rfl
    | exact ptrClean_make rfl
    | exact ptrClean_some rfl
    | exact ptrClean_none
    | assumption
    | (intro h; cases h)
    | apply And.intro
    | simp only [ArgsClean, vec, and_true, true_and]
    | (simp only [Obj.rank, Obj.of] at *; omega)
    | omega
    | intro _

theorem life_motherShipSection {e : Engine} {lo hi : Int} (device smgr camnode : Ptr) (h1 : lo ≤ 20) (h2 : 20 < hi) (hdevice : PtrClean device) (hsmgr : PtrClean smgr) (hcamnode : PtrClean camnode) :
    Life lo hi (motherShipSection e device smgr camnode) := by
  unfold motherShipSection
  repeat' first
    | with_reducible exact life_pure _
    | with_reducible refine life_checkedAnim_bind ?_ ?_ ?_ ?_ ?_ ?_ ?_ ?_
    | with_reducible refine life_checkedAnim ?_ ?_ ?_ ?_ ?_ ?_ ?_
    | with_reducible refine life_collision_bind ?_ ?_ ?_ ?_ ?_ ?_ ?_ ?_ ?_ ?_ ?_ ?_ ?_
    | with_reducible refine life_collision ?_ ?_ ?_ ?_ ?_ ?_ ?_ ?_ ?_ ?_ ?_ ?_
    | with_reducible refine life_attachDrop_bind ?_ ?_ ?_ ?_ ?_ ?_ ?_ ?_ ?_ ?_
    | with_reducible refine life_attachDrop ?_ ?_ ?_ ?_ ?_ ?_ ?_ ?_ ?_
    | with_reducible refine life_invoke_bind ?_ ?_ ?_ ?_
    | with_reducible refine life_create_bind ?_ ?_ ?_ ?_ ?_
    | with_reducible refine life_getter_bind ?_ ?_ ?_ ?_ ?_
    | with_reducible refine life_getPosition_bind ?_ ?_
    | with_reducible refine life_lightData_bind ?_ ?_
    | with_reducible refine life_earlyReturn_bind ?_ ?_
    | with_reducible refine life_invoke ?_ ?_ ?_
    | with_reducible refine life_ifThen ?_
    | with_reducible refine life_ite ?_ ?_
    | rfl
    | exact ptrClean_make rfl
    | exact ptrClean_some rfl
    | exact ptrClean_none
    | assumption
    | (intro h; cases h)
    | apply And.intro
    | simp only [ArgsClean, vec, and_true, true_and]
    | (simp only [Obj.rank, Obj.of] at *; omega)
    | omega
    | intro _

theorem life_ufoSection {e : Engine} {lo hi : Int} (device smgr : Ptr) (h1 : lo ≤ 21) (h2 : 21 < hi) (hdevice : PtrClean device) (hsmgr : PtrClean smgr) :
    Life lo hi (ufoSection e device smgr) := by
  unfold ufoSection
  repeat' first
    | with_reducible exact life_pure _
    | with_reducible refine life_checkedAnim_bind ?_ ?_ ?_ ?_ ?_ ?_ ?_ ?_
    | with_reducible refine life_checkedAnim ?_ ?_ ?_ ?_ ?_ ?_ ?_
    | with_reducible refine life_collision_bind ?_ ?_ ?_ ?_ ?_ ?_ ?_ ?_ ?_ ?_ ?_ ?_ ?_
    | with_reducible refine life_collision ?_ ?_ ?_ ?_ ?_ ?_ ?_ ?_ ?_ ?_ ?_ ?_
    | with_reducible refine life_attachDrop_bind ?_ ?_ ?_ ?_ ?_ ?_ ?_ ?_ ?_ ?_
    | with_reducible refine life_attachDrop ?_ ?_ ?_ ?_ ?_ ?_ ?_ ?_ ?_
    | with_reducible refine life_invoke_bind ?_ ?_ ?_ ?_
    | with_reducible refine life_create_bind ?_ ?_ ?_ ?_ ?_
    | with_reducible refine life_getter_bind ?_ ?_ ?_ ?_ ?_
    | with_reducible refine life_getPosition_bind ?_ ?_
    | with_reducible refine life_lightData_bind ?_ ?_
    | with_reducible refine life_earlyReturn_bind ?_ ?_
    | with_reducible refine life_invoke ?_ ?_ ?_
    | with_reducible refine life_ifThen ?_
    | with_reducible refine life_ite ?_ ?_
    | rfl
    | exact ptrClean_make rfl
    | exact ptrClean_some rfl
    | exact ptrClean_none
    | assumption
    | (intro h; cases h)
    | apply And.intro
    | simp only [ArgsClean, vec, and_true, true_and]
    | (simp only [Obj.rank, Obj.of] at *; omega)
    | omega
    | intro _

theorem life_particleSection {e : Engine} {lo hi : Int} (driver smgr waterNode : Ptr) (h1 : lo ≤ 22) (h2 : 23 < hi) (hdriver : PtrClean driver) (hsmgr : PtrClean smgr) (hwaterNode : PtrClean waterNode) :
    Life lo hi (particleSection e driver smgr waterNode) := by
  unfold particleSection
  repeat' first
    | with_reducible exact life_pure _
    | with_reducible refine life_checkedAnim_bind ?_ ?_ ?_ ?_ ?_ ?_ ?_ ?_
    | with_reducible refine life_checkedAnim ?_ ?_ ?_ ?_ ?_ ?_ ?_
    | with_reducible refine life_collision_bind ?_ ?_ ?_ ?_ ?_ ?_ ?_ ?_ ?_ ?_ ?_ ?_ ?_
    | with_reducible refine life_collision ?_ ?_ ?_ ?_ ?_ ?_ ?_ ?_ ?_ ?_ ?_ ?_
    | with_reducible refine life_attachDrop_bind ?_ ?_ ?_ ?_ ?_ ?_ ?_ ?_ ?_ ?_
    | with_reducible refine life_attachDrop ?_ ?_ ?_ ?_ ?_ ?_ ?_ ?_ ?_
    | with_reducible refine life_invoke_bind ?_ ?_ ?_ ?_
    | with_reducible refine life_create_bind ?_ ?_ ?_ ?_ ?_
    | with_reducible refine life_getter_bind ?_ ?_ ?_ ?_ ?_
    | with_reducible refine life_getPosition_bind ?_ ?_
    | with_reducible refine life_lightData_bind ?_ ?_
    | with_reducible refine life_earlyReturn_bind ?_ ?_
    | with_reducible refine life_invoke ?_ ?_ ?_
    | with_reducible refine life_ifThen ?_
    | with_reducible refine life_ite ?_ ?_
    | rfl
    | exact ptrClean_make rfl
    | exact ptrClean_some rfl
    | exact ptrClean_none
    | assumption
    | (intro h; cases h)
    | apply And.intro
    | simp only [ArgsClean, vec, and_true, true_and]
    | (simp only [Obj.rank, Obj.of] at *; omega)
    | omega
    | intro _

theorem life_ufo2Section {e : Engine} {lo hi : Int} (device smgr : Ptr) (h1 : lo ≤ 24) (h2 : 24 < hi) (hdevice : PtrClean device) (hsmgr : PtrClean smgr) :
    Life lo hi (ufo2Section e device smgr) := by
  unfold ufo2Section
  repeat' first
    | with_reducible exact life_pure _
    | with_reducible refine life_checkedAnim_bind ?_ ?_ ?_ ?_ ?_ ?_ ?_ ?_
    | with_reducible refine life_checkedAnim ?_ ?_ ?_ ?_ ?_ ?_ ?_
    | with_reducible refine life_collision_bind ?_ ?_ ?_ ?_ ?_ ?_ ?_ ?_ ?_ ?_ ?_ ?_ ?_
    | with_reducible refine life_collision ?_ ?_ ?_ ?_ ?_ ?_ ?_ ?_ ?_ ?_ ?_ ?_
    | with_reducible refine life_attachDrop_bind ?_ ?_ ?_ ?_ ?_ ?_ ?_ ?_ ?_ ?_
    | with_reducible refine life_attachDrop ?_ ?_ ?_ ?_ ?_ ?_ ?_ ?_ ?_
    | with_reducible refine life_invoke_bind ?_ ?_ ?_ ?_
    | with_reducible refine life_create_bind ?_ ?_ ?_ ?_ ?_
    | with_reducible refine life_getter_bind ?_ ?_ ?_ ?_ ?_
    | with_reducible refine life_getPosition_bind ?_ ?_
    | with_reducible refine life_lightData_bind ?_ ?_
    | with_reducible refine life_earlyReturn_bind ?_ ?_
    | with_reducible refine life_invoke ?_ ?_ ?_
    | with_reducible refine life_ifThen ?_
    | with_reducible refine life_ite ?_ ?_
    | rfl
    | exact ptrClean_make rfl
    | exact ptrClean_some rfl
    | exact ptrClean_none
    | assumption
    | (intro h; cases h)
    | apply And.intro
    | simp only [ArgsClean, vec, and_true, true_and]
    | (simp only [Obj.rank, Obj.of] at *; omega)
    | omega
    | intro _

theorem life_ufo3Section {e : Engine} {lo hi : Int} (device driver smgr : Ptr) (h1 : lo ≤ 25) (h2 : 26 < hi) (hdevice : PtrClean device) (hdriver : PtrClean driver) (hsmgr : PtrClean smgr) :
    Life lo hi (ufo3Section e device driver smgr) := by
  unfold ufo3Section
  repeat' first
    | with_reducible exact life_pure _
    | with_reducible refine life_checkedAnim_bind ?_ ?_ ?_ ?_ ?_ ?_ ?_ ?_
    | with_reducible refine life_checkedAnim ?_ ?_ ?_ ?_ ?_ ?_ ?_
    | with_reducible refine life_collision_bind ?_ ?_ ?_ ?_ ?_ ?_ ?_ ?_ ?_ ?_ ?_ ?_ ?_
    | with_reducible refine life_collision ?_ ?_ ?_ ?_ ?_ ?_ ?_ ?_ ?_ ?_ ?_ ?_
    | with_reducible refine life_attachDrop_bind ?_ ?_ ?_ ?_ ?_ ?_ ?_ ?_ ?_ ?_
    | with_reducible refine life_attachDrop ?_ ?_ ?_ ?_ ?_ ?_ ?_ ?_ ?_
    | with_reducible refine life_invoke_bind ?_ ?_ ?_ ?_
    | with_reducible refine life_create_bind ?_ ?_ ?_ ?_ ?_
    | with_reducible refine life_getter_bind ?_ ?_ ?_ ?_ ?_
    | with_reducible refine life_getPosition_bind ?_ ?_
    | with_reducible refine life_lightData_bind ?_ ?_
    | with_reducible refine life_earlyReturn_bind ?_ ?_
    | with_reducible refine life_invoke ?_ ?_ ?_
    | with_reducible refine life_ifThen ?_
    | with_reducible refine life_ite ?_ ?_
    | rfl
    | exact ptrClean_make rfl
    | exact ptrClean_some rfl
    | exact ptrClean_none
    | assumption
    | (intro h; cases h)
    | apply And.intro
    | simp only [ArgsClean, vec, and_true, true_and]
    | (simp only [Obj.rank, Obj.of] at *; omega)
    | omega
    | intro _

theorem life_rockSection {e : Engine} {lo hi : Int} (device driver smgr : Ptr) (hdevice : PtrClean device) (hdriver : PtrClean driver) (hsmgr : PtrClean smgr) :
    Life lo hi (rockSection e device driver smgr) := by
  unfold rockSection
  repeat' first
    | with_reducible exact life_pure _
    | with_reducible refine life_checkedAnim_bind ?_ ?_ ?_ ?_ ?_ ?_ ?_ ?_
    | with_reducible refine life_checkedAnim ?_ ?_ ?_ ?_ ?_ ?_ ?_
    | with_reducible refine life_collision_bind ?_ ?_ ?_ ?_ ?_ ?_ ?_ ?_ ?_ ?_ ?_ ?_ ?_
    | with_reducible refine life_collision ?_ ?_ ?_ ?_ ?_ ?_ ?_ ?_ ?_ ?_ ?_ ?_
    | with_reducible refine life_attachDrop_bind ?_ ?_ ?_ ?_ ?_ ?_ ?_ ?_ ?_ ?_
    | with_reducible refine life_attachDrop ?_ ?_ ?_ ?_ ?_ ?_ ?_ ?_ ?_
    | with_reducible refine life_invoke_bind ?_ ?_ ?_ ?_
    | with_reducible refine life_create_bind ?_ ?_ ?_ ?_ ?_
    | with_reducible refine life_getter_bind ?_ ?_ ?_ ?_ ?_
    | with_reducible refine life_getPosition_bind ?_ ?_
    | with_reducible refine life_lightData_bind ?_ ?_
    | with_reducible refine life_earlyReturn_bind ?_ ?_
    | with_reducible refine life_invoke ?_ ?_ ?_
    | with_reducible refine life_ifThen ?_
    | with_reducible refine life_ite ?_ ?_
    | rfl
    | exact ptrClean_make rfl
    | exact ptrClean_some rfl
    | exact ptrClean_none
    | assumption
    | (intro h; cases h)
    | apply And.intro
    | simp only [ArgsClean, vec, and_true, true_and]
    | (simp only [Obj.rank, Obj.of] at *; omega)
    | omega
    | intro _

theorem life_gateBody {e : Engine} {lo hi : Int} (smgr camnode : Ptr) (i : Int)
    (h1 : lo ≤ 10 + i) (h2 : 10 + i < hi) (hsmgr : PtrClean smgr) (hcamnode : PtrClean camnode) :
    Life lo hi (gateBody e smgr camnode i) := by
  unfold gateBody
  repeat' first
    | with_reducible exact life_pure _
    | with_reducible refine life_checkedAnim_bind ?_ ?_ ?_ ?_ ?_ ?_ ?_ ?_
    | with_reducible refine life_checkedAnim ?_ ?_ ?_ ?_ ?_ ?_ ?_
    | with_reducible refine life_collision_bind ?_ ?_ ?_ ?_ ?_ ?_ ?_ ?_ ?_ ?_ ?_ ?_ ?_
    | with_reducible refine life_collision ?_ ?_ ?_ ?_ ?_ ?_ ?_ ?_ ?_ ?_ ?_ ?_
    | with_reducible refine life_attachDrop_bind ?_ ?_ ?_ ?_ ?_ ?_ ?_ ?_ ?_ ?_
    | with_reducible refine life_attachDrop ?_ ?_ ?_ ?_ ?_ ?_ ?_ ?_ ?_
    | with_reducible refine life_invoke_bind ?_ ?_ ?_ ?_
    | with_reducible refine life_create_bind ?_ ?_ ?_ ?_ ?_
    | with_reducible refine life_getter_bind ?_ ?_ ?_ ?_ ?_
    | with_reducible refine life_getPosition_bind ?_ ?_
    | with_reducible refine life_lightData_bind ?_ ?_
    | with_reducible refine life_earlyReturn_bind ?_ ?_
    | with_reducible refine life_invoke ?_ ?_ ?_
    | with_reducible refine life_ifThen ?_
    | with_reducible refine life_ite ?_ ?_
    | rfl
    | exact ptrClean_make rfl
    | exact ptrClean_some rfl
    | exact ptrClean_none
    | assumption
    | (intro h; cases h)
    | apply And.intro
    | simp only [ArgsClean, vec, and_true, true_and]
    | (simp only [Obj.rank, Obj.of] at *; omega)
    | omega
    | intro _

theorem closed_insert_clean {lo hi : Int} {t1 cs t2 : List Call}
    (h : Closed lo hi (t1 ++ t2)) (hc : ∀ c ∈ cs, CallClean c) :
    Closed lo hi (t1 ++ cs ++ t2) := by
  refine ⟨?_, ?_, ?_⟩
  · intro c hmem o ho hm
    simp only [List.mem_append] at hmem
    rcases hmem with (hmem | hmem) | hmem
    · exact h.window c (List.mem_append.2 (Or.inl hmem)) o ho hm
    · rw [(hc c hmem).2 o ho] at hm
      cases hm
    · exact h.window c (List.mem_append.2 (Or.inr hmem)) o ho hm
  · intro c hmem hf
    simp only [List.mem_append] at hmem
    rcases hmem with (hmem | hmem) | hmem
    · exact h.products c (List.mem_append.2 (Or.inl hmem)) hf
    · rw [(hc c hmem).1] at hf
      cases hf
    · exact h.products c (List.mem_append.2 (Or.inr hmem)) hf
  · intro o ho
    have := h.lives o ho
    rw [List.filter_append] at this
    rw [List.filter_append, List.filter_append, filter_clean hc ho, List.append_nil]
    exact this

/-- The normal-map block either dereferences a null pointer, or falls through with a
node that is no factory product and with the tangent mesh, if one was made, created,
attached and dropped. -/
theorem normalMapBlock_cases {e : Engine} {lo hi : Int} (driver smgr cubeNode : Ptr)
    (level i : Int) (h1 : lo ≤ 100 + 3 * (16 * level + i))
    (h2 : 100 + 3 * (16 * level + i) < hi) (hd : PtrClean driver) (hs : PtrClean smgr)
    (hc : PtrClean cubeNode) :
    (normalMapBlock e driver smgr cubeNode level i).result = .halt .undefined ∨
    ∃ t a, normalMapBlock e driver smgr cubeNode level i = ⟨t, .ok a⟩ ∧ PtrClean a ∧
      Closed lo hi t := by
  cases driver with
  | none =>
    left
    simp [normalMapBlock, create, halt, Exec.bind]
  | some d =>
    have hd' : d.isProduct = false := hd d rfl
    cases hnm : e.nonNull ⟨.normalMap, level, i⟩
    · right
      refine ⟨[⟨some d, .getTexture, [.str "Objects/normal.tga"], .ptr none⟩], cubeNode, ?_, hc,
        closed_clean ?_⟩
      · simp [normalMapBlock, create, Engine.make, hnm, Exec.bind]
      · intro c hmem
        simp only [List.mem_singleton] at hmem
        subst hmem
        exact callClean_ptr rfl hd' trivial ptrClean_none
    · cases smgr with
      | none =>
        left
        simp [normalMapBlock, create, getter, invoke, Engine.make, hnm, halt, Exec.bind]
      | some s =>
        have hs' : s.isProduct = false := hs s rfl
        cases cubeNode with
        | none =>
          left
          simp [normalMapBlock, create, getter, invoke, Engine.make, hnm, halt, Exec.bind]
        | some cn =>
          have hc' : cn.isProduct = false := hc cn rfl
          cases htm : e.nonNull ⟨.tangentMesh, level, i⟩
          · left
            cases htn : e.nonNull ⟨.tangentNode, level, i⟩ <;>
              simp [normalMapBlock, create, getter, invoke, Engine.make, hnm, htm, htn, halt,
                Exec.bind]
          · cases htn : e.nonNull ⟨.tangentNode, level, i⟩
            · left
              simp [normalMapBlock, create, getter, invoke, Engine.make, hnm, htm, htn, halt,
                Exec.bind]
            · right
              refine ⟨
                [⟨some d, .getTexture, [.str "Objects/normal.tga"],
                    .ptr (some ⟨.normalMap, level, i⟩)⟩,
                  ⟨some d, .setTextureCreationFlag, [.enum "ETCF_ALWAYS_32_BIT", .bool true],
                    .void⟩,
                  ⟨some s, .getMeshManipulator, [], .ptr (some (.of .meshManipulator))⟩,
                  ⟨some cn, .getNodeMesh, [], .ptr (some ⟨.cubeMesh, level, i⟩)⟩] ++
                ([⟨some (.of .meshManipulator), .createMeshWithTangents,
                    [.ptr (some ⟨.cubeMesh, level, i⟩)], .ptr (some ⟨.tangentMesh, level, i⟩)⟩,
                  ⟨some s, .addMeshSceneNode, [.ptr (some ⟨.tangentMesh, level, i⟩)],
                    .ptr (some ⟨.tangentNode, level, i⟩)⟩] ++
                 [⟨some ⟨.tangentNode, level, i⟩, .setMaterialTexture,
                    [.int 1, .ptr (some ⟨.normalMap, level, i⟩)], .void⟩,
                  ⟨some ⟨.tangentNode, level, i⟩, .getMaterial, [.int 0], .void⟩,
                  ⟨some ⟨.tangentNode, level, i⟩, .write,
                    [.str "SpecularColor", .obj "SColor" [0, 0, 0, 0]], .void⟩,
                  ⟨some ⟨.tangentNode, level, i⟩, .getMaterial, [.int 0], .void⟩,
                  ⟨some ⟨.tangentNode, level, i⟩, .write, [.str "Shininess", .int 0], .void⟩,
                  ⟨some ⟨.tangentNode, level, i⟩, .setMaterialType,
                    [.enum "EMT_PARALLAX_MAP_SOLID"], .void⟩,
                  ⟨some ⟨.tangentNode, level, i⟩, .getMaterial, [.int 0], .void⟩,
                  ⟨some ⟨.tangentNode, level, i⟩, .write,
                    [.str "MaterialTypeParam", .dec 15625 6], .void⟩] ++
                 [dropOf ⟨.tangentMesh, level, i⟩]),
                some ⟨.tangentNode, level, i⟩, ?_, ptrClean_some rfl, ?_⟩
              · simp [normalMapBlock, create, getter, invoke, Engine.make, hnm, htm, htn,
                  Exec.bind, dropOf, Obj.of]
              · refine closed_clean_append ?_ (closed_insert_clean ?_ ?_)
                · intro c hmem
                  simp only [List.mem_cons, List.mem_singleton, List.not_mem_nil,
                    or_false] at hmem
                  rcases hmem with rfl | rfl | rfl | rfl
                  · exact callClean_ptr rfl hd' trivial (ptrClean_some rfl)
                  · exact callClean_void rfl hd' trivial
                  · exact callClean_ptr rfl hs' trivial (ptrClean_some rfl)
                  · exact callClean_ptr rfl hc' trivial (ptrClean_some rfl)
                · exact closed_attachDrop rfl
                    (by simp [isAttach, isAttachMethod, ne_of_clean hs' (o := ⟨.tangentMesh, level, i⟩) rfl]) rfl
                    (fun o' ho' h => by
                      injection h with h
                      injection h with h
                      subst h
                      cases ho')
                    rfl (by simpa [Obj.rank] using h1) (by simpa [Obj.rank] using h2) rfl hs'
                    ⟨ptrClean_some rfl, trivial⟩
                · intro c hmem
                  simp only [List.mem_cons, List.mem_singleton, List.not_mem_nil,
                    or_false] at hmem
                  rcases hmem with rfl | rfl | rfl | rfl | rfl | rfl | rfl | rfl
                  · exact callClean_void rfl rfl ⟨ptrClean_some rfl, trivial⟩
                  all_goals exact callClean_void rfl rfl trivial

theorem life_normalMapBlock_bind {α : Type} {e : Engine} {lo hi : Int}
    {driver smgr cubeNode : Ptr} {level i : Int} {f : Ptr → Exec α}
    (h1 : lo ≤ 100 + 3 * (16 * level + i)) (h2 : 100 + 3 * (16 * level + i) < hi)
    (hd : PtrClean driver) (hs : PtrClean smgr) (hc : PtrClean cubeNode)
    (hf : ∀ a, PtrClean a → Life (100 + 3 * (16 * level + i) + 1) hi (f a)) :
    Life lo hi (normalMapBlock e driver smgr cubeNode level i >>= f) := by
  rcases @normalMapBlock_cases e lo (100 + 3 * (16 * level + i) + 1)
    driver smgr cubeNode level i h1 (by omega) hd hs hc with h | ⟨t, a, heq, ha, hcl⟩
  · exact life_of_undefined (by rw [bind_eq, bind_halt h])
  · rw [heq]
    exact life_bind (m := 100 + 3 * (16 * level + i) + 1) (by omega) (by omega)
      ⟨fun _ _ => hcl, fun _ h => by cases h⟩ (fun b hb => by
        simp only [Res.ok.injEq] at hb
        subst hb
        exact hf a ha)

theorem life_placeCube_bind {α : Type} {lo hi : Int} {cubeNode : Ptr} {modVal i : Int}
    {s : Stack} {f : Stack → Exec α} (hc : PtrClean cubeNode) (hf : ∀ a, Life lo hi (f a)) :
    Life lo hi (placeCube cubeNode modVal i s >>= f) := by
  refine life_clean_bind ?_ (fun a _ => hf a)
  unfold placeCube
  cases cubeNode with
  | none => split <;> simp [invoke, halt, Exec.bind]
  | some cn =>
    have hc' : cn.isProduct = false := hc cn rfl
    split <;>
    · intro c hmem
      simp only [invoke, bind_eq, Exec.bind, pure_eq, List.append_nil,
        List.mem_singleton] at hmem
      subst hmem
      exact callClean_void rfl hc' trivial

theorem life_cubeBody {e : Engine} {lo hi : Int} (driver smgr camnode : Ptr)
    (level modVal i : Int) (s : Stack) (h1 : lo ≤ 100 + 3 * (16 * level + i))
    (h2 : 100 + 3 * (16 * level + i) + 2 < hi) (hdriver : PtrClean driver)
    (hsmgr : PtrClean smgr) (hcamnode : PtrClean camnode) :
    Life lo hi (cubeBody e driver smgr camnode level modVal i s) := by
  unfold cubeBody
  repeat' first
    | with_reducible exact life_pure _
    | with_reducible refine life_checkedAnim_bind ?_ ?_ ?_ ?_ ?_ ?_ ?_ ?_
    | with_reducible refine life_checkedAnim ?_ ?_ ?_ ?_ ?_ ?_ ?_
    | with_reducible refine life_collision_bind ?_ ?_ ?_ ?_ ?_ ?_ ?_ ?_ ?_ ?_ ?_ ?_ ?_
    | with_reducible refine life_collision ?_ ?_ ?_ ?_ ?_ ?_ ?_ ?_ ?_ ?_ ?_ ?_
    | with_reducible refine life_attachDrop_bind ?_ ?_ ?_ ?_ ?_ ?_ ?_ ?_ ?_ ?_
    | with_reducible refine life_attachDrop ?_ ?_ ?_ ?_ ?_ ?_ ?_ ?_ ?_
    | with_reducible refine life_placeCube_bind ?_ ?_
    | with_reducible refine life_normalMapBlock_bind ?_ ?_ ?_ ?_ ?_ ?_
    | with_reducible refine life_invoke_bind ?_ ?_ ?_ ?_
    | with_reducible refine life_create_bind ?_ ?_ ?_ ?_ ?_
    | with_reducible refine life_getter_bind ?_ ?_ ?_ ?_ ?_
    | with_reducible refine life_getPosition_bind ?_ ?_
    | with_reducible refine life_lightData_bind ?_ ?_
    | with_reducible refine life_earlyReturn_bind ?_ ?_
    | with_reducible refine life_invoke ?_ ?_ ?_
    | with_reducible refine life_ifThen ?_
    | with_reducible refine life_ite ?_ ?_
    | rfl
    | exact ptrClean_make rfl
    | exact ptrClean_some rfl
    | exact ptrClean_none
    | assumption
    | (intro h; cases h)
    | apply And.intro
    | simp only [ArgsClean, vec, and_true, true_and]
    | (simp only [Obj.rank, Obj.of] at *; omega)
    | omega
    | intro _

theorem life_forLoop {σ : Type} {body : Int → σ → Exec σ} (w : Int → Int)
    (hw : ∀ a b, a ≤ b → w a ≤ w b) (h : ∀ i s, Life (w i) (w (i + 1)) (body i s))
    (count : Nat) : ∀ (i : Int) (s : σ), Life (w i) (w (i + count)) (forLoop body count i s) := by
  induction count with
  | zero =>
    intro i s
    exact life_pure _
  | succ n ih =>
    intro i s
    unfold forLoop
    refine life_bind (m := w (i + 1)) (hw _ _ (by omega)) (hw _ _ (by push_cast; omega)) (h i s)
      (fun a _ => ?_)
    have := ih (i + 1) a
    rwa [show i + 1 + (n : Int) = i + ((n + 1 : Nat) : Int) by push_cast; omega] at this

theorem life_gateSection {e : Engine} {lo hi : Int} (smgr camnode : Ptr) (h1 : lo ≤ 10)
    (h2 : 14 ≤ hi) (hsmgr : PtrClean smgr) (hcamnode : PtrClean camnode) :
    Life lo hi (gateSection e smgr camnode) := by
  unfold gateSection
  have h := @life_forLoop _ (fun i _ => gateBody e smgr camnode i) (fun i => 10 + i)
    (fun a b hab => by dsimp only; omega)
    (fun i _ => life_gateBody smgr camnode i (le_refl _) (by dsimp only; omega) hsmgr hcamnode)
    4 0 ()
  exact life_mono (by simpa using h1) (by simpa using h2) h

theorem life_cubeLevel {e : Engine} (driver smgr camnode : Ptr) (modVal : Int) (s : Levels)
    (hdriver : PtrClean driver) (hsmgr : PtrClean smgr) (hcamnode : PtrClean camnode) :
    Life (100 + 3 * (16 * s.leveupCounter + 1)) (100 + 3 * (16 * (s.leveupCounter + 1) + 1))
      (cubeLevel e driver smgr camnode modVal s) := by
  unfold cubeLevel
  have h := @life_forLoop _ (cubeBody e driver smgr camnode s.leveupCounter modVal)
    (fun i => 100 + 3 * (16 * s.leveupCounter + i)) (fun a b hab => by dsimp only; omega)
    (fun i st => life_cubeBody driver smgr camnode s.leveupCounter modVal i st (le_refl _)
      (by dsimp only; omega) hdriver hsmgr hcamnode) 16 1
    ⟨{ X := 0, Y := (Num.int (-400)).addInt (s.leveupCounter * 130), Z := 0 }, s.modBoost⟩
  refine life_bind (m := 100 + 3 * (16 * (s.leveupCounter + 1) + 1)) (by omega) (le_refl _)
    (life_mono (le_refl _) (by push_cast; omega) h) (fun _ _ => life_pure _)

theorem life_cubeLoop {e : Engine} (driver smgr camnode : Ptr) (hdriver : PtrClean driver)
    (hsmgr : PtrClean smgr) (hcamnode : PtrClean camnode) (fuel : Nat) :
    ∀ s : Levels, s.leveupCounter ≤ 13 →
      Life (100 + 3 * (16 * s.leveupCounter + 1)) (100 + 3 * (16 * 13 + 1))
        (whileLoop (fun s : Levels => pure (decide (s.leveupCounter ≤ 12)))
          (cubeLevel e driver smgr camnode 4) fuel s) := by
  induction fuel with
  | zero =>
    intro s _
    unfold whileLoop
    exact life_halt _
  | succ n ih =>
    intro s hs
    rw [whileLoop_succ]
    by_cases h : s.leveupCounter ≤ 12
    · have hb : ((pure (decide (s.leveupCounter ≤ 12)) : Exec Bool) >>= fun b =>
          if b = true then
            cubeLevel e driver smgr camnode 4 s >>=
              whileLoop (fun s : Levels => pure (decide (s.leveupCounter ≤ 12)))
                (cubeLevel e driver smgr camnode 4) n
          else pure s) =
          (cubeLevel e driver smgr camnode 4 s >>=
            whileLoop (fun s : Levels => pure (decide (s.leveupCounter ≤ 12)))
              (cubeLevel e driver smgr camnode 4) n) := by
        simp [Exec.bind, h]
      rw [hb]
      refine life_bind (m := 100 + 3 * (16 * (s.leveupCounter + 1) + 1)) (by omega)
        (by omega) (life_cubeLevel driver smgr camnode 4 s hdriver hsmgr hcamnode)
        (fun s' hs' => ?_)
      have hl := cubeLevel_ok hs'
      have := ih s' (by omega)
      rwa [hl] at this
    · have hb : ((pure (decide (s.leveupCounter ≤ 12)) : Exec Bool) >>= fun b =>
          if b = true then
            cubeLevel e driver smgr camnode 4 s >>=
              whileLoop (fun s : Levels => pure (decide (s.leveupCounter ≤ 12)))
                (cubeLevel e driver smgr camnode 4) n
          else pure s) = pure s := by
        simp [Exec.bind, h]
      rw [hb]
      exact life_pure _

theorem life_cubeSection {e : Engine} {lo hi : Int} (fuel : Nat) (driver smgr camnode : Ptr)
    (h1 : lo ≤ 151) (h2 : 727 ≤ hi) (hdriver : PtrClean driver) (hsmgr : PtrClean smgr)
    (hcamnode : PtrClean camnode) : Life lo hi (cubeSection fuel e driver smgr camnode) := by
  unfold cubeSection
  refine life_invoke_bind rfl hsmgr trivial ?_
  have h := life_cubeLoop (e := e) driver smgr camnode hdriver hsmgr hcamnode fuel ⟨1, 0, 1⟩
    (by decide)
  refine life_bind (m := hi) (by omega) (le_refl _) (life_mono (by simpa using h1)
    (by simpa using h2) h) (fun _ _ => life_pure _)

theorem okval_bind {α β : Type} {x : Exec α} {f : α → Exec β} {P : β → Prop}
    (h : ∀ a, x.result = .ok a → ∀ b, (f a).result = .ok b → P b) :
    ∀ b, (x >>= f).result = .ok b → P b := by
  intro b hb
  rw [bind_eq, bind_ok_iff] at hb
  obtain ⟨a, ha, hfa⟩ := hb
  exact h a ha b hfa

theorem okval_create_bind {β : Type} {e : Engine} {p : Ptr} {m : Method} {args : List Val}
    {o : Obj} {f : Ptr → Exec β} {P : β → Prop}
    (h : ∀ b, (f (e.make o)).result = .ok b → P b) :
    ∀ b, (create e p m args o >>= f).result = .ok b → P b :=
  okval_bind (fun a ha => by rw [create_ok ha]; exact h)

theorem okval_pure {α : Type} {a : α} {P : α → Prop} (h : P a) :
    ∀ b, (pure a : Exec α).result = .ok b → P b := by
  intro b hb
  simp only [pure_eq, Res.ok.injEq] at hb
  subst hb
  exact h

theorem waterSection_clean {e : Engine} {driver smgr : Ptr} :
    ∀ a, (waterSection e driver smgr).result = .ok a → PtrClean a := by
  unfold waterSection
  repeat' first
    | exact okval_pure (ptrClean_make rfl)
    | with_reducible refine okval_create_bind ?_
    | with_reducible refine okval_bind (fun _ _ => ?_)

theorem terrainSection_clean {e : Engine} {driver smgr : Ptr} :
    ∀ a, (terrainSection e driver smgr).result = .ok a → PtrClean a := by
  unfold terrainSection
  repeat' first
    | exact okval_pure (ptrClean_make rfl)
    | with_reducible refine okval_create_bind ?_
    | with_reducible refine okval_bind (fun _ _ => ?_)

theorem cameraSection_clean {e : Engine} {device smgr : Ptr} {keys : List SKeyMap} :
    ∀ a, (cameraSection e device smgr keys).result = .ok a → PtrClean a := by
  unfold cameraSection
  repeat' first
    | exact okval_pure (ptrClean_make rfl)
    | with_reducible refine okval_create_bind ?_
    | with_reducible refine okval_bind (fun _ _ => ?_)

theorem life_setup {e : Engine} (fuel : Nat) :
    Life 0 1000 (setup fuel e (some (.of .device))) := by
  have hD : PtrClean (some (.of .device)) := ptrClean_some rfl
  have hDr : PtrClean (some (.of .driver)) := ptrClean_some rfl
  have hS : PtrClean (some (.of .smgr)) := ptrClean_some rfl
  have hG : PtrClean (some (.of .guienv)) := ptrClean_some rfl
  unfold setup
  refine life_invoke_bind rfl hD trivial ?_
  refine life_getter_bind rfl rfl hD trivial ?_
  refine life_getter_bind rfl rfl hD trivial ?_
  refine life_getter_bind rfl rfl hD trivial ?_
  refine life_invoke_bind rfl hDr trivial ?_
  refine life_invoke_bind rfl hG trivial ?_
  refine life_bind (m := 0) (le_refl _) (by omega)
    (life_characterSection _ _ _ hD hDr hS) (fun _ _ => ?_)
  refine life_bind (m := 2) (by omega) (by omega)
    (life_lightsSection _ _ (by omega) (by omega) hDr hS) (fun _ _ => ?_)
  refine life_bind (m := 2) (by omega) (by omega)
    (life_waterSection _ _ hDr hS) (fun waterNode hw => ?_)
  have hwn := waterSection_clean _ hw
  refine life_bind (m := 2) (by omega) (by omega)
    (life_terrainSection _ _ hDr hS) (fun terrain ht => ?_)
  have htn := terrainSection_clean _ ht
  refine life_bind (m := 2) (by omega) (by omega)
    (life_skySection _ _ hDr hS) (fun _ _ => ?_)
  refine life_bind (m := 2) (by omega) (by omega)
    (life_cameraSection _ _ _ hD hS) (fun camnode hc => ?_)
  have hcn := cameraSection_clean _ hc
  refine life_bind (m := 3) (by omega) (by omega)
    (life_terrainCollision _ _ _ (by omega) (by omega) hS htn hcn) (fun _ _ => ?_)
  refine life_bind (m := 10) (by omega) (by omega)
    (life_sphereSection _ _ (by omega) (by omega) hDr hS) (fun _ _ => ?_)
  refine life_bind (m := 14) (by omega) (by omega)
    (life_gateSection _ _ (by omega) (by omega) hS hcn) (fun _ _ => ?_)
  refine life_bind (m := 21) (by omega) (by omega)
    (life_motherShipSection _ _ _ (by omega) (by omega) hD hS hcn) (fun _ _ => ?_)
  refine life_bind (m := 22) (by omega) (by omega)
    (life_ufoSection _ _ (by omega) (by omega) hD hS) (fun _ _ => ?_)
  refine life_bind (m := 24) (by omega) (by omega)
    (life_particleSection _ _ _ (by omega) (by omega) hDr hS hwn) (fun _ _ => ?_)
  refine life_bind (m := 25) (by omega) (by omega)
    (life_ufo2Section _ _ (by omega) (by omega) hD hS) (fun _ _ => ?_)
  refine life_bind (m := 27) (by omega) (by omega)
    (life_ufo3Section _ _ _ (by omega) (by omega) hD hDr hS) (fun _ _ => ?_)
  refine life_bind (m := 27) (by omega) (by omega)
    (life_rockSection _ _ _ hD hDr hS) (fun _ _ => ?_)
  refine life_bind (m := 1000) (by omega) (by omega)
    (life_cubeSection fuel _ _ _ (by omega) (by omega) hDr hS hcn) (fun _ _ => ?_)
  exact life_pure _

theorem callClean_createDevice {r : Ptr} (hr : PtrClean r) : CallClean (createDeviceCall r) := by
  refine ⟨rfl, fun o ho => ?_⟩
  have hne : r ≠ some o := by
    intro h
    subst h
    have := hr o rfl
    rw [ho] at this
    cases this
  simp [mentions, createDeviceCall, hne]

theorem callClean_runCall (b : Bool) : CallClean (runCall b) :=
  callClean_other rfl rfl trivial (fun p h => by cases h)

theorem callClean_dropDevice : CallClean dropDevice :=
  callClean_void rfl rfl trivial

theorem callClean_drawnFrame : ∀ c ∈ drawnFrame, CallClean c := by
  intro c hc
  simp only [drawnFrame, List.mem_cons, List.mem_singleton, List.not_mem_nil, or_false] at hc
  rcases hc with h | h | h | h | h <;> subst h
  · exact callClean_other rfl rfl trivial (fun p h => by cases h)
  · exact callClean_void rfl rfl (by simp only [ArgsClean, and_true, true_and])
  · exact callClean_void rfl rfl trivial
  · exact callClean_void rfl rfl trivial
  · exact callClean_void rfl rfl trivial

theorem callClean_idleFrame : ∀ c ∈ idleFrame, CallClean c := by
  intro c hc
  simp only [idleFrame, List.mem_cons, List.mem_singleton, List.not_mem_nil, or_false] at hc
  rcases hc with h | h <;> subst h
  · exact callClean_other rfl rfl trivial (fun p h => by cases h)
  · exact callClean_void rfl rfl trivial

theorem loop_calls_clean (e : Engine) (c : Nat → Exec Bool) (b : Nat → Exec Nat)
    (hc : ∀ k, c k = ⟨[runCall (e.run k)], .ok (e.run k)⟩)
    (hb : ∀ k, b k = ⟨if e.isWindowActive k then drawnFrame else idleFrame, .ok (k + 1)⟩)
    (fuel : Nat) :
    ∀ k, ∀ d ∈ (whileLoop c b fuel k).trace, CallClean d := by
  induction fuel with
  | zero =>
    intro k d hd
    simp [whileLoop, halt] at hd
  | succ f ih =>
    intro k d hd
    rw [whileLoop_succ, hc] at hd
    cases h0 : e.run k
    · simp [Exec.bind, h0] at hd
      subst hd
      exact callClean_runCall false
    · have hsplit : d = runCall true ∨
          d ∈ (if e.isWindowActive k then drawnFrame else idleFrame) ∨
          d ∈ (whileLoop c b f (k + 1)).trace := by
        rcases hr : (whileLoop c b f (k + 1)).result with a | o
        all_goals
          simp only [bind_eq, Exec.bind, pure_eq, hr, h0, hb, if_true] at hd
          simpa [or_assoc] using hd
      rcases hsplit with h | h | h
      · subst h
        exact callClean_runCall true
      · cases ha : e.isWindowActive k
        · rw [ha] at h
          exact callClean_idleFrame d h
        · rw [ha] at h
          exact callClean_drawnFrame d h
      · exact ih (k + 1) d h

theorem closed_cons_clean {lo hi : Int} {c : Call} {t : List Call} (hc : CallClean c)
    (h : Closed lo hi t) : Closed lo hi (c :: t) :=
  @closed_clean_append _ _ [c] _ (fun d hd => by
    rw [List.mem_singleton] at hd
    subst hd
    exact hc) h

/-- In a run of `main` that dereferences no null pointer and has fuel for the cube
loop, every factory product that occurs has its whole life in the calls made. -/
theorem main_closed {fuel : Nat} {e : Engine} (hfuel : 12 < fuel)
    (hu : (main fuel e).outcome ≠ .undefined) : Closed 0 1000 (main fuel e).trace := by
  cases hd : e.nonNull (.of .device)
  · rw [main_device_null hd]
    exact closed_clean (fun c hc => by
      rw [List.mem_singleton] at hc
      subst hc
      exact callClean_createDevice ptrClean_none)
  · have hlife := life_setup (e := e) fuel
    have hdev : CallClean (createDeviceCall (some (.of .device))) :=
      callClean_createDevice (ptrClean_some rfl)
    rcases hs : (setup fuel e (some (.of .device))).result with h | o
    · have hset := hlife.ok h hs
      have hloop : ∀ d ∈ (renderLoop fuel e (some (.of .device)) (some (.of .driver))
          (some (.of .smgr)) (some (.of .guienv))).trace, CallClean d :=
        loop_calls_clean e _ _ (renderLoop_cond e) (renderLoop_body e) fuel 0
      rcases hl : (renderLoop fuel e (some (.of .device)) (some (.of .driver))
          (some (.of .smgr)) (some (.of .guienv))).result with m | o
      · rw [main_loop_ok hd hs hl]
        refine closed_cons_clean hdev (closed_append_clean (closed_append_clean hset hloop) ?_)
        intro c hc
        rw [List.mem_singleton] at hc
        subst hc
        exact callClean_dropDevice
      · rw [main_loop_halt hd hs hl]
        exact closed_cons_clean hdev (closed_append_clean hset hloop)
    · have hmain := main_setup_halt hd hs
      rw [hmain] at hu ⊢
      cases o with
      | returned code => exact closed_cons_clean hdev (hlife.returned code hs)
      | undefined => exact absurd rfl hu
      | outOfFuel =>
        have := (quiet_setup (e := e) fuel).fuel hs
        omega

theorem complete_head {o : Obj} {l : List Call} (h : Complete o l) {c : Call} (hc : c ∈ l)
    (hf : isFactory c.method = true) (ho : c.ret = .ptr (some o)) :
    ∃ attaches, attaches ≠ [] ∧ (∀ a ∈ attaches, isAttach o a = true) ∧
      l = c :: attaches ++ [dropOf o] := by
  obtain ⟨c', attaches, hf', ho', hne, hatt, hl⟩ := h
  refine ⟨attaches, hne, hatt, ?_⟩
  rw [hl] at hc ⊢
  rcases List.mem_cons.1 hc with h | h
  · rw [h]
  · rcases List.mem_append.1 h with h | h
    · have := hatt c h
      simp [isAttach, ho] at this
    · rw [List.mem_singleton] at h
      rw [h] at hf
      cases hf

/-- C9: in every run of `main` that dereferences no null pointer (with fuel for the
cube loop), a non-null object `o` returned by a `create…` factory call `c` is involved in
exactly these calls, in this order: the creating call `c`, then one or more calls that
hand `o` to a parent or consumer, then `o->drop()`; so `o` is dropped exactly once, after
it was attached, and is not used after its drop. -/
theorem factory_product_attached_then_dropped (fuel : Nat) (e : Engine) (hfuel : 12 < fuel)
    (hu : (main fuel e).outcome ≠ .undefined) (c : Call) (hc : c ∈ (main fuel e).trace)
    (hf : isFactory c.method = true) (o : Obj) (ho : c.ret = .ptr (some o)) :
    ∃ attaches, attaches ≠ [] ∧ (∀ a ∈ attaches, isAttach o a = true) ∧
      (main fuel e).trace.filter (mentions o) = c :: attaches ++ [dropOf o] := by
  have hclosed := main_closed hfuel hu
  have hprod := hclosed.products c hc hf o ho
  have hmem : c ∈ (main fuel e).trace.filter (mentions o) := by
    rw [List.mem_filter]
    refine ⟨hc, ?_⟩
    simp [mentions, ho]
  rcases hclosed.lives o hprod with h | h
  · rw [h] at hmem
    cases hmem
  · exact complete_head h hmem hf ho

theorem factory_product_attached_then_dropped_witness :
    12 < 13 ∧ (main 13 (engineWithout .motherShip)).outcome ≠ .undefined ∧
      ∃ attaches, attaches ≠ [] ∧ (∀ a ∈ attaches, isAttach (.of .animl) a = true) ∧
        (main 13 (engineWithout .motherShip)).trace.filter (mentions (.of .animl)) =
          ⟨some (.of .smgr), .createFlyCircleAnimator, [vec 0 150 0, .int 250],
            .ptr (some (.of .animl))⟩ :: attaches ++ [dropOf (.of .animl)] :=
  ⟨by decide, by decide,
    factory_product_attached_then_dropped 13 (engineWithout .motherShip) (by decide)
      (by decide)
      ⟨some (.of .smgr), .createFlyCircleAnimator, [vec 0 150 0, .int 250],
        .ptr (some (.of .animl))⟩ (by decide) rfl (.of .animl) rfl⟩

/-! ## Projections: the calls of a run that satisfy a predicate -/

theorem bind_trace_subset {α β : Type} (x : Exec α) (f : α → Exec β) :
    ∀ c ∈ (x >>= f).trace, c ∈ x.trace ∨ ∃ a, x.result = .ok a ∧ c ∈ (f a).trace := by
  intro c hc
  rcases hr : x.result with a | o
  · rw [bind_eq, bind_ok hr] at hc
    rcases List.mem_append.1 hc with h | h
    · exact Or.inl h
    · exact Or.inr ⟨a, rfl, h⟩
  · rw [bind_eq, bind_halt hr] at hc
    exact Or.inl hc

theorem every_pure {α : Type} {Q : Call → Prop} (a : α) : Every Q (pure a : Exec α) := by
  intro c hc
  simp at hc

theorem every_halt {α : Type} {Q : Call → Prop} (o : Outcome) : Every Q (halt o : Exec α) := by
  intro c hc
  simp [halt] at hc

theorem every_ret {α : Type} {Q : Call → Prop} (code : Int) : Every Q (ret code : Exec α) :=
  every_halt _

theorem every_bind {α β : Type} {Q : Call → Prop} {x : Exec α} {f : α → Exec β}
    (hx : Every Q x) (hf : ∀ a, Every Q (f a)) : Every Q (x >>= f) := by
  intro c hc
  rcases bind_trace_subset x f c hc with h | ⟨a, _, h⟩
  · exact hx c h
  · exact hf a c h

theorem every_invoke {Q : Call → Prop} {p : Ptr} {m : Method} {args : List Val}
    (h : ∀ r, Q ⟨some r, m, args, .void⟩) : Every Q (invoke p m args) := by
  cases p with
  | none => exact every_halt _
  | some r =>
    intro c hc
    simp only [invoke, List.mem_singleton] at hc
    rw [hc]
    exact h r

theorem every_create {e : Engine} {Q : Call → Prop} {p : Ptr} {m : Method} {args : List Val}
    {o : Obj} (h : ∀ r a, Q ⟨some r, m, args, .ptr a⟩) : Every Q (create e p m args o) := by
  cases p with
  | none => exact every_halt _
  | some r =>
    intro c hc
    simp only [create, List.mem_singleton] at hc
    rw [hc]
    exact h r _

theorem every_getter {Q : Call → Prop} {p : Ptr} {m : Method} {args : List Val}
    {o : Obj} (h : ∀ r a, Q ⟨some r, m, args, .ptr a⟩) : Every Q (getter p m args o) := by
  cases p with
  | none => exact every_halt _
  | some r =>
    intro c hc
    simp only [getter, List.mem_singleton] at hc
    rw [hc]
    exact h r _

theorem every_getPosition {e : Engine} {Q : Call → Prop} {p : Ptr}
    (h : ∀ r v, Q ⟨some r, .getPosition, [], .vec v⟩) : Every Q (getPosition e p) := by
  cases p with
  | none => exact every_halt _
  | some r =>
    intro c hc
    simp only [getPosition, List.mem_singleton] at hc
    rw [hc]
    exact h r _

theorem every_ifThen {Q : Call → Prop} {c : Bool} {x : Exec Unit} (h : Every Q x) :
    Every Q (ifThen c x) := by
  cases c with
  | false => exact every_pure _
  | true => exact h

theorem every_ite {α : Type} {Q : Call → Prop} {c : Prop} [Decidable c] {x y : Exec α}
    (hx : Every Q x) (hy : Every Q y) : Every Q (if c then x else y) := by
  by_cases h : c
  · simpa [h] using hx
  · simpa [h] using hy

theorem every_forLoop {σ : Type} {Q : Call → Prop} {body : Int → σ → Exec σ}
    (h : ∀ i s, Every Q (body i s)) (count : Nat) (i : Int) (s : σ) :
    Every Q (forLoop body count i s) := by
  induction count generalizing i s with
  | zero => exact every_pure _
  | succ n ih =>
    unfold forLoop
    exact every_bind (h i s) (fun a => ih (i + 1) a)

theorem every_whileLoop {σ : Type} {Q : Call → Prop} {cond : σ → Exec Bool}
    {body : σ → Exec σ} (hc : ∀ s, Every Q (cond s)) (hb : ∀ s, Every Q (body s)) (fuel : Nat)
    (s : σ) : Every Q (whileLoop cond body fuel s) := by
  induction fuel generalizing s with
  | zero => exact every_halt _
  | succ n ih =>
    rw [whileLoop_succ]
    refine every_bind (hc s) (fun b => ?_)
    cases b with
    | false => exact every_pure _
    | true => exact every_bind (hb s) (fun a => ih a)

theorem every_lightData {Q : Call → Prop} (light : Ptr) (radius : Int) (colour : List Num)
    (h1 : ∀ r, Q ⟨some r, .getLightData, [], .void⟩)
    (h2 : ∀ r args, Q ⟨some r, .write, args, .void⟩) :
    Every Q (lightData light radius colour) := by
  unfold lightData
  exact every_bind (every_invoke h1) (fun _ => every_bind (every_invoke (fun r => h2 r _))
    (fun _ => every_bind (every_invoke (fun r => h2 r _)) (fun _ =>
      every_bind (every_invoke (fun r => h2 r _)) (fun _ => every_invoke (fun r => h2 r _)))))

theorem proj_halt {α : Type} {P : Call → Bool} {l : List Call} {post : α → Prop} {x : Exec α}
    {o : Outcome} (h : x.result = .halt o) : Proj P l post x := by
  intro a ha
  rw [h] at ha
  cases ha

theorem proj_pure {α : Type} {P : Call → Bool} {post : α → Prop} {a : α} (h : post a) :
    Proj P [] post (pure a : Exec α) := by
  intro b hb
  simp only [pure_eq, Res.ok.injEq] at hb
  subst hb
  exact ⟨rfl, h⟩

theorem proj_mono {α : Type} {P : Call → Bool} {l : List Call} {post post' : α → Prop}
    {x : Exec α} (h : ∀ a, post a → post' a) (hx : Proj P l post x) : Proj P l post' x :=
  fun a ha => ⟨(hx a ha).1, h a (hx a ha).2⟩

theorem proj_bind {α β : Type} {P : Call → Bool} {l1 l2 : List Call} {mid : α → Prop}
    {post : β → Prop} {x : Exec α} {f : α → Exec β} (hx : Proj P l1 mid x)
    (hf : ∀ a, mid a → Proj P l2 post (f a)) : Proj P (l1 ++ l2) post (x >>= f) := by
  intro b hb
  rcases hr : x.result with a | o
  · rw [bind_eq, bind_ok hr] at hb ⊢
    obtain ⟨h1, h2⟩ := hx a hr
    obtain ⟨h3, h4⟩ := hf a h2 b hb
    exact ⟨by rw [List.filter_append, h1, h3], h4⟩
  · rw [bind_eq, bind_halt hr] at hb
    cases hb

theorem proj_of_every {α : Type} {P : Call → Bool} {x : Exec α}
    (h : Every (fun c => P c = false) x) : Proj P [] (fun _ => True) x := by
  intro a _
  refine ⟨List.filter_eq_nil_iff.2 (fun c hc => ?_), trivial⟩
  rw [h c hc]
  simp

theorem proj_skip_bind {α β : Type} {P : Call → Bool} {l : List Call} {post : β → Prop}
    {x : Exec α} {f : α → Exec β} (hx : Every (fun c => P c = false) x)
    (hf : ∀ a, Proj P l post (f a)) : Proj P l post (x >>= f) := by
  have := proj_bind (proj_of_every hx) (fun a _ => hf a)
  simpa using this

theorem proj_bind_skip {α β : Type} {P : Call → Bool} {l : List Call} {mid : α → Prop}
    {post : β → Prop} {x : Exec α} {f : α → Exec β} (hx : Proj P l mid x)
    (hf : ∀ a, Every (fun c => P c = false) (f a)) (hp : ∀ a b, mid a → (f a).result = .ok b →
      post b) : Proj P l post (x >>= f) := by
  intro b hb
  rcases hr : x.result with a | o
  · rw [bind_eq, bind_ok hr] at hb ⊢
    obtain ⟨h1, h2⟩ := hx a hr
    have h3 := (proj_of_every (hf a) b hb).1
    exact ⟨by rw [List.filter_append, h1, h3, List.append_nil], hp a b h2 hb⟩
  · rw [bind_eq, bind_halt hr] at hb
    cases hb

theorem range_flatMap_succ {β : Type} (g : Int → List β) (i : Int) (n : Nat) :
    (List.range (n + 1)).flatMap (fun k => g (i + (k : Nat))) =
      g i ++ (List.range n).flatMap (fun k => g (i + 1 + (k : Nat))) := by
  rw [List.range_succ_eq_map n, List.flatMap_cons, List.flatMap_map]
  have e0 : ∀ k : Nat, i + ((Nat.succ k : Nat) : Int) = i + 1 + (k : Int) := by
    intro k
    push_cast
    omega
  simp only [e0, Int.Nat.cast_ofNat_Int, Nat.cast_zero, add_zero]

theorem proj_forLoop {σ : Type} {P : Call → Bool} {body : Int → σ → Exec σ}
    (I : Int → σ → Prop) (g : Int → List Call)
    (h : ∀ i s, I i s → Proj P (g i) (I (i + 1)) (body i s)) (count : Nat) :
    ∀ (i : Int) (s : σ), I i s →
      Proj P ((List.range count).flatMap (fun k => g (i + (k : Nat)))) (I (i + count))
        (forLoop body count i s) := by
  induction count with
  | zero =>
    intro i s hI
    simpa [forLoop] using @proj_pure _ P (I i) s hI
  | succ n ih =>
    intro i s hI
    unfold forLoop
    have := proj_bind (h i s hI) (fun a ha => ih (i + 1) a ha)
    rw [range_flatMap_succ]
    have e2 : i + ((n + 1 : Nat) : Int) = i + 1 + (n : Int) := by push_cast; omega
    rw [e2]
    exact this

/-! ## The stack of cubes -/

theorem placeCube_trace (p : Ptr) (modVal i : Int) (s : Stack) :
    (placeCube p modVal i s).trace.filter isCubePlacement = (placeCube p modVal i s).trace := by
  rw [List.filter_eq_self]
  intro c hc
  unfold placeCube at hc
  cases p with
  | none =>
    split at hc <;> simp [invoke, halt, Exec.bind] at hc
  | some r =>
    split at hc <;> simp [invoke, Exec.bind] at hc <;> subst hc <;> rfl

theorem proj_placeCube (p : Ptr) (modVal i : Int) (s : Stack) :
    Proj isCubePlacement (placeCube p modVal i s).trace
      (fun s' => (placeCube p modVal i s).result = .ok s') (placeCube p modVal i s) :=
  fun a ha => ⟨placeCube_trace p modVal i s, ha⟩

theorem bind_call {α β : Type} (c : Call) (a : α) (f : α → Exec β) :
    ((⟨[c], .ok a⟩ : Exec α) >>= f) = ⟨c :: (f a).trace, (f a).result⟩ := rfl

theorem proj_cons {α : Type} {P : Call → Bool} {l t : List Call} {post : α → Prop}
    {r : Res α} {c : Call} (hc : P c = true) (h : Proj P l post (⟨t, r⟩ : Exec α)) :
    Proj P (c :: l) post (⟨c :: t, r⟩ : Exec α) := by
  intro a ha
  obtain ⟨h1, h2⟩ := h a ha
  refine ⟨?_, h2⟩
  simp only at h1
  simp only [List.filter_cons, hc, if_true, h1]

theorem normalMapBlock_every {e : Engine} (driver smgr cubeNode : Ptr) (level i : Int) :
    Every (fun c => isCubePlacement c = false)
      (normalMapBlock e driver smgr cubeNode level i) := by
  unfold normalMapBlock
  repeat' first
    | exact every_pure _
    | with_reducible refine every_invoke ?_
    | with_reducible refine every_create ?_
    | with_reducible refine every_getter ?_
    | with_reducible refine every_getPosition ?_
    | with_reducible refine every_bind ?_ (fun _ => ?_)
    | with_reducible refine every_ifThen ?_
    | with_reducible refine every_ite ?_ ?_
    | (intro _; rfl)
    | (intro _ _; rfl)

theorem proj_cubeBody {e : Engine} (driver camnode : Ptr) (smgr : Obj) (L modVal i : Int)
    (s : Stack) :
    Proj isCubePlacement
      (⟨some smgr, .addCubeSceneNode, [], .ptr (some ⟨.cubeNode, L, i⟩)⟩ ::
        (placeCube (some ⟨.cubeNode, L, i⟩) modVal i s).trace)
      (fun s' => (placeCube (some ⟨.cubeNode, L, i⟩) modVal i s).result = .ok s')
      (cubeBody e driver (some smgr) camnode L modVal i s) := by
  unfold cubeBody
  cases hn : e.nonNull ⟨.cubeNode, L, i⟩
  · refine proj_halt (o := .undefined) ?_
    cases driver <;> simp [create, Engine.make, hn, invoke, halt, Exec.bind]
  · have hc : create e (some smgr) .addCubeSceneNode [] ⟨.cubeNode, L, i⟩ =
        ⟨[⟨some smgr, .addCubeSceneNode, [], .ptr (some ⟨.cubeNode, L, i⟩)⟩],
          .ok (some ⟨.cubeNode, L, i⟩)⟩ := by
      simp [create, Engine.make, hn]
    rw [hc, bind_call]
    refine proj_cons rfl ?_
    show Proj _ _ _ (_ >>= _)
    repeat' first
      | with_reducible refine proj_bind_skip (proj_placeCube _ _ _ _) (fun _ => ?_) ?_
      | with_reducible refine proj_skip_bind ?_ (fun _ => ?_)
      | exact every_pure _
      | exact normalMapBlock_every _ _ _ _ _
      | with_reducible refine every_invoke ?_
      | with_reducible refine every_create ?_
      | with_reducible refine every_getter ?_
      | with_reducible refine every_bind ?_ (fun _ => ?_)
      | with_reducible refine every_ifThen ?_
      | (intro _; rfl)
      | (intro _ _; rfl)
    intro a b ha hb
    have hba : b = a := by
      revert b
      repeat' first
        | exact okval_pure rfl
        | with_reducible refine okval_bind (fun _ _ => ?_)
    rw [hba]
    exact ha

theorem cubeBody_modBoost {e : Engine} (driver camnode : Ptr) (smgr : Obj) (L modVal i : Int)
    (s s' : Stack) (h : (cubeBody e driver (some smgr) camnode L modVal i s).result = .ok s')
    (hs : s.modBoost = 1) : s'.modBoost = 1 := by
  have h1 := (proj_cubeBody driver camnode smgr L modVal i s s' h).2
  unfold placeCube at h1
  split at h1 <;> simp [invoke, Exec.bind, hs] at h1 <;> rw [← h1]

theorem tmod_four (i : Int) (h : 1 ≤ i) : i.tmod 4 = i % 4 :=
  Int.tmod_eq_emod (by omega) (by omega)

theorem placeCube_stackAt (node : Obj) (L i : Int) (h : 1 ≤ i) :
    placeCube (some node) 4 i (stackAt L i) =
      ⟨[⟨some node, .setPosition, [.vec (claimedCubePos L i)], .void⟩],
        .ok (stackAt L (i + 1))⟩ := by
  unfold placeCube
  rw [tmod_four i h]
  by_cases h4 : i % 4 = 0
  · have e1 : (i + 1 - 1) / 4 = (i - 1) / 4 + 1 := by omega
    simp [h4, stackAt, claimedCubePos, invoke, Exec.bind, Num.addInt, e1]
    omega
  · have e1 : (i + 1 - 1) / 4 = (i - 1) / 4 := by omega
    simp [h4, stackAt, claimedCubePos, invoke, Exec.bind, Num.addInt, e1]
    omega

theorem proj_cubeInner {e : Engine} (driver camnode : Ptr) (smgr : Obj) (L : Int)
    (count : Nat) (i : Int) (hi : 1 ≤ i) :
    Proj isCubePlacement ((List.range count).flatMap (fun k => cubeCalls smgr L (i + (k : Nat))))
      (fun s' => s' = stackAt L (i + count))
      (forLoop (cubeBody e driver (some smgr) camnode L 4) count i (stackAt L i)) := by
  have h := @proj_forLoop _ isCubePlacement (cubeBody e driver (some smgr) camnode L 4)
    (fun i s => 1 ≤ i ∧ s = stackAt L i) (fun i => cubeCalls smgr L i) (by
      intro i s hI
      obtain ⟨h1, rfl⟩ := hI
      intro s' hs'
      obtain ⟨h2, h3⟩ := proj_cubeBody driver camnode smgr L 4 i (stackAt L i) s' hs'
      rw [placeCube_stackAt _ _ _ h1] at h2 h3
      simp only [Res.ok.injEq] at h3
      exact ⟨h2, by omega, h3.symm⟩) count i (stackAt L i) ⟨hi, rfl⟩
  exact proj_mono (fun a ha => ha.2) h

theorem stackAt_one (L : Int) (mb : Int) (h : mb = 1) :
    (⟨{ X := 0, Y := (Num.int (-400)).addInt (L * 130), Z := 0 }, mb⟩ : Stack) = stackAt L 1 := by
  subst h
  simp [stackAt, Num.addInt]
  rfl

theorem proj_cubeLevel {e : Engine} (driver camnode : Ptr) (smgr : Obj) (s : Levels)
    (hs : s.modBoost = 1) :
    Proj isCubePlacement
      ((List.range 16).flatMap (fun k => cubeCalls smgr s.leveupCounter (1 + (k : Nat))))
      (fun s' => s'.leveupCounter = s.leveupCounter + 1 ∧ s'.modBoost = 1)
      (cubeLevel e driver (some smgr) camnode 4 s) := by
  unfold cubeLevel
  simp only [stackAt_one _ _ hs]
  have h1 := proj_cubeInner (e := e) driver camnode smgr s.leveupCounter 16 1 (le_refl _)
  have h2 := @proj_bind _ _ isCubePlacement _ [] _
    (fun s' : Levels => s'.leveupCounter = s.leveupCounter + 1 ∧ s'.modBoost = 1) _
    (fun inner => (pure ⟨s.leveupCounter + 1, s.boxOffset + 60, inner.modBoost⟩ : Exec Levels))
    h1 (fun a ha => proj_pure (by
      subst ha
      exact ⟨rfl, rfl⟩))
  simpa using h2

theorem proj_cubeLoop {e : Engine} (driver camnode : Ptr) (smgr : Obj) (fuel : Nat) :
    ∀ (n : Nat) (s : Levels), s.modBoost = 1 → s.leveupCounter + n = 13 →
      Proj isCubePlacement
        ((List.range n).flatMap (fun j => (List.range 16).flatMap
          (fun k => cubeCalls smgr (s.leveupCounter + (j : Nat)) (1 + (k : Nat)))))
        (fun _ => True)
        (whileLoop (fun s : Levels => pure (decide (s.leveupCounter ≤ 12)))
          (cubeLevel e driver (some smgr) camnode 4) fuel s) := by
  induction fuel with
  | zero =>
    intro n s _ _
    exact proj_halt (o := .outOfFuel) rfl
  | succ f ih =>
    intro n s hs hn
    rw [whileLoop_succ]
    by_cases h : s.leveupCounter ≤ 12
    · have hb : ((pure (decide (s.leveupCounter ≤ 12)) : Exec Bool) >>= fun b =>
          if b = true then
            cubeLevel e driver (some smgr) camnode 4 s >>=
              whileLoop (fun s : Levels => pure (decide (s.leveupCounter ≤ 12)))
                (cubeLevel e driver (some smgr) camnode 4) f
          else pure s) =
          (cubeLevel e driver (some smgr) camnode 4 s >>=
            whileLoop (fun s : Levels => pure (decide (s.leveupCounter ≤ 12)))
              (cubeLevel e driver (some smgr) camnode 4) f) := by
        simp [Exec.bind, h]
      rw [hb]
      obtain ⟨m, rfl⟩ : ∃ m, n = m + 1 := ⟨n - 1, by omega⟩
      intro b hb'
      obtain ⟨a, ha, hfa⟩ := bind_ok_iff.1 hb'
      obtain ⟨hl1, hl2, hl3⟩ := proj_cubeLevel (e := e) driver camnode smgr s hs a ha
      obtain ⟨hr, -⟩ := ih m a hl3 (by rw [hl2]; push_cast at hn; omega) b hfa
      refine ⟨?_, trivial⟩
      rw [bind_eq, bind_ok ha]
      simp only
      rw [List.filter_append, hl1, hr, hl2]
      exact (range_flatMap_succ (fun L => (List.range 16).flatMap
        (fun k => cubeCalls smgr L (1 + (k : Nat)))) s.leveupCounter m).symm
    · have hb : ((pure (decide (s.leveupCounter ≤ 12)) : Exec Bool) >>= fun b =>
          if b = true then
            cubeLevel e driver (some smgr) camnode 4 s >>=
              whileLoop (fun s : Levels => pure (decide (s.leveupCounter ≤ 12)))
                (cubeLevel e driver (some smgr) camnode 4) f
          else pure s) = pure s := by
        simp [Exec.bind, h]
      rw [hb]
      obtain rfl : n = 0 := by omega
      exact proj_pure trivial

theorem cubeIndices_mem (L i : Int) :
    (L, i) ∈ cubeIndices ↔ (1 ≤ L ∧ L ≤ 12 ∧ 1 ≤ i ∧ i ≤ 16) := by
  unfold cubeIndices
  constructor
  · intro h
    obtain ⟨l, hl, hin⟩ := List.mem_flatMap.1 h
    obtain ⟨k, hk, heq⟩ := List.mem_map.1 hin
    rw [List.mem_range] at hl hk
    simp only [Prod.mk.injEq] at heq
    omega
  · intro h
    refine List.mem_flatMap.2 ⟨(L - 1).toNat, List.mem_range.2 (by omega),
      List.mem_map.2 ⟨(i - 1).toNat, List.mem_range.2 (by omega), ?_⟩⟩
    simp only [Prod.mk.injEq]
    omega

theorem cubeIndices_nodup : cubeIndices.Nodup := by
  unfold cubeIndices
  rw [List.nodup_flatMap]
  constructor
  · intro l _
    refine List.Nodup.map ?_ (List.nodup_range 16)
    intro a b h
    simp only [Prod.mk.injEq, true_and] at h
    omega
  · refine List.Pairwise.imp ?_ (List.nodup_range 12)
    intro a b hab
    simp only [Function.onFun]
    intro x hx hx'
    obtain ⟨k, -, rfl⟩ := List.mem_map.1 hx
    obtain ⟨k', -, h⟩ := List.mem_map.1 hx'
    simp only [Prod.mk.injEq] at h
    omega

theorem cubeIndices_length : cubeIndices.length = 192 := by
  decide

theorem proj_cubeSection {e : Engine} (fuel : Nat) (driver camnode : Ptr) (smgr : Obj) :
    Proj isCubePlacement (cubeIndices.flatMap (fun p => cubeCalls smgr p.1 p.2))
      (fun _ => True) (cubeSection fuel e driver (some smgr) camnode) := by
  unfold cubeSection
  refine proj_skip_bind (every_invoke (fun _ => rfl)) (fun _ => ?_)
  have h := proj_cubeLoop (e := e) driver camnode smgr fuel 12 ⟨1, 0, 1⟩ rfl (by norm_num)
  have e1 : cubeIndices.flatMap (fun p => cubeCalls smgr p.1 p.2) =
      (List.range 12).flatMap (fun j => (List.range 16).flatMap
        (fun k => cubeCalls smgr ((⟨1, 0, 1⟩ : Levels).leveupCounter + (j : Nat))
          (1 + (k : Nat)))) := by
    simp only [cubeIndices, List.flatMap_assoc, List.flatMap_map]
  rw [e1]
  exact proj_bind_skip h (fun _ => every_pure _) (fun _ _ _ _ => trivial)

theorem filter_of_imp {α : Type} (P Q : α → Bool) (l : List α) (h : ∀ a, Q a = true → P a = true) :
    l.filter Q = (l.filter P).filter Q := by
  rw [List.filter_filter]
  refine List.filter_congr (fun a _ => ?_)
  cases hq : Q a
  · simp
  · simp [h a hq]

theorem claimedCubePos_inj {L i L' i' : Int} (h1 : 1 ≤ i) (h2 : i ≤ 16) (h3 : 1 ≤ i')
    (h4 : i' ≤ 16) (h : claimedCubePos L i = claimedCubePos L' i') : L = L' ∧ i = i' := by
  unfold claimedCubePos at h
  simp only at h
  split_ifs at h <;> simp only [Vec3.mk.injEq, Num.int.injEq] at h <;> omega

theorem claimedCubePos_apart {L i L' i' x y z x' y' z' : Int} (h1 : 1 ≤ i) (h2 : i ≤ 16)
    (h3 : 1 ≤ i') (h4 : i' ≤ 16) (hp : vec x y z = .vec (claimedCubePos L i))
    (hp' : vec x' y' z' = .vec (claimedCubePos L' i')) (hne : L ≠ L' ∨ i ≠ i') :
    130 ≤ |x - x'| ∨ 130 ≤ |y - y'| ∨ 130 ≤ |z - z'| := by
  unfold claimedCubePos at hp hp'
  simp only [vec] at hp hp'
  simp only [le_abs]
  split_ifs at hp hp' <;>
    simp only [Val.vec.injEq, Vec3.mk.injEq, Num.int.injEq] at hp hp' <;> omega

theorem cubeSection_positions {e : Engine} {fuel : Nat} {driver camnode : Ptr} {smgr : Obj}
    (hok : (cubeSection fuel e driver (some smgr) camnode).result = .ok ()) {c : Call}
    (hc : c ∈ (cubeSection fuel e driver (some smgr) camnode).trace)
    (hm : c.method = .setPosition) :
    ∃ L i, 1 ≤ L ∧ L ≤ 12 ∧ 1 ≤ i ∧ i ≤ 16 ∧
      c = ⟨some ⟨.cubeNode, L, i⟩, .setPosition, [.vec (claimedCubePos L i)], .void⟩ := by
  have hp : isCubePlacement c = true := by simp [isCubePlacement, hm]
  have hf : c ∈ (cubeSection fuel e driver (some smgr) camnode).trace.filter isCubePlacement :=
    List.mem_filter.2 ⟨hc, hp⟩
  rw [(proj_cubeSection fuel driver camnode smgr () hok).1] at hf
  obtain ⟨⟨L, i⟩, hmem, hin⟩ := List.mem_flatMap.1 hf
  simp only [cubeCalls, List.mem_cons, List.mem_singleton, List.not_mem_nil, or_false] at hin
  obtain ⟨h1, h2, h3, h4⟩ := (cubeIndices_mem L i).1 hmem
  rcases hin with h | h
  · rw [h] at hm
    cases hm
  · exact ⟨L, i, h1, h2, h3, h4, h⟩

theorem cubeSection_addCube {e : Engine} {fuel : Nat} {driver camnode : Ptr} {smgr : Obj}
    (hok : (cubeSection fuel e driver (some smgr) camnode).result = .ok ()) :
    (cubeSection fuel e driver (some smgr) camnode).trace.filter
        (fun c => c.method == .addCubeSceneNode) =
      cubeIndices.map (fun p =>
        (⟨some smgr, .addCubeSceneNode, [], .ptr (some ⟨.cubeNode, p.1, p.2⟩)⟩ : Call)) := by
  rw [filter_of_imp isCubePlacement _ _ (fun a ha => by simp [isCubePlacement, ha]),
    (proj_cubeSection fuel driver camnode smgr () hok).1, List.filter_flatMap]
  have : ∀ p : Int × Int, (cubeCalls smgr p.1 p.2).filter (fun c => c.method == .addCubeSceneNode)
      = [⟨some smgr, .addCubeSceneNode, [], .ptr (some ⟨.cubeNode, p.1, p.2⟩)⟩] := by
    intro p
    rfl
  simp only [this]
  induction cubeIndices with
  | nil => rfl
  | cons a l ih => simp [List.flatMap_cons, ih]

theorem cubeSection_setPosition {e : Engine} {fuel : Nat} {driver camnode : Ptr} {smgr : Obj}
    (hok : (cubeSection fuel e driver (some smgr) camnode).result = .ok ()) :
    (cubeSection fuel e driver (some smgr) camnode).trace.filter
        (fun c => c.method == .setPosition) =
      cubeIndices.map (fun p =>
        (⟨some ⟨.cubeNode, p.1, p.2⟩, .setPosition, [.vec (claimedCubePos p.1 p.2)], .void⟩ :
          Call)) := by
  rw [filter_of_imp isCubePlacement _ _ (fun a ha => by simp [isCubePlacement, ha]),
    (proj_cubeSection fuel driver camnode smgr () hok).1, List.filter_flatMap]
  have : ∀ p : Int × Int, (cubeCalls smgr p.1 p.2).filter (fun c => c.method == .setPosition)
      = [⟨some ⟨.cubeNode, p.1, p.2⟩, .setPosition, [.vec (claimedCubePos p.1 p.2)], .void⟩] := by
    intro p
    rfl
  simp only [this]
  induction cubeIndices with
  | nil => rfl
  | cons a l ih => simp [List.flatMap_cons, ih]

/-- C16: with fuel for its 13 tests, the cube-stack loop does not run out of fuel; and
when the cube section falls through (no null pointer is dereferenced in it), its
`addCubeSceneNode` and `setPosition` calls are, level by level for `L` in 1..12 and `i` in
1..16, the creation of the cube `(L, i)` followed by `setPosition` on that cube with the
position `claimedCubePos L i`; so `addCubeSceneNode` is called 192 times, once for each
pair. -/
theorem cube_stack_positions (fuel : Nat) (e : Engine) (driver camnode : Ptr) (smgr : Obj)
    (hfuel : 12 < fuel) :
    (cubeSection fuel e driver (some smgr) camnode).result ≠ .halt .outOfFuel ∧
    ((cubeSection fuel e driver (some smgr) camnode).result = .ok () →
      (cubeSection fuel e driver (some smgr) camnode).trace.filter isCubePlacement =
        cubeIndices.flatMap (fun p => cubeCalls smgr p.1 p.2) ∧
      ((cubeSection fuel e driver (some smgr) camnode).trace.filter
        (fun c => c.method == .addCubeSceneNode)).length = 192) ∧
    (∀ L i, (L, i) ∈ cubeIndices ↔ (1 ≤ L ∧ L ≤ 12 ∧ 1 ≤ i ∧ i ≤ 16)) ∧
    cubeIndices.Nodup := by
  refine ⟨?_, ?_, cubeIndices_mem, cubeIndices_nodup⟩
  · intro h
    have := (quiet_cubeSection (e := e) fuel driver (some smgr) camnode).fuel h
    omega
  · intro hok
    refine ⟨(proj_cubeSection fuel driver camnode smgr () hok).1, ?_⟩
    rw [cubeSection_addCube hok, List.length_map, cubeIndices_length]

theorem cube_stack_positions_witness :
    12 < 13 ∧
      (cubeSection 13 engineAll (some (.of .driver)) (some (.of .smgr))
        (some (.of .camnode))).result = .ok () ∧
      ((cubeSection 13 engineAll (some (.of .driver)) (some (.of .smgr))
        (some (.of .camnode))).trace.filter
          (fun c => c.method == .addCubeSceneNode)).length = 192 :=
  have h : (cubeSection 13 engineAll (some (.of .driver)) (some (.of .smgr))
      (some (.of .camnode))).result = .ok () := by decide
  ⟨by decide, h,
    ((cube_stack_positions 13 engineAll (some (.of .driver)) (some (.of .camnode)) (.of .smgr)
      (by decide)).2.1 h).2⟩

/-- C17: when the cube section falls through, the positions given to two different
cubes (different level or different index) differ by at least 130 in some coordinate;
the cube section makes 192 `setPosition` calls and no two of them have the same
argument. -/
theorem cube_positions_apart (fuel : Nat) (e : Engine) (driver camnode : Ptr) (smgr : Obj)
    (hok : (cubeSection fuel e driver (some smgr) camnode).result = .ok ()) :
    (∀ L i L' i' x y z x' y' z' : Int,
      (⟨some ⟨.cubeNode, L, i⟩, .setPosition, [vec x y z], .void⟩ : Call) ∈
        (cubeSection fuel e driver (some smgr) camnode).trace →
      (⟨some ⟨.cubeNode, L', i'⟩, .setPosition, [vec x' y' z'], .void⟩ : Call) ∈
        (cubeSection fuel e driver (some smgr) camnode).trace →
      (L ≠ L' ∨ i ≠ i') → 130 ≤ |x - x'| ∨ 130 ≤ |y - y'| ∨ 130 ≤ |z - z'|) ∧
    ((cubeSection fuel e driver (some smgr) camnode).trace.filter
      (fun c => c.method == .setPosition)).length = 192 ∧
    (((cubeSection fuel e driver (some smgr) camnode).trace.filter
      (fun c => c.method == .setPosition)).map (fun c => c.args)).Nodup := by
  refine ⟨?_, ?_, ?_⟩
  · intro L i L' i' x y z x' y' z' h1 h2 hne
    obtain ⟨L1, i1, -, -, a3, a4, e1⟩ := cubeSection_positions hok h1 rfl
    obtain ⟨L2, i2, -, -, b3, b4, e2⟩ := cubeSection_positions hok h2 rfl
    simp only [Call.mk.injEq, Option.some.injEq, Obj.mk.injEq, true_and, and_true,
      List.cons.injEq] at e1 e2
    obtain ⟨⟨rfl, rfl⟩, e1⟩ := e1
    obtain ⟨⟨rfl, rfl⟩, e2⟩ := e2
    exact claimedCubePos_apart a3 a4 b3 b4 e1 e2 hne
  · rw [cubeSection_setPosition hok, List.length_map, cubeIndices_length]
  · rw [cubeSection_setPosition hok, List.map_map]
    refine List.Nodup.map_on ?_ cubeIndices_nodup
    intro p hp p' hp' heq
    simp only [Function.comp, List.cons.injEq, Val.vec.injEq, and_true] at heq
    obtain ⟨-, -, a3, a4⟩ := (cubeIndices_mem p.1 p.2).1 hp
    obtain ⟨-, -, b3, b4⟩ := (cubeIndices_mem p'.1 p'.2).1 hp'
    obtain ⟨h1, h2⟩ := claimedCubePos_inj a3 a4 b3 b4 heq
    exact Prod.ext h1 h2

theorem cube_positions_apart_witness :
    (cubeSection 13 engineAll (some (.of .driver)) (some (.of .smgr))
        (some (.of .camnode))).result = .ok () ∧
      (130 ≤ |(0 : Int) - 130| ∨ 130 ≤ |(-270 : Int) - (-270)| ∨ 130 ≤ |(260 : Int) - 260|) :=
  have h : (cubeSection 13 engineAll (some (.of .driver)) (some (.of .smgr))
      (some (.of .camnode))).result = .ok () := by decide
  ⟨h,
    (cube_positions_apart 13 engineAll (some (.of .driver)) (some (.of .camnode)) (.of .smgr)
      h).1 1 3 1 4 0 (-270) 260 130 (-270) 260 (by decide) (by decide)
      (Or.inr (by decide))⟩

theorem cubeBody_keeps_one {e : Engine} (driver smgr camnode : Ptr) (L modVal i : Int)
    (s s' : Stack) (h : (cubeBody e driver smgr camnode L modVal i s).result = .ok s')
    (hs : s.modBoost = 1) : s'.modBoost = 1 := by
  cases smgr with
  | none => simp [cubeBody, create, halt, Exec.bind] at h
  | some r => exact cubeBody_modBoost driver camnode r L modVal i s s' h hs

theorem bind_congr_ok {α β : Type} {x : Exec α} {f g : α → Exec β}
    (h : ∀ a, x.result = .ok a → f a = g a) : x >>= f = x >>= g := by
  rcases hr : x.result with a | o
  · rw [bind_eq, bind_eq, bind_ok hr, bind_ok hr, h a hr]
  · rw [bind_eq, bind_eq, bind_halt hr, bind_halt hr]

theorem checked_body {e : Engine} (driver smgr camnode : Ptr) (L modVal i : Int) (s : Stack)
    (hs : s.modBoost = 1) :
    (ifThen (s.modBoost != 1) (ret (-1)) >>= fun _ =>
      cubeBody e driver smgr camnode L modVal i s) = cubeBody e driver smgr camnode L modVal i s := by
  rw [hs]
  rfl

theorem checked_inner {e : Engine} (driver smgr camnode : Ptr) (L modVal : Int) (n : Nat) :
    ∀ (i : Int) (s : Stack), s.modBoost = 1 →
      forLoop (fun i st => ifThen (st.modBoost != 1) (ret (-1)) >>= fun _ =>
        cubeBody e driver smgr camnode L modVal i st) n i s =
        forLoop (cubeBody e driver smgr camnode L modVal) n i s ∧
      ∀ s', (forLoop (cubeBody e driver smgr camnode L modVal) n i s).result = .ok s' →
        s'.modBoost = 1 := by
  induction n with
  | zero =>
    intro i s hs
    refine ⟨rfl, ?_⟩
    intro s' h
    simp only [forLoop, pure_eq, Res.ok.injEq] at h
    rw [← h]
    exact hs
  | succ n ih =>
    intro i s hs
    unfold forLoop
    simp only [checked_body driver smgr camnode L modVal i s hs]
    constructor
    · exact bind_congr_ok (fun a ha =>
        (ih (i + 1) a (cubeBody_keeps_one driver smgr camnode L modVal i s a ha hs)).1)
    · intro s' h
      obtain ⟨a, ha, hfa⟩ := bind_ok_iff.1 h
      exact (ih (i + 1) a (cubeBody_keeps_one driver smgr camnode L modVal i s a ha hs)).2 s' hfa

theorem checked_level {e : Engine} (driver smgr camnode : Ptr) (modVal : Int) (s : Levels)
    (hs : s.modBoost = 1) :
    cubeLevelChecked e driver smgr camnode modVal s = cubeLevel e driver smgr camnode modVal s ∧
      ∀ s', (cubeLevel e driver smgr camnode modVal s).result = .ok s' → s'.modBoost = 1 := by
  unfold cubeLevelChecked cubeLevel
  have h := checked_inner (e := e) driver smgr camnode s.leveupCounter modVal 16 1
    ⟨{ X := 0, Y := (Num.int (-400)).addInt (s.leveupCounter * 130), Z := 0 }, s.modBoost⟩ hs
  constructor
  · simp only [h.1]
  · intro s' hs'
    obtain ⟨a, ha, hfa⟩ := bind_ok_iff.1 hs'
    simp only [pure_eq, Res.ok.injEq] at hfa
    rw [← hfa]
    exact h.2 a ha

theorem checked_loop {e : Engine} (driver smgr camnode : Ptr) (fuel : Nat) :
    ∀ s : Levels, s.modBoost = 1 →
      whileLoop (fun s : Levels => pure (decide (s.leveupCounter ≤ 12)))
        (cubeLevelChecked e driver smgr camnode 4) fuel s =
      whileLoop (fun s : Levels => pure (decide (s.leveupCounter ≤ 12)))
        (cubeLevel e driver smgr camnode 4) fuel s := by
  induction fuel with
  | zero =>
    intro s _
    simp only [whileLoop]
  | succ n ih =>
    intro s hs
    rw [whileLoop_succ, whileLoop_succ]
    refine bind_congr_ok (fun b _ => ?_)
    cases b with
    | false => simp only [Bool.false_eq_true, if_false]
    | true =>
      simp only [if_true]
      rw [(checked_level driver smgr camnode 4 s hs).1]
      exact bind_congr_ok (fun a ha => ih a ((checked_level driver smgr camnode 4 s hs).2 a ha))

theorem checked_section {e : Engine} (fuel : Nat) (driver smgr camnode : Ptr) :
    cubeSectionChecked fuel e driver smgr camnode = cubeSection fuel e driver smgr camnode := by
  unfold cubeSectionChecked cubeSection
  dsimp only
  rw [checked_loop driver smgr camnode fuel ⟨1, 0, 1⟩ rfl]

/-- C19: inserting the check `if (modBoost != 1) return -1;` at the start of the body of
the inner cube loop changes nothing, and that check never fires: `modBoost` is 1 at the
start of every inner iteration of every level; and with `modBoost = 1` the branch
`i % 4 == 0` places the cube at X + 130*1, then takes 130*2 back from X and leaves
`modBoost` at 1 (the reset `modBoost > 4` plays no part), a net X drift of -130. -/
theorem modBoost_stays_one (fuel : Nat) (e : Engine) (driver smgr camnode : Ptr) :
    cubeSectionChecked fuel e driver smgr camnode = cubeSection fuel e driver smgr camnode ∧
    (cubeSectionChecked fuel e driver smgr camnode).result ≠ .halt (.returned (-1)) ∧
    (∀ (node : Obj) (i : Int) (pos : Vec3), i.tmod 4 = 0 →
      placeCube (some node) 4 i ⟨pos, 1⟩ =
        ⟨[⟨some node, .setPosition,
            [.vec ⟨pos.X.addInt (130 * 1), pos.Y, pos.Z.addInt (-130)⟩], .void⟩],
          .ok ⟨⟨(pos.X.addInt (130 * 1)).addInt (-(130 * 2)), pos.Y,
            (pos.Z.addInt (-130)).addInt 130⟩, 1⟩⟩) ∧
    (∀ x : Int, ((Num.int x).addInt (130 * 1)).addInt (-(130 * 2)) = .int (x - 130)) := by
  refine ⟨checked_section fuel driver smgr camnode, ?_, ?_, ?_⟩
  · rw [checked_section]
    intro h
    have := ((quiet_cubeSection (e := e) fuel driver smgr camnode).returnsOne (-1) h).1
    omega
  · intro node i pos hi
    simp [placeCube, hi, invoke, Exec.bind]
  · intro x
    simp only [Num.addInt, Num.int.injEq]
    omega

theorem modBoost_stays_one_witness :
    (4 : Int).tmod 4 = 0 ∧
      placeCube (some (.of .cubeNode)) 4 4 ⟨⟨.int 0, .int (-270), .int 390⟩, 1⟩ =
        ⟨[⟨some (.of .cubeNode), .setPosition, [vec 130 (-270) 260], .void⟩],
          .ok ⟨⟨.int (-130), .int (-270), .int 390⟩, 1⟩⟩ :=
  ⟨by decide,
    (modBoost_stays_one 13 engineAll (some (.of .driver)) (some (.of .smgr))
      (some (.of .camnode))).2.2.1 (.of .cubeNode) 4 ⟨.int 0, .int (-270), .int 390⟩ (by decide)⟩

/-! ## Step rules for projections -/

theorem bind_assoc_exec {α β γ : Type} (x : Exec α) (g : α → Exec β) (f : β → Exec γ) :
    (x >>= g) >>= f = x >>= fun a => g a >>= f := by
  rcases hr : x.result with a | o
  · rcases hg : (g a).result with b | o'
    · simp [Exec.bind, hr, hg]
    · simp [Exec.bind, hr, hg]
  · simp [Exec.bind, hr]

theorem bind_pure_exec {α : Type} (x : Exec α) : (x >>= fun a => pure a) = x := by
  rcases hr : x.result with a | o
  · rw [bind_eq, bind_ok hr]
    cases x
    simp only at hr
    simp [hr]
  · rw [bind_eq, bind_halt hr]
    cases x
    simp only at hr
    simp [hr]

theorem proj_assoc {α β γ : Type} {P : Call → Bool} {l : List Call} {post : γ → Prop}
    {x : Exec α} {g : α → Exec β} {f : β → Exec γ}
    (h : Proj P l post (x >>= fun a => g a >>= f)) : Proj P l post ((x >>= g) >>= f) := by
  rw [bind_assoc_exec]
  exact h

theorem proj_call_keep {α β : Type} {P : Call → Bool} {l : List Call} {post : β → Prop}
    {c : Call} {a : α} {f : α → Exec β} (hP : P c = true) (h : Proj P l post (f a)) :
    Proj P (c :: l) post ((⟨[c], .ok a⟩ : Exec α) >>= f) := by
  intro b hb
  obtain ⟨h1, h2⟩ := h b hb
  refine ⟨?_, h2⟩
  show List.filter P (c :: (f a).trace) = c :: l
  rw [List.filter_cons, hP, if_pos rfl, h1]

theorem proj_call_skip {α β : Type} {P : Call → Bool} {l : List Call} {post : β → Prop}
    {c : Call} {a : α} {f : α → Exec β} (hP : P c = false) (h : Proj P l post (f a)) :
    Proj P l post ((⟨[c], .ok a⟩ : Exec α) >>= f) := by
  intro b hb
  obtain ⟨h1, h2⟩ := h b hb
  refine ⟨?_, h2⟩
  show List.filter P (c :: (f a).trace) = l
  rw [List.filter_cons, hP]
  simpa using h1

theorem proj_invoke_keep {β : Type} {P : Call → Bool} {l : List Call} {post : β → Prop}
    {r : Obj} {m : Method} {args : List Val} {f : Unit → Exec β}
    (hP : P ⟨some r, m, args, .void⟩ = true) (h : Proj P l post (f ())) :
    Proj P (⟨some r, m, args, .void⟩ :: l) post (invoke (some r) m args >>= f) :=
  proj_call_keep hP h

theorem proj_invoke_skip {β : Type} {P : Call → Bool} {l : List Call} {post : β → Prop}
    {r : Obj} {m : Method} {args : List Val} {f : Unit → Exec β}
    (hP : P ⟨some r, m, args, .void⟩ = false) (h : Proj P l post (f ())) :
    Proj P l post (invoke (some r) m args >>= f) :=
  proj_call_skip hP h

theorem proj_create_keep {β : Type} {P : Call → Bool} {l : List Call} {post : β → Prop}
    {e : Engine} {r o : Obj} {v : Ptr} {m : Method} {args : List Val} {f : Ptr → Exec β}
    (hv : e.make o = v) (hP : P ⟨some r, m, args, .ptr v⟩ = true) (h : Proj P l post (f v)) :
    Proj P (⟨some r, m, args, .ptr v⟩ :: l) post (create e (some r) m args o >>= f) := by
  subst hv
  exact proj_call_keep hP h

theorem proj_create_skip {β : Type} {P : Call → Bool} {l : List Call} {post : β → Prop}
    {e : Engine} {r o : Obj} {v : Ptr} {m : Method} {args : List Val} {f : Ptr → Exec β}
    (hv : e.make o = v) (hP : P ⟨some r, m, args, .ptr v⟩ = false) (h : Proj P l post (f v)) :
    Proj P l post (create e (some r) m args o >>= f) := by
  subst hv
  exact proj_call_skip hP h

theorem proj_getter_keep {β : Type} {P : Call → Bool} {l : List Call} {post : β → Prop}
    {r o : Obj} {m : Method} {args : List Val} {f : Ptr → Exec β}
    (hP : P ⟨some r, m, args, .ptr (some o)⟩ = true) (h : Proj P l post (f (some o))) :
    Proj P (⟨some r, m, args, .ptr (some o)⟩ :: l) post (getter (some r) m args o >>= f) :=
  proj_call_keep hP h

theorem proj_getter_skip {β : Type} {P : Call → Bool} {l : List Call} {post : β → Prop}
    {r o : Obj} {m : Method} {args : List Val} {f : Ptr → Exec β}
    (hP : P ⟨some r, m, args, .ptr (some o)⟩ = false) (h : Proj P l post (f (some o))) :
    Proj P l post (getter (some r) m args o >>= f) :=
  proj_call_skip hP h

theorem proj_getPosition_skip {β : Type} {P : Call → Bool} {l : List Call} {post : β → Prop}
    {e : Engine} {r : Obj} {f : Vec3 → Exec β}
    (hP : P ⟨some r, .getPosition, [], .vec (e.getPosition r)⟩ = false)
    (h : Proj P l post (f (e.getPosition r))) :
    Proj P l post (getPosition e (some r) >>= f) :=
  proj_call_skip hP h

theorem proj_last {α : Type} {P : Call → Bool} {l : List Call} {post : α → Prop} {x : Exec α}
    (h : Proj P l post (x >>= fun a => pure a)) : Proj P l post x := by
  rw [bind_pure_exec] at h
  exact h

theorem proj_invoke_last {P : Call → Bool} {l : List Call} {post : Unit → Prop}
    {p : Ptr} {m : Method} {args : List Val}
    (h : Proj P l post (invoke p m args >>= fun a => pure a)) :
    Proj P l post (invoke p m args) :=
  proj_last h

theorem proj_ifThen_last {P : Call → Bool} {l : List Call} {post : Unit → Prop}
    {c : Bool} {blk : Exec Unit}
    (h : Proj P l post (ifThen c blk >>= fun a => pure a)) : Proj P l post (ifThen c blk) :=
  proj_last h

theorem proj_ifThen {β : Type} {P : Call → Bool} {l : List Call} {post : β → Prop}
    {c : Bool} {blk : Exec Unit} {f : Unit → Exec β}
    (h1 : c = true → Proj P l post (blk >>= f)) (h2 : c = false → Proj P l post (f ())) :
    Proj P l post (ifThen c blk >>= f) := by
  cases c with
  | true => exact h1 rfl
  | false => exact h2 rfl

theorem proj_ite {α β : Type} {P : Call → Bool} {l : List Call} {post : β → Prop}
    {c : Prop} [Decidable c] {x y : Exec α} {f : α → Exec β}
    (h1 : c → Proj P l post (x >>= f)) (h2 : ¬c → Proj P l post (y >>= f)) :
    Proj P l post ((if c then x else y) >>= f) := by
  by_cases h : c
  · simpa [h] using h1 h
  · simpa [h] using h2 h

theorem proj_pure_bind {α β : Type} {P : Call → Bool} {l : List Call} {post : β → Prop}
    {a : α} {f : α → Exec β} (h : Proj P l post (f a)) :
    Proj P l post ((pure a : Exec α) >>= f) := by
  intro b hb
  exact h b hb

theorem proj_halt_bind {α β : Type} {P : Call → Bool} {l : List Call} {post : β → Prop}
    {o : Outcome} {f : α → Exec β} : Proj P l post ((halt o : Exec α) >>= f) :=
  proj_halt (o := o) rfl

theorem okval_left {α β : Type} {x : Exec α} {f : α → Exec β} {p : Prop}
    (h : ∀ a, x.result = .ok a → p) : ∀ b, (x >>= f).result = .ok b → p := by
  intro b hb
  rw [bind_eq, bind_ok_iff] at hb
  obtain ⟨a, ha, -⟩ := hb
  exact h a ha

theorem okval_assoc {α β γ : Type} {x : Exec α} {g : α → Exec β} {f : β → Exec γ}
    {Q : γ → Prop} (h : ∀ b, (x >>= fun a => g a >>= f).result = .ok b → Q b) :
    ∀ b, ((x >>= g) >>= f).result = .ok b → Q b := by
  rw [bind_assoc_exec]
  exact h

theorem okval_deref {β : Type} {e : Engine} {o : Obj} {m : Method} {args : List Val}
    {f : Unit → Exec β} :
    ∀ b, (invoke (e.make o) m args >>= f).result = .ok b → e.nonNull o = true := by
  intro b hb
  cases hn : e.nonNull o
  · simp [Engine.make, hn, invoke, halt, Exec.bind] at hb
  · rfl

theorem okval_deref_last {e : Engine} {o : Obj} {m : Method} {args : List Val} :
    ∀ b, (invoke (e.make o) m args).result = .ok b → e.nonNull o = true := by
  intro b hb
  cases hn : e.nonNull o
  · simp [Engine.make, hn, invoke, halt] at hb
  · rfl

theorem okval_ite {α β : Type} {c : Prop} [Decidable c] {x y : Exec α} {f : α → Exec β}
    {Q : β → Prop} (h1 : c → ∀ b, (x >>= f).result = .ok b → Q b)
    (h2 : ¬c → ∀ b, (y >>= f).result = .ok b → Q b) :
    ∀ b, ((if c then x else y) >>= f).result = .ok b → Q b := by
  by_cases h : c
  · simpa [h] using h1 h
  · simpa [h] using h2 h

theorem make_of_nonNull {e : Engine} {o : Obj} (h : e.nonNull o = true) : e.make o = some o := by
  simp [Engine.make, h]

theorem make_of_null {e : Engine} {o : Obj} (h : e.nonNull o = false) : e.make o = none := by
  simp [Engine.make, h]

/-! ## The node that receives the selector -/

theorem placeCube_some (n : Obj) (modVal i : Int) (s : Stack) :
    ∃ v s1, placeCube (some n) modVal i s =
      ⟨[⟨some n, .setPosition, [.vec v], .void⟩], .ok s1⟩ := by
  unfold placeCube
  split
  · exact ⟨_, _, rfl⟩
  · exact ⟨_, _, rfl⟩

theorem proj_placeCube_bind {β : Type} {P : Call → Bool} {l : List Call} {post : β → Prop}
    {n : Obj} {modVal i : Int} {s : Stack} {f : Stack → Exec β}
    (hP : ∀ v, P ⟨some n, .setPosition, [.vec v], .void⟩ = true)
    (h : ∀ s1, Proj P l post (f s1)) :
    Proj P ((placeCube (some n) modVal i s).trace ++ l) post
      (placeCube (some n) modVal i s >>= f) := by
  obtain ⟨v, s1, hv⟩ := placeCube_some n modVal i s
  rw [hv]
  exact proj_call_keep (hP v) (h s1)

theorem normalMapBlock_ok {e : Engine} {dr sm cube : Obj} {L i : Int} {a : Ptr}
    (h : (normalMapBlock e (some dr) (some sm) (some cube) L i).result = .ok a)
    (hnm : e.nonNull ⟨.normalMap, L, i⟩ = true) :
    e.nonNull ⟨.tangentMesh, L, i⟩ = true ∧ e.nonNull ⟨.tangentNode, L, i⟩ = true := by
  cases ht : e.nonNull ⟨.tangentMesh, L, i⟩ <;> cases hn : e.nonNull ⟨.tangentNode, L, i⟩ <;>
    first
      | exact ⟨rfl, rfl⟩
      | simp [normalMapBlock, create, getter, invoke, Engine.make, hnm, ht, hn, Exec.bind, halt]
          at h

theorem okval_normalMapBlock {β : Type} {e : Engine} {dr sm cube : Obj} {L i : Int}
    {f : Ptr → Exec β} :
    ∀ b, (normalMapBlock e (some dr) (some sm) (some cube) L i >>= f).result = .ok b →
      e.nonNull ⟨.normalMap, L, i⟩ = true →
      e.nonNull ⟨.tangentMesh, L, i⟩ = true ∧ e.nonNull ⟨.tangentNode, L, i⟩ = true :=
  okval_left (fun _ ha => normalMapBlock_ok ha)

theorem cubeBody_cube {e : Engine} {dr sm cam : Obj} {L modVal i : Int} {s : Stack} :
    ∀ s', (cubeBody e (some dr) (some sm) (some cam) L modVal i s).result = .ok s' →
      e.nonNull ⟨.cubeNode, L, i⟩ = true := by
  unfold cubeBody
  repeat' first
    | exact okval_deref
    | with_reducible refine okval_create_bind ?_
    | with_reducible refine okval_bind (fun _ _ => ?_)

theorem cubeBody_selector {e : Engine} {dr sm cam : Obj} {L modVal i : Int} {s : Stack} :
    ∀ s', (cubeBody e (some dr) (some sm) (some cam) L modVal i s).result = .ok s' →
      e.nonNull ⟨.cubeSelector, L, i⟩ = true := by
  unfold cubeBody
  repeat' first
    | exact okval_deref
    | with_reducible refine okval_create_bind ?_
    | with_reducible refine okval_bind (fun _ _ => ?_)

theorem cubeBody_anim {e : Engine} {dr sm cam : Obj} {L modVal i : Int} {s : Stack} :
    ∀ s', (cubeBody e (some dr) (some sm) (some cam) L modVal i s).result = .ok s' →
      e.nonNull ⟨.cubeAnim, L, i⟩ = true := by
  unfold cubeBody
  repeat' first
    | exact okval_deref
    | with_reducible refine okval_create_bind ?_
    | with_reducible refine okval_bind (fun _ _ => ?_)

theorem cubeBody_tangent {e : Engine} {dr sm cam : Obj} {L modVal i : Int} {s : Stack}
    (hcube : e.make ⟨.cubeNode, L, i⟩ = some ⟨.cubeNode, L, i⟩) :
    ∀ s', (cubeBody e (some dr) (some sm) (some cam) L modVal i s).result = .ok s' →
      e.nonNull ⟨.normalMap, L, i⟩ = true →
      e.nonNull ⟨.tangentMesh, L, i⟩ = true ∧ e.nonNull ⟨.tangentNode, L, i⟩ = true := by
  unfold cubeBody
  refine okval_create_bind ?_
  rw [hcube]
  repeat' first
    | exact okval_normalMapBlock
    | with_reducible refine okval_create_bind ?_
    | with_reducible refine okval_bind (fun _ _ => ?_)

/-- The statements `if (anim) { n->addAnimator(anim); anim->drop(); }`. -/
theorem proj_checkedAnim {β : Type} {P : Call → Bool} {l : List Call} {post : β → Prop}
    {e : Engine} {n o : Obj} {f : Unit → Exec β}
    (h1 : P ⟨some n, .addAnimator, [.ptr (some o)], .void⟩ = true)
    (h2 : P ⟨some o, .drop, [], .void⟩ = false) (h : Proj P l post (f ())) :
    Proj P (if e.nonNull o = true then ⟨some n, .addAnimator, [.ptr (some o)], .void⟩ :: l else l)
      post (ifThen (e.make o).isSome (invoke (some n) .addAnimator [.ptr (e.make o)] >>=
        fun _ => invoke (e.make o) .drop []) >>= f) := by
  cases hn : e.nonNull o
  · rw [make_of_null hn]
    simpa [ifThen] using proj_pure_bind h
  · rw [make_of_nonNull hn]
    simp only [if_true]
    refine proj_ifThen (fun _ => ?_) (fun hc => by cases hc)
    exact proj_assoc (proj_invoke_keep h1 (proj_invoke_skip h2 h))

theorem proj_cubeBody_mapped {e : Engine} {dr sm cam : Obj} {L modVal i : Int} {s : Stack}
    (hcube : e.make ⟨.cubeNode, L, i⟩ = some ⟨.cubeNode, L, i⟩)
    (hsel : e.make ⟨.cubeSelector, L, i⟩ = some ⟨.cubeSelector, L, i⟩)
    (hanim : e.make ⟨.cubeAnim, L, i⟩ = some ⟨.cubeAnim, L, i⟩)
    (hnm : e.make ⟨.normalMap, L, i⟩ = some ⟨.normalMap, L, i⟩)
    (htm : e.make ⟨.tangentMesh, L, i⟩ = some ⟨.tangentMesh, L, i⟩)
    (htn : e.make ⟨.tangentNode, L, i⟩ = some ⟨.tangentNode, L, i⟩) :
    Proj isNodeUse
      (⟨some ⟨.cubeNode, L, i⟩, .setScale, [vec 12 12 12], .void⟩ ::
        ((placeCube (some ⟨.cubeNode, L, i⟩) modVal i s).trace ++
        (⟨some ⟨.cubeNode, L, i⟩, .addShadowVolumeSceneNode, [], .void⟩ ::
         ⟨some sm, .addMeshSceneNode, [.ptr (some ⟨.tangentMesh, L, i⟩)],
           .ptr (some ⟨.tangentNode, L, i⟩)⟩ ::
         ⟨some sm, .createTriangleSelectorFromBoundingBox, [.ptr (some ⟨.tangentNode, L, i⟩)],
           .ptr (some ⟨.cubeSelector, L, i⟩)⟩ ::
         ⟨some ⟨.tangentNode, L, i⟩, .setTriangleSelector, [.ptr (some ⟨.cubeSelector, L, i⟩)],
           .void⟩ ::
         ⟨some cam, .addAnimator, [.ptr (some ⟨.cubeAnim, L, i⟩)], .void⟩ ::
         (if e.nonNull ⟨.animCube, L, i⟩ = true then
           [⟨some ⟨.tangentNode, L, i⟩, .addAnimator, [.ptr (some ⟨.animCube, L, i⟩)], .void⟩]
          else []))))
      (fun _ => True) (cubeBody e (some dr) (some sm) (some cam) L modVal i s) := by
  unfold cubeBody normalMapBlock
  repeat' first
    | exact hcube
    | exact hsel
    | exact hanim
    | exact hnm
    | exact htm
    | exact htn
    | rfl
    | exact rfl
    | exact proj_pure trivial
    | with_reducible refine proj_invoke_keep ?_ ?_
    | with_reducible refine proj_invoke_skip ?_ ?_
    | with_reducible refine proj_create_keep ?_ ?_ ?_
    | with_reducible refine proj_create_skip (v := ?_) ?_ ?_ ?_
    | with_reducible refine proj_getter_keep ?_ ?_
    | with_reducible refine proj_getter_skip ?_ ?_
    | with_reducible refine proj_getPosition_skip ?_ ?_
    | with_reducible refine proj_placeCube_bind ?_ (fun _ => ?_)
    | with_reducible refine proj_checkedAnim ?_ ?_ ?_
    | with_reducible refine proj_assoc ?_
    | with_reducible refine proj_ifThen ?_ ?_
    | with_reducible refine proj_ite ?_ ?_
    | with_reducible refine proj_pure_bind ?_
    | with_reducible refine proj_invoke_last ?_
    | with_reducible refine proj_ifThen_last ?_
    | (intro hc; cases hc)
    | (intro hc; exact absurd rfl hc)
    | intro _

theorem proj_cubeBody_plain {e : Engine} {dr sm cam : Obj} {L modVal i : Int} {s : Stack}
    (hcube : e.make ⟨.cubeNode, L, i⟩ = some ⟨.cubeNode, L, i⟩)
    (hsel : e.make ⟨.cubeSelector, L, i⟩ = some ⟨.cubeSelector, L, i⟩)
    (hanim : e.make ⟨.cubeAnim, L, i⟩ = some ⟨.cubeAnim, L, i⟩)
    (hnm : e.make ⟨.normalMap, L, i⟩ = none) :
    Proj isNodeUse
      (⟨some ⟨.cubeNode, L, i⟩, .setScale, [vec 12 12 12], .void⟩ ::
        ((placeCube (some ⟨.cubeNode, L, i⟩) modVal i s).trace ++
        (⟨some ⟨.cubeNode, L, i⟩, .addShadowVolumeSceneNode, [], .void⟩ ::
         ⟨some sm, .createTriangleSelectorFromBoundingBox, [.ptr (some ⟨.cubeNode, L, i⟩)],
           .ptr (some ⟨.cubeSelector, L, i⟩)⟩ ::
         ⟨some ⟨.cubeNode, L, i⟩, .setTriangleSelector, [.ptr (some ⟨.cubeSelector, L, i⟩)],
           .void⟩ ::
         ⟨some cam, .addAnimator, [.ptr (some ⟨.cubeAnim, L, i⟩)], .void⟩ ::
         (if e.nonNull ⟨.animCube, L, i⟩ = true then
           [⟨some ⟨.cubeNode, L, i⟩, .addAnimator, [.ptr (some ⟨.animCube, L, i⟩)], .void⟩]
          else []))))
      (fun _ => True) (cubeBody e (some dr) (some sm) (some cam) L modVal i s) := by
  have htm : True := trivial
  have htn : True := trivial
  unfold cubeBody normalMapBlock
  repeat' first
    | exact hcube
    | exact hsel
    | exact hanim
    | exact hnm
    | exact htm
    | exact htn
    | rfl
    | exact rfl
    | exact proj_pure trivial
    | with_reducible refine proj_invoke_keep ?_ ?_
    | with_reducible refine proj_invoke_skip ?_ ?_
    | with_reducible refine proj_create_keep ?_ ?_ ?_
    | with_reducible refine proj_create_skip (v := ?_) ?_ ?_ ?_
    | with_reducible refine proj_getter_keep ?_ ?_
    | with_reducible refine proj_getter_skip ?_ ?_
    | with_reducible refine proj_getPosition_skip ?_ ?_
    | with_reducible refine proj_placeCube_bind ?_ (fun _ => ?_)
    | with_reducible refine proj_checkedAnim ?_ ?_ ?_
    | with_reducible refine proj_assoc ?_
    | with_reducible refine proj_ifThen ?_ ?_
    | with_reducible refine proj_ite ?_ ?_
    | with_reducible refine proj_pure_bind ?_
    | with_reducible refine proj_invoke_last ?_
    | with_reducible refine proj_ifThen_last ?_
    | (intro hc; cases hc)
    | (intro hc; exact absurd rfl hc)
    | intro _

/-- C18: in a cube-loop iteration that falls through (no null pointer is dereferenced),
the calls that scale, place or shadow a node, make a node from a mesh, build a
bounding-box selector, set a selector or add an animator are exactly the listed ones.
When the normal map loads, `setScale(12,12,12)`, `setPosition` and
`addShadowVolumeSceneNode` go to the node made by `addCubeSceneNode`, while the selector
is built from, and set on, the node returned by `addMeshSceneNode(tangentMesh)`, which
also gets the rotation animator and on which neither `setPosition` nor `setScale` is
called.  When the normal map is null, all of them go to the cube node. -/
theorem replacement_node_gets_selector (e : Engine) (driver smgr camnode : Obj)
    (L modVal i : Int) (s s' : Stack)
    (h : (cubeBody e (some driver) (some smgr) (some camnode) L modVal i s).result = .ok s') :
    ∃ pos : Vec3,
      (e.nonNull ⟨.normalMap, L, i⟩ = true →
        (cubeBody e (some driver) (some smgr) (some camnode) L modVal i s).trace.filter
            isNodeUse =
          [⟨some ⟨.cubeNode, L, i⟩, .setScale, [vec 12 12 12], .void⟩,
           ⟨some ⟨.cubeNode, L, i⟩, .setPosition, [.vec pos], .void⟩,
           ⟨some ⟨.cubeNode, L, i⟩, .addShadowVolumeSceneNode, [], .void⟩,
           ⟨some smgr, .addMeshSceneNode, [.ptr (some ⟨.tangentMesh, L, i⟩)],
             .ptr (some ⟨.tangentNode, L, i⟩)⟩,
           ⟨some smgr, .createTriangleSelectorFromBoundingBox,
             [.ptr (some ⟨.tangentNode, L, i⟩)], .ptr (some ⟨.cubeSelector, L, i⟩)⟩,
           ⟨some ⟨.tangentNode, L, i⟩, .setTriangleSelector,
             [.ptr (some ⟨.cubeSelector, L, i⟩)], .void⟩,
           ⟨some camnode, .addAnimator, [.ptr (some ⟨.cubeAnim, L, i⟩)], .void⟩] ++
          (if e.nonNull ⟨.animCube, L, i⟩ = true then
            [⟨some ⟨.tangentNode, L, i⟩, .addAnimator, [.ptr (some ⟨.animCube, L, i⟩)], .void⟩]
           else [])) ∧
      (e.nonNull ⟨.normalMap, L, i⟩ = false →
        (cubeBody e (some driver) (some smgr) (some camnode) L modVal i s).trace.filter
            isNodeUse =
          [⟨some ⟨.cubeNode, L, i⟩, .setScale, [vec 12 12 12], .void⟩,
           ⟨some ⟨.cubeNode, L, i⟩, .setPosition, [.vec pos], .void⟩,
           ⟨some ⟨.cubeNode, L, i⟩, .addShadowVolumeSceneNode, [], .void⟩,
           ⟨some smgr, .createTriangleSelectorFromBoundingBox,
             [.ptr (some ⟨.cubeNode, L, i⟩)], .ptr (some ⟨.cubeSelector, L, i⟩)⟩,
           ⟨some ⟨.cubeNode, L, i⟩, .setTriangleSelector,
             [.ptr (some ⟨.cubeSelector, L, i⟩)], .void⟩,
           ⟨some camnode, .addAnimator, [.ptr (some ⟨.cubeAnim, L, i⟩)], .void⟩] ++
          (if e.nonNull ⟨.animCube, L, i⟩ = true then
            [⟨some ⟨.cubeNode, L, i⟩, .addAnimator, [.ptr (some ⟨.animCube, L, i⟩)], .void⟩]
           else [])) := by
  obtain ⟨v, s1, hv⟩ := placeCube_some ⟨.cubeNode, L, i⟩ modVal i s
  have hcube := make_of_nonNull (cubeBody_cube s' h)
  have hsel := make_of_nonNull (cubeBody_selector s' h)
  have hanim := make_of_nonNull (cubeBody_anim s' h)
  refine ⟨v, ?_, ?_⟩
  · intro hnm
    obtain ⟨htm, htn⟩ := cubeBody_tangent hcube s' h hnm
    rw [(proj_cubeBody_mapped hcube hsel hanim (make_of_nonNull hnm) (make_of_nonNull htm)
      (make_of_nonNull htn) s' h).1, hv]
    rfl
  · intro hnm
    rw [(proj_cubeBody_plain hcube hsel hanim (make_of_null hnm) s' h).1, hv]
    rfl

theorem replacement_node_gets_selector_witness :
    (cubeBody engineAll (some (.of .driver)) (some (.of .smgr)) (some (.of .camnode)) 1 4 1
        ⟨⟨.int 0, .int (-270), .int 0⟩, 1⟩).result = .ok ⟨⟨.int 0, .int (-270), .int 130⟩, 1⟩ ∧
    ∃ pos : Vec3,
      (engineAll.nonNull ⟨.normalMap, 1, 1⟩ = true →
        (cubeBody engineAll (some (.of .driver)) (some (.of .smgr)) (some (.of .camnode)) 1 4 1
            ⟨⟨.int 0, .int (-270), .int 0⟩, 1⟩).trace.filter isNodeUse =
          [⟨some ⟨.cubeNode, 1, 1⟩, .setScale, [vec 12 12 12], .void⟩,
           ⟨some ⟨.cubeNode, 1, 1⟩, .setPosition, [.vec pos], .void⟩,
           ⟨some ⟨.cubeNode, 1, 1⟩, .addShadowVolumeSceneNode, [], .void⟩,
           ⟨some (.of .smgr), .addMeshSceneNode, [.ptr (some ⟨.tangentMesh, 1, 1⟩)],
             .ptr (some ⟨.tangentNode, 1, 1⟩)⟩,
           ⟨some (.of .smgr), .createTriangleSelectorFromBoundingBox,
             [.ptr (some ⟨.tangentNode, 1, 1⟩)], .ptr (some ⟨.cubeSelector, 1, 1⟩)⟩,
           ⟨some ⟨.tangentNode, 1, 1⟩, .setTriangleSelector,
             [.ptr (some ⟨.cubeSelector, 1, 1⟩)], .void⟩,
           ⟨some (.of .camnode), .addAnimator, [.ptr (some ⟨.cubeAnim, 1, 1⟩)], .void⟩] ++
          (if engineAll.nonNull ⟨.animCube, 1, 1⟩ = true then
            [⟨some ⟨.tangentNode, 1, 1⟩, .addAnimator, [.ptr (some ⟨.animCube, 1, 1⟩)], .void⟩]
           else [])) ∧
      (engineAll.nonNull ⟨.normalMap, 1, 1⟩ = false →
        (cubeBody engineAll (some (.of .driver)) (some (.of .smgr)) (some (.of .camnode)) 1 4 1
            ⟨⟨.int 0, .int (-270), .int 0⟩, 1⟩).trace.filter isNodeUse =
          [⟨some ⟨.cubeNode, 1, 1⟩, .setScale, [vec 12 12 12], .void⟩,
           ⟨some ⟨.cubeNode, 1, 1⟩, .setPosition, [.vec pos], .void⟩,
           ⟨some ⟨.cubeNode, 1, 1⟩, .addShadowVolumeSceneNode, [], .void⟩,
           ⟨some (.of .smgr), .createTriangleSelectorFromBoundingBox,
             [.ptr (some ⟨.cubeNode, 1, 1⟩)], .ptr (some ⟨.cubeSelector, 1, 1⟩)⟩,
           ⟨some ⟨.cubeNode, 1, 1⟩, .setTriangleSelector,
             [.ptr (some ⟨.cubeSelector, 1, 1⟩)], .void⟩,
           ⟨some (.of .camnode), .addAnimator, [.ptr (some ⟨.cubeAnim, 1, 1⟩)], .void⟩] ++
          (if engineAll.nonNull ⟨.animCube, 1, 1⟩ = true then
            [⟨some ⟨.cubeNode, 1, 1⟩, .addAnimator, [.ptr (some ⟨.animCube, 1, 1⟩)], .void⟩]
           else [])) :=
  ⟨by decide,
    replacement_node_gets_selector engineAll (.of .driver) (.of .smgr) (.of .camnode) 1 4 1
      ⟨⟨.int 0, .int (-270), .int 0⟩, 1⟩ ⟨⟨.int 0, .int (-270), .int 130⟩, 1⟩ (by decide)⟩

/-! ## The device is created first; setup comes before rendering -/

theorem setup_calls {e : Engine} (fuel : Nat) :
    ∀ d ∈ (setup fuel e (some (.of .device))).trace, isSetupCall d = true := by
  have hq : ∀ d : Call, quiet d = true → isSetupCall d = true := by
    intro d hd
    simp only [quiet, Bool.and_eq_true] at hd
    simp only [isSetupCall, Bool.and_eq_true]
    exact ⟨hd.1.1.1, hd.1.2⟩
  have hinv := quiet_setup (e := e) fuel
  intro d hd
  rcases hs : (setup fuel e (some (.of .device))).result with h | o
  · exact hq d (hinv.calls (by simp [hs]) d hd)
  · cases o with
    | returned code =>
      obtain ⟨-, pre, v, -, -, ht, hpre⟩ := hinv.returnsOne code hs
      rw [ht] at hd
      rcases List.mem_append.1 hd with h | h
      · exact hq d (hpre d h)
      · simp only [List.mem_cons, List.mem_singleton, List.not_mem_nil, or_false] at h
        rcases h with h | h <;> subst h <;> rfl
    | undefined => exact hq d (hinv.calls (by simp [hs]) d hd)
    | outOfFuel => exact hq d (hinv.calls (by simp [hs]) d hd)

/-- A run of `main` is the `createDevice` call, then the calls of setup when there is a
device, then calls of the render loop and the release of the device. -/
theorem main_trace_split (fuel : Nat) (e : Engine) :
    ∃ tail, (main fuel e).trace = createDeviceCall (e.make (.of .device)) ::
        ((if e.nonNull (.of .device) = true then (setup fuel e (some (.of .device))).trace
          else []) ++ tail) ∧
      (∀ d ∈ tail, isLoopCall d = true ∧
        (d ∈ (renderLoop fuel e (some (.of .device)) (some (.of .driver)) (some (.of .smgr))
          (some (.of .guienv))).trace ∨ d = dropDevice)) ∧
      ((main fuel e).outcome = .returned 0 →
        ∃ h, (setup fuel e (some (.of .device))).result = .ok h) := by
  cases hd : e.nonNull (.of .device)
  · refine ⟨[], ?_, by simp, ?_⟩
    · rw [main_device_null hd, make_of_null hd]
      rfl
    · rw [main_device_null hd]
      intro h
      cases h
  · rw [make_of_nonNull hd]
    simp only [if_true]
    rcases hs : (setup fuel e (some (.of .device))).result with h | o
    · have hloop : ∀ d ∈ (renderLoop fuel e (some (.of .device)) (some (.of .driver))
          (some (.of .smgr)) (some (.of .guienv))).trace, isLoopCall d = true ∧
            (d ∈ (renderLoop fuel e (some (.of .device)) (some (.of .driver))
              (some (.of .smgr)) (some (.of .guienv))).trace ∨ d = dropDevice) := by
        intro d hd'
        have := loop_calls e _ _ (renderLoop_cond e) (renderLoop_body e) fuel 0 d hd'
        exact ⟨by simp [isLoopCall, this], Or.inl hd'⟩
      rcases hl : (renderLoop fuel e (some (.of .device)) (some (.of .driver))
          (some (.of .smgr)) (some (.of .guienv))).result with m | o
      · refine ⟨(renderLoop fuel e (some (.of .device)) (some (.of .driver))
          (some (.of .smgr)) (some (.of .guienv))).trace ++ [dropDevice], ?_, ?_, ?_⟩
        · rw [main_loop_ok hd hs hl]
          simp
        · intro d hd'
          rcases List.mem_append.1 hd' with h' | h'
          · exact hloop d h'
          · rw [List.mem_singleton] at h'
            subst h'
            exact ⟨rfl, Or.inr rfl⟩
        · intro _
          exact ⟨h, rfl⟩
      · refine ⟨(renderLoop fuel e (some (.of .device)) (some (.of .driver))
          (some (.of .smgr)) (some (.of .guienv))).trace, ?_, hloop, ?_⟩
        · rw [main_loop_halt hd hs hl]
          rfl
        · intro _
          exact ⟨h, rfl⟩
    · refine ⟨[], ?_, by simp, ?_⟩
      · rw [main_setup_halt hd hs]
        simp
      · rw [main_setup_halt hd hs]
        intro h0
        simp only at h0
        subst h0
        have := ((quiet_setup (e := e) fuel).returnsOne 0 hs).1
        omega

/-- C13: every run of `main` starts with the call
`createDevice(EDT_DIRECT3D9, dimension2d(1366, 768), 32, true, true, true, 0)` and makes
no other `createDevice` call; when that call gives a device, the next call is
`device->setWindowCaption("Game By Touraj Ebrahimi")`. -/
theorem device_created_once (fuel : Nat) (e : Engine) :
    ∃ rest, (main fuel e).trace =
        ⟨none, .createDevice,
          [.enum "EDT_DIRECT3D9", .obj "dimension2d" [1366, 768], .int 32, .bool true,
            .bool true, .bool true, .int 0],
          .ptr (e.make (.of .device))⟩ :: rest ∧
      (∀ d ∈ rest, d.method ≠ .createDevice) ∧
      (e.nonNull (.of .device) = true →
        ∃ rest', rest =
          ⟨some (.of .device), .setWindowCaption, [.str "Game By Touraj Ebrahimi"], .void⟩
            :: rest') := by
  obtain ⟨tail, ht, hl, -⟩ := main_trace_split fuel e
  refine ⟨_, ht, ?_, ?_⟩
  · intro d hd hm
    rcases List.mem_append.1 hd with h | h
    · split at h
      · have := setup_calls fuel d h
        simp [isSetupCall, hm] at this
      · cases h
    · have := (hl d h).1
      simp only [isLoopCall, Bool.or_eq_true, beq_iff_eq] at this
      rcases this with h' | h'
      · rw [hm] at h'
        cases h'
      · rw [h'] at hm
        cases hm
  · intro hd
    rw [if_pos hd]
    exact ⟨_, rfl⟩

theorem device_created_once_witness :
    engineAll.nonNull (.of .device) = true ∧
      ∃ rest, (main 13 engineAll).trace =
        ⟨none, .createDevice,
          [.enum "EDT_DIRECT3D9", .obj "dimension2d" [1366, 768], .int 32, .bool true,
            .bool true, .bool true, .int 0],
          .ptr (engineAll.make (.of .device))⟩ ::
        ⟨some (.of .device), .setWindowCaption, [.str "Game By Touraj Ebrahimi"], .void⟩
          :: rest := by
  obtain ⟨rest, h1, -, h3⟩ := device_created_once 13 engineAll
  obtain ⟨rest', h4⟩ := h3 rfl
  exact ⟨rfl, rest', by rw [h1, h4]⟩

/-- C14: in every run of `main`, no call of the render loop (`run`, `isWindowActive`,
`beginScene`, `drawAll`, `endScene`, `yield`) comes before a `setPosition`, `setScale` or
`setRotation` call: every transform is set before the first `beginScene` or `drawAll`,
and none once the render loop has started. -/
theorem transforms_precede_rendering (fuel : Nat) (e : Engine) (pre post : List Call)
    (c : Call) (h : (main fuel e).trace = pre ++ c :: post)
    (hc : isTransform c.method = true) : ∀ d ∈ pre, isFrameMethod d.method = false := by
  obtain ⟨tail, ht, hl, -⟩ := main_trace_split fuel e
  have hS : ∀ d ∈ createDeviceCall (e.make (.of .device)) ::
      (if e.nonNull (.of .device) = true then (setup fuel e (some (.of .device))).trace
        else []), isFrameMethod d.method = false := by
    intro d hd
    rcases List.mem_cons.1 hd with h' | h'
    · subst h'
      rfl
    · split at h'
      · have := setup_calls fuel d h'
        simp only [isSetupCall, Bool.and_eq_true, Bool.not_eq_true'] at this
        exact this.2
      · cases h'
  rw [ht, ← List.cons_append] at h
  rcases List.append_eq_append_iff.1 h with ⟨a', h1, h2⟩ | ⟨c', h1, h2⟩
  · have hmem : c ∈ tail := by
      rw [h2]
      simp
    have := (hl c hmem).1
    simp only [isLoopCall, Bool.or_eq_true, beq_iff_eq] at this
    rcases this with h' | h'
    · cases hm : c.method <;> simp_all [isTransform, isFrameMethod]
    · rw [h'] at hc
      cases hc
  · intro d hd
    exact hS d (by rw [h1]; exact List.mem_append_left _ hd)

theorem transforms_precede_rendering_witness :
    (main 13 (engineWithout .motherShip)).trace =
        (main 13 (engineWithout .motherShip)).trace.take 13 ++
          ⟨some (.of .node), .setScale, [vec 40 40 40], .void⟩ ::
            (main 13 (engineWithout .motherShip)).trace.drop 14 ∧
      isTransform Method.setScale = true ∧
      ∀ d ∈ (main 13 (engineWithout .motherShip)).trace.take 13,
        isFrameMethod d.method = false := by
  have h : (main 13 (engineWithout .motherShip)).trace =
      (main 13 (engineWithout .motherShip)).trace.take 13 ++
        ⟨some (.of .node), .setScale, [vec 40 40 40], .void⟩ ::
          (main 13 (engineWithout .motherShip)).trace.drop 14 := by
    decide
  exact ⟨h, rfl, transforms_precede_rendering 13 (engineWithout .motherShip) _ _ _ h rfl⟩

/-! ## The key map is consumed once -/

theorem every_placeCube {Q : Call → Prop} (p : Ptr) (modVal i : Int) (s : Stack)
    (h : ∀ r v, Q ⟨some r, .setPosition, [.vec v], .void⟩) :
    Every Q (placeCube p modVal i s) := by
  unfold placeCube
  split
  · exact every_bind (every_invoke (fun r => h r _)) (fun _ => every_pure _)
  · exact every_bind (every_invoke (fun r => h r _)) (fun _ => every_pure _)

theorem filter_nil_of_every {α : Type} {P : Call → Bool} {x : Exec α}
    (h : Every (fun c => P c = false) x) : x.trace.filter P = [] :=
  List.filter_eq_nil_iff.2 (fun c hc => by rw [h c hc]; simp)

theorem once_skip_bind {α β : Type} {P : Call → Bool} {c : Call} {x : Exec α}
    {f : α → Exec β} (hx : Every (fun c => P c = false) x) (hf : ∀ a, Once P c (f a)) :
    Once P c (x >>= f) := by
  rcases hr : x.result with a | o
  · rw [bind_eq, bind_ok hr]
    simp only [Once, List.filter_append, filter_nil_of_every hx, List.nil_append]
    exact hf a
  · rw [bind_eq, bind_halt hr]
    exact ⟨Or.inl (filter_nil_of_every hx), fun a ha => by cases ha⟩

theorem once_bind_skip {α β : Type} {P : Call → Bool} {c : Call} {x : Exec α}
    {f : α → Exec β} (hx : Once P c x) (hf : ∀ a, Every (fun c => P c = false) (f a)) :
    Once P c (x >>= f) := by
  rcases hr : x.result with a | o
  · rw [bind_eq, bind_ok hr]
    simp only [Once, List.filter_append, filter_nil_of_every (hf a), List.append_nil]
    exact ⟨hx.1, fun _ _ => hx.2 a hr⟩
  · rw [bind_eq, bind_halt hr]
    exact ⟨hx.1, fun a ha => by cases ha⟩

theorem noKeys_lightData (light : Ptr) (radius : Int) (colour : List Num) :
    Every (fun c => usesKeyMap c = false) (lightData light radius colour) := by
  unfold lightData
  repeat' first
    | with_reducible refine every_invoke ?_
    | with_reducible refine every_bind ?_ (fun _ => ?_)
    | (intro _; rfl)

theorem noKeys_normalMapBlock {e : Engine} (driver smgr cubeNode : Ptr) (level i : Int) :
    Every (fun c => usesKeyMap c = false) (normalMapBlock e driver smgr cubeNode level i) := by
  unfold normalMapBlock
  repeat' first
    | (intro _; rfl)
    | (intro _ _; rfl)
    | with_reducible refine every_bind ?_ (fun _ => ?_)
    | with_reducible refine every_invoke ?_
    | with_reducible refine every_create ?_
    | with_reducible refine every_getter ?_
    | with_reducible refine every_getPosition ?_
    | with_reducible refine every_ifThen ?_
    | with_reducible refine every_ite ?_ ?_
    | with_reducible exact every_pure _

theorem noKeys_characterSection {e : Engine} (device driver smgr : Ptr) :
    Every (fun c => usesKeyMap c = false) (characterSection e device driver smgr) := by
  unfold characterSection
  repeat' first
    | (intro _; rfl)
    | (intro _ _; rfl)
    | with_reducible refine every_bind ?_ (fun _ => ?_)
    | with_reducible refine every_invoke ?_
    | with_reducible refine every_create ?_
    | with_reducible refine every_getter ?_
    | with_reducible refine every_getPosition ?_
    | with_reducible refine every_ifThen ?_
    | with_reducible refine every_ite ?_ ?_
    | with_reducible exact every_pure _
    | with_reducible exact every_ret _
    | with_reducible exact noKeys_lightData _ _ _
    | with_reducible refine every_placeCube _ _ _ _ ?_
    | with_reducible exact noKeys_normalMapBlock _ _ _ _ _

theorem noKeys_lightsSection {e : Engine} (driver smgr : Ptr) :
    Every (fun c => usesKeyMap c = false) (lightsSection e driver smgr) := by
  unfold lightsSection
  repeat' first
    | (intro _; rfl)
    | (intro _ _; rfl)
    | with_reducible refine every_bind ?_ (fun _ => ?_)
    | with_reducible refine every_invoke ?_
    | with_reducible refine every_create ?_
    | with_reducible refine every_getter ?_
    | with_reducible refine every_getPosition ?_
    | with_reducible refine every_ifThen ?_
    | with_reducible refine every_ite ?_ ?_
    | with_reducible exact every_pure _
    | with_reducible exact every_ret _
    | with_reducible exact noKeys_lightData _ _ _
    | with_reducible refine every_placeCube _ _ _ _ ?_
    | with_reducible exact noKeys_normalMapBlock _ _ _ _ _

theorem noKeys_waterSection {e : Engine} (driver smgr : Ptr) :
    Every (fun c => usesKeyMap c = false) (waterSection e driver smgr) := by
  unfold waterSection
  repeat' first
    | (intro _; rfl)
    | (intro _ _; rfl)
    | with_reducible refine every_bind ?_ (fun _ => ?_)
    | with_reducible refine every_invoke ?_
    | with_reducible refine every_create ?_
    | with_reducible refine every_getter ?_
    | with_reducible refine every_getPosition ?_
    | with_reducible refine every_ifThen ?_
    | with_reducible refine every_ite ?_ ?_
    | with_reducible exact every_pure _
    | with_reducible exact every_ret _
    | with_reducible exact noKeys_lightData _ _ _
    | with_reducible refine every_placeCube _ _ _ _ ?_
    | with_reducible exact noKeys_normalMapBlock _ _ _ _ _

theorem noKeys_terrainSection {e : Engine} (driver smgr : Ptr) :
    Every (fun c => usesKeyMap c = false) (terrainSection e driver smgr) := by
  unfold terrainSection
  repeat' first
    | (intro _; rfl)
    | (intro _ _; rfl)
    | with_reducible refine every_bind ?_ (fun _ => ?_)
    | with_reducible refine every_invoke ?_
    | with_reducible refine every_create ?_
    | with_reducible refine every_getter ?_
    | with_reducible refine every_getPosition ?_
    | with_reducible refine every_ifThen ?_
    | with_reducible refine every_ite ?_ ?_
    | with_reducible exact every_pure _
    | with_reducible exact every_ret _
    | with_reducible exact noKeys_lightData _ _ _
    | with_reducible refine every_placeCube _ _ _ _ ?_
    | with_reducible exact noKeys_normalMapBlock _ _ _ _ _

theorem noKeys_skySection {e : Engine} (driver smgr : Ptr) :
    Every (fun c => usesKeyMap c = false) (skySection e driver smgr) := by
  unfold skySection
  repeat' first
    | (intro _; rfl)
    | (intro _ _; rfl)
    | with_reducible refine every_bind ?_ (fun _ => ?_)
    | with_reducible refine every_invoke ?_
    | with_reducible refine every_create ?_
    | with_reducible refine every_getter ?_
    | with_reducible refine every_getPosition ?_
    | with_reducible refine every_ifThen ?_
    | with_reducible refine every_ite ?_ ?_
    | with_reducible exact every_pure _
    | with_reducible exact every_ret _
    | with_reducible exact noKeys_lightData _ _ _
    | with_reducible refine every_placeCube _ _ _ _ ?_
    | with_reducible exact noKeys_normalMapBlock _ _ _ _ _

theorem noKeys_terrainCollision {e : Engine} (smgr terrain camnode : Ptr) :
    Every (fun c => usesKeyMap c = false) (terrainCollision e smgr terrain camnode) := by
  unfold terrainCollision
  repeat' first
    | (intro _; rfl)
    | (intro _ _; rfl)
    | with_reducible refine every_bind ?_ (fun _ => ?_)
    | with_reducible refine every_invoke ?_
    | with_reducible refine every_create ?_
    | with_reducible refine every_getter ?_
    | with_reducible refine every_getPosition ?_
    | with_reducible refine every_ifThen ?_
    | with_reducible refine every_ite ?_ ?_
    | with_reducible exact every_pure _
    | with_reducible exact every_ret _
    | with_reducible exact noKeys_lightData _ _ _
    | with_reducible refine every_placeCube _ _ _ _ ?_
    | with_reducible exact noKeys_normalMapBlock _ _ _ _ _

theorem noKeys_sphereSection {e : Engine} (driver smgr : Ptr) :
    Every (fun c => usesKeyMap c = false) (sphereSection e driver smgr) := by
  unfold sphereSection
  repeat' first
    | (intro _; rfl)
    | (intro _ _; rfl)
    | with_reducible refine every_bind ?_ (fun _ => ?_)
    | with_reducible refine every_invoke ?_
    | with_reducible refine every_create ?_
    | with_reducible refine every_getter ?_
    | with_reducible refine every_getPosition ?_
    | with_reducible refine every_ifThen ?_
    | with_reducible refine every_ite ?_ ?_
    | with_reducible exact every_pure _
    | with_reducible exact every_ret _
    | with_reducible exact noKeys_lightData _ _ _
    | with_reducible refine every_placeCube _ _ _ _ ?_
    | with_reducible exact noKeys_normalMapBlock _ _ _ _ _

theorem noKeys_gateBody {e : Engine} (smgr camnode : Ptr) (i : Int) :
    Every (fun c => usesKeyMap c = false) (gateBody e smgr camnode i) := by
  unfold gateBody
  repeat' first
    | (intro _; rfl)
    | (intro _ _; rfl)
    | with_reducible refine every_bind ?_ (fun _ => ?_)
    | with_reducible refine every_invoke ?_
    | with_reducible refine every_create ?_
    | with_reducible refine every_getter ?_
    | with_reducible refine every_getPosition ?_
    | with_reducible refine every_ifThen ?_
    | with_reducible refine every_ite ?_ ?_
    | with_reducible exact every_pure _
    | with_reducible exact every_ret _
    | with_reducible exact noKeys_lightData _ _ _
    | with_reducible refine every_placeCube _ _ _ _ ?_
    | with_reducible exact noKeys_normalMapBlock _ _ _ _ _

theorem noKeys_motherShipSection {e : Engine} (device smgr camnode : Ptr) :
    Every (fun c => usesKeyMap c = false) (motherShipSection e device smgr camnode) := by
  unfold motherShipSection
  repeat' first
    | (intro _; rfl)
    | (intro _ _; rfl)
    | with_reducible refine every_bind ?_ (fun _ => ?_)
    | with_reducible refine every_invoke ?_
    | with_reducible refine every_create ?_
    | with_reducible refine every_getter ?_
    | with_reducible refine every_getPosition ?_
    | with_reducible refine every_ifThen ?_
    | with_reducible refine every_ite ?_ ?_
    | with_reducible exact every_pure _
    | with_reducible exact every_ret _
    | with_reducible exact noKeys_lightData _ _ _
    | with_reducible refine every_placeCube _ _ _ _ ?_
    | with_reducible exact noKeys_normalMapBlock _ _ _ _ _

theorem noKeys_ufoSection {e : Engine} (device smgr : Ptr) :
    Every (fun c => usesKeyMap c = false) (ufoSection e device smgr) := by
  unfold ufoSection
  repeat' first
    | (intro _; rfl)
    | (intro _ _; rfl)
    | with_reducible refine every_bind ?_ (fun _ => ?_)
    | with_reducible refine every_invoke ?_
    | with_reducible refine every_create ?_
    | with_reducible refine every_getter ?_
    | with_reducible refine every_getPosition ?_
    | with_reducible refine every_ifThen ?_
    | with_reducible refine every_ite ?_ ?_
    | with_reducible exact every_pure _
    | with_reducible exact every_ret _
    | with_reducible exact noKeys_lightData _ _ _
    | with_reducible refine every_placeCube _ _ _ _ ?_
    | with_reducible exact noKeys_normalMapBlock _ _ _ _ _

theorem noKeys_particleSection {e : Engine} (driver smgr waterNode : Ptr) :
    Every (fun c => usesKeyMap c = false) (particleSection e driver smgr waterNode) := by
  unfold particleSection
  repeat' first
    | (intro _; rfl)
    | (intro _ _; rfl)
    | with_reducible refine every_bind ?_ (fun _ => ?_)
    | with_reducible refine every_invoke ?_
    | with_reducible refine every_create ?_
    | with_reducible refine every_getter ?_
    | with_reducible refine every_getPosition ?_
    | with_reducible refine every_ifThen ?_
    | with_reducible refine every_ite ?_ ?_
    | with_reducible exact every_pure _
    | with_reducible exact every_ret _
    | with_reducible exact noKeys_lightData _ _ _
    | with_reducible refine every_placeCube _ _ _ _ ?_
    | with_reducible exact noKeys_normalMapBlock _ _ _ _ _

theorem noKeys_ufo2Section {e : Engine} (device smgr : Ptr) :
    Every (fun c => usesKeyMap c = false) (ufo2Section e device smgr) := by
  unfold ufo2Section
  repeat' first
    | (intro _; rfl)
    | (intro _ _; rfl)
    | with_reducible refine every_bind ?_ (fun _ => ?_)
    | with_reducible refine every_invoke ?_
    | with_reducible refine every_create ?_
    | with_reducible refine every_getter ?_
    | with_reducible refine every_getPosition ?_
    | with_reducible refine every_ifThen ?_
    | with_reducible refine every_ite ?_ ?_
    | with_reducible exact every_pure _
    | with_reducible exact every_ret _
    | with_reducible exact noKeys_lightData _ _ _
    | with_reducible refine every_placeCube _ _ _ _ ?_
    | with_reducible exact noKeys_normalMapBlock _ _ _ _ _

theorem noKeys_ufo3Section {e : Engine} (device driver smgr : Ptr) :
    Every (fun c => usesKeyMap c = false) (ufo3Section e device driver smgr) := by
  unfold ufo3Section
  repeat' first
    | (intro _; rfl)
    | (intro _ _; rfl)
    | with_reducible refine every_bind ?_ (fun _ => ?_)
    | with_reducible refine every_invoke ?_
    | with_reducible refine every_create ?_
    | with_reducible refine every_getter ?_
    | with_reducible refine every_getPosition ?_
    | with_reducible refine every_ifThen ?_
    | with_reducible refine every_ite ?_ ?_
    | with_reducible exact every_pure _
    | with_reducible exact every_ret _
    | with_reducible exact noKeys_lightData _ _ _
    | with_reducible refine every_placeCube _ _ _ _ ?_
    | with_reducible exact noKeys_normalMapBlock _ _ _ _ _

theorem noKeys_rockSection {e : Engine} (device driver smgr : Ptr) :
    Every (fun c => usesKeyMap c = false) (rockSection e device driver smgr) := by
  unfold rockSection
  repeat' first
    | (intro _; rfl)
    | (intro _ _; rfl)
    | with_reducible refine every_bind ?_ (fun _ => ?_)
    | with_reducible refine every_invoke ?_
    | with_reducible refine every_create ?_
    | with_reducible refine every_getter ?_
    | with_reducible refine every_getPosition ?_
    | with_reducible refine every_ifThen ?_
    | with_reducible refine every_ite ?_ ?_
    | with_reducible exact every_pure _
    | with_reducible exact every_ret _
    | with_reducible exact noKeys_lightData _ _ _
    | with_reducible refine every_placeCube _ _ _ _ ?_
    | with_reducible exact noKeys_normalMapBlock _ _ _ _ _

theorem noKeys_cubeBody {e : Engine} (driver smgr camnode : Ptr) (L modVal i : Int) (s : Stack) :
    Every (fun c => usesKeyMap c = false) (cubeBody e driver smgr camnode L modVal i s) := by
  unfold cubeBody
  repeat' first
    | (intro _; rfl)
    | (intro _ _; rfl)
    | with_reducible refine every_bind ?_ (fun _ => ?_)
    | with_reducible refine every_invoke ?_
    | with_reducible refine every_create ?_
    | with_reducible refine every_getter ?_
    | with_reducible refine every_getPosition ?_
    | with_reducible refine every_ifThen ?_
    | with_reducible refine every_ite ?_ ?_
    | with_reducible exact every_pure _
    | with_reducible exact every_ret _
    | with_reducible exact noKeys_lightData _ _ _
    | with_reducible refine every_placeCube _ _ _ _ ?_
    | with_reducible exact noKeys_normalMapBlock _ _ _ _ _

theorem noKeys_gateSection {e : Engine} (smgr camnode : Ptr) :
    Every (fun c => usesKeyMap c = false) (gateSection e smgr camnode) :=
  every_forLoop (fun i _ => noKeys_gateBody smgr camnode i) _ _ _

theorem noKeys_cubeLevel {e : Engine} (driver smgr camnode : Ptr) (modVal : Int) (s : Levels) :
    Every (fun c => usesKeyMap c = false) (cubeLevel e driver smgr camnode modVal s) := by
  unfold cubeLevel
  exact every_bind (every_forLoop (fun i s => noKeys_cubeBody driver smgr camnode _ _ i s) _ _ _)
    (fun _ => every_pure _)

theorem noKeys_cubeSection {e : Engine} (fuel : Nat) (driver smgr camnode : Ptr) :
    Every (fun c => usesKeyMap c = false) (cubeSection fuel e driver smgr camnode) := by
  unfold cubeSection
  refine every_bind (every_invoke (fun _ => rfl)) (fun _ => ?_)
  exact every_bind (every_whileLoop (fun _ => every_pure _)
    (fun s => noKeys_cubeLevel driver smgr camnode 4 s) _ _) (fun _ => every_pure _)

theorem once_call_bind {α β : Type} {P : Call → Bool} {c : Call} {a : α} {f : α → Exec β}
    (hP : P c = true) (hf : ∀ a, Every (fun c => P c = false) (f a)) :
    Once P c ((⟨[c], .ok a⟩ : Exec α) >>= f) := by
  have : ((⟨[c], .ok a⟩ : Exec α) >>= f).trace.filter P = [c] := by
    show List.filter P (c :: (f a).trace) = [c]
    rw [List.filter_cons, hP, if_pos rfl, filter_nil_of_every (hf a)]
  exact ⟨Or.inr this, fun _ _ => this⟩

theorem once_call_skip {α β : Type} {P : Call → Bool} {c d : Call} {a : α} {f : α → Exec β}
    (hP : P d = false) (hf : Once P c (f a)) :
    Once P c ((⟨[d], .ok a⟩ : Exec α) >>= f) := by
  have : ((⟨[d], .ok a⟩ : Exec α) >>= f).trace.filter P = (f a).trace.filter P := by
    show List.filter P (d :: (f a).trace) = _
    rw [List.filter_cons, hP]
    rfl
  unfold Once
  rw [this]
  exact hf

theorem once_getter_skip {β : Type} {P : Call → Bool} {c : Call} {r o : Obj} {m : Method}
    {args : List Val} {f : Ptr → Exec β} (hP : P ⟨some r, m, args, .ptr (some o)⟩ = false)
    (hf : Once P c (f (some o))) : Once P c (getter (some r) m args o >>= f) :=
  once_call_skip hP hf

theorem once_invoke_skip {β : Type} {P : Call → Bool} {c : Call} {r : Obj} {m : Method}
    {args : List Val} {f : Unit → Exec β} (hP : P ⟨some r, m, args, .void⟩ = false)
    (hf : Once P c (f ())) : Once P c (invoke (some r) m args >>= f) :=
  once_call_skip hP hf

theorem once_cameraSection {e : Engine} (device : Ptr) :
    Once usesKeyMap (cameraCall (e.make (.of .camnode)))
      (cameraSection e device (some (.of .smgr)) keyMap) := by
  unfold cameraSection
  refine once_call_bind rfl (fun a => ?_)
  repeat' first
    | (intro _; rfl)
    | (intro _ _; rfl)
    | with_reducible refine every_bind ?_ (fun _ => ?_)
    | with_reducible refine every_invoke ?_
    | with_reducible refine every_getter ?_
    | with_reducible exact every_pure _

theorem once_setup {e : Engine} (fuel : Nat) :
    Once usesKeyMap (cameraCall (e.make (.of .camnode)))
      (setup fuel e (some (.of .device))) := by
  unfold setup
  refine once_invoke_skip rfl ?_
  refine once_getter_skip rfl ?_
  refine once_getter_skip rfl ?_
  refine once_getter_skip rfl ?_
  refine once_invoke_skip rfl ?_
  refine once_invoke_skip rfl ?_
  refine once_skip_bind (noKeys_characterSection _ _ _) (fun _ => ?_)
  refine once_skip_bind (noKeys_lightsSection _ _) (fun _ => ?_)
  refine once_skip_bind (noKeys_waterSection _ _) (fun _ => ?_)
  refine once_skip_bind (noKeys_terrainSection _ _) (fun _ => ?_)
  refine once_skip_bind (noKeys_skySection _ _) (fun _ => ?_)
  refine once_bind_skip (once_cameraSection _) (fun _ => ?_)
  refine every_bind (noKeys_terrainCollision _ _ _) (fun _ => ?_)
  refine every_bind (noKeys_sphereSection _ _) (fun _ => ?_)
  refine every_bind (noKeys_gateSection _ _) (fun _ => ?_)
  refine every_bind (noKeys_motherShipSection _ _ _) (fun _ => ?_)
  refine every_bind (noKeys_ufoSection _ _) (fun _ => ?_)
  refine every_bind (noKeys_particleSection _ _ _) (fun _ => ?_)
  refine every_bind (noKeys_ufo2Section _ _) (fun _ => ?_)
  refine every_bind (noKeys_ufo3Section _ _ _) (fun _ => ?_)
  refine every_bind (noKeys_rockSection _ _ _) (fun _ => ?_)
  refine every_bind (noKeys_cubeSection _ _ _ _) (fun _ => ?_)
  exact every_pure _

theorem every_ask {Q : Call → Prop} {p : Ptr} {m : Method} {b : Bool}
    (h : ∀ r, Q ⟨some r, m, [], .bool b⟩) : Every Q (ask p m b) := by
  cases p with
  | none => exact every_halt _
  | some r =>
    intro c hc
    simp only [ask, List.mem_singleton] at hc
    rw [hc]
    exact h r

theorem noKeys_renderLoop (fuel : Nat) (e : Engine) (device driver smgr guienv : Ptr) :
    Every (fun c => usesKeyMap c = false) (renderLoop fuel e device driver smgr guienv) := by
  unfold renderLoop
  refine every_whileLoop (fun k => ?_) (fun k => ?_) fuel 0
  · exact every_ask (fun _ => rfl)
  unfold frame
  repeat' first
    | (intro _; rfl)
    | with_reducible refine every_bind ?_ (fun _ => ?_)
    | with_reducible refine every_invoke ?_
    | with_reducible refine every_ask ?_
    | with_reducible refine every_ite ?_ ?_
    | with_reducible exact every_pure _

theorem filter_main {P : Call → Bool} (fuel : Nat) (e : Engine)
    (h1 : ∀ r, P (createDeviceCall r) = false)
    (h2 : Every (fun c => P c = false) (renderLoop fuel e (some (.of .device))
      (some (.of .driver)) (some (.of .smgr)) (some (.of .guienv))))
    (h3 : P dropDevice = false) :
    (main fuel e).trace.filter P =
      if e.nonNull (.of .device) = true then
        (setup fuel e (some (.of .device))).trace.filter P
      else [] := by
  obtain ⟨tail, ht, hl, -⟩ := main_trace_split fuel e
  have htail : tail.filter P = [] := by
    refine List.filter_eq_nil_iff.2 (fun d hd => ?_)
    rcases (hl d hd).2 with h | h
    · rw [h2 d h]
      simp
    · rw [h, h3]
      simp
  rw [ht, List.filter_cons_of_neg (by rw [h1]; simp), List.filter_append, htail,
    List.append_nil]
  by_cases hd : e.nonNull (.of .device) = true
  · simp only [hd, if_true]
  · simp only [hd, if_false]
    rfl

theorem engineIdle_returns_zero : (main 13 engineIdle).outcome = .returned 0 := by
  decide

/-- C12: the key map has 10 entries and each has its Action and its KeyCode assigned;
in every run of `main` the only call that takes the key map (or is an
`addCameraSceneNodeFPS` call) is, at most once,
`smgr->addCameraSceneNodeFPS(0, 50, 1, -1, keyMap, 10, false, 50, false, true)` with the
filled table and the count 10, the size of the table; in a run that returns 0 that call
is made exactly once. -/
theorem key_map_consumed_once (fuel : Nat) (e : Engine) :
    keyMap.length = 10 ∧
    (∀ entry ∈ keyMap, entry.Action.isSome = true ∧ entry.KeyCode.isSome = true) ∧
    ((main fuel e).trace.filter usesKeyMap = [] ∨
      (main fuel e).trace.filter usesKeyMap =
        [⟨some (.of .smgr), .addCameraSceneNodeFPS,
          [.int 0, .int 50, .int 1, .int (-1), .keys keyMap, .int keyMap.length, .bool false,
            .int 50, .bool false, .bool true],
          .ptr (e.make (.of .camnode))⟩]) ∧
    ((main fuel e).outcome = .returned 0 →
      (main fuel e).trace.filter usesKeyMap =
        [⟨some (.of .smgr), .addCameraSceneNodeFPS,
          [.int 0, .int 50, .int 1, .int (-1), .keys keyMap, .int 10, .bool false,
            .int 50, .bool false, .bool true],
          .ptr (e.make (.of .camnode))⟩]) := by
  have hf := filter_main (P := usesKeyMap) fuel e (fun _ => rfl)
    (noKeys_renderLoop _ _ _ _ _ _) rfl
  obtain ⟨tail, -, -, hret⟩ := main_trace_split fuel e
  have ho := once_setup (e := e) fuel
  refine ⟨rfl, by decide, ?_, ?_⟩
  · rw [hf]
    by_cases hd : e.nonNull (.of .device) = true
    · simp only [hd, if_true]
      exact ho.1
    · rw [Bool.not_eq_true] at hd
      rw [hd]
      exact Or.inl rfl
  · intro h0
    obtain ⟨h, hs⟩ := hret h0
    rw [hf]
    by_cases hd : e.nonNull (.of .device) = true
    · simp only [hd, if_true]
      exact ho.2 h hs
    · rw [Bool.not_eq_true] at hd
      rw [main_device_null hd] at h0
      cases h0

theorem key_map_consumed_once_witness :
    (main 13 engineIdle).outcome = .returned 0 ∧
    (main 13 engineIdle).trace.filter usesKeyMap =
      [⟨some (.of .smgr), .addCameraSceneNodeFPS,
        [.int 0, .int 50, .int 1, .int (-1), .keys keyMap, .int 10, .bool false,
          .int 50, .bool false, .bool true],
        .ptr (some (.of .camnode))⟩] :=
  ⟨engineIdle_returns_zero,
    (key_map_consumed_once 13 engineIdle).2.2.2 engineIdle_returns_zero⟩

/-! ## Which creation results are checked -/

theorem every_create_bind {β : Type} {e : Engine} {Q : Call → Prop} {p : Ptr} {m : Method}
    {args : List Val} {o : Obj} {f : Ptr → Exec β}
    (h : ∀ r, Q ⟨some r, m, args, .ptr (e.make o)⟩) (hf : Every Q (f (e.make o))) :
    Every Q (create e p m args o >>= f) := by
  cases p with
  | none =>
    intro c hc
    simp [create, halt, Exec.bind] at hc
  | some r =>
    intro c hc
    have : (create e (some r) m args o >>= f).trace =
        ⟨some r, m, args, .ptr (e.make o)⟩ :: (f (e.make o)).trace := rfl
    rw [this, List.mem_cons] at hc
    rcases hc with h' | h'
    · rw [h']
      exact h r
    · exact hf c h'

theorem every_invoke_make {e : Engine} {Q : Call → Prop} {o : Obj} {m : Method}
    {args : List Val} (h : Q ⟨some o, m, args, .void⟩) : Every Q (invoke (e.make o) m args) := by
  unfold Engine.make
  split
  · intro c hc
    simp only [invoke, List.mem_singleton] at hc
    rw [hc]
    exact h
  · exact every_halt _

theorem noColl_lightData (light : Ptr) (radius : Int) (colour : List Num) :
    Every (fun c => isCollisionCall c = false) (lightData light radius colour) :=
  every_lightData light radius colour (fun _ => rfl) (fun _ _ => rfl)

theorem noColl_characterSection {e : Engine} (device driver smgr : Ptr) :
    Every (fun c => isCollisionCall c = false) (characterSection e device driver smgr) := by
  unfold characterSection
  repeat' first
    | rfl
    | (intro _; rfl)
    | (intro _ _; rfl)
    | with_reducible refine every_create_bind ?_ ?_
    | with_reducible refine every_bind ?_ (fun _ => ?_)
    | with_reducible refine every_invoke_make ?_
    | with_reducible refine every_invoke ?_
    | with_reducible refine every_create ?_
    | with_reducible refine every_getter ?_
    | with_reducible refine every_getPosition ?_
    | with_reducible refine every_ifThen ?_
    | with_reducible refine every_ite ?_ ?_
    | with_reducible exact every_pure _
    | with_reducible exact every_ret _
    | with_reducible exact noColl_lightData _ _ _

theorem noColl_lightsSection {e : Engine} (driver smgr : Ptr) :
    Every (fun c => isCollisionCall c = false) (lightsSection e driver smgr) := by
  unfold lightsSection
  repeat' first
    | rfl
    | (intro _; rfl)
    | (intro _ _; rfl)
    | with_reducible refine every_create_bind ?_ ?_
    | with_reducible refine every_bind ?_ (fun _ => ?_)
    | with_reducible refine every_invoke_make ?_
    | with_reducible refine every_invoke ?_
    | with_reducible refine every_create ?_
    | with_reducible refine every_getter ?_
    | with_reducible refine every_getPosition ?_
    | with_reducible refine every_ifThen ?_
    | with_reducible refine every_ite ?_ ?_
    | with_reducible exact every_pure _
    | with_reducible exact every_ret _
    | with_reducible exact noColl_lightData _ _ _

theorem noColl_waterSection {e : Engine} (driver smgr : Ptr) :
    Every (fun c => isCollisionCall c = false) (waterSection e driver smgr) := by
  unfold waterSection
  repeat' first
    | rfl
    | (intro _; rfl)
    | (intro _ _; rfl)
    | with_reducible refine every_create_bind ?_ ?_
    | with_reducible refine every_bind ?_ (fun _ => ?_)
    | with_reducible refine every_invoke_make ?_
    | with_reducible refine every_invoke ?_
    | with_reducible refine every_create ?_
    | with_reducible refine every_getter ?_
    | with_reducible refine every_getPosition ?_
    | with_reducible refine every_ifThen ?_
    | with_reducible refine every_ite ?_ ?_
    | with_reducible exact every_pure _
    | with_reducible exact every_ret _
    | with_reducible exact noColl_lightData _ _ _

theorem noColl_terrainSection {e : Engine} (driver smgr : Ptr) :
    Every (fun c => isCollisionCall c = false) (terrainSection e driver smgr) := by
  unfold terrainSection
  repeat' first
    | rfl
    | (intro _; rfl)
    | (intro _ _; rfl)
    | with_reducible refine every_create_bind ?_ ?_
    | with_reducible refine every_bind ?_ (fun _ => ?_)
    | with_reducible refine every_invoke_make ?_
    | with_reducible refine every_invoke ?_
    | with_reducible refine every_create ?_
    | with_reducible refine every_getter ?_
    | with_reducible refine every_getPosition ?_
    | with_reducible refine every_ifThen ?_
    | with_reducible refine every_ite ?_ ?_
    | with_reducible exact every_pure _
    | with_reducible exact every_ret _
    | with_reducible exact noColl_lightData _ _ _

theorem noColl_skySection {e : Engine} (driver smgr : Ptr) :
    Every (fun c => isCollisionCall c = false) (skySection e driver smgr) := by
  unfold skySection
  repeat' first
    | rfl
    | (intro _; rfl)
    | (intro _ _; rfl)
    | with_reducible refine every_create_bind ?_ ?_
    | with_reducible refine every_bind ?_ (fun _ => ?_)
    | with_reducible refine every_invoke_make ?_
    | with_reducible refine every_invoke ?_
    | with_reducible refine every_create ?_
    | with_reducible refine every_getter ?_
    | with_reducible refine every_getPosition ?_
    | with_reducible refine every_ifThen ?_
    | with_reducible refine every_ite ?_ ?_
    | with_reducible exact every_pure _
    | with_reducible exact every_ret _
    | with_reducible exact noColl_lightData _ _ _

theorem noColl_cameraSection {e : Engine} (device smgr : Ptr) :
    Every (fun c => isCollisionCall c = false) (cameraSection e device smgr keyMap) := by
  unfold cameraSection
  repeat' first
    | rfl
    | (intro _; rfl)
    | (intro _ _; rfl)
    | with_reducible refine every_create_bind ?_ ?_
    | with_reducible refine every_bind ?_ (fun _ => ?_)
    | with_reducible refine every_invoke_make ?_
    | with_reducible refine every_invoke ?_
    | with_reducible refine every_create ?_
    | with_reducible refine every_getter ?_
    | with_reducible refine every_getPosition ?_
    | with_reducible refine every_ifThen ?_
    | with_reducible refine every_ite ?_ ?_
    | with_reducible exact every_pure _
    | with_reducible exact every_ret _
    | with_reducible exact noColl_lightData _ _ _

theorem noColl_sphereSection {e : Engine} (driver smgr : Ptr) :
    Every (fun c => isCollisionCall c = false) (sphereSection e driver smgr) := by
  unfold sphereSection
  repeat' first
    | rfl
    | (intro _; rfl)
    | (intro _ _; rfl)
    | with_reducible refine every_create_bind ?_ ?_
    | with_reducible refine every_bind ?_ (fun _ => ?_)
    | with_reducible refine every_invoke_make ?_
    | with_reducible refine every_invoke ?_
    | with_reducible refine every_create ?_
    | with_reducible refine every_getter ?_
    | with_reducible refine every_getPosition ?_
    | with_reducible refine every_ifThen ?_
    | with_reducible refine every_ite ?_ ?_
    | with_reducible exact every_pure _
    | with_reducible exact every_ret _
    | with_reducible exact noColl_lightData _ _ _

theorem noColl_ufoSection {e : Engine} (device smgr : Ptr) :
    Every (fun c => isCollisionCall c = false) (ufoSection e device smgr) := by
  unfold ufoSection
  repeat' first
    | rfl
    | (intro _; rfl)
    | (intro _ _; rfl)
    | with_reducible refine every_create_bind ?_ ?_
    | with_reducible refine every_bind ?_ (fun _ => ?_)
    | with_reducible refine every_invoke_make ?_
    | with_reducible refine every_invoke ?_
    | with_reducible refine every_create ?_
    | with_reducible refine every_getter ?_
    | with_reducible refine every_getPosition ?_
    | with_reducible refine every_ifThen ?_
    | with_reducible refine every_ite ?_ ?_
    | with_reducible exact every_pure _
    | with_reducible exact every_ret _
    | with_reducible exact noColl_lightData _ _ _

theorem noColl_particleSection {e : Engine} (driver smgr waterNode : Ptr) :
    Every (fun c => isCollisionCall c = false) (particleSection e driver smgr waterNode) := by
  unfold particleSection
  repeat' first
    | rfl
    | (intro _; rfl)
    | (intro _ _; rfl)
    | with_reducible refine every_create_bind ?_ ?_
    | with_reducible refine every_bind ?_ (fun _ => ?_)
    | with_reducible refine every_invoke_make ?_
    | with_reducible refine every_invoke ?_
    | with_reducible refine every_create ?_
    | with_reducible refine every_getter ?_
    | with_reducible refine every_getPosition ?_
    | with_reducible refine every_ifThen ?_
    | with_reducible refine every_ite ?_ ?_
    | with_reducible exact every_pure _
    | with_reducible exact every_ret _
    | with_reducible exact noColl_lightData _ _ _

theorem noColl_ufo2Section {e : Engine} (device smgr : Ptr) :
    Every (fun c => isCollisionCall c = false) (ufo2Section e device smgr) := by
  unfold ufo2Section
  repeat' first
    | rfl
    | (intro _; rfl)
    | (intro _ _; rfl)
    | with_reducible refine every_create_bind ?_ ?_
    | with_reducible refine every_bind ?_ (fun _ => ?_)
    | with_reducible refine every_invoke_make ?_
    | with_reducible refine every_invoke ?_
    | with_reducible refine every_create ?_
    | with_reducible refine every_getter ?_
    | with_reducible refine every_getPosition ?_
    | with_reducible refine every_ifThen ?_
    | with_reducible refine every_ite ?_ ?_
    | with_reducible exact every_pure _
    | with_reducible exact every_ret _
    | with_reducible exact noColl_lightData _ _ _

theorem noColl_ufo3Section {e : Engine} (device driver smgr : Ptr) :
    Every (fun c => isCollisionCall c = false) (ufo3Section e device driver smgr) := by
  unfold ufo3Section
  repeat' first
    | rfl
    | (intro _; rfl)
    | (intro _ _; rfl)
    | with_reducible refine every_create_bind ?_ ?_
    | with_reducible refine every_bind ?_ (fun _ => ?_)
    | with_reducible refine every_invoke_make ?_
    | with_reducible refine every_invoke ?_
    | with_reducible refine every_create ?_
    | with_reducible refine every_getter ?_
    | with_reducible refine every_getPosition ?_
    | with_reducible refine every_ifThen ?_
    | with_reducible refine every_ite ?_ ?_
    | with_reducible exact every_pure _
    | with_reducible exact every_ret _
    | with_reducible exact noColl_lightData _ _ _

theorem noColl_rockSection {e : Engine} (device driver smgr : Ptr) :
    Every (fun c => isCollisionCall c = false) (rockSection e device driver smgr) := by
  unfold rockSection
  repeat' first
    | rfl
    | (intro _; rfl)
    | (intro _ _; rfl)
    | with_reducible refine every_create_bind ?_ ?_
    | with_reducible refine every_bind ?_ (fun _ => ?_)
    | with_reducible refine every_invoke_make ?_
    | with_reducible refine every_invoke ?_
    | with_reducible refine every_create ?_
    | with_reducible refine every_getter ?_
    | with_reducible refine every_getPosition ?_
    | with_reducible refine every_ifThen ?_
    | with_reducible refine every_ite ?_ ?_
    | with_reducible exact every_pure _
    | with_reducible exact every_ret _
    | with_reducible exact noColl_lightData _ _ _

theorem coll_terrainCollision (e : Engine) :
    Proj isCollisionCall (Site.calls e .terrain) (fun _ => True)
      (terrainCollision e (some (.of .smgr)) (some (.of .terrain)) (some (.of .camnode))) := by
  intro a ha
  cases h1 : e.nonNull (.of .selector)
  · simp [terrainCollision, create, Engine.make, h1, invoke, halt, Exec.bind] at ha
  · cases h2 : e.nonNull (.of .anim)
    · simp [terrainCollision, create, Engine.make, h1, h2, invoke, halt, Exec.bind] at ha
    · simp [terrainCollision, create, Engine.make, h1, h2, invoke, halt, Exec.bind]
      rfl

theorem coll_motherShipSection (e : Engine) (device : Ptr)
    (hm : e.nonNull (.of .motherShipNode) = true) :
    Proj isCollisionCall (Site.calls e .motherShip) (fun _ => True)
      (motherShipSection e device (some (.of .smgr)) (some (.of .camnode))) := by
  intro a ha
  cases h0 : e.nonNull (.of .motherShip)
  · cases device <;>
      simp [motherShipSection, create, Engine.make, h0, invoke, halt, Exec.bind, ifThen, ret]
        at ha
  · cases h1 : e.nonNull (.of .motherShipSelector)
    · simp [motherShipSection, create, Engine.make, h0, hm, h1, invoke, halt, Exec.bind,
        ifThen, ret] at ha
    · cases h2 : e.nonNull (.of .motherShipAnim)
      · simp [motherShipSection, create, Engine.make, h0, hm, h1, h2, invoke, halt, Exec.bind,
          ifThen, ret] at ha
      · simp [motherShipSection, create, Engine.make, h0, hm, h1, h2, invoke, halt, Exec.bind,
          ifThen, ret]
        rfl

theorem coll_gateBody (e : Engine) (i : Int) (s : Unit)
    (hg : e.nonNull ⟨.sciFiGateArrayNode, 0, i⟩ = true) :
    Proj isCollisionCall (Site.calls e (.gate i)) (fun _ => True)
      (gateBody e (some (.of .smgr)) (some (.of .camnode)) i) := by
  intro a ha
  cases h0 : e.nonNull ⟨.lightGate, 0, i⟩
  · simp [gateBody, create, Engine.make, h0, hg, invoke, halt, Exec.bind, ifThen, lightData]
      at ha
  · cases h1 : e.nonNull ⟨.sciFiGateArraySelector, 0, i⟩
    · simp [gateBody, create, Engine.make, h0, hg, h1, invoke, halt, Exec.bind, ifThen,
        lightData, getPosition] at ha
    · cases h2 : e.nonNull ⟨.gateAnim, 0, i⟩
      · simp [gateBody, create, Engine.make, h0, hg, h1, h2, invoke, halt, Exec.bind, ifThen,
          lightData, getPosition] at ha
      · simp [gateBody, create, Engine.make, h0, hg, h1, h2, invoke, halt, Exec.bind, ifThen,
          lightData, getPosition]
        rfl

theorem proj_placeCube_skip {β : Type} {P : Call → Bool} {l : List Call} {post : β → Prop}
    {n : Obj} {modVal i : Int} {s : Stack} {f : Stack → Exec β}
    (hP : ∀ v, P ⟨some n, .setPosition, [.vec v], .void⟩ = false)
    (h : ∀ s1, Proj P l post (f s1)) :
    Proj P l post (placeCube (some n) modVal i s >>= f) := by
  obtain ⟨v, s1, hv⟩ := placeCube_some n modVal i s
  rw [hv]
  exact proj_call_skip (hP v) (h s1)

/-- The statements `if (anim) { n->addAnimator(anim); anim->drop(); }` when neither call
is selected. -/
theorem proj_checkedAnim_skip {β : Type} {P : Call → Bool} {l : List Call} {post : β → Prop}
    {e : Engine} {n o : Obj} {f : Unit → Exec β}
    (h1 : P ⟨some n, .addAnimator, [.ptr (some o)], .void⟩ = false)
    (h2 : P ⟨some o, .drop, [], .void⟩ = false) (h : Proj P l post (f ())) :
    Proj P l post (ifThen (e.make o).isSome (invoke (some n) .addAnimator [.ptr (e.make o)] >>=
        fun _ => invoke (e.make o) .drop []) >>= f) := by
  cases hn : e.nonNull o
  · rw [make_of_null hn]
    simpa [ifThen] using proj_pure_bind h
  · rw [make_of_nonNull hn]
    refine proj_ifThen (fun _ => ?_) (fun hc => by cases hc)
    exact proj_assoc (proj_invoke_skip h1 (proj_invoke_skip h2 h))

theorem coll_cubeBody_mapped {e : Engine} {dr : Obj} {L modVal i : Int} {s : Stack}
    (hcube : e.make ⟨.cubeNode, L, i⟩ = some ⟨.cubeNode, L, i⟩)
    (hsel : e.make ⟨.cubeSelector, L, i⟩ = some ⟨.cubeSelector, L, i⟩)
    (hanim : e.make ⟨.cubeAnim, L, i⟩ = some ⟨.cubeAnim, L, i⟩)
    (hnm : e.make ⟨.normalMap, L, i⟩ = some ⟨.normalMap, L, i⟩)
    (htm : e.make ⟨.tangentMesh, L, i⟩ = some ⟨.tangentMesh, L, i⟩)
    (htn : e.make ⟨.tangentNode, L, i⟩ = some ⟨.tangentNode, L, i⟩) :
    Proj isCollisionCall
      [⟨some (.of .smgr), .createTriangleSelectorFromBoundingBox,
          [.ptr (some ⟨.tangentNode, L, i⟩)], .ptr (some ⟨.cubeSelector, L, i⟩)⟩,
        ⟨some ⟨.tangentNode, L, i⟩, .setTriangleSelector, [.ptr (some ⟨.cubeSelector, L, i⟩)],
          .void⟩,
        ⟨some (.of .smgr), .createCollisionResponseAnimator,
          [.ptr (some ⟨.cubeSelector, L, i⟩), .ptr (some (.of .camnode)), vec 60 100 60,
            vec 0 0 0, vec 0 50 0], .ptr (some ⟨.cubeAnim, L, i⟩)⟩,
        ⟨some (.of .camnode), .addAnimator, [.ptr (some ⟨.cubeAnim, L, i⟩)], .void⟩]
      (fun _ => True)
      (cubeBody e (some dr) (some (.of .smgr)) (some (.of .camnode)) L modVal i s) := by
  unfold cubeBody normalMapBlock
  repeat' first
    | exact hcube
    | exact hsel
    | exact hanim
    | exact hnm
    | exact htm
    | exact htn
    | rfl
    | exact rfl
    | exact proj_pure trivial
    | with_reducible refine proj_invoke_keep ?_ ?_
    | with_reducible refine proj_invoke_skip ?_ ?_
    | with_reducible refine proj_create_keep ?_ ?_ ?_
    | with_reducible refine proj_create_skip (v := ?_) ?_ ?_ ?_
    | with_reducible refine proj_getter_keep ?_ ?_
    | with_reducible refine proj_getter_skip ?_ ?_
    | with_reducible refine proj_getPosition_skip ?_ ?_
    | with_reducible refine proj_placeCube_skip ?_ (fun _ => ?_)
    | with_reducible refine proj_checkedAnim_skip ?_ ?_ ?_
    | with_reducible refine proj_assoc ?_
    | with_reducible refine proj_ifThen ?_ ?_
    | with_reducible refine proj_ite ?_ ?_
    | with_reducible refine proj_pure_bind ?_
    | with_reducible refine proj_invoke_last ?_
    | with_reducible refine proj_ifThen_last ?_
    | (intro hc; cases hc)
    | (intro hc; exact absurd rfl hc)
    | intro _

theorem coll_cubeBody_plain {e : Engine} {dr : Obj} {L modVal i : Int} {s : Stack}
    (hcube : e.make ⟨.cubeNode, L, i⟩ = some ⟨.cubeNode, L, i⟩)
    (hsel : e.make ⟨.cubeSelector, L, i⟩ = some ⟨.cubeSelector, L, i⟩)
    (hanim : e.make ⟨.cubeAnim, L, i⟩ = some ⟨.cubeAnim, L, i⟩)
    (hnm : e.make ⟨.normalMap, L, i⟩ = none) :
    Proj isCollisionCall
      [⟨some (.of .smgr), .createTriangleSelectorFromBoundingBox,
          [.ptr (some ⟨.cubeNode, L, i⟩)], .ptr (some ⟨.cubeSelector, L, i⟩)⟩,
        ⟨some ⟨.cubeNode, L, i⟩, .setTriangleSelector, [.ptr (some ⟨.cubeSelector, L, i⟩)],
          .void⟩,
        ⟨some (.of .smgr), .createCollisionResponseAnimator,
          [.ptr (some ⟨.cubeSelector, L, i⟩), .ptr (some (.of .camnode)), vec 60 100 60,
            vec 0 0 0, vec 0 50 0], .ptr (some ⟨.cubeAnim, L, i⟩)⟩,
        ⟨some (.of .camnode), .addAnimator, [.ptr (some ⟨.cubeAnim, L, i⟩)], .void⟩]
      (fun _ => True)
      (cubeBody e (some dr) (some (.of .smgr)) (some (.of .camnode)) L modVal i s) := by
  have htm : True := trivial
  have htn : True := trivial
  unfold cubeBody normalMapBlock
  repeat' first
    | exact hcube
    | exact hsel
    | exact hanim
    | exact hnm
    | exact htm
    | exact htn
    | rfl
    | exact rfl
    | exact proj_pure trivial
    | with_reducible refine proj_invoke_keep ?_ ?_
    | with_reducible refine proj_invoke_skip ?_ ?_
    | with_reducible refine proj_create_keep ?_ ?_ ?_
    | with_reducible refine proj_create_skip (v := ?_) ?_ ?_ ?_
    | with_reducible refine proj_getter_keep ?_ ?_
    | with_reducible refine proj_getter_skip ?_ ?_
    | with_reducible refine proj_getPosition_skip ?_ ?_
    | with_reducible refine proj_placeCube_skip ?_ (fun _ => ?_)
    | with_reducible refine proj_checkedAnim_skip ?_ ?_ ?_
    | with_reducible refine proj_assoc ?_
    | with_reducible refine proj_ifThen ?_ ?_
    | with_reducible refine proj_ite ?_ ?_
    | with_reducible refine proj_pure_bind ?_
    | with_reducible refine proj_invoke_last ?_
    | with_reducible refine proj_ifThen_last ?_
    | (intro hc; cases hc)
    | (intro hc; exact absurd rfl hc)
    | intro _

theorem coll_cubeBody (e : Engine) (dr : Obj) (L modVal i : Int) (s : Stack) :
    Proj isCollisionCall (Site.calls e (.cube L i)) (fun _ => True)
      (cubeBody e (some dr) (some (.of .smgr)) (some (.of .camnode)) L modVal i s) := by
  intro s' h
  have hcube := make_of_nonNull (cubeBody_cube s' h)
  have hsel := make_of_nonNull (cubeBody_selector s' h)
  have hanim := make_of_nonNull (cubeBody_anim s' h)
  cases hn : e.nonNull ⟨.normalMap, L, i⟩
  · have := @coll_cubeBody_plain e dr L modVal i s hcube hsel hanim
      (make_of_null hn) s' h
    simpa [Site.calls, Site.createSelector, Site.setSelector, Site.createAnimator,
      Site.addToCamera, Site.node, Site.selector, Site.anim, Site.factory, Site.factoryArgs,
      Site.animArgs, hn] using this
  · obtain ⟨htm, htn⟩ := cubeBody_tangent hcube s' h hn
    have := @coll_cubeBody_mapped e dr L modVal i s hcube hsel hanim
      (make_of_nonNull hn) (make_of_nonNull htm) (make_of_nonNull htn) s' h
    simpa [Site.calls, Site.createSelector, Site.setSelector, Site.createAnimator,
      Site.addToCamera, Site.node, Site.selector, Site.anim, Site.factory, Site.factoryArgs,
      Site.animArgs, hn] using this

theorem proj_forLoop_lt {σ : Type} {P : Call → Bool} {body : Int → σ → Exec σ}
    (g : Int → List Call) (count : Nat) :
    ∀ (i : Int),
      (∀ k : Nat, k < count → ∀ s, Proj P (g (i + (k : Nat))) (fun _ => True)
        (body (i + (k : Nat)) s)) →
      ∀ s, Proj P ((List.range count).flatMap (fun k => g (i + (k : Nat)))) (fun _ => True)
        (forLoop body count i s) := by
  induction count with
  | zero =>
    intro i _ s
    simpa [forLoop] using @proj_pure _ P (fun _ => True) s trivial
  | succ n ih =>
    intro i h s
    unfold forLoop
    have h0 := h 0 (Nat.succ_pos n) s
    simp only [Nat.cast_zero, add_zero] at h0
    have hn : ∀ k : Nat, k < n → ∀ s, Proj P (g (i + 1 + (k : Nat))) (fun _ => True)
        (body (i + 1 + (k : Nat)) s) := by
      intro k hk s
      have := h (k + 1) (Nat.succ_lt_succ hk) s
      have e1 : i + ((k + 1 : Nat) : Int) = i + 1 + (k : Int) := by push_cast; omega
      rw [e1] at this
      exact this
    have := proj_bind h0 (fun a _ => ih (i + 1) hn a)
    rw [range_flatMap_succ]
    exact this

theorem coll_gateSection (e : Engine)
    (hg : ∀ k : Nat, k < 4 → e.nonNull ⟨.sciFiGateArrayNode, 0, (k : Int)⟩ = true) :
    Proj isCollisionCall ((List.range 4).flatMap (fun k => Site.calls e (.gate (k : Nat))))
      (fun _ => True) (gateSection e (some (.of .smgr)) (some (.of .camnode))) := by
  unfold gateSection
  have h := @proj_forLoop_lt Unit isCollisionCall
    (fun i _ => gateBody e (some (.of .smgr)) (some (.of .camnode)) i)
    (fun i => Site.calls e (.gate i)) 4 0 (by
      intro k hk s
      simp only [zero_add]
      exact coll_gateBody e k s (hg k hk)) ()
  simpa using h

theorem proj_cubeLevel_of {e : Engine} {P : Call → Bool} (driver smgr camnode : Ptr)
    (g : Int → Int → List Call)
    (hbody : ∀ L i s, Proj P (g L i) (fun _ => True) (cubeBody e driver smgr camnode L 4 i s))
    (s : Levels) :
    Proj P ((List.range 16).flatMap (fun k => g s.leveupCounter (1 + (k : Nat))))
      (fun s' => s'.leveupCounter = s.leveupCounter + 1)
      (cubeLevel e driver smgr camnode 4 s) := by
  unfold cubeLevel
  have h1 := @proj_forLoop_lt Stack P (cubeBody e driver smgr camnode s.leveupCounter 4)
    (fun i => g s.leveupCounter i) 16 1 (fun k _ s' => hbody _ _ s')
  intro b hb
  simp only [bind_eq, bind_ok_iff, pure_eq, Res.ok.injEq] at hb
  obtain ⟨a, ha, hab⟩ := hb
  subst hab
  obtain ⟨h2, -⟩ := h1 _ a ha
  refine ⟨?_, rfl⟩
  rw [bind_eq, bind_ok ha]
  simp only [pure_eq, List.append_nil]
  exact h2

theorem proj_cubeLoop_of {e : Engine} {P : Call → Bool} (driver smgr camnode : Ptr)
    (g : Int → Int → List Call)
    (hbody : ∀ L i s, Proj P (g L i) (fun _ => True) (cubeBody e driver smgr camnode L 4 i s))
    (fuel : Nat) :
    ∀ (n : Nat) (s : Levels), s.leveupCounter + n = 13 →
      Proj P
        ((List.range n).flatMap (fun j => (List.range 16).flatMap
          (fun k => g (s.leveupCounter + (j : Nat)) (1 + (k : Nat)))))
        (fun _ => True)
        (whileLoop (fun s : Levels => pure (decide (s.leveupCounter ≤ 12)))
          (cubeLevel e driver smgr camnode 4) fuel s) := by
  induction fuel with
  | zero =>
    intro n s _
    exact proj_halt (o := .outOfFuel) rfl
  | succ f ih =>
    intro n s hn
    rw [whileLoop_succ]
    by_cases h : s.leveupCounter ≤ 12
    · have hb : ((pure (decide (s.leveupCounter ≤ 12)) : Exec Bool) >>= fun b =>
          if b = true then
            cubeLevel e driver smgr camnode 4 s >>=
              whileLoop (fun s : Levels => pure (decide (s.leveupCounter ≤ 12)))
                (cubeLevel e driver smgr camnode 4) f
          else pure s) =
          (cubeLevel e driver smgr camnode 4 s >>=
            whileLoop (fun s : Levels => pure (decide (s.leveupCounter ≤ 12)))
              (cubeLevel e driver smgr camnode 4) f) := by
        simp [Exec.bind, h]
      rw [hb]
      obtain ⟨m, rfl⟩ : ∃ m, n = m + 1 := ⟨n - 1, by omega⟩
      intro b hb'
      obtain ⟨a, ha, hfa⟩ := bind_ok_iff.1 hb'
      obtain ⟨hl1, hl2⟩ := proj_cubeLevel_of driver smgr camnode g hbody s a ha
      obtain ⟨hr, -⟩ := ih m a (by rw [hl2]; push_cast at hn; omega) b hfa
      refine ⟨?_, trivial⟩
      rw [bind_eq, bind_ok ha]
      simp only
      rw [List.filter_append, hl1, hr, hl2]
      exact (range_flatMap_succ (fun L => (List.range 16).flatMap
        (fun k => g L (1 + (k : Nat)))) s.leveupCounter m).symm
    · have hb : ((pure (decide (s.leveupCounter ≤ 12)) : Exec Bool) >>= fun b =>
          if b = true then
            cubeLevel e driver smgr camnode 4 s >>=
              whileLoop (fun s : Levels => pure (decide (s.leveupCounter ≤ 12)))
                (cubeLevel e driver smgr camnode 4) f
          else pure s) = pure s := by
        simp [Exec.bind, h]
      rw [hb]
      obtain rfl : n = 0 := by omega
      exact proj_pure trivial

theorem proj_cubeSection_of {e : Engine} {P : Call → Bool} (fuel : Nat)
    (driver smgr camnode : Ptr) (g : Int → Int → List Call)
    (hP : ∀ r args, P ⟨some r, .setShadowColor, args, .void⟩ = false)
    (hbody : ∀ L i s, Proj P (g L i) (fun _ => True) (cubeBody e driver smgr camnode L 4 i s)) :
    Proj P (cubeIndices.flatMap (fun p => g p.1 p.2)) (fun _ => True)
      (cubeSection fuel e driver smgr camnode) := by
  unfold cubeSection
  refine proj_skip_bind (every_invoke (fun _ => hP _ _)) (fun _ => ?_)
  have h := proj_cubeLoop_of driver smgr camnode g hbody fuel 12 ⟨1, 0, 1⟩ (by norm_num)
  have e1 : cubeIndices.flatMap (fun p => g p.1 p.2) =
      (List.range 12).flatMap (fun j => (List.range 16).flatMap
        (fun k => g ((⟨1, 0, 1⟩ : Levels).leveupCounter + (j : Nat)) (1 + (k : Nat)))) := by
    simp only [cubeIndices, List.flatMap_assoc, List.flatMap_map]
  rw [e1]
  exact proj_bind_skip h (fun _ => every_pure _) (fun _ _ _ _ => trivial)

theorem coll_cubeSection (e : Engine) (fuel : Nat) (dr : Obj) :
    Proj isCollisionCall (cubeIndices.flatMap (fun p => Site.calls e (.cube p.1 p.2)))
      (fun _ => True)
      (cubeSection fuel e (some dr) (some (.of .smgr)) (some (.of .camnode))) :=
  proj_cubeSection_of fuel _ _ _ (fun L i => Site.calls e (.cube L i)) (fun _ _ => rfl)
    (fun L i s => coll_cubeBody e dr L 4 i s)

theorem proj_val_bind {α β : Type} {P : Call → Bool} {l : List Call} {post : β → Prop}
    {x : Exec α} {f : α → Exec β} (v : α) (hx : Every (fun c => P c = false) x)
    (hv : ∀ a, x.result = .ok a → a = v) (hf : Proj P l post (f v)) :
    Proj P l post (x >>= f) := by
  intro b hb
  obtain ⟨a, ha, hfa⟩ := bind_ok_iff.1 hb
  cases hv a ha
  obtain ⟨h1, h2⟩ := hf b hfa
  refine ⟨?_, h2⟩
  rw [bind_eq, bind_ok ha]
  simp only
  rw [List.filter_append, filter_nil_of_every hx, h1]
  rfl

theorem terrainSection_val {e : Engine} {driver smgr : Ptr} {a : Ptr}
    (h : (terrainSection e driver smgr).result = .ok a) : a = some (.of .terrain) := by
  cases smgr with
  | none => simp [terrainSection, create, halt, Exec.bind] at h
  | some sm =>
    cases h1 : e.nonNull (.of .terrain)
    · simp [terrainSection, create, Engine.make, h1, invoke, halt, Exec.bind] at h
    · cases driver with
      | none => simp [terrainSection, create, Engine.make, h1, invoke, halt, Exec.bind] at h
      | some dr =>
        simp [terrainSection, create, Engine.make, h1, invoke, halt, Exec.bind] at h
        exact h.symm

theorem cameraSection_val {e : Engine} {device smgr : Ptr} {a : Ptr}
    (h : (cameraSection e device smgr keyMap).result = .ok a) : a = some (.of .camnode) := by
  cases smgr with
  | none => simp [cameraSection, create, halt, Exec.bind] at h
  | some sm =>
    cases h1 : e.nonNull (.of .camnode)
    · simp [cameraSection, create, Engine.make, h1, invoke, halt, Exec.bind] at h
    · cases device with
      | none =>
        simp [cameraSection, create, Engine.make, h1, invoke, getter, halt, Exec.bind] at h
      | some dv =>
        simp [cameraSection, create, Engine.make, h1, invoke, getter, halt, Exec.bind] at h
        exact h.symm

theorem sites_calls (e : Engine) :
    sites.flatMap (Site.calls e) =
      Site.calls e .terrain ++
        ((List.range 4).flatMap (fun k => Site.calls e (.gate (k : Nat))) ++
          (Site.calls e .motherShip ++
            cubeIndices.flatMap (fun p => Site.calls e (.cube p.1 p.2)))) := by
  simp only [sites, List.flatMap_cons, List.flatMap_append, List.flatMap_map]

theorem coll_setup (fuel : Nat) (e : Engine)
    (hg : ∀ k : Nat, k < 4 → e.nonNull ⟨.sciFiGateArrayNode, 0, (k : Int)⟩ = true)
    (hm : e.nonNull (.of .motherShipNode) = true) :
    Proj isCollisionCall (sites.flatMap (Site.calls e)) (fun _ => True)
      (setup fuel e (some (.of .device))) := by
  rw [sites_calls]
  unfold setup
  refine proj_invoke_skip rfl ?_
  refine proj_getter_skip rfl ?_
  refine proj_getter_skip rfl ?_
  refine proj_getter_skip rfl ?_
  refine proj_invoke_skip rfl ?_
  refine proj_invoke_skip rfl ?_
  refine proj_skip_bind (noColl_characterSection _ _ _) (fun _ => ?_)
  refine proj_skip_bind (noColl_lightsSection _ _) (fun _ => ?_)
  refine proj_skip_bind (noColl_waterSection _ _) (fun waterNode => ?_)
  refine proj_val_bind (some (.of .terrain)) (noColl_terrainSection _ _)
    (fun _ h => terrainSection_val h) ?_
  refine proj_skip_bind (noColl_skySection _ _) (fun _ => ?_)
  refine proj_val_bind (some (.of .camnode)) (noColl_cameraSection _ _)
    (fun _ h => cameraSection_val h) ?_
  refine proj_bind (coll_terrainCollision e) (fun _ _ => ?_)
  refine proj_skip_bind (noColl_sphereSection _ _) (fun _ => ?_)
  refine proj_bind (coll_gateSection e hg) (fun _ _ => ?_)
  refine proj_bind (coll_motherShipSection e _ hm) (fun _ _ => ?_)
  refine proj_skip_bind (noColl_ufoSection _ _) (fun _ => ?_)
  refine proj_skip_bind (noColl_particleSection _ _ _) (fun _ => ?_)
  refine proj_skip_bind (noColl_ufo2Section _ _) (fun _ => ?_)
  refine proj_skip_bind (noColl_ufo3Section _ _ _) (fun _ => ?_)
  refine proj_skip_bind (noColl_rockSection _ _ _) (fun _ => ?_)
  exact proj_bind_skip (coll_cubeSection e fuel _) (fun _ => every_pure _)
    (fun _ _ _ _ => trivial)

theorem noColl_renderLoop (fuel : Nat) (e : Engine) (device driver smgr guienv : Ptr) :
    Every (fun c => isCollisionCall c = false) (renderLoop fuel e device driver smgr guienv) := by
  unfold renderLoop
  refine every_whileLoop (fun k => ?_) (fun k => ?_) fuel 0
  · exact every_ask (fun _ => rfl)
  unfold frame
  repeat' first
    | (intro _; rfl)
    | with_reducible refine every_bind ?_ (fun _ => ?_)
    | with_reducible refine every_invoke ?_
    | with_reducible refine every_ask ?_
    | with_reducible refine every_ite ?_ ?_
    | with_reducible exact every_pure _

theorem coll_main (fuel : Nat) (e : Engine) (h0 : (main fuel e).outcome = .returned 0)
    (hg : ∀ k : Nat, k < 4 → e.nonNull ⟨.sciFiGateArrayNode, 0, (k : Int)⟩ = true)
    (hm : e.nonNull (.of .motherShipNode) = true) :
    (main fuel e).trace.filter isCollisionCall = sites.flatMap (Site.calls e) := by
  have hf := filter_main (P := isCollisionCall) fuel e (fun _ => rfl)
    (noColl_renderLoop _ _ _ _ _ _) rfl
  obtain ⟨tail, -, -, hret⟩ := main_trace_split fuel e
  obtain ⟨h, hs⟩ := hret h0
  rw [hf]
  cases hd : e.nonNull (.of .device)
  · rw [main_device_null hd] at h0
    cases h0
  · simp only [if_true]
    exact (coll_setup fuel e hg hm h hs).1

theorem flatMap_ite_single {α β : Type} [DecidableEq α] (g : α → β) (s : α) :
    ∀ l : List α, l.Nodup → s ∈ l →
      l.flatMap (fun t => if t = s then [g t] else []) = [g s] := by
  intro l
  induction l with
  | nil =>
    intro _ h
    cases h
  | cons a l ih =>
    intro hnd hs
    rw [List.nodup_cons] at hnd
    rw [List.flatMap_cons]
    by_cases ha : a = s
    · subst ha
      have : l.flatMap (fun t => if t = a then [g t] else []) = [] := by
        rw [List.flatMap_eq_nil_iff]
        intro t ht
        have : t ≠ a := fun h => hnd.1 (h ▸ ht)
        simp [this]
      simp [this]
    · have hs' : s ∈ l := by
        rcases List.mem_cons.1 hs with h | h
        · exact absurd h.symm ha
        · exact h
      simp [ha, ih hnd.2 hs']

theorem flatMap_unit {α β : Type} (g : α → β) (l : List α) :
    l.flatMap (fun t => [g t]) = l.map g := by
  induction l with
  | nil => rfl
  | cons a l ih => simp [List.flatMap_cons, ih]

theorem Site.selector_inj (s t : Site) : t.selector = s.selector ↔ t = s := by
  cases s <;> cases t <;> simp [Site.selector, Obj.of]

theorem Site.anim_inj (s t : Site) : t.anim = s.anim ↔ t = s := by
  cases s <;> cases t <;> simp [Site.anim, Obj.of]

theorem Site.factory_isFactory (s : Site) : isSelectorFactory s.factory = true := by
  cases s <;> rfl

theorem sites_nodup : sites.Nodup := by
  unfold sites
  rw [List.nodup_cons]
  refine ⟨by simp, ?_⟩
  rw [List.nodup_append]
  refine ⟨?_, ?_, ?_⟩
  · refine List.Nodup.map ?_ (List.nodup_range 4)
    intro a b h
    simpa using h
  · rw [List.nodup_cons]
    refine ⟨by simp, ?_⟩
    refine List.Nodup.map ?_ cubeIndices_nodup
    intro a b h
    simp only [Site.cube.injEq] at h
    exact Prod.ext h.1 h.2
  · intro a ha hb
    obtain ⟨k, -, rfl⟩ := List.mem_map.1 ha
    simp at hb

theorem sites_length : sites.length = 198 := by
  simp [sites, cubeIndices_length]

theorem calls_filter_created (e : Engine) (s t : Site) :
    (Site.calls e t).filter
        (fun c => isSelectorFactory c.method && c.ret == .ptr (some s.selector)) =
      if t = s then [t.createSelector e] else [] := by
  have f1 : isSelectorFactory .setTriangleSelector = false := rfl
  have f2 : isSelectorFactory .createCollisionResponseAnimator = false := rfl
  have f3 : isSelectorFactory .addAnimator = false := rfl
  by_cases h : t = s
  · subst h
    simp [Site.calls, List.filter_cons, Site.createSelector, Site.setSelector,
      Site.createAnimator, Site.addToCamera, Site.factory_isFactory, f1, f2, f3]
  · have h' : ¬ t.selector = s.selector := fun hh => h ((Site.selector_inj s t).1 hh)
    simp [Site.calls, List.filter_cons, Site.createSelector, Site.setSelector,
      Site.createAnimator, Site.addToCamera, Site.factory_isFactory, f1, f2, f3, h, h']

theorem calls_filter_factory (e : Engine) (t : Site) :
    (Site.calls e t).filter (fun c => isSelectorFactory c.method) = [t.createSelector e] := by
  have f1 : isSelectorFactory .setTriangleSelector = false := rfl
  have f2 : isSelectorFactory .createCollisionResponseAnimator = false := rfl
  have f3 : isSelectorFactory .addAnimator = false := rfl
  simp [Site.calls, List.filter_cons, Site.createSelector, Site.setSelector,
    Site.createAnimator, Site.addToCamera, Site.factory_isFactory, f1, f2, f3]

theorem calls_filter_set (e : Engine) (s t : Site) :
    (Site.calls e t).filter
        (fun c => c.method == .setTriangleSelector && c.args == [.ptr (some s.selector)]) =
      if t = s then [t.setSelector e] else [] := by
  have hf : (t.factory == Method.setTriangleSelector) = false := by cases t <;> rfl
  by_cases h : t = s
  · subst h
    simp [Site.calls, List.filter_cons, Site.createSelector, Site.setSelector,
      Site.createAnimator, Site.addToCamera, hf]
  · have h' : ¬ t.selector = s.selector := fun hh => h ((Site.selector_inj s t).1 hh)
    simp [Site.calls, List.filter_cons, Site.createSelector, Site.setSelector,
      Site.createAnimator, Site.addToCamera, hf, h, h']

theorem calls_filter_animator (e : Engine) (s t : Site) :
    (Site.calls e t).filter
        (fun c => c.method == .createCollisionResponseAnimator &&
          c.args.head? == some (.ptr (some s.selector))) =
      if t = s then [t.createAnimator] else [] := by
  have hf : (t.factory == Method.createCollisionResponseAnimator) = false := by
    cases t <;> rfl
  by_cases h : t = s
  · subst h
    simp [Site.calls, List.filter_cons, Site.createSelector, Site.setSelector,
      Site.createAnimator, Site.addToCamera, hf]
  · have h' : ¬ t.selector = s.selector := fun hh => h ((Site.selector_inj s t).1 hh)
    simp [Site.calls, List.filter_cons, Site.createSelector, Site.setSelector,
      Site.createAnimator, Site.addToCamera, hf, h, h']

theorem calls_filter_added (e : Engine) (s t : Site) :
    (Site.calls e t).filter
        (fun c => c.method == .addAnimator && c.recv == some (.of .camnode) &&
          c.args == [.ptr (some s.anim)]) =
      if t = s then [t.addToCamera] else [] := by
  have hf : (t.factory == Method.addAnimator) = false := by cases t <;> rfl
  by_cases h : t = s
  · subst h
    simp [Site.calls, List.filter_cons, Site.createSelector, Site.setSelector,
      Site.createAnimator, Site.addToCamera, hf]
  · have h' : ¬ t.anim = s.anim := fun hh => h ((Site.anim_inj s t).1 hh)
    simp [Site.calls, List.filter_cons, Site.createSelector, Site.setSelector,
      Site.createAnimator, Site.addToCamera, hf, h, h']

theorem filter_sites {e : Engine} {l : List Call} (Q : Site → Call → Bool) (g : Site → Call)
    (hl : l.filter isCollisionCall = sites.flatMap (Site.calls e))
    (himp : ∀ s c, Q s c = true → isCollisionCall c = true)
    (hQ : ∀ s t, (Site.calls e t).filter (Q s) = if t = s then [g t] else [])
    (s : Site) (hs : s ∈ sites) : l.filter (Q s) = [g s] := by
  rw [filter_of_imp isCollisionCall _ _ (himp s), hl, List.filter_flatMap]
  simp only [hQ s]
  exact flatMap_ite_single g s sites sites_nodup hs

/-- C11, the claim fails: on the engine that creates everything except the node of the
mother ship (every mesh and texture loads, every gate node is non-null), `main` returns 0
and 197 triangle selectors are created, not 198. -/
theorem selectors_without_mother_ship_node :
    (∀ o : Obj, o.var ≠ .motherShipNode → (engineWithout .motherShipNode).nonNull o = true) ∧
    (main 13 (engineWithout .motherShipNode)).outcome = .returned 0 ∧
    ((main 13 (engineWithout .motherShipNode)).trace.filter
      (fun c => isSelectorFactory c.method)).length = 197 :=
  ⟨fun _ h => decide_eq_true h, by decide, by decide⟩

/-- C11, amended: in a run of `main` that returns 0 and in which the four gate nodes
and the node of the mother ship are non-null, the collision calls are, in program order,
those of 198 sites (the terrain, 4 gates, the mother ship, 192 cubes), each site
contributing the creation of its selector, `setTriangleSelector` on its node,
`createCollisionResponseAnimator(selector, camnode, ...)` and `camnode->addAnimator`.
The 198 selectors are distinct, exactly 198 selector factory calls are made, and for
each site its selector is the result of exactly one factory call, is set by exactly one
`setTriangleSelector` call, is the first argument of exactly one
`createCollisionResponseAnimator` call, whose second argument is the camera, and the
animator that call returns is added to the camera by exactly one call. -/
theorem selectors_per_site (fuel : Nat) (e : Engine)
    (h0 : (main fuel e).outcome = .returned 0)
    (hg : ∀ k : Nat, k < 4 → e.nonNull ⟨.sciFiGateArrayNode, 0, (k : Int)⟩ = true)
    (hm : e.nonNull (.of .motherShipNode) = true) :
    (main fuel e).trace.filter isCollisionCall = sites.flatMap (Site.calls e) ∧
    sites.length = 198 ∧ (sites.map Site.selector).Nodup ∧
    ((main fuel e).trace.filter (fun c => isSelectorFactory c.method)).length = 198 ∧
    ∀ s ∈ sites,
      (main fuel e).trace.filter
          (fun c => isSelectorFactory c.method && c.ret == .ptr (some s.selector)) =
        [⟨some (.of .smgr), s.factory, .ptr (some (s.node e)) :: s.factoryArgs,
          .ptr (some s.selector)⟩] ∧
      (main fuel e).trace.filter
          (fun c => c.method == .setTriangleSelector && c.args == [.ptr (some s.selector)]) =
        [⟨some (s.node e), .setTriangleSelector, [.ptr (some s.selector)], .void⟩] ∧
      (main fuel e).trace.filter
          (fun c => c.method == .createCollisionResponseAnimator &&
            c.args.head? == some (.ptr (some s.selector))) =
        [⟨some (.of .smgr), .createCollisionResponseAnimator,
          .ptr (some s.selector) :: .ptr (some (.of .camnode)) :: s.animArgs,
          .ptr (some s.anim)⟩] ∧
      (main fuel e).trace.filter
          (fun c => c.method == .addAnimator && c.recv == some (.of .camnode) &&
            c.args == [.ptr (some s.anim)]) =
        [⟨some (.of .camnode), .addAnimator, [.ptr (some s.anim)], .void⟩] := by
  have hl := coll_main fuel e h0 hg hm
  refine ⟨hl, sites_length, ?_, ?_, fun s hs => ⟨?_, ?_, ?_, ?_⟩⟩
  · refine List.Nodup.map ?_ sites_nodup
    intro a b h
    exact (Site.selector_inj b a).1 h
  · rw [filter_of_imp isCollisionCall _ _ (fun c hc => by simp [isCollisionCall, hc]), hl,
      List.filter_flatMap]
    simp only [calls_filter_factory, flatMap_unit, List.length_map, sites_length]
  · exact filter_sites
      (fun s c => isSelectorFactory c.method && c.ret == .ptr (some s.selector))
      (Site.createSelector e) hl (fun _ c hc => by
      simp only [Bool.and_eq_true] at hc
      simp [isCollisionCall, hc.1]) (calls_filter_created e) s hs
  · exact filter_sites
      (fun s c => c.method == .setTriangleSelector && c.args == [.ptr (some s.selector)])
      (Site.setSelector e) hl (fun _ c hc => by
      simp only [Bool.and_eq_true] at hc
      simp [isCollisionCall, hc.1]) (calls_filter_set e) s hs
  · exact filter_sites
      (fun s c => c.method == .createCollisionResponseAnimator &&
        c.args.head? == some (.ptr (some s.selector)))
      Site.createAnimator hl (fun _ c hc => by
      simp only [Bool.and_eq_true] at hc
      simp [isCollisionCall, hc.1]) (calls_filter_animator e) s hs
  · exact filter_sites
      (fun s c => c.method == .addAnimator && c.recv == some (.of .camnode) &&
        c.args == [.ptr (some s.anim)])
      Site.addToCamera hl (fun _ c hc => by
      simp only [Bool.and_eq_true] at hc
      simp [isCollisionCall, hc.1.1, hc.1.2]) (calls_filter_added e) s hs

theorem selectors_per_site_witness :
    (main 13 engineIdle).outcome = .returned 0 ∧
    ((main 13 engineIdle).trace.filter (fun c => isSelectorFactory c.method)).length = 198 :=
  ⟨engineIdle_returns_zero,
    (selectors_per_site 13 engineIdle engineIdle_returns_zero (fun _ _ => rfl) rfl).2.2.2.1⟩

/-! ## No null dereference when the unchecked results exist -/

theorem defined_pure {α : Type} (a : α) : Defined (pure a : Exec α) := by
  simp [Defined]

theorem defined_ret {α : Type} (code : Int) : Defined (ret code : Exec α) := by
  simp [Defined, ret, halt]

theorem defined_bind {α β : Type} {x : Exec α} {f : α → Exec β} (hx : Defined x)
    (hf : ∀ a, x.result = .ok a → Defined (f a)) : Defined (x >>= f) := by
  unfold Defined at *
  rcases hr : x.result with a | o
  · rw [bind_eq, bind_ok hr]
    exact hf a hr
  · rw [bind_eq, bind_halt hr]
    rw [hr] at hx
    simpa using hx

theorem defined_call_bind {α β : Type} {c : Call} {a : α} {f : α → Exec β}
    (h : Defined (f a)) : Defined ((⟨[c], .ok a⟩ : Exec α) >>= f) :=
  defined_bind (by simp [Defined]) (fun b hb => by
    simp only [Res.ok.injEq] at hb
    subst hb
    exact h)

theorem defined_invoke_bind {β : Type} {r : Obj} {m : Method} {args : List Val}
    {f : Unit → Exec β} (h : Defined (f ())) : Defined (invoke (some r) m args >>= f) :=
  defined_call_bind h

theorem defined_invoke_guard {β : Type} {p : Ptr} {m : Method} {args : List Val}
    {f : Unit → Exec β} (hp : p.isSome = true) (h : Defined (f ())) :
    Defined (invoke p m args >>= f) := by
  cases p with
  | none => cases hp
  | some r => exact defined_call_bind h

theorem defined_create_must {β : Type} {e : Engine} {r o : Obj} {m : Method}
    {args : List Val} {f : Ptr → Exec β} (ho : e.nonNull o = true)
    (h : Defined (f (some o))) : Defined (create e (some r) m args o >>= f) := by
  have : create e (some r) m args o =
      ⟨[⟨some r, m, args, .ptr (some o)⟩], .ok (some o)⟩ := by
    simp [create, make_of_nonNull ho]
  rw [this]
  exact defined_call_bind h

theorem defined_create_any {β : Type} {e : Engine} {r o : Obj} {m : Method}
    {args : List Val} {f : Ptr → Exec β} (h : ∀ v, Defined (f v)) :
    Defined (create e (some r) m args o >>= f) :=
  defined_call_bind (h _)

theorem defined_getter_bind {β : Type} {r o : Obj} {m : Method} {args : List Val}
    {f : Ptr → Exec β} (h : Defined (f (some o))) :
    Defined (getter (some r) m args o >>= f) :=
  defined_call_bind h

theorem defined_getPosition_bind {β : Type} {e : Engine} {r : Obj} {f : Vec3 → Exec β}
    (h : ∀ v, Defined (f v)) : Defined (getPosition e (some r) >>= f) :=
  defined_call_bind (h _)

theorem defined_getPosition_guard {β : Type} {e : Engine} {p : Ptr} {f : Vec3 → Exec β}
    (hp : p.isSome = true) (h : ∀ v, Defined (f v)) : Defined (getPosition e p >>= f) := by
  cases p with
  | none => cases hp
  | some r => exact defined_call_bind (h _)

theorem defined_ifThen_bind {β : Type} {c : Bool} {blk : Exec Unit} {f : Unit → Exec β}
    (h1 : c = true → Defined (blk >>= f)) (h2 : c = false → Defined (f ())) :
    Defined (ifThen c blk >>= f) := by
  cases c with
  | true => exact h1 rfl
  | false => exact h2 rfl

theorem defined_ite_bind {α β : Type} {c : Prop} [Decidable c] {x y : Exec α}
    {f : α → Exec β} (h1 : c → Defined (x >>= f)) (h2 : ¬c → Defined (y >>= f)) :
    Defined ((if c then x else y) >>= f) := by
  by_cases h : c
  · simpa [h] using h1 h
  · simpa [h] using h2 h

theorem defined_assoc {α β γ : Type} {x : Exec α} {g : α → Exec β} {f : β → Exec γ}
    (h : Defined (x >>= fun a => g a >>= f)) : Defined ((x >>= g) >>= f) := by
  rw [bind_assoc_exec]
  exact h

theorem defined_pure_bind {α β : Type} {a : α} {f : α → Exec β} (h : Defined (f a)) :
    Defined ((pure a : Exec α) >>= f) :=
  h

theorem defined_ret_bind {α β : Type} {code : Int} {f : α → Exec β} :
    Defined ((ret code : Exec α) >>= f) := by
  simp [Defined, ret, halt, Exec.bind]

theorem defined_last {α : Type} {x : Exec α} (h : Defined (x >>= fun a => pure a)) :
    Defined x := by
  rw [bind_pure_exec] at h
  exact h

theorem defined_invoke_last {p : Ptr} {m : Method} {args : List Val}
    (h : Defined (invoke p m args >>= fun a => pure a)) : Defined (invoke p m args) :=
  defined_last h

theorem defined_ifThen_last {c : Bool} {blk : Exec Unit}
    (h : Defined (ifThen c blk >>= fun a => pure a)) : Defined (ifThen c blk) :=
  defined_last h

theorem defined_forLoop {σ : Type} {body : Int → σ → Exec σ}
    (h : ∀ i s, Defined (body i s)) (count : Nat) (i : Int) (s : σ) :
    Defined (forLoop body count i s) := by
  induction count generalizing i s with
  | zero => exact defined_pure _
  | succ n ih =>
    unfold forLoop
    exact defined_bind (h i s) (fun a _ => ih (i + 1) a)

theorem defined_whileLoop {σ : Type} {cond : σ → Exec Bool} {body : σ → Exec σ}
    (hc : ∀ s, Defined (cond s)) (hb : ∀ s, Defined (body s)) (fuel : Nat) (s : σ) :
    Defined (whileLoop cond body fuel s) := by
  induction fuel generalizing s with
  | zero => simp [Defined, whileLoop, halt]
  | succ n ih =>
    rw [whileLoop_succ]
    refine defined_bind (hc s) (fun b _ => ?_)
    cases b with
    | false => exact defined_pure _
    | true => exact defined_bind (hb s) (fun a _ => ih a)

theorem defined_lightData_bind {β : Type} {l : Obj} {radius : Int} {colour : List Num}
    {f : Unit → Exec β} (h : Defined (f ())) :
    Defined (lightData (some l) radius colour >>= f) := by
  refine defined_bind ?_ (fun _ _ => h)
  unfold lightData
  exact defined_invoke_bind (defined_invoke_bind (defined_invoke_bind (defined_invoke_bind
    (defined_invoke_last (defined_invoke_bind (defined_pure _))))))

theorem defined_placeCube_bind {β : Type} {n : Obj} {modVal i : Int} {s : Stack}
    {f : Stack → Exec β} (h : ∀ s1, Defined (f s1)) :
    Defined (placeCube (some n) modVal i s >>= f) := by
  obtain ⟨v, s1, hv⟩ := placeCube_some n modVal i s
  rw [hv]
  exact defined_call_bind (h s1)

theorem defined_characterSection {e : Engine}
    (hm : ∀ o, usedUnchecked o.var = true → e.nonNull o = true) (device driver smgr : Obj) :
    Defined (characterSection e (some device) (some driver) (some smgr)) := by
  unfold characterSection
  repeat' first
    | with_reducible exact defined_pure _
    | with_reducible exact defined_ret_bind
    | with_reducible refine defined_invoke_bind ?_
    | ((with_reducible refine defined_invoke_guard ?_ ?_); assumption)
    | ((with_reducible refine defined_create_must ?_ ?_); exact hm _ rfl)
    | with_reducible refine defined_create_any (fun _ => ?_)
    | with_reducible refine defined_getter_bind ?_
    | with_reducible refine defined_getPosition_bind (fun _ => ?_)
    | ((with_reducible refine defined_getPosition_guard ?_ (fun _ => ?_)); assumption)
    | with_reducible refine defined_lightData_bind ?_
    | with_reducible refine defined_placeCube_bind (fun _ => ?_)
    | with_reducible refine defined_assoc ?_
    | with_reducible refine defined_ifThen_bind (fun _ => ?_) (fun _ => ?_)
    | with_reducible refine defined_ite_bind (fun _ => ?_) (fun _ => ?_)
    | with_reducible refine defined_pure_bind ?_
    | with_reducible refine defined_invoke_last ?_
    | with_reducible refine defined_ifThen_last ?_

theorem defined_lightsSection {e : Engine}
    (hm : ∀ o, usedUnchecked o.var = true → e.nonNull o = true) (driver smgr : Obj) :
    Defined (lightsSection e (some driver) (some smgr)) := by
  unfold lightsSection
  repeat' first
    | with_reducible exact defined_pure _
    | with_reducible exact defined_ret_bind
    | with_reducible refine defined_invoke_bind ?_
    | ((with_reducible refine defined_invoke_guard ?_ ?_); assumption)
    | ((with_reducible refine defined_create_must ?_ ?_); exact hm _ rfl)
    | with_reducible refine defined_create_any (fun _ => ?_)
    | with_reducible refine defined_getter_bind ?_
    | with_reducible refine defined_getPosition_bind (fun _ => ?_)
    | ((with_reducible refine defined_getPosition_guard ?_ (fun _ => ?_)); assumption)
    | with_reducible refine defined_lightData_bind ?_
    | with_reducible refine defined_placeCube_bind (fun _ => ?_)
    | with_reducible refine defined_assoc ?_
    | with_reducible refine defined_ifThen_bind (fun _ => ?_) (fun _ => ?_)
    | with_reducible refine defined_ite_bind (fun _ => ?_) (fun _ => ?_)
    | with_reducible refine defined_pure_bind ?_
    | with_reducible refine defined_invoke_last ?_
    | with_reducible refine defined_ifThen_last ?_

theorem defined_waterSection {e : Engine}
    (hm : ∀ o, usedUnchecked o.var = true → e.nonNull o = true) (driver smgr : Obj) :
    Defined (waterSection e (some driver) (some smgr)) := by
  unfold waterSection
  repeat' first
    | with_reducible exact defined_pure _
    | with_reducible exact defined_ret_bind
    | with_reducible refine defined_invoke_bind ?_
    | ((with_reducible refine defined_invoke_guard ?_ ?_); assumption)
    | ((with_reducible refine defined_create_must ?_ ?_); exact hm _ rfl)
    | with_reducible refine defined_create_any (fun _ => ?_)
    | with_reducible refine defined_getter_bind ?_
    | with_reducible refine defined_getPosition_bind (fun _ => ?_)
    | ((with_reducible refine defined_getPosition_guard ?_ (fun _ => ?_)); assumption)
    | with_reducible refine defined_lightData_bind ?_
    | with_reducible refine defined_placeCube_bind (fun _ => ?_)
    | with_reducible refine defined_assoc ?_
    | with_reducible refine defined_ifThen_bind (fun _ => ?_) (fun _ => ?_)
    | with_reducible refine defined_ite_bind (fun _ => ?_) (fun _ => ?_)
    | with_reducible refine defined_pure_bind ?_
    | with_reducible refine defined_invoke_last ?_
    | with_reducible refine defined_ifThen_last ?_

theorem defined_terrainSection {e : Engine}
    (hm : ∀ o, usedUnchecked o.var = true → e.nonNull o = true) (driver smgr : Obj) :
    Defined (terrainSection e (some driver) (some smgr)) := by
  unfold terrainSection
  repeat' first
    | with_reducible exact defined_pure _
    | with_reducible exact defined_ret_bind
    | with_reducible refine defined_invoke_bind ?_
    | ((with_reducible refine defined_invoke_guard ?_ ?_); assumption)
    | ((with_reducible refine defined_create_must ?_ ?_); exact hm _ rfl)
    | with_reducible refine defined_create_any (fun _ => ?_)
    | with_reducible refine defined_getter_bind ?_
    | with_reducible refine defined_getPosition_bind (fun _ => ?_)
    | ((with_reducible refine defined_getPosition_guard ?_ (fun _ => ?_)); assumption)
    | with_reducible refine defined_lightData_bind ?_
    | with_reducible refine defined_placeCube_bind (fun _ => ?_)
    | with_reducible refine defined_assoc ?_
    | with_reducible refine defined_ifThen_bind (fun _ => ?_) (fun _ => ?_)
    | with_reducible refine defined_ite_bind (fun _ => ?_) (fun _ => ?_)
    | with_reducible refine defined_pure_bind ?_
    | with_reducible refine defined_invoke_last ?_
    | with_reducible refine defined_ifThen_last ?_

theorem defined_skySection {e : Engine}
    (hm : ∀ o, usedUnchecked o.var = true → e.nonNull o = true) (driver smgr : Obj) :
    Defined (skySection e (some driver) (some smgr)) := by
  unfold skySection
  repeat' first
    | with_reducible exact defined_pure _
    | with_reducible exact defined_ret_bind
    | with_reducible refine defined_invoke_bind ?_
    | ((with_reducible refine defined_invoke_guard ?_ ?_); assumption)
    | ((with_reducible refine defined_create_must ?_ ?_); exact hm _ rfl)
    | with_reducible refine defined_create_any (fun _ => ?_)
    | with_reducible refine defined_getter_bind ?_
    | with_reducible refine defined_getPosition_bind (fun _ => ?_)
    | ((with_reducible refine defined_getPosition_guard ?_ (fun _ => ?_)); assumption)
    | with_reducible refine defined_lightData_bind ?_
    | with_reducible refine defined_placeCube_bind (fun _ => ?_)
    | with_reducible refine defined_assoc ?_
    | with_reducible refine defined_ifThen_bind (fun _ => ?_) (fun _ => ?_)
    | with_reducible refine defined_ite_bind (fun _ => ?_) (fun _ => ?_)
    | with_reducible refine defined_pure_bind ?_
    | with_reducible refine defined_invoke_last ?_
    | with_reducible refine defined_ifThen_last ?_

theorem defined_cameraSection {e : Engine}
    (hm : ∀ o, usedUnchecked o.var = true → e.nonNull o = true) (device smgr : Obj) :
    Defined (cameraSection e (some device) (some smgr) keyMap) := by
  unfold cameraSection
  repeat' first
    | with_reducible exact defined_pure _
    | with_reducible exact defined_ret_bind
    | with_reducible refine defined_invoke_bind ?_
    | ((with_reducible refine defined_invoke_guard ?_ ?_); assumption)
    | ((with_reducible refine defined_create_must ?_ ?_); exact hm _ rfl)
    | with_reducible refine defined_create_any (fun _ => ?_)
    | with_reducible refine defined_getter_bind ?_
    | with_reducible refine defined_getPosition_bind (fun _ => ?_)
    | ((with_reducible refine defined_getPosition_guard ?_ (fun _ => ?_)); assumption)
    | with_reducible refine defined_lightData_bind ?_
    | with_reducible refine defined_placeCube_bind (fun _ => ?_)
    | with_reducible refine defined_assoc ?_
    | with_reducible refine defined_ifThen_bind (fun _ => ?_) (fun _ => ?_)
    | with_reducible refine defined_ite_bind (fun _ => ?_) (fun _ => ?_)
    | with_reducible refine defined_pure_bind ?_
    | with_reducible refine defined_invoke_last ?_
    | with_reducible refine defined_ifThen_last ?_

theorem defined_terrainCollision {e : Engine}
    (hm : ∀ o, usedUnchecked o.var = true → e.nonNull o = true) (smgr terrain camnode : Obj) :
    Defined (terrainCollision e (some smgr) (some terrain) (some camnode)) := by
  unfold terrainCollision
  repeat' first
    | with_reducible exact defined_pure _
    | with_reducible exact defined_ret_bind
    | with_reducible refine defined_invoke_bind ?_
    | ((with_reducible refine defined_invoke_guard ?_ ?_); assumption)
    | ((with_reducible refine defined_create_must ?_ ?_); exact hm _ rfl)
    | with_reducible refine defined_create_any (fun _ => ?_)
    | with_reducible refine defined_getter_bind ?_
    | with_reducible refine defined_getPosition_bind (fun _ => ?_)
    | ((with_reducible refine defined_getPosition_guard ?_ (fun _ => ?_)); assumption)
    | with_reducible refine defined_lightData_bind ?_
    | with_reducible refine defined_placeCube_bind (fun _ => ?_)
    | with_reducible refine defined_assoc ?_
    | with_reducible refine defined_ifThen_bind (fun _ => ?_) (fun _ => ?_)
    | with_reducible refine defined_ite_bind (fun _ => ?_) (fun _ => ?_)
    | with_reducible refine defined_pure_bind ?_
    | with_reducible refine defined_invoke_last ?_
    | with_reducible refine defined_ifThen_last ?_

theorem defined_sphereSection {e : Engine}
    (hm : ∀ o, usedUnchecked o.var = true → e.nonNull o = true) (driver smgr : Obj) :
    Defined (sphereSection e (some driver) (some smgr)) := by
  unfold sphereSection
  repeat' first
    | with_reducible exact defined_pure _
    | with_reducible exact defined_ret_bind
    | with_reducible refine defined_invoke_bind ?_
    | ((with_reducible refine defined_invoke_guard ?_ ?_); assumption)
    | ((with_reducible refine defined_create_must ?_ ?_); exact hm _ rfl)
    | with_reducible refine defined_create_any (fun _ => ?_)
    | with_reducible refine defined_getter_bind ?_
    | with_reducible refine defined_getPosition_bind (fun _ => ?_)
    | ((with_reducible refine defined_getPosition_guard ?_ (fun _ => ?_)); assumption)
    | with_reducible refine defined_lightData_bind ?_
    | with_reducible refine defined_placeCube_bind (fun _ => ?_)
    | with_reducible refine defined_assoc ?_
    | with_reducible refine defined_ifThen_bind (fun _ => ?_) (fun _ => ?_)
    | with_reducible refine defined_ite_bind (fun _ => ?_) (fun _ => ?_)
    | with_reducible refine defined_pure_bind ?_
    | with_reducible refine defined_invoke_last ?_
    | with_reducible refine defined_ifThen_last ?_

theorem defined_gateBody {e : Engine}
    (hm : ∀ o, usedUnchecked o.var = true → e.nonNull o = true) (smgr camnode : Obj)
    (i : Int) : Defined (gateBody e (some smgr) (some camnode) i) := by
  unfold gateBody
  repeat' first
    | with_reducible exact defined_pure _
    | with_reducible exact defined_ret_bind
    | with_reducible refine defined_invoke_bind ?_
    | ((with_reducible refine defined_invoke_guard ?_ ?_); assumption)
    | ((with_reducible refine defined_create_must ?_ ?_); exact hm _ rfl)
    | with_reducible refine defined_create_any (fun _ => ?_)
    | with_reducible refine defined_getter_bind ?_
    | with_reducible refine defined_getPosition_bind (fun _ => ?_)
    | ((with_reducible refine defined_getPosition_guard ?_ (fun _ => ?_)); assumption)
    | with_reducible refine defined_lightData_bind ?_
    | with_reducible refine defined_placeCube_bind (fun _ => ?_)
    | with_reducible refine defined_assoc ?_
    | with_reducible refine defined_ifThen_bind (fun _ => ?_) (fun _ => ?_)
    | with_reducible refine defined_ite_bind (fun _ => ?_) (fun _ => ?_)
    | with_reducible refine defined_pure_bind ?_
    | with_reducible refine defined_invoke_last ?_
    | with_reducible refine defined_ifThen_last ?_

theorem defined_motherShipSection {e : Engine}
    (hm : ∀ o, usedUnchecked o.var = true → e.nonNull o = true)
    (device smgr camnode : Obj) :
    Defined (motherShipSection e (some device) (some smgr) (some camnode)) := by
  unfold motherShipSection
  repeat' first
    | with_reducible exact defined_pure _
    | with_reducible exact defined_ret_bind
    | with_reducible refine defined_invoke_bind ?_
    | ((with_reducible refine defined_invoke_guard ?_ ?_); assumption)
    | ((with_reducible refine defined_create_must ?_ ?_); exact hm _ rfl)
    | with_reducible refine defined_create_any (fun _ => ?_)
    | with_reducible refine defined_getter_bind ?_
    | with_reducible refine defined_getPosition_bind (fun _ => ?_)
    | ((with_reducible refine defined_getPosition_guard ?_ (fun _ => ?_)); assumption)
    | with_reducible refine defined_lightData_bind ?_
    | with_reducible refine defined_placeCube_bind (fun _ => ?_)
    | with_reducible refine defined_assoc ?_
    | with_reducible refine defined_ifThen_bind (fun _ => ?_) (fun _ => ?_)
    | with_reducible refine defined_ite_bind (fun _ => ?_) (fun _ => ?_)
    | with_reducible refine defined_pure_bind ?_
    | with_reducible refine defined_invoke_last ?_
    | with_reducible refine defined_ifThen_last ?_

theorem defined_ufoSection {e : Engine}
    (hm : ∀ o, usedUnchecked o.var = true → e.nonNull o = true) (device smgr : Obj) :
    Defined (ufoSection e (some device) (some smgr)) := by
  unfold ufoSection
  repeat' first
    | with_reducible exact defined_pure _
    | with_reducible exact defined_ret_bind
    | with_reducible refine defined_invoke_bind ?_
    | ((with_reducible refine defined_invoke_guard ?_ ?_); assumption)
    | ((with_reducible refine defined_create_must ?_ ?_); exact hm _ rfl)
    | with_reducible refine defined_create_any (fun _ => ?_)
    | with_reducible refine defined_getter_bind ?_
    | with_reducible refine defined_getPosition_bind (fun _ => ?_)
    | ((with_reducible refine defined_getPosition_guard ?_ (fun _ => ?_)); assumption)
    | with_reducible refine defined_lightData_bind ?_
    | with_reducible refine defined_placeCube_bind (fun _ => ?_)
    | with_reducible refine defined_assoc ?_
    | with_reducible refine defined_ifThen_bind (fun _ => ?_) (fun _ => ?_)
    | with_reducible refine defined_ite_bind (fun _ => ?_) (fun _ => ?_)
    | with_reducible refine defined_pure_bind ?_
    | with_reducible refine defined_invoke_last ?_
    | with_reducible refine defined_ifThen_last ?_

theorem defined_particleSection {e : Engine}
    (hm : ∀ o, usedUnchecked o.var = true → e.nonNull o = true)
    (driver smgr waterNode : Obj) :
    Defined (particleSection e (some driver) (some smgr) (some waterNode)) := by
  unfold particleSection
  repeat' first
    | with_reducible exact defined_pure _
    | with_reducible exact defined_ret_bind
    | with_reducible refine defined_invoke_bind ?_
    | ((with_reducible refine defined_invoke_guard ?_ ?_); assumption)
    | ((with_reducible refine defined_create_must ?_ ?_); exact hm _ rfl)
    | with_reducible refine defined_create_any (fun _ => ?_)
    | with_reducible refine defined_getter_bind ?_
    | with_reducible refine defined_getPosition_bind (fun _ => ?_)
    | ((with_reducible refine defined_getPosition_guard ?_ (fun _ => ?_)); assumption)
    | with_reducible refine defined_lightData_bind ?_
    | with_reducible refine defined_placeCube_bind (fun _ => ?_)
    | with_reducible refine defined_assoc ?_
    | with_reducible refine defined_ifThen_bind (fun _ => ?_) (fun _ => ?_)
    | with_reducible refine defined_ite_bind (fun _ => ?_) (fun _ => ?_)
    | with_reducible refine defined_pure_bind ?_
    | with_reducible refine defined_invoke_last ?_
    | with_reducible refine defined_ifThen_last ?_

theorem defined_ufo2Section {e : Engine}
    (hm : ∀ o, usedUnchecked o.var = true → e.nonNull o = true) (device smgr : Obj) :
    Defined (ufo2Section e (some device) (some smgr)) := by
  unfold ufo2Section
  repeat' first
    | with_reducible exact defined_pure _
    | with_reducible exact defined_ret_bind
    | with_reducible refine defined_invoke_bind ?_
    | ((with_reducible refine defined_invoke_guard ?_ ?_); assumption)
    | ((with_reducible refine defined_create_must ?_ ?_); exact hm _ rfl)
    | with_reducible refine defined_create_any (fun _ => ?_)
    | with_reducible refine defined_getter_bind ?_
    | with_reducible refine defined_getPosition_bind (fun _ => ?_)
    | ((with_reducible refine defined_getPosition_guard ?_ (fun _ => ?_)); assumption)
    | with_reducible refine defined_lightData_bind ?_
    | with_reducible refine defined_placeCube_bind (fun _ => ?_)
    | with_reducible refine defined_assoc ?_
    | with_reducible refine defined_ifThen_bind (fun _ => ?_) (fun _ => ?_)
    | with_reducible refine defined_ite_bind (fun _ => ?_) (fun _ => ?_)
    | with_reducible refine defined_pure_bind ?_
    | with_reducible refine defined_invoke_last ?_
    | with_reducible refine defined_ifThen_last ?_

theorem defined_ufo3Section {e : Engine}
    (hm : ∀ o, usedUnchecked o.var = true → e.nonNull o = true) (device driver smgr : Obj) :
    Defined (ufo3Section e (some device) (some driver) (some smgr)) := by
  unfold ufo3Section
  repeat' first
    | with_reducible exact defined_pure _
    | with_reducible exact defined_ret_bind
    | with_reducible refine defined_invoke_bind ?_
    | ((with_reducible refine defined_invoke_guard ?_ ?_); assumption)
    | ((with_reducible refine defined_create_must ?_ ?_); exact hm _ rfl)
    | with_reducible refine defined_create_any (fun _ => ?_)
    | with_reducible refine defined_getter_bind ?_
    | with_reducible refine defined_getPosition_bind (fun _ => ?_)
    | ((with_reducible refine defined_getPosition_guard ?_ (fun _ => ?_)); assumption)
    | with_reducible refine defined_lightData_bind ?_
    | with_reducible refine defined_placeCube_bind (fun _ => ?_)
    | with_reducible refine defined_assoc ?_
    | with_reducible refine defined_ifThen_bind (fun _ => ?_) (fun _ => ?_)
    | with_reducible refine defined_ite_bind (fun _ => ?_) (fun _ => ?_)
    | with_reducible refine defined_pure_bind ?_
    | with_reducible refine defined_invoke_last ?_
    | with_reducible refine defined_ifThen_last ?_

theorem defined_rockSection {e : Engine}
    (hm : ∀ o, usedUnchecked o.var = true → e.nonNull o = true) (device driver smgr : Obj) :
    Defined (rockSection e (some device) (some driver) (some smgr)) := by
  unfold rockSection
  repeat' first
    | with_reducible exact defined_pure _
    | with_reducible exact defined_ret_bind
    | with_reducible refine defined_invoke_bind ?_
    | ((with_reducible refine defined_invoke_guard ?_ ?_); assumption)
    | ((with_reducible refine defined_create_must ?_ ?_); exact hm _ rfl)
    | with_reducible refine defined_create_any (fun _ => ?_)
    | with_reducible refine defined_getter_bind ?_
    | with_reducible refine defined_getPosition_bind (fun _ => ?_)
    | ((with_reducible refine defined_getPosition_guard ?_ (fun _ => ?_)); assumption)
    | with_reducible refine defined_lightData_bind ?_
    | with_reducible refine defined_placeCube_bind (fun _ => ?_)
    | with_reducible refine defined_assoc ?_
    | with_reducible refine defined_ifThen_bind (fun _ => ?_) (fun _ => ?_)
    | with_reducible refine defined_ite_bind (fun _ => ?_) (fun _ => ?_)
    | with_reducible refine defined_pure_bind ?_
    | with_reducible refine defined_invoke_last ?_
    | with_reducible refine defined_ifThen_last ?_

theorem defined_cubeBody {e : Engine}
    (hm : ∀ o, usedUnchecked o.var = true → e.nonNull o = true) (driver smgr camnode : Obj)
    (L modVal i : Int) (s : Stack) :
    Defined (cubeBody e (some driver) (some smgr) (some camnode) L modVal i s) := by
  unfold cubeBody normalMapBlock
  repeat' first
    | with_reducible exact defined_pure _
    | with_reducible exact defined_ret_bind
    | with_reducible refine defined_invoke_bind ?_
    | ((with_reducible refine defined_invoke_guard ?_ ?_); assumption)
    | ((with_reducible refine defined_create_must ?_ ?_); exact hm _ rfl)
    | with_reducible refine defined_create_any (fun _ => ?_)
    | with_reducible refine defined_getter_bind ?_
    | with_reducible refine defined_getPosition_bind (fun _ => ?_)
    | ((with_reducible refine defined_getPosition_guard ?_ (fun _ => ?_)); assumption)
    | with_reducible refine defined_lightData_bind ?_
    | with_reducible refine defined_placeCube_bind (fun _ => ?_)
    | with_reducible refine defined_assoc ?_
    | with_reducible refine defined_ifThen_bind (fun _ => ?_) (fun _ => ?_)
    | with_reducible refine defined_ite_bind (fun _ => ?_) (fun _ => ?_)
    | with_reducible refine defined_pure_bind ?_
    | with_reducible refine defined_invoke_last ?_
    | with_reducible refine defined_ifThen_last ?_

theorem waterSection_val {e : Engine}
    (hm : ∀ o, usedUnchecked o.var = true → e.nonNull o = true) {driver smgr : Ptr} :
    ∀ a, (waterSection e driver smgr).result = .ok a → a = some (.of .waterNode) := by
  unfold waterSection
  repeat' first
    | exact okval_pure (make_of_nonNull (hm _ rfl))
    | with_reducible refine okval_create_bind ?_
    | with_reducible refine okval_bind (fun _ _ => ?_)

theorem defined_cubeSection {e : Engine}
    (hm : ∀ o, usedUnchecked o.var = true → e.nonNull o = true) (fuel : Nat)
    (driver smgr camnode : Obj) :
    Defined (cubeSection fuel e (some driver) (some smgr) (some camnode)) := by
  unfold cubeSection
  refine defined_invoke_bind ?_
  refine defined_bind ?_ (fun _ _ => defined_pure _)
  refine defined_whileLoop (fun _ => defined_pure _) (fun s => ?_) fuel _
  unfold cubeLevel
  exact defined_bind (defined_forLoop (fun i s' => defined_cubeBody hm _ _ _ _ _ i s') _ _ _)
    (fun _ _ => defined_pure _)

theorem defined_setup {e : Engine}
    (hm : ∀ o, usedUnchecked o.var = true → e.nonNull o = true) (fuel : Nat) :
    Defined (setup fuel e (some (.of .device))) := by
  unfold setup
  refine defined_invoke_bind ?_
  refine defined_getter_bind ?_
  refine defined_getter_bind ?_
  refine defined_getter_bind ?_
  refine defined_invoke_bind ?_
  refine defined_invoke_bind ?_
  refine defined_bind (defined_characterSection hm _ _ _) (fun _ _ => ?_)
  refine defined_bind (defined_lightsSection hm _ _) (fun _ _ => ?_)
  refine defined_bind (defined_waterSection hm _ _) (fun waterNode hw => ?_)
  cases waterSection_val hm _ hw
  refine defined_bind (defined_terrainSection hm _ _) (fun terrain ht => ?_)
  cases terrainSection_val ht
  refine defined_bind (defined_skySection hm _ _) (fun _ _ => ?_)
  refine defined_bind (defined_cameraSection hm _ _) (fun camnode hc => ?_)
  cases cameraSection_val hc
  refine defined_bind (defined_terrainCollision hm _ _ _) (fun _ _ => ?_)
  refine defined_bind (defined_sphereSection hm _ _) (fun _ _ => ?_)
  refine defined_bind (defined_forLoop (fun i _ => defined_gateBody hm _ _ i) _ _ _)
    (fun _ _ => ?_)
  refine defined_bind (defined_motherShipSection hm _ _ _) (fun _ _ => ?_)
  refine defined_bind (defined_ufoSection hm _ _) (fun _ _ => ?_)
  refine defined_bind (defined_particleSection hm _ _ _) (fun _ _ => ?_)
  refine defined_bind (defined_ufo2Section hm _ _) (fun _ _ => ?_)
  refine defined_bind (defined_ufo3Section hm _ _ _) (fun _ _ => ?_)
  refine defined_bind (defined_rockSection hm _ _ _) (fun _ _ => ?_)
  refine defined_bind (defined_cubeSection hm fuel _ _ _) (fun _ _ => ?_)
  exact defined_pure _

theorem main_defined {e : Engine}
    (hm : ∀ o, usedUnchecked o.var = true → e.nonNull o = true) (fuel : Nat) :
    (main fuel e).outcome ≠ .undefined := by
  cases hd : e.nonNull (.of .device)
  · rw [main_device_null hd]
    simp
  · rcases hs : (setup fuel e (some (.of .device))).result with h | o
    · rcases hl : (renderLoop fuel e (some (.of .device)) (some (.of .driver))
          (some (.of .smgr)) (some (.of .guienv))).result with m | o
      · rw [main_loop_ok hd hs hl]
        simp
      · rw [main_loop_halt hd hs hl]
        have := (loop_result e _ _ (renderLoop_cond e) (renderLoop_body e) fuel 0).1 o hl
        subst this
        simp
    · rw [main_setup_halt hd hs]
      intro ho
      simp only at ho
      subst ho
      exact defined_setup hm fuel hs

/-- C4, the claim fails: on the engine that creates everything except the terrain
node, the device is created, every mesh loads and `run()` answers false at once, yet
`main` does not return 0: it dereferences the null terrain node. -/
theorem meshes_loaded_yet_undefined :
    (engineWithout .terrain).nonNull (.of .device) = true ∧
    (∀ o : Obj, o.var ≠ .terrain → (engineWithout .terrain).nonNull o = true) ∧
    firstFalse (engineWithout .terrain) 0 ∧
    (main 13 (engineWithout .terrain)).outcome = .undefined ∧
    (main 13 (engineWithout .terrain)).outcome ≠ .returned 0 :=
  ⟨rfl, fun _ h => decide_eq_true h, by unfold firstFalse; decide, by decide, by decide⟩

/-- C4, amended: when the device, every checked mesh and every object that `main`
dereferences without a null test are obtained, `run()` first answers false at answer
`n` and the fuel covers the two loops, `main` goes through setup, runs `n` iterations of
the render loop, leaves it at that false answer, releases the device and returns 0; and
a run that returns 0 is always of this kind. -/
theorem main_returns_zero (fuel : Nat) (e : Engine) :
    (∀ n, e.nonNull (.of .device) = true →
      (∀ v ∈ checkedMeshes, e.nonNull (.of v) = true) →
      (∀ o, usedUnchecked o.var = true → e.nonNull o = true) → firstFalse e n →
      12 < fuel → n < fuel →
      main fuel e = ⟨createDeviceCall (some (.of .device)) ::
        (setup fuel e (some (.of .device))).trace ++ loopCalls e n 0 ++
        [runCall false, dropDevice], .returned 0⟩) ∧
    ((main fuel e).outcome = .returned 0 →
      e.nonNull (.of .device) = true ∧ (∀ v ∈ checkedMeshes, e.nonNull (.of v) = true) ∧
      ∃ n, firstFalse e n ∧ n < fuel ∧
        main fuel e = ⟨createDeviceCall (some (.of .device)) ::
          (setup fuel e (some (.of .device))).trace ++ loopCalls e n 0 ++
          [runCall false, dropDevice], .returned 0⟩) := by
  constructor
  · intro n hd hmesh hused hff h12 hn
    have hdef := main_defined hused fuel
    rcases main_shape fuel e with ⟨hd', _⟩ | ⟨_, pre, v, hv, hnull, _, _⟩ | ⟨_, o, ho, _, hm⟩ |
      ⟨_, h, _, hrun, _, _, _, _⟩ | ⟨_, h, m, _, hff', _, _, hm⟩
    · rw [hd] at hd'
      cases hd'
    · rw [hmesh v hv] at hnull
      cases hnull
    · rcases ho with rfl | ⟨rfl, hle⟩
      · rw [hm] at hdef
        exact absurd rfl hdef
      · omega
    · have := hrun n hn
      rw [hff.2] at this
      cases this
    · rw [firstFalse_unique hff hff']
      exact hm
  · intro h0
    rcases main_shape fuel e with ⟨_, hm⟩ | ⟨_, pre, v, _, _, _, hm⟩ | ⟨_, o, ho, _, hm⟩ |
      ⟨_, h, _, _, _, loop, _, hm⟩ | ⟨hd, h, m, hs, hff, hlt, _, hm⟩
    · rw [hm] at h0
      cases h0
    · rw [hm] at h0
      cases h0
    · rw [hm] at h0
      rcases ho with rfl | ⟨rfl, _⟩ <;> cases h0
    · rw [hm] at h0
      cases h0
    · exact ⟨hd, setup_ok_meshes hs, m, hff, hlt, hm⟩

theorem main_returns_zero_witness :
    engineAll.nonNull (.of .device) = true ∧
      (∀ v ∈ checkedMeshes, engineAll.nonNull (.of v) = true) ∧
      (∀ o, usedUnchecked o.var = true → engineAll.nonNull o = true) ∧
      firstFalse engineAll 2 ∧
      main 13 engineAll = ⟨createDeviceCall (some (.of .device)) ::
        (setup 13 engineAll (some (.of .device))).trace ++ loopCalls engineAll 2 0 ++
        [runCall false, dropDevice], .returned 0⟩ :=
  ⟨rfl, by decide, fun _ _ => rfl, by unfold firstFalse; decide,
    (main_returns_zero 13 engineAll).1 2 rfl (by decide) (fun _ _ => rfl)
      (by unfold firstFalse; decide) (by decide) (by decide)⟩

/-! ## Setup is steered by the tested and the dereferenced results only -/

theorem erase_make (e : Engine) (o : Obj) (h : passedOn o.var = true) :
    Val.erase (.ptr (e.make o)) = .ptr none := by
  cases hn : e.nonNull o <;> simp [Engine.make, hn, Val.erase, h]

theorem erase_make_var (e : Engine) (v : Var) (L i : Int) (h : passedOn v = true) :
    Val.erase (.ptr (e.make ⟨v, L, i⟩)) = .ptr none :=
  erase_make e ⟨v, L, i⟩ h

theorem sim_refl {α : Type} (x : Exec α) : Sim x x := ⟨rfl, rfl⟩

theorem sim_bind {α β : Type} {x y : Exec α} {f g : α → Exec β} (hx : Sim x y)
    (hf : ∀ a, Sim (f a) (g a)) : Sim (x >>= f) (y >>= g) := by
  obtain ⟨h1, h2⟩ := hx
  rcases hr : x.result with a | o
  · have hr' : y.result = .ok a := by rw [← h2, hr]
    obtain ⟨h3, h4⟩ := hf a
    rw [bind_eq, bind_eq, bind_ok hr, bind_ok hr']
    exact ⟨by simp only [List.map_append, h1, h3], h4⟩
  · have hr' : y.result = .halt o := by rw [← h2, hr]
    rw [bind_eq, bind_eq, bind_halt hr, bind_halt hr']
    exact ⟨h1, rfl⟩

theorem sim_same_bind {α β : Type} {x : Exec α} {f g : α → Exec β}
    (hf : ∀ a, Sim (f a) (g a)) : Sim (x >>= f) (x >>= g) :=
  sim_bind (sim_refl x) hf

theorem sim_call_bind {α β : Type} {c1 c2 : Call} {a1 a2 : α} {f g : α → Exec β}
    (hc : c1.erase = c2.erase) (h : Sim (f a1) (g a2)) :
    Sim ((⟨[c1], .ok a1⟩ : Exec α) >>= f) ((⟨[c2], .ok a2⟩ : Exec α) >>= g) := by
  obtain ⟨h1, h2⟩ := h
  refine ⟨?_, h2⟩
  show List.map Call.erase (c1 :: (f a1).trace) = List.map Call.erase (c2 :: (g a2).trace)
  simp only [List.map_cons, hc, h1]

theorem sim_halt_bind {α β : Type} {o : Outcome} {f g : α → Exec β} :
    Sim ((halt o : Exec α) >>= f) ((halt o : Exec α) >>= g) :=
  ⟨rfl, rfl⟩

theorem sim_ret_bind {α β : Type} {code : Int} {f g : α → Exec β} :
    Sim ((ret code : Exec α) >>= f) ((ret code : Exec α) >>= g) :=
  ⟨rfl, rfl⟩

theorem sim_invoke_bind {β : Type} {p : Ptr} {m : Method} {a1 a2 : List Val}
    {f g : Unit → Exec β} (ha : a1.map Val.erase = a2.map Val.erase)
    (h : Sim (f ()) (g ())) : Sim (invoke p m a1 >>= f) (invoke p m a2 >>= g) := by
  cases p with
  | none => exact sim_halt_bind
  | some r => exact sim_call_bind (by simp only [Call.erase, ha]) h

theorem sim_create_dec {β : Type} {e1 e2 : Engine} {p : Ptr} {m : Method}
    {a1 a2 : List Val} {o : Obj} {f g : Ptr → Exec β} (hmk : e1.make o = e2.make o)
    (ha : a1.map Val.erase = a2.map Val.erase) (h : ∀ v, Sim (f v) (g v)) :
    Sim (create e1 p m a1 o >>= f) (create e2 p m a2 o >>= g) := by
  cases p with
  | none => exact sim_halt_bind
  | some r =>
    have hc : create e2 (some r) m a2 o =
        ⟨[⟨some r, m, a2, .ptr (e1.make o)⟩], .ok (e1.make o)⟩ := by
      rw [hmk]
      rfl
    rw [hc]
    exact sim_call_bind (by simp only [Call.erase, ha]) (h _)

theorem sim_create_arg {β : Type} {e1 e2 : Engine} {p : Ptr} {m : Method}
    {a1 a2 : List Val} {o : Obj} {f g : Ptr → Exec β} (hp : passedOn o.var = true)
    (ha : a1.map Val.erase = a2.map Val.erase) (h : Sim (f (e1.make o)) (g (e2.make o))) :
    Sim (create e1 p m a1 o >>= f) (create e2 p m a2 o >>= g) := by
  cases p with
  | none => exact sim_halt_bind
  | some r =>
    exact sim_call_bind (by simp only [Call.erase, ha, erase_make _ _ hp]) h

theorem sim_getPosition_bind {β : Type} {e1 e2 : Engine} {p : Ptr} {f g : Vec3 → Exec β}
    (hp : ∀ o, e1.getPosition o = e2.getPosition o) (h : ∀ v, Sim (f v) (g v)) :
    Sim (getPosition e1 p >>= f) (getPosition e2 p >>= g) := by
  cases p with
  | none => exact sim_halt_bind
  | some r =>
    have hc : getPosition e2 (some r) = getPosition e1 (some r) := by
      simp only [getPosition, hp]
    rw [hc]
    exact sim_same_bind h

theorem sim_ifThen_bind {β : Type} {c : Bool} {b1 b2 : Exec Unit} {f g : Unit → Exec β}
    (h1 : c = true → Sim (b1 >>= f) (b2 >>= g)) (h2 : c = false → Sim (f ()) (g ())) :
    Sim (ifThen c b1 >>= f) (ifThen c b2 >>= g) := by
  cases c with
  | true => exact h1 rfl
  | false => exact h2 rfl

theorem sim_ite_bind {α β : Type} {c : Prop} [Decidable c] {x1 y1 x2 y2 : Exec α}
    {f g : α → Exec β} (h1 : c → Sim (x1 >>= f) (x2 >>= g))
    (h2 : ¬c → Sim (y1 >>= f) (y2 >>= g)) :
    Sim ((if c then x1 else y1) >>= f) ((if c then x2 else y2) >>= g) := by
  by_cases h : c
  · simpa [h] using h1 h
  · simpa [h] using h2 h

theorem sim_assoc {α β γ : Type} {x y : Exec α} {f1 f2 : α → Exec β} {g1 g2 : β → Exec γ}
    (h : Sim (x >>= fun a => f1 a >>= g1) (y >>= fun a => f2 a >>= g2)) :
    Sim ((x >>= f1) >>= g1) ((y >>= f2) >>= g2) := by
  rw [bind_assoc_exec, bind_assoc_exec]
  exact h

theorem sim_last {α : Type} {x y : Exec α}
    (h : Sim (x >>= fun a => pure a) (y >>= fun a => pure a)) : Sim x y := by
  rw [bind_pure_exec, bind_pure_exec] at h
  exact h

theorem sim_invoke_last {p : Ptr} {m : Method} {a1 a2 : List Val}
    (h : Sim (invoke p m a1 >>= fun a => pure a) (invoke p m a2 >>= fun a => pure a)) :
    Sim (invoke p m a1) (invoke p m a2) :=
  sim_last h

theorem sim_ifThen_last {c : Bool} {b1 b2 : Exec Unit}
    (h : Sim (ifThen c b1 >>= fun a => pure a) (ifThen c b2 >>= fun a => pure a)) :
    Sim (ifThen c b1) (ifThen c b2) :=
  sim_last h

theorem sim_forLoop {σ : Type} {b1 b2 : Int → σ → Exec σ}
    (h : ∀ i s, Sim (b1 i s) (b2 i s)) (count : Nat) (i : Int) (s : σ) :
    Sim (forLoop b1 count i s) (forLoop b2 count i s) := by
  induction count generalizing i s with
  | zero => exact sim_refl _
  | succ n ih =>
    unfold forLoop
    exact sim_bind (h i s) (fun a => ih (i + 1) a)

theorem sim_whileLoop {σ : Type} {cond : σ → Exec Bool} {b1 b2 : σ → Exec σ}
    (h : ∀ s, Sim (b1 s) (b2 s)) (fuel : Nat) (s : σ) :
    Sim (whileLoop cond b1 fuel s) (whileLoop cond b2 fuel s) := by
  induction fuel generalizing s with
  | zero => exact sim_refl _
  | succ n ih =>
    rw [whileLoop_succ, whileLoop_succ]
    refine sim_same_bind (fun b => ?_)
    cases b with
    | false => exact sim_refl _
    | true => exact sim_bind (h s) (fun a => ih a)

theorem sim_characterSection {e1 e2 : Engine}
    (hmk : ∀ o, (isTested o.var || usedUnchecked o.var) = true → e1.make o = e2.make o)
    (hp : ∀ o, e1.getPosition o = e2.getPosition o) (device driver smgr : Ptr) :
    Sim (characterSection e1 device driver smgr) (characterSection e2 device driver smgr) := by
  unfold characterSection
  repeat' first
    | with_reducible exact sim_refl _
    | with_reducible exact sim_ret_bind
    | with_reducible exact hp
    | with_reducible refine sim_same_bind (fun _ => ?_)
    | ((with_reducible refine sim_create_dec ?_ ?_ (fun _ => ?_)); exact hmk _ rfl)
    | ((with_reducible refine sim_create_arg ?_ ?_ ?_); rfl)
    | with_reducible refine sim_getPosition_bind ?_ (fun _ => ?_)
    | with_reducible refine sim_invoke_bind ?_ ?_
    | with_reducible refine sim_assoc ?_
    | with_reducible refine sim_ifThen_bind (fun _ => ?_) (fun _ => ?_)
    | with_reducible refine sim_ite_bind (fun _ => ?_) (fun _ => ?_)
    | with_reducible refine sim_invoke_last ?_
    | with_reducible refine sim_ifThen_last ?_
    | rfl
    | (simp (disch := decide) only [List.map_cons, List.map_nil, Obj.of, erase_make_var])

theorem sim_lightsSection {e1 e2 : Engine}
    (hmk : ∀ o, (isTested o.var || usedUnchecked o.var) = true → e1.make o = e2.make o)
    (hp : ∀ o, e1.getPosition o = e2.getPosition o) (driver smgr : Ptr) :
    Sim (lightsSection e1 driver smgr) (lightsSection e2 driver smgr) := by
  unfold lightsSection
  repeat' first
    | with_reducible exact sim_refl _
    | with_reducible exact sim_ret_bind
    | with_reducible exact hp
    | with_reducible refine sim_same_bind (fun _ => ?_)
    | ((with_reducible refine sim_create_dec ?_ ?_ (fun _ => ?_)); exact hmk _ rfl)
    | ((with_reducible refine sim_create_arg ?_ ?_ ?_); rfl)
    | with_reducible refine sim_getPosition_bind ?_ (fun _ => ?_)
    | with_reducible refine sim_invoke_bind ?_ ?_
    | with_reducible refine sim_assoc ?_
    | with_reducible refine sim_ifThen_bind (fun _ => ?_) (fun _ => ?_)
    | with_reducible refine sim_ite_bind (fun _ => ?_) (fun _ => ?_)
    | with_reducible refine sim_invoke_last ?_
    | with_reducible refine sim_ifThen_last ?_
    | rfl
    | (simp (disch := decide) only [List.map_cons, List.map_nil, Obj.of, erase_make_var])

theorem sim_waterSection {e1 e2 : Engine}
    (hmk : ∀ o, (isTested o.var || usedUnchecked o.var) = true → e1.make o = e2.make o)
    (hp : ∀ o, e1.getPosition o = e2.getPosition o) (driver smgr : Ptr) :
    Sim (waterSection e1 driver smgr) (waterSection e2 driver smgr) := by
  unfold waterSection
  repeat' first
    | with_reducible exact sim_refl _
    | with_reducible exact sim_ret_bind
    | with_reducible exact hp
    | with_reducible refine sim_same_bind (fun _ => ?_)
    | ((with_reducible refine sim_create_dec ?_ ?_ (fun _ => ?_)); exact hmk _ rfl)
    | ((with_reducible refine sim_create_arg ?_ ?_ ?_); rfl)
    | with_reducible refine sim_getPosition_bind ?_ (fun _ => ?_)
    | with_reducible refine sim_invoke_bind ?_ ?_
    | with_reducible refine sim_assoc ?_
    | with_reducible refine sim_ifThen_bind (fun _ => ?_) (fun _ => ?_)
    | with_reducible refine sim_ite_bind (fun _ => ?_) (fun _ => ?_)
    | with_reducible refine sim_invoke_last ?_
    | with_reducible refine sim_ifThen_last ?_
    | rfl
    | (simp (disch := decide) only [List.map_cons, List.map_nil, Obj.of, erase_make_var])

theorem sim_terrainSection {e1 e2 : Engine}
    (hmk : ∀ o, (isTested o.var || usedUnchecked o.var) = true → e1.make o = e2.make o)
    (hp : ∀ o, e1.getPosition o = e2.getPosition o) (driver smgr : Ptr) :
    Sim (terrainSection e1 driver smgr) (terrainSection e2 driver smgr) := by
  unfold terrainSection
  repeat' first
    | with_reducible exact sim_refl _
    | with_reducible exact sim_ret_bind
    | with_reducible exact hp
    | with_reducible refine sim_same_bind (fun _ => ?_)
    | ((with_reducible refine sim_create_dec ?_ ?_ (fun _ => ?_)); exact hmk _ rfl)
    | ((with_reducible refine sim_create_arg ?_ ?_ ?_); rfl)
    | with_reducible refine sim_getPosition_bind ?_ (fun _ => ?_)
    | with_reducible refine sim_invoke_bind ?_ ?_
    | with_reducible refine sim_assoc ?_
    | with_reducible refine sim_ifThen_bind (fun _ => ?_) (fun _ => ?_)
    | with_reducible refine sim_ite_bind (fun _ => ?_) (fun _ => ?_)
    | with_reducible refine sim_invoke_last ?_
    | with_reducible refine sim_ifThen_last ?_
    | rfl
    | (simp (disch := decide) only [List.map_cons, List.map_nil, Obj.of, erase_make_var])

theorem sim_skySection {e1 e2 : Engine}
    (hmk : ∀ o, (isTested o.var || usedUnchecked o.var) = true → e1.make o = e2.make o)
    (hp : ∀ o, e1.getPosition o = e2.getPosition o) (driver smgr : Ptr) :
    Sim (skySection e1 driver smgr) (skySection e2 driver smgr) := by
  unfold skySection
  repeat' first
    | with_reducible exact sim_refl _
    | with_reducible exact sim_ret_bind
    | with_reducible exact hp
    | with_reducible refine sim_same_bind (fun _ => ?_)
    | ((with_reducible refine sim_create_dec ?_ ?_ (fun _ => ?_)); exact hmk _ rfl)
    | ((with_reducible refine sim_create_arg ?_ ?_ ?_); rfl)
    | with_reducible refine sim_getPosition_bind ?_ (fun _ => ?_)
    | with_reducible refine sim_invoke_bind ?_ ?_
    | with_reducible refine sim_assoc ?_
    | with_reducible refine sim_ifThen_bind (fun _ => ?_) (fun _ => ?_)
    | with_reducible refine sim_ite_bind (fun _ => ?_) (fun _ => ?_)
    | with_reducible refine sim_invoke_last ?_
    | with_reducible refine sim_ifThen_last ?_
    | rfl
    | (simp (disch := decide) only [List.map_cons, List.map_nil, Obj.of, erase_make_var])

theorem sim_cameraSection {e1 e2 : Engine}
    (hmk : ∀ o, (isTested o.var || usedUnchecked o.var) = true → e1.make o = e2.make o)
    (hp : ∀ o, e1.getPosition o = e2.getPosition o) (device smgr : Ptr) :
    Sim (cameraSection e1 device smgr keyMap) (cameraSection e2 device smgr keyMap) := by
  unfold cameraSection
  repeat' first
    | with_reducible exact sim_refl _
    | with_reducible exact sim_ret_bind
    | with_reducible exact hp
    | with_reducible refine sim_same_bind (fun _ => ?_)
    | ((with_reducible refine sim_create_dec ?_ ?_ (fun _ => ?_)); exact hmk _ rfl)
    | ((with_reducible refine sim_create_arg ?_ ?_ ?_); rfl)
    | with_reducible refine sim_getPosition_bind ?_ (fun _ => ?_)
    | with_reducible refine sim_invoke_bind ?_ ?_
    | with_reducible refine sim_assoc ?_
    | with_reducible refine sim_ifThen_bind (fun _ => ?_) (fun _ => ?_)
    | with_reducible refine sim_ite_bind (fun _ => ?_) (fun _ => ?_)
    | with_reducible refine sim_invoke_last ?_
    | with_reducible refine sim_ifThen_last ?_
    | rfl
    | (simp (disch := decide) only [List.map_cons, List.map_nil, Obj.of, erase_make_var])

theorem sim_terrainCollision {e1 e2 : Engine}
    (hmk : ∀ o, (isTested o.var || usedUnchecked o.var) = true → e1.make o = e2.make o)
    (hp : ∀ o, e1.getPosition o = e2.getPosition o) (smgr terrain camnode : Ptr) :
    Sim (terrainCollision e1 smgr terrain camnode) (terrainCollision e2 smgr terrain camnode) := by
  unfold terrainCollision
  repeat' first
    | with_reducible exact sim_refl _
    | with_reducible exact sim_ret_bind
    | with_reducible exact hp
    | with_reducible refine sim_same_bind (fun _ => ?_)
    | ((with_reducible refine sim_create_dec ?_ ?_ (fun _ => ?_)); exact hmk _ rfl)
    | ((with_reducible refine sim_create_arg ?_ ?_ ?_); rfl)
    | with_reducible refine sim_getPosition_bind ?_ (fun _ => ?_)
    | with_reducible refine sim_invoke_bind ?_ ?_
    | with_reducible refine sim_assoc ?_
    | with_reducible refine sim_ifThen_bind (fun _ => ?_) (fun _ => ?_)
    | with_reducible refine sim_ite_bind (fun _ => ?_) (fun _ => ?_)
    | with_reducible refine sim_invoke_last ?_
    | with_reducible refine sim_ifThen_last ?_
    | rfl
    | (simp (disch := decide) only [List.map_cons, List.map_nil, Obj.of, erase_make_var])

theorem sim_sphereSection {e1 e2 : Engine}
    (hmk : ∀ o, (isTested o.var || usedUnchecked o.var) = true → e1.make o = e2.make o)
    (hp : ∀ o, e1.getPosition o = e2.getPosition o) (driver smgr : Ptr) :
    Sim (sphereSection e1 driver smgr) (sphereSection e2 driver smgr) := by
  unfold sphereSection
  repeat' first
    | with_reducible exact sim_refl _
    | with_reducible exact sim_ret_bind
    | with_reducible exact hp
    | with_reducible refine sim_same_bind (fun _ => ?_)
    | ((with_reducible refine sim_create_dec ?_ ?_ (fun _ => ?_)); exact hmk _ rfl)
    | ((with_reducible refine sim_create_arg ?_ ?_ ?_); rfl)
    | with_reducible refine sim_getPosition_bind ?_ (fun _ => ?_)
    | with_reducible refine sim_invoke_bind ?_ ?_
    | with_reducible refine sim_assoc ?_
    | with_reducible refine sim_ifThen_bind (fun _ => ?_) (fun _ => ?_)
    | with_reducible refine sim_ite_bind (fun _ => ?_) (fun _ => ?_)
    | with_reducible refine sim_invoke_last ?_
    | with_reducible refine sim_ifThen_last ?_
    | rfl
    | (simp (disch := decide) only [List.map_cons, List.map_nil, Obj.of, erase_make_var])

theorem sim_motherShipSection {e1 e2 : Engine}
    (hmk : ∀ o, (isTested o.var || usedUnchecked o.var) = true → e1.make o = e2.make o)
    (hp : ∀ o, e1.getPosition o = e2.getPosition o) (device smgr camnode : Ptr) :
    Sim (motherShipSection e1 device smgr camnode) (motherShipSection e2 device smgr camnode) := by
  unfold motherShipSection
  repeat' first
    | with_reducible exact sim_refl _
    | with_reducible exact sim_ret_bind
    | with_reducible exact hp
    | with_reducible refine sim_same_bind (fun _ => ?_)
    | ((with_reducible refine sim_create_dec ?_ ?_ (fun _ => ?_)); exact hmk _ rfl)
    | ((with_reducible refine sim_create_arg ?_ ?_ ?_); rfl)
    | with_reducible refine sim_getPosition_bind ?_ (fun _ => ?_)
    | with_reducible refine sim_invoke_bind ?_ ?_
    | with_reducible refine sim_assoc ?_
    | with_reducible refine sim_ifThen_bind (fun _ => ?_) (fun _ => ?_)
    | with_reducible refine sim_ite_bind (fun _ => ?_) (fun _ => ?_)
    | with_reducible refine sim_invoke_last ?_
    | with_reducible refine sim_ifThen_last ?_
    | rfl
    | (simp (disch := decide) only [List.map_cons, List.map_nil, Obj.of, erase_make_var])

theorem sim_ufoSection {e1 e2 : Engine}
    (hmk : ∀ o, (isTested o.var || usedUnchecked o.var) = true → e1.make o = e2.make o)
    (hp : ∀ o, e1.getPosition o = e2.getPosition o) (device smgr : Ptr) :
    Sim (ufoSection e1 device smgr) (ufoSection e2 device smgr) := by
  unfold ufoSection
  repeat' first
    | with_reducible exact sim_refl _
    | with_reducible exact sim_ret_bind
    | with_reducible exact hp
    | with_reducible refine sim_same_bind (fun _ => ?_)
    | ((with_reducible refine sim_create_dec ?_ ?_ (fun _ => ?_)); exact hmk _ rfl)
    | ((with_reducible refine sim_create_arg ?_ ?_ ?_); rfl)
    | with_reducible refine sim_getPosition_bind ?_ (fun _ => ?_)
    | with_reducible refine sim_invoke_bind ?_ ?_
    | with_reducible refine sim_assoc ?_
    | with_reducible refine sim_ifThen_bind (fun _ => ?_) (fun _ => ?_)
    | with_reducible refine sim_ite_bind (fun _ => ?_) (fun _ => ?_)
    | with_reducible refine sim_invoke_last ?_
    | with_reducible refine sim_ifThen_last ?_
    | rfl
    | (simp (disch := decide) only [List.map_cons, List.map_nil, Obj.of, erase_make_var])

theorem sim_particleSection {e1 e2 : Engine}
    (hmk : ∀ o, (isTested o.var || usedUnchecked o.var) = true → e1.make o = e2.make o)
    (hp : ∀ o, e1.getPosition o = e2.getPosition o) (driver smgr waterNode : Ptr) :
    Sim (particleSection e1 driver smgr waterNode) (particleSection e2 driver smgr waterNode) := by
  unfold particleSection
  repeat' first
    | with_reducible exact sim_refl _
    | with_reducible exact sim_ret_bind
    | with_reducible exact hp
    | with_reducible refine sim_same_bind (fun _ => ?_)
    | ((with_reducible refine sim_create_dec ?_ ?_ (fun _ => ?_)); exact hmk _ rfl)
    | ((with_reducible refine sim_create_arg ?_ ?_ ?_); rfl)
    | with_reducible refine sim_getPosition_bind ?_ (fun _ => ?_)
    | with_reducible refine sim_invoke_bind ?_ ?_
    | with_reducible refine sim_assoc ?_
    | with_reducible refine sim_ifThen_bind (fun _ => ?_) (fun _ => ?_)
    | with_reducible refine sim_ite_bind (fun _ => ?_) (fun _ => ?_)
    | with_reducible refine sim_invoke_last ?_
    | with_reducible refine sim_ifThen_last ?_
    | rfl
    | (simp (disch := decide) only [List.map_cons, List.map_nil, Obj.of, erase_make_var])

theorem sim_ufo2Section {e1 e2 : Engine}
    (hmk : ∀ o, (isTested o.var || usedUnchecked o.var) = true → e1.make o = e2.make o)
    (hp : ∀ o, e1.getPosition o = e2.getPosition o) (device smgr : Ptr) :
    Sim (ufo2Section e1 device smgr) (ufo2Section e2 device smgr) := by
  unfold ufo2Section
  repeat' first
    | with_reducible exact sim_refl _
    | with_reducible exact sim_ret_bind
    | with_reducible exact hp
    | with_reducible refine sim_same_bind (fun _ => ?_)
    | ((with_reducible refine sim_create_dec ?_ ?_ (fun _ => ?_)); exact hmk _ rfl)
    | ((with_reducible refine sim_create_arg ?_ ?_ ?_); rfl)
    | with_reducible refine sim_getPosition_bind ?_ (fun _ => ?_)
    | with_reducible refine sim_invoke_bind ?_ ?_
    | with_reducible refine sim_assoc ?_
    | with_reducible refine sim_ifThen_bind (fun _ => ?_) (fun _ => ?_)
    | with_reducible refine sim_ite_bind (fun _ => ?_) (fun _ => ?_)
    | with_reducible refine sim_invoke_last ?_
    | with_reducible refine sim_ifThen_last ?_
    | rfl
    | (simp (disch := decide) only [List.map_cons, List.map_nil, Obj.of, erase_make_var])

theorem sim_ufo3Section {e1 e2 : Engine}
    (hmk : ∀ o, (isTested o.var || usedUnchecked o.var) = true → e1.make o = e2.make o)
    (hp : ∀ o, e1.getPosition o = e2.getPosition o) (device driver smgr : Ptr) :
    Sim (ufo3Section e1 device driver smgr) (ufo3Section e2 device driver smgr) := by
  unfold ufo3Section
  repeat' first
    | with_reducible exact sim_refl _
    | with_reducible exact sim_ret_bind
    | with_reducible exact hp
    | with_reducible refine sim_same_bind (fun _ => ?_)
    | ((with_reducible refine sim_create_dec ?_ ?_ (fun _ => ?_)); exact hmk _ rfl)
    | ((with_reducible refine sim_create_arg ?_ ?_ ?_); rfl)
    | with_reducible refine sim_getPosition_bind ?_ (fun _ => ?_)
    | with_reducible refine sim_invoke_bind ?_ ?_
    | with_reducible refine sim_assoc ?_
    | with_reducible refine sim_ifThen_bind (fun _ => ?_) (fun _ => ?_)
    | with_reducible refine sim_ite_bind (fun _ => ?_) (fun _ => ?_)
    | with_reducible refine sim_invoke_last ?_
    | with_reducible refine sim_ifThen_last ?_
    | rfl
    | (simp (disch := decide) only [List.map_cons, List.map_nil, Obj.of, erase_make_var])

theorem sim_rockSection {e1 e2 : Engine}
    (hmk : ∀ o, (isTested o.var || usedUnchecked o.var) = true → e1.make o = e2.make o)
    (hp : ∀ o, e1.getPosition o = e2.getPosition o) (device driver smgr : Ptr) :
    Sim (rockSection e1 device driver smgr) (rockSection e2 device driver smgr) := by
  unfold rockSection
  repeat' first
    | with_reducible exact sim_refl _
    | with_reducible exact sim_ret_bind
    | with_reducible exact hp
    | with_reducible refine sim_same_bind (fun _ => ?_)
    | ((with_reducible refine sim_create_dec ?_ ?_ (fun _ => ?_)); exact hmk _ rfl)
    | ((with_reducible refine sim_create_arg ?_ ?_ ?_); rfl)
    | with_reducible refine sim_getPosition_bind ?_ (fun _ => ?_)
    | with_reducible refine sim_invoke_bind ?_ ?_
    | with_reducible refine sim_assoc ?_
    | with_reducible refine sim_ifThen_bind (fun _ => ?_) (fun _ => ?_)
    | with_reducible refine sim_ite_bind (fun _ => ?_) (fun _ => ?_)
    | with_reducible refine sim_invoke_last ?_
    | with_reducible refine sim_ifThen_last ?_
    | rfl
    | (simp (disch := decide) only [List.map_cons, List.map_nil, Obj.of, erase_make_var])

theorem sim_gateBody {e1 e2 : Engine}
    (hmk : ∀ o, (isTested o.var || usedUnchecked o.var) = true → e1.make o = e2.make o)
    (hp : ∀ o, e1.getPosition o = e2.getPosition o) (smgr camnode : Ptr) (i : Int) :
    Sim (gateBody e1 smgr camnode i) (gateBody e2 smgr camnode i) := by
  unfold gateBody
  repeat' first
    | with_reducible exact sim_refl _
    | with_reducible exact sim_ret_bind
    | with_reducible exact hp
    | with_reducible refine sim_same_bind (fun _ => ?_)
    | ((with_reducible refine sim_create_dec ?_ ?_ (fun _ => ?_)); exact hmk _ rfl)
    | ((with_reducible refine sim_create_arg ?_ ?_ ?_); rfl)
    | with_reducible refine sim_getPosition_bind ?_ (fun _ => ?_)
    | with_reducible refine sim_invoke_bind ?_ ?_
    | with_reducible refine sim_assoc ?_
    | with_reducible refine sim_ifThen_bind (fun _ => ?_) (fun _ => ?_)
    | with_reducible refine sim_ite_bind (fun _ => ?_) (fun _ => ?_)
    | with_reducible refine sim_invoke_last ?_
    | with_reducible refine sim_ifThen_last ?_
    | rfl
    | (simp (disch := decide) only [List.map_cons, List.map_nil, Obj.of, erase_make_var])

theorem sim_cubeBody {e1 e2 : Engine}
    (hmk : ∀ o, (isTested o.var || usedUnchecked o.var) = true → e1.make o = e2.make o)
    (hp : ∀ o, e1.getPosition o = e2.getPosition o) (driver smgr camnode : Ptr) (L modVal i : Int) (s : Stack) :
    Sim (cubeBody e1 driver smgr camnode L modVal i s)
      (cubeBody e2 driver smgr camnode L modVal i s) := by
  unfold cubeBody normalMapBlock
  repeat' first
    | with_reducible exact sim_refl _
    | with_reducible exact sim_ret_bind
    | with_reducible exact hp
    | with_reducible refine sim_same_bind (fun _ => ?_)
    | ((with_reducible refine sim_create_dec ?_ ?_ (fun _ => ?_)); exact hmk _ rfl)
    | ((with_reducible refine sim_create_arg ?_ ?_ ?_); rfl)
    | with_reducible refine sim_getPosition_bind ?_ (fun _ => ?_)
    | with_reducible refine sim_invoke_bind ?_ ?_
    | with_reducible refine sim_assoc ?_
    | with_reducible refine sim_ifThen_bind (fun _ => ?_) (fun _ => ?_)
    | with_reducible refine sim_ite_bind (fun _ => ?_) (fun _ => ?_)
    | with_reducible refine sim_invoke_last ?_
    | with_reducible refine sim_ifThen_last ?_
    | rfl
    | (simp (disch := decide) only [List.map_cons, List.map_nil, Obj.of, erase_make_var])

theorem sim_cubeSection {e1 e2 : Engine}
    (hmk : ∀ o, (isTested o.var || usedUnchecked o.var) = true → e1.make o = e2.make o)
    (hp : ∀ o, e1.getPosition o = e2.getPosition o) (fuel : Nat) (driver smgr camnode : Ptr) :
    Sim (cubeSection fuel e1 driver smgr camnode) (cubeSection fuel e2 driver smgr camnode) := by
  unfold cubeSection
  refine sim_same_bind (fun _ => ?_)
  refine sim_bind ?_ (fun _ => sim_refl _)
  refine sim_whileLoop (fun s => ?_) fuel _
  unfold cubeLevel
  exact sim_bind (sim_forLoop (fun i s1 => sim_cubeBody hmk hp _ _ _ _ _ i s1) _ _ _)
    (fun _ => sim_refl _)

theorem sim_setup {e1 e2 : Engine}
    (hmk : ∀ o, (isTested o.var || usedUnchecked o.var) = true → e1.make o = e2.make o)
    (hp : ∀ o, e1.getPosition o = e2.getPosition o) (fuel : Nat) (device : Ptr) :
    Sim (setup fuel e1 device) (setup fuel e2 device) := by
  unfold setup
  refine sim_same_bind (fun _ => ?_)
  refine sim_same_bind (fun _ => ?_)
  refine sim_same_bind (fun _ => ?_)
  refine sim_same_bind (fun _ => ?_)
  refine sim_same_bind (fun _ => ?_)
  refine sim_same_bind (fun _ => ?_)
  refine sim_bind (sim_characterSection hmk hp _ _ _) (fun _ => ?_)
  refine sim_bind (sim_lightsSection hmk hp _ _) (fun _ => ?_)
  refine sim_bind (sim_waterSection hmk hp _ _) (fun _ => ?_)
  refine sim_bind (sim_terrainSection hmk hp _ _) (fun _ => ?_)
  refine sim_bind (sim_skySection hmk hp _ _) (fun _ => ?_)
  refine sim_bind (sim_cameraSection hmk hp _ _) (fun _ => ?_)
  refine sim_bind (sim_terrainCollision hmk hp _ _ _) (fun _ => ?_)
  refine sim_bind (sim_sphereSection hmk hp _ _) (fun _ => ?_)
  refine sim_bind (sim_forLoop (fun i _ => sim_gateBody hmk hp _ _ i) _ _ _) (fun _ => ?_)
  refine sim_bind (sim_motherShipSection hmk hp _ _ _) (fun _ => ?_)
  refine sim_bind (sim_ufoSection hmk hp _ _) (fun _ => ?_)
  refine sim_bind (sim_particleSection hmk hp _ _ _) (fun _ => ?_)
  refine sim_bind (sim_ufo2Section hmk hp _ _) (fun _ => ?_)
  refine sim_bind (sim_ufo3Section hmk hp _ _ _) (fun _ => ?_)
  refine sim_bind (sim_rockSection hmk hp _ _ _) (fun _ => ?_)
  refine sim_bind (sim_cubeSection hmk hp fuel _ _ _) (fun _ => ?_)
  exact sim_refl _

theorem make_congr {e1 e2 : Engine} {o : Obj} (h : e1.nonNull o = e2.nonNull o) :
    e1.make o = e2.make o := by
  simp [Engine.make, h]

theorem erase_cases (v : Val) :
    v.erase = v ∨ ∃ o, passedOn o.var = true ∧ v = .ptr (some o) ∧ v.erase = .ptr none := by
  cases v with
  | ptr p =>
    cases p with
    | none => exact Or.inl rfl
    | some o =>
      cases h : passedOn o.var
      · exact Or.inl (by simp [Val.erase, h])
      · exact Or.inr ⟨o, h, rfl, by simp [Val.erase, h]⟩
  | _ => exact Or.inl rfl

/-- C10, amended: setup branches on the null tests listed in `isTested` (device, checked
meshes, the nodes of the character, the sphere, the gates and the mother ship, the
rotation and fly-circle animators, the normal map), and a null result listed in
`usedUnchecked` stops it at a null dereference; nothing else steers it.  Any two runs in
which the results of those two lists have the same null or non-null outcome and the
`getPosition()` queries have the same answers make the same `createDevice` call and the
same sequence of setup calls, with the same receivers, methods, arguments and results
except that a pointer to one of the objects of `passedOn` (twelve textures and the gate
mesh, which are only handed to other calls) may be null in one run and non-null in the
other, and setup ends in the same way in both. -/
theorem setup_calls_determined_by_tests (fuel : Nat) (e1 e2 : Engine) (device : Ptr)
    (hn : ∀ o, (isTested o.var || usedUnchecked o.var) = true → e1.nonNull o = e2.nonNull o)
    (hp : ∀ o, e1.getPosition o = e2.getPosition o) :
    createDevice e1 = createDevice e2 ∧
    (setup fuel e1 device).trace.map Call.erase = (setup fuel e2 device).trace.map Call.erase ∧
    (setup fuel e1 device).result = (setup fuel e2 device).result ∧
    (∀ c : Call, c.erase.recv = c.recv ∧ c.erase.method = c.method ∧
      c.erase.args.length = c.args.length) ∧
    (∀ v : Val, v.erase = v ∨
      ∃ o, passedOn o.var = true ∧ v = .ptr (some o) ∧ v.erase = .ptr none) := by
  have hmk : ∀ o, (isTested o.var || usedUnchecked o.var) = true → e1.make o = e2.make o :=
    fun o h => make_congr (hn o h)
  obtain ⟨h1, h2⟩ := sim_setup hmk hp fuel device
  refine ⟨?_, h1, h2, fun c => ⟨rfl, rfl, by simp [Call.erase]⟩, erase_cases⟩
  simp only [createDevice, hmk (.of .device) rfl]

theorem setup_calls_determined_by_tests_witness :
    (setup 13 engineAll (some (.of .device))).trace ≠
      (setup 13 (engineWithout .skinTexture) (some (.of .device))).trace ∧
    (setup 13 engineAll (some (.of .device))).trace.map Call.erase =
      (setup 13 (engineWithout .skinTexture) (some (.of .device))).trace.map Call.erase :=
  ⟨by decide,
    (setup_calls_determined_by_tests 13 engineAll (engineWithout .skinTexture)
      (some (.of .device))
      (fun o h => by
        obtain ⟨v, L, i⟩ := o
        cases v <;> first | rfl | cases h)
      (fun _ => rfl)).2.1⟩

end MarsGame
